import Mathlib

/-!
# Alien consensus state replay: voting, punishment, governance and pledge ledgers, tally
check, snapshot transition, side-chain confirmation and the intent decoder

Shallow embedding of `consensus/alien/snapshot.go`, `consensus/alien/custom_tx.go` and
`consensus/alien/alien_setting.go`.

Conventions of the embedding.

* `*big.Int` values are `Int`; block heights carried as `*big.Int` are `Nat`
  (heights are never negative) and `x.Uint64()` is `uint64 x = x % 2^64`. A number parsed
  from a payload is an `Int`, and `x.Uint64()` is `bigUint64 x`, the low 64 bits of `|x|`.
* `uint64` values are `Nat`; arithmetic that can wrap is written with an explicit `% 2^64`.
* A Go `map[K]V` is a `GoMap K V`: a finite association list with pairwise distinct keys.
  Go does not fix the iteration order of a map; wherever the result of a `range` loop could
  depend on that order the order is an explicit argument of the model.
* A Go run-time panic (method call on the nil `*big.Int` obtained from a missing map entry,
  assignment into a nil map, division by zero) is the result `none` of an `Option`-valued
  function.
* A map of pointers whose targets can be shared between keys (`Proposals`) is a map to
  addresses together with a memory of objects; every other map of pointers holds one object
  per key and is a map to values.
* A transaction payload is the text `string(tx.Data())`; the parsers of the libraries, the
  chain reader and the state database are parameters of the decoder (`Engine`, `StateDB`).
-/

namespace Alien

/-! ## Basic types -/

/-- `common.Address`, an account address. -/
abbrev Address := Nat

/-- `common.Hash`, a 32 byte hash. -/
abbrev Hash := Nat

/-- Go `map[K]V` with a non-nil backing table. -/
abbrev GoMap (K : Type) (V : Type) := AList (fun _ : K => V)

/-- `(*big.Int).Uint64()` on a non-negative value, and conversion to `uint64` in general. -/
def uint64 (n : Nat) : Nat := n % 2 ^ 64

/-- Subtraction of two `uint64` values (wraps around below zero). -/
def uint64Sub (a b : Nat) : Nat := (a + 2 ^ 64 - b % 2 ^ 64) % 2 ^ 64

/-- Conversion `uint64(x)` of a signed Go `int`. -/
def uint64OfInt (x : Int) : Nat := (x % 2 ^ 64).toNat

/-- `(*big.Int).Uint64()`: the low 64 bits of the magnitude of `x`. -/
def bigUint64 (x : Int) : Nat := x.natAbs % 2 ^ 64

/-! ## Constants (`snapshot.go` lines 40-70, `alien_setting.go` lines 5-76) -/

def defaultFullCredit : Nat := 100
def missingPublishCredit : Nat := 30
def signRewardCredit : Nat := 10
def autoRewardCredit : Nat := 1
def candidateStateNormal : Nat := 1
def maxUncheckBalanceVoteCount : Nat := 10000
def bugFixBlockNumber : Nat := 14456164

def StorageEffectBlockNumber : Nat := 834261
def StorageChBwEffectNumber : Nat := 1170700
def PledgeRevertLockEffectNumber : Nat := 1495994
def StoragePledgeOptEffectNumber : Nat := 1608207
def PosrIncentiveEffectNumber : Nat := 1744720
def PosNewEffectNumber : Nat := 2558551
def PoCrsAccCalNumber : Nat := 3946692
def initStorageManagerNumber : Nat := 5173314
def posDistributionDefaultRate : Int := 10000

/-- `isGEPOSNewEffect` (`alien_setting.go` line 214). -/
def isGEPOSNewEffect (number : Nat) : Bool := decide (PosNewEffectNumber ≤ number)

/-! ## Data model (`snapshot.go` lines 183-259, `custom_tx.go` lines 198-206) -/

/-- `Vote`: the sender of the vote transaction, its recipient and the stake counted for it. -/
structure Vote where
  Voter : Address
  Candidate : Address
  Stake : Int
deriving DecidableEq, Repr

/-- `PledgeDetail`. -/
structure PledgeDetail where
  Address : Address
  Height : Nat
  Amount : Int
deriving DecidableEq, Repr

/-- `PosPledgeItem`. -/
structure PosPledgeItem where
  Manager : Address
  Active : Nat
  TotalAmount : Int
  Detail : GoMap Hash PledgeDetail
  LastPunish : Nat
  DisRate : Int
deriving DecidableEq

/-- `PledgeItem` (`snapshot.go` lines 116-133). `BurnRatio` and `BurnAmount` may be nil. -/
structure PledgeItem where
  Amount : Int
  PledgeType : Nat
  Playment : Int
  LockPeriod : Nat
  RlsPeriod : Nat
  Interval : Nat
  StartHigh : Nat
  TargetAddress : Address
  RevenueAddress : Address
  RevenueContract : Address
  MultiSignature : Address
  BurnAddress : Address
  BurnRatio : Option Int
  BurnAmount : Option Int
deriving DecidableEq

/-- `Declare` (`custom_tx.go` lines 243-247). -/
structure Declare where
  ProposalHash : Hash
  Declarer : Address
  Decision : Bool
deriving DecidableEq, Repr

/-- `Proposal` (`custom_tx.go` lines 219-237). `ReceivedNumber` holds a block height and
`CurrentDeposit` an amount; neither is nil in a stored proposal. -/
structure Proposal where
  Hash : Hash
  ReceivedNumber : Nat
  CurrentDeposit : Int
  ValidationLoopCnt : Nat
  ProposalType : Nat
  Proposer : Address
  TargetAddress : Address
  MinerRewardPerThousand : Nat
  SCHash : Alien.Hash
  SCBlockCountPerPeriod : Nat
  SCBlockRewardPerPeriod : Nat
  Declares : List Declare
  MinVoterBalance : Nat
  ProposalDeposit : Nat
  SCRentFee : Nat
  SCRentRate : Nat
  SCRentLength : Nat
deriving DecidableEq, Repr

/-- `SCConfirmation` (`custom_tx.go` lines 252-257). -/
structure SCConfirmation where
  Hash : Hash
  Coinbase : Address
  Number : Nat
  LoopInfo : List String
deriving DecidableEq, Repr

/-- `SCRentInfo` (`snapshot.go` lines 82-85). -/
structure SCRentInfo where
  RentPerPeriod : Int
  MaxRewardNumber : Int
deriving DecidableEq, Repr

/-- `SCRecord` (`snapshot.go` lines 88-95), both maps created. -/
structure SCRecord where
  Record : GoMap Nat (List SCConfirmation)
  LastConfirmedNumber : Nat
  MaxHeaderNumber : Nat
  CountPerPeriod : Nat
  RewardPerPeriod : Nat
  RentReward : GoMap Hash SCRentInfo
deriving DecidableEq

/-- `GasCharging` (`custom_tx.go` lines 267-271). -/
structure GasCharging where
  Target : Address
  Volume : Nat
  Hash : Hash
deriving DecidableEq, Repr

/-- `NoticeCR` (`snapshot.go` lines 97-102); `NoticeType` is the field `Type`. -/
structure NoticeCR where
  NRecord : GoMap Address Bool
  Number : Nat
  NoticeType : Nat
  Success : Bool
deriving DecidableEq

/-- `CCNotice` (`snapshot.go` lines 105-108). -/
structure CCNotice where
  CurrentCharging : GoMap Hash GasCharging
  ConfirmReceived : GoMap Hash NoticeCR
deriving DecidableEq

/-- `RevenueParameter` (`snapshot.go` lines 110-114). -/
structure RevenueParameter where
  RevenueAddress : Address
  RevenueContract : Address
  MultiSignature : Address
deriving DecidableEq, Repr

/-- `ClaimedBandwidth` (`snapshot.go` lines 135-138). -/
structure ClaimedBandwidth where
  ISPQosID : Nat
  BandwidthClaimed : Nat
deriving DecidableEq, Repr

/-- `SystemParameter` (`snapshot.go` lines 151-158): the two scalar settings, the
thresholds of `Deposit` (no stored value is nil) and the manager address recorded for each
configuration topic. -/
structure SystemParameter where
  ExchRate : Nat
  OffLine : Nat
  Deposit : GoMap Nat Int
  ManagerAddress : GoMap Nat Address
deriving DecidableEq

/-- `SCBlockReward` (`snapshot.go` lines 73-75). -/
structure SCBlockReward where
  RewardScoreMap : GoMap Address Nat
deriving DecidableEq

/-- `SCReward` (`snapshot.go` lines 77-79). -/
structure SCReward where
  SCBlockRewardMap : GoMap Nat SCBlockReward
deriving DecidableEq

/-- The fields of `params.AlienConfig` read by the snapshot code. The declaration of the
type lies outside the translated sources, so its content is a parameter of every snapshot:
`Trantor n` stands for `config.IsTrantor(n)`. -/
structure AlienConfig where
  Period : Nat
  Epoch : Nat
  MaxSignerCount : Nat
  Trantor : Int → Bool

/-- `Snapshot`, restricted to the voting, punishment, pledge and governance ledgers together
with the header bookkeeping. `PosPledge = none` is the nil map the field holds until it is
created at height `PosNewEffectNumber - 1`; `SRT = none` is the nil SRT ledger.

`Proposals` is a `map[common.Hash]*Proposal`: it holds the address of a `Proposal` object,
`ProposalObjs` is the memory holding these objects and `ProposalNext` is the first address
not yet handed out.

`StorageEntrust` is the view of `StorageData.StorageEntrust` the revenue decoders read: the
manager recorded for each device (the type `StorageData` lies outside the translated
sources; the ledger is taken as created). -/
structure Snapshot where
  config : AlienConfig
  LCRS : Nat
  Period : Nat
  Number : Nat
  ConfirmedNumber : Nat
  Hash : Hash
  HistoryHash : List Alien.Hash
  Signers : List Address
  Votes : GoMap Address Vote
  Tally : GoMap Address Int
  Voters : GoMap Address Nat
  Candidates : GoMap Address Nat
  Punished : GoMap Address Nat
  Confirmations : GoMap Nat (List Address)
  HeaderTime : Nat
  LoopStartTime : Nat
  MinVB : Int
  SignerMissing : List Address
  PosPledge : Option (GoMap Address PosPledgeItem)
  SRT : Option Alien.Hash
  SRTHash : Alien.Hash
  CandidatePledge : GoMap Address PledgeItem
  Proposals : GoMap Alien.Hash Nat
  ProposalObjs : Nat → Proposal
  ProposalNext : Nat
  ProposalRefund : GoMap Nat (GoMap Address Int)
  MinerReward : Nat
  SCRecordMap : GoMap Alien.Hash SCRecord
  SCNoticeMap : GoMap Alien.Hash CCNotice
  SCRewardMap : GoMap Alien.Hash SCReward
  RevenueNormal : GoMap Address RevenueParameter
  RevenueFlow : GoMap Address RevenueParameter
  RevenueStorage : GoMap Address RevenueParameter
  Bandwidth : GoMap Address ClaimedBandwidth
  SystemConfig : SystemParameter
  StorageEntrust : GoMap Address Address
  FlowPledge : GoMap Address PledgeItem
  SCCoinbase : GoMap Alien.Hash (GoMap Address Address)

/-- Errors returned by `apply`. `collaborator n` is an error produced by a collaborator
outside the translated sources (seal recovery, payload decoding, storage, SRT ledger). -/
inductive Error where
  | errInvalidVotingChain
  | errUnauthorized
  | errIncorrectTallyCount
  | collaborator (code : Nat)
deriving DecidableEq, Repr

/-! ## Tally check (`snapshot.go` lines 1477-1497) -/

/-- Σ{Votes[v].Stake : Votes[v].Candidate = c}: the stake recorded for candidate `c`. -/
def stakeSum (votes : GoMap Address Vote) (c : Address) : Int :=
  ((votes.entries.filter (fun e => decide (e.2.Candidate = c))).map (fun e => e.2.Stake)).sum

/-- One iteration of the first loop of `verifyTallyCnt`. -/
def tallyTargetStep (acc : GoMap Address Int) (v : Vote) : GoMap Address Int :=
  match acc.lookup v.Candidate with
  | some t => acc.insert v.Candidate (t + v.Stake)
  | none => acc.insert v.Candidate v.Stake

/-- The map `tallyTarget` built by the first loop of `verifyTallyCnt`. -/
def tallyTarget (votes : GoMap Address Vote) : GoMap Address Int :=
  votes.entries.foldl (fun acc e => tallyTargetStep acc e.2) ∅

/-- `Snapshot.verifyTallyCnt`; `none` is the nil error. -/
def verifyTallyCnt (s : Snapshot) : Option Error :=
  if s.Tally.entries.all (fun e =>
      match (tallyTarget s.Votes).lookup e.1 with
      | some targetTally => decide (targetTally = e.2)
      | none => false)
  then none
  else some Error.errIncorrectTallyCount

/-- The tally invariant of the specification: every candidate with a `Tally` entry has a
tally equal to the sum of the stakes of the recorded votes that target it. -/
def TallyInvariant (s : Snapshot) : Prop :=
  ∀ c t, s.Tally.lookup c = some t → t = stakeSum s.Votes c

/-- Representation invariant of `Votes`: the entry stored under a voter is that voter's
vote (`Votes[v].Voter == v`), as written by `newSnapshot`, `copy` and every vote fold. -/
def VotesKeyed (s : Snapshot) : Prop :=
  ∀ k v, s.Votes.lookup k = some v → v.Voter = k

/-- Every recorded vote's candidate has a `Tally` entry. -/
def VotesTargetTally (s : Snapshot) : Prop :=
  ∀ k v, s.Votes.lookup k = some v → ∃ t, s.Tally.lookup v.Candidate = some t

/-! ## Vote folds (`snapshot.go` lines 2031-2099) -/

/-- The statement `s.Tally[c].Sub(s.Tally[c], x)`: subtracts in place, and panics on the
nil pointer read from a missing entry. -/
def tallySub (tally : GoMap Address Int) (c : Address) (x : Int) : Option (GoMap Address Int) :=
  match tally.lookup c with
  | some t => some (tally.insert c (t - x))
  | none => none

/-- The first statement of every vote fold: when the voter already has a recorded vote,
its stake is taken off the tally of the candidate it targets. -/
def subLastVote (s : Snapshot) (voter : Address) : Option (GoMap Address Int) :=
  match s.Votes.lookup voter with
  | some lastVote => tallySub s.Tally lastVote.Candidate lastVote.Stake
  | none => some s.Tally

/-- Body of the loop of `updateSnapshotByVotes` below `PosNewEffectNumber`
(lines 2035-2052). `candidateNeedPD` is a package constant declared outside the
translated sources and therefore an argument. -/
def voteStep (candidateNeedPD : Bool) (headerNumber : Nat) (s : Snapshot) (vote : Vote) :
    Option Snapshot :=
  match subLastVote s vote.Voter with
  | none => none
  | some tally1 =>
    match tally1.lookup vote.Candidate with
    | some t =>
      some { s with
        Tally := tally1.insert vote.Candidate (t + vote.Stake)
        Votes := s.Votes.insert vote.Voter ⟨vote.Voter, vote.Candidate, vote.Stake⟩
        Voters := s.Voters.insert vote.Voter headerNumber }
    | none =>
      some { s with
        Tally := tally1.insert vote.Candidate vote.Stake
        Candidates :=
          if candidateNeedPD then s.Candidates
          else s.Candidates.insert vote.Candidate candidateStateNormal
        Votes := s.Votes.insert vote.Voter ⟨vote.Voter, vote.Candidate, vote.Stake⟩
        Voters := s.Voters.insert vote.Voter headerNumber }

/-- The statement `if _, ok := s.PosPledge[c]; !ok { s.PosPledge[c] = &PosPledgeItem{...} }`
of `updateSnapshotByVotesV2` (lines 2074-2083); writing into the nil map panics. -/
def ensurePosPledge (pos : Option (GoMap Address PosPledgeItem)) (vote : Vote)
    (headerNumber : Nat) : Option (Option (GoMap Address PosPledgeItem)) :=
  match pos with
  | none => none
  | some m =>
    match m.lookup vote.Candidate with
    | some _ => some (some m)
    | none =>
      some (some (m.insert vote.Candidate
        { Manager := vote.Voter
          Active := uint64 headerNumber
          TotalAmount := 0
          Detail := ∅
          LastPunish := 0
          DisRate := posDistributionDefaultRate }))

/-- Body of the loop of `updateSnapshotByVotesV2` (lines 2057-2084). -/
def voteStepV2 (candidateNeedPD : Bool) (headerNumber : Nat) (s : Snapshot) (vote : Vote) :
    Option Snapshot :=
  match subLastVote s vote.Voter with
  | none => none
  | some tally1 =>
    match ensurePosPledge s.PosPledge vote headerNumber with
    | none => none
    | some pos =>
      match tally1.lookup vote.Candidate with
      | some t =>
        some { s with
          Tally := tally1.insert vote.Candidate (t + vote.Stake)
          Votes := s.Votes.insert vote.Voter ⟨vote.Voter, vote.Candidate, 0⟩
          Voters := s.Voters.insert vote.Voter headerNumber
          PosPledge := pos }
      | none =>
        some { s with
          Tally := tally1.insert vote.Candidate 0
          Candidates :=
            if candidateNeedPD then s.Candidates
            else s.Candidates.insert vote.Candidate candidateStateNormal
          Votes := s.Votes.insert vote.Voter ⟨vote.Voter, vote.Candidate, 0⟩
          Voters := s.Voters.insert vote.Voter headerNumber
          PosPledge := pos }

/-- `Snapshot.updateSnapshotByVotesV2`. -/
def updateSnapshotByVotesV2 (candidateNeedPD : Bool) (s : Snapshot) (votes : List Vote)
    (headerNumber : Nat) : Option Snapshot :=
  votes.foldlM (voteStepV2 candidateNeedPD headerNumber) s

/-- `Snapshot.updateSnapshotByVotes`. -/
def updateSnapshotByVotes (candidateNeedPD : Bool) (s : Snapshot) (votes : List Vote)
    (headerNumber : Nat) : Option Snapshot :=
  if PosNewEffectNumber ≤ uint64 headerNumber then
    updateSnapshotByVotesV2 candidateNeedPD s votes headerNumber
  else
    votes.foldlM (voteStep candidateNeedPD headerNumber) s

/-- `Snapshot.checkPosPledgePunish` (lines 2828-2842), on the pledge map. -/
def checkPosPledgePunish (s : Snapshot) (address : Address) (headerNumber : Nat) : Snapshot :=
  if PosNewEffectNumber < headerNumber then
    match s.PosPledge with
    | none => s
    | some m =>
      match m.lookup address with
      | none => s
      | some pledge =>
        match s.Punished.lookup address with
        | some _ =>
          if pledge.LastPunish = 0 then
            { s with PosPledge := some (m.insert address { pledge with LastPunish := headerNumber }) }
          else s
        | none =>
          if 0 < pledge.LastPunish then
            { s with PosPledge := some (m.insert address { pledge with LastPunish := 0 }) }
          else s
  else s

/-- Body of the loop of `updateSnapshotByMPVotes` (lines 2088-2098). -/
def mpVoteStep (headerNumber : Nat) (s : Snapshot) (txVote : Vote) : Option Snapshot :=
  match s.Votes.lookup txVote.Voter with
  | some lastVote =>
    match s.Tally.lookup lastVote.Candidate with
    | none => none
    | some t =>
      some (checkPosPledgePunish
        { s with
          Tally := s.Tally.insert lastVote.Candidate (t - lastVote.Stake + txVote.Stake)
          Votes := s.Votes.insert txVote.Voter ⟨txVote.Voter, lastVote.Candidate, txVote.Stake⟩ }
        lastVote.Candidate headerNumber)
  | none => some s

/-- `Snapshot.updateSnapshotByMPVotes`; `headerNumber` is the `uint64` height. -/
def updateSnapshotByMPVotes (s : Snapshot) (votes : List Vote) (headerNumber : Nat) :
    Option Snapshot :=
  votes.foldlM (mpVoteStep headerNumber) s

/-! ## Expiry (`snapshot.go` lines 1946-2008) -/

/-- The test of lines 1958-1962 that decides whether a recorded vote is expired. -/
def isExpiredVote (s : Snapshot) (headerNumber : Nat) (checkBalance : Bool) (voteNumber : Nat)
    (vote : Vote) : Bool :=
  let throldValue : Int := if PosNewEffectNumber ≤ uint64 headerNumber then 0 else s.MinVB
  decide (s.config.Epoch < uint64Sub (uint64 headerNumber) (uint64 voteNumber))
    || (checkBalance && decide (vote.Stake < throldValue))

/-- The list `expiredVotes` collected by the first loop of `updateSnapshotForExpired`;
`order` is the order in which `range s.Voters` visits the voters. -/
def collectExpiredVotes (s : Snapshot) (order : List Address) (headerNumber : Nat) : List Vote :=
  let checkBalance := decide (maxUncheckBalanceVoteCount < s.Voters.entries.length)
  order.filterMap (fun voterAddress =>
    match s.Voters.lookup voterAddress, s.Votes.lookup voterAddress with
    | some voteNumber, some expiredVote =>
      if isExpiredVote s headerNumber checkBalance voteNumber expiredVote then some expiredVote
      else none
    | _, _ => none)

/-- Body of the loop that removes the expired votes (lines 1970-1985). -/
def expireStep (headerNumber : Nat) (s : Snapshot) (expiredVote : Vote) : Snapshot :=
  let tally :=
    match s.Tally.lookup expiredVote.Candidate with
    | some t =>
      if PosNewEffectNumber ≤ uint64 headerNumber then
        if t - expiredVote.Stake < 0 then s.Tally.erase expiredVote.Candidate
        else s.Tally.insert expiredVote.Candidate (t - expiredVote.Stake)
      else
        if t - expiredVote.Stake = 0 then s.Tally.erase expiredVote.Candidate
        else s.Tally.insert expiredVote.Candidate (t - expiredVote.Stake)
    | none => s.Tally
  { s with
    Tally := tally
    Votes := s.Votes.erase expiredVote.Voter
    Voters := s.Voters.erase expiredVote.Voter }

/-- Deletion, inside a `range` loop over a map, of every entry that satisfies `p`. -/
def deleteWhere {K V : Type} [DecidableEq K] (p : K → V → Bool) (m : GoMap K V) : GoMap K V :=
  m.entries.foldl (fun acc e => if p e.1 e.2 then acc.erase e.1 else acc) m

/-- `Snapshot.updateSnapshotForExpired`, with the visiting order of `range s.Voters`
as the argument `order`. -/
def updateSnapshotForExpiredIn (order : List Address) (s : Snapshot) (headerNumber : Nat) :
    Snapshot :=
  let expiredVotes := collectExpiredVotes s order headerNumber
  let s1 :=
    if s.config.MaxSignerCount ≤
        uint64OfInt ((s.Voters.entries.length : Int) - (expiredVotes.length : Int)) then
      expiredVotes.foldl (expireStep headerNumber) s
    else s
  let s2 := { s1 with
    Confirmations :=
      deleteWhere (fun blockNumber _ =>
        decide (s1.config.MaxSignerCount < uint64Sub (uint64 headerNumber) blockNumber))
        s1.Confirmations }
  { s2 with
    Tally :=
      deleteWhere (fun _ tally =>
        if PosNewEffectNumber ≤ uint64 headerNumber then decide (tally < 0)
        else decide (tally ≤ 0)) s2.Tally }

/-- `Snapshot.updateSnapshotForExpired`, visiting the voters in the order of the table. -/
def updateSnapshotForExpired (s : Snapshot) (headerNumber : Nat) : Snapshot :=
  updateSnapshotForExpiredIn s.Voters.keys s headerNumber

/-- The stake a recorded vote (if any) contributes to candidate `c`. -/
def voteShare (o : Option Vote) (c : Address) : Int :=
  match o with
  | some v => if v.Candidate = c then v.Stake else 0
  | none => 0

/-! ## Punishment ledger (`snapshot.go` lines 2101-2146, 2815-2827) -/

/-- `Snapshot.updatePosPledgePunish`. -/
def updatePosPledgePunish (s : Snapshot) (address : Address) (punishNumber headerNumber : Nat) :
    Snapshot :=
  if PosNewEffectNumber < headerNumber then
    match s.PosPledge with
    | none => s
    | some m =>
      match m.lookup address with
      | none => s
      | some item =>
        let item1 :=
          if punishNumber = 0 ∧ 0 < item.LastPunish then { item with LastPunish := 0 } else item
        let item2 :=
          if 0 < punishNumber ∧ item1.LastPunish = 0 then { item1 with LastPunish := punishNumber }
          else item1
        { s with PosPledge := some (m.insert address item2) }
  else s

/-- Body of the first loop of `updateSnapshotForPunish`: a missed seal. -/
def punishMissing (punished : GoMap Address Nat) (signerEach : Address) : GoMap Address Nat :=
  match punished.lookup signerEach with
  | some p =>
    if (p + missingPublishCredit) % 2 ^ 64 ≤ defaultFullCredit then
      punished.insert signerEach ((p + missingPublishCredit) % 2 ^ 64)
    else punished.insert signerEach defaultFullCredit
  | none => punished.insert signerEach missingPublishCredit

/-- The reward of the sealing signer in `updateSnapshotForPunish` (lines 2118-2124). -/
def rewardCoinbase (punished : GoMap Address Nat) (coinbase : Address) : GoMap Address Nat :=
  match punished.lookup coinbase with
  | some p =>
    if signRewardCredit < p then punished.insert coinbase (p - signRewardCredit)
    else punished.erase coinbase
  | none => punished

/-- Body of the loop over `s.Signers` in `updateSnapshotForPunish` (lines 2126-2140). -/
def autoRecoverStep (headerNumber : Nat) (s : Snapshot) (sigerAddr : Address) : Snapshot :=
  match s.Punished.lookup sigerAddr with
  | some p =>
    if autoRewardCredit < p then
      updatePosPledgePunish
        { s with Punished := s.Punished.insert sigerAddr (p - autoRewardCredit) }
        sigerAddr (uint64 headerNumber) (uint64 headerNumber)
    else
      updatePosPledgePunish { s with Punished := s.Punished.erase sigerAddr }
        sigerAddr 0 (uint64 headerNumber)
  | none => updatePosPledgePunish s sigerAddr 0 (uint64 headerNumber)

/-- `Snapshot.updateSnapshotForPunish`. -/
def updateSnapshotForPunish (s : Snapshot) (signerMissing : List Address) (headerNumber : Nat)
    (coinbase : Address) : Snapshot :=
  let s1 := { s with
    Punished := signerMissing.foldl punishMissing s.Punished
    SignerMissing := signerMissing }
  let s2 := { s1 with Punished := rewardCoinbase s1.Punished coinbase }
  let s3 := s2.Signers.foldl (autoRecoverStep headerNumber) s2
  if s3.config.Trantor (headerNumber : Int) && !s3.config.Trantor ((headerNumber : Int) - 1) then
    { s3 with Punished := ∅ }
  else s3

/-! ## Confirmations (`snapshot.go` lines 2010-2029) and candidate removal (lines 2863-2945) -/

/-- `Confirmation` (`custom_tx.go` lines 212-215); `BlockNumber` is a `*big.Int`. -/
structure Confirmation where
  Signer : Address
  BlockNumber : Int
deriving DecidableEq, Repr

/-- Body of the loop of `updateSnapshotByConfirmations`. -/
def confirmationStep (confirmations : GoMap Nat (List Address)) (confirmation : Confirmation) :
    GoMap Nat (List Address) :=
  let key := bigUint64 confirmation.BlockNumber
  let recorded := (confirmations.lookup key).getD []
  if recorded.contains confirmation.Signer then confirmations.insert key recorded
  else confirmations.insert key (recorded ++ [confirmation.Signer])

/-- `Snapshot.updateSnapshotByConfirmations`. -/
def updateSnapshotByConfirmations (s : Snapshot) (confirmations : List Confirmation) : Snapshot :=
  { s with Confirmations := confirmations.foldl confirmationStep s.Confirmations }

/-- `Snapshot.removePosPledge`: the pledge and the revenue binding of the miner are deleted
(the map `TallyMiner`, from which the miner is deleted as well, is not a field of this
model). -/
def removePosPledge (s : Snapshot) (miner : Address) : Snapshot :=
  { s with
    PosPledge := s.PosPledge.map (fun m => m.erase miner)
    RevenueNormal := s.RevenueNormal.erase miner }

/-- `Snapshot.removeTally`. -/
def removeTally (s : Snapshot) (miner : Address) : Snapshot :=
  { s with
    Tally := s.Tally.erase miner
    Votes := s.Votes.erase miner
    Voters := s.Voters.erase miner
    Candidates := s.Candidates.erase miner }

/-- The loop shared by `updateCandidateAutoExit` and `updateCandidateExit2`. -/
def removeCandidates (s : Snapshot) (miners : List Address) : Snapshot :=
  miners.foldl (fun snap miner => removeTally (removePosPledge snap miner) miner) s

/-! ## Snapshot transition (`snapshot.go` lines 534-896 and 900-1125) -/

/-- `types.Header`: the fields read by `apply`; `Hash` is the value of `header.Hash()`. -/
structure Header where
  Number : Nat
  Coinbase : Address
  Time : Nat
  Hash : Hash
deriving DecidableEq, Repr

/-- `SCSetCoinbase` (`custom_tx.go` lines 260-265); `SetType` is the field `Type`. -/
structure SCSetCoinbase where
  Hash : Hash
  Signer : Address
  Coinbase : Address
  SetType : Bool
deriving DecidableEq, Repr

/-- `DeviceBindRecord` (`custom_tx.go` lines 278-285); `RevenueType` is the field `Type`. -/
structure DeviceBindRecord where
  Device : Address
  Revenue : Address
  Contract : Address
  MultiSign : Address
  RevenueType : Nat
  Bind : Bool
deriving DecidableEq, Repr

/-- `BandwidthPunishRecord` (`custom_tx.go` lines 305-308). -/
structure BandwidthPunishRecord where
  Target : Address
  WdthPnsh : Nat
deriving DecidableEq, Repr

/-- `ISPQOSRecord` (`custom_tx.go` lines 310-313). -/
structure ISPQOSRecord where
  ISPID : Nat
  QOS : Nat
deriving DecidableEq, Repr

/-- `LockParameterRecord` (`custom_tx.go` lines 320-325). -/
structure LockParameterRecord where
  LockPeriod : Nat
  RlsPeriod : Nat
  Interval : Nat
  Who : Nat
deriving DecidableEq, Repr

/-- `ConfigDepositRecord` (`custom_tx.go` lines 360-363). -/
structure ConfigDepositRecord where
  Who : Nat
  Amount : Int
deriving DecidableEq, Repr

/-- `HeaderExtra`: the fields of the decoded bundle read by the folds of this model and
written by the decoders of this model. `Other` stands for the remaining fields of the bundle
(proposals, declares, flow reports, pledges, ...), as an encoding of their content. -/
structure HeaderExtra where
  CurrentBlockConfirmations : List Confirmation
  CurrentBlockVotes : List Vote
  ModifyPredecessorVotes : List Vote
  LoopStartTime : Nat
  SignerQueue : List Address
  SignerMissing : List Address
  ConfirmedBlockNumber : Nat
  CandidateExit : List Address
  CandidateAutoExit : List Address
  SideChainConfirmations : List SCConfirmation
  SideChainNoticeConfirmed : List SCConfirmation
  SideChainSetCoinbases : List SCSetCoinbase
  DeviceBind : List DeviceBindRecord
  ConfigExchRate : Nat
  ConfigOffLine : Nat
  ConfigDeposit : List ConfigDepositRecord
  LockParameters : List LockParameterRecord
  ConfigISPQOS : List ISPQOSRecord
  BandwidthPunish : List BandwidthPunishRecord
  Other : List Nat
deriving DecidableEq, Repr

/-- The statements of the per-header loop of `apply` that fold sub-ledgers outside this
model, named by their position in the loop. None of them reads an error or returns. -/
inductive LedgerStage where
  /-- lines 958-962: proposals and declares. -/
  | proposals
  /-- lines 969-991: side chain folds, proposal results, surplus candidates. -/
  | sideChain
  /-- lines 995-996: flow miner and miner stake. -/
  | flowMiner
  /-- line 999: `updateGrantProfit` below `PosrIncentiveEffectNumber`. -/
  | grantProfit
  /-- lines 1006-1028: lock merge, lock release, pledges, configuration, signer numbers. -/
  | locks
  /-- lines 1043-1048: storage re-initialisation and bandwidth exchange. -/
  | storageReset
  /-- line 1054: creation of the pledge-exit lock ledger. -/
  | pledgeExitLock
  /-- lines 1056-1077: bandwidth make-up, pledge initialisation, new pledges and entrusts. -/
  | posPledge
  /-- lines 1079-1082: rate changes and punished entries of exited candidates. -/
  | posRate
  /-- lines 1085-1108: punish fix, lease space, storage manager, pledge transfers. -/
  | posTail
deriving DecidableEq, Repr

/-- What a call `reSnap, err := snap.storageApply(...)` (or `snap.sPApply(...)`) leaves
behind: the receiver after the call and the two returned values. -/
structure StorageResult where
  snap : Snapshot
  reSnap : Option Snapshot
  err : Option Error

/-- The collaborators of `apply` whose code lies outside the translated sources, together
with the folds over sub-ledgers outside this model. -/
structure Collaborators where
  /-- package constant `candidateNeedPD`. -/
  candidateNeedPD : Bool
  /-- package variable `minVoterBalance`. -/
  minVoterBalance : Int
  /-- package variable `minerRewardPerThousand`. -/
  minerRewardPerThousand : Nat
  /-- `ecrecover(header, sigcache)`. -/
  ecrecover : Header → Except Error Address
  /-- `decodeHeaderExtra` applied to the payload of `header.Extra`. -/
  decodeHeaderExtra : Header → Except Error HeaderExtra
  /-- the folds over the sub-ledgers outside this model. -/
  ledgers : LedgerStage → Snapshot → Header → HeaderExtra → Snapshot
  /-- `snap.updateGrantProfit2(headerExtra.GrantProfitHash, db, header)`. -/
  updateGrantProfit2 : Snapshot → Header → HeaderExtra → Snapshot × Option Error
  /-- `snap.storageApply(headerExtra, header, db)`. -/
  storageApply : Snapshot → Header → HeaderExtra → StorageResult
  /-- `snap.sPApply(headerExtra, header, db)`. -/
  sPApply : Snapshot → Header → HeaderExtra → StorageResult
  /-- `NewSRT(common.Hash{}, db)`: the ledger (its root, nil on `none`) and the error. -/
  newSRT : Header → Option Hash × Option Error
  /-- `snap.SRT.Save(db)`. -/
  srtSave : Snapshot → Except Error Hash

/-- How a call of `apply` ends: with its pair of results, or in a run-time panic. -/
inductive Outcome where
  | returned (snap : Option Snapshot) (err : Option Error)
  | panicked

/-- The loop of `Snapshot.copy` over `Proposals` (lines 667-669): every key receives an
object of its own, holding a copy of the object it pointed to. -/
def copyProposals (s : Snapshot) : Snapshot :=
  s.Proposals.entries.foldl
    (fun cpy e =>
      { cpy with
        ProposalObjs := Function.update cpy.ProposalObjs cpy.ProposalNext (s.ProposalObjs e.2)
        Proposals := cpy.Proposals.insert e.1 cpy.ProposalNext
        ProposalNext := cpy.ProposalNext + 1 })
    { s with Proposals := ∅ }

/-- `Snapshot.copy`, on the fields of this model (a nil `MinVB` cannot be represented); the
package variable `minerRewardPerThousand`, declared outside the translated sources, is an
argument. -/
def Snapshot.copy (s : Snapshot) (minerRewardPerThousand : Nat) : Snapshot :=
  copyProposals
    { s with
      SRTHash := match s.SRT with
        | some root => root
        | none => s.SRTHash
      MinerReward := if s.MinerReward = 0 then minerRewardPerThousand else s.MinerReward }

/-- The sanity loop of `apply` (lines 906-910). -/
def headersContiguous : List Header → Bool
  | a :: b :: rest =>
    if uint64 b.Number ≠ (uint64 a.Number + 1) % 2 ^ 64 then false
    else headersContiguous (b :: rest)
  | _ => true

/-- Lines 941-944: the rolling window of block hashes; slicing `[1 : 0]` panics. -/
def pushHistoryHash (s : Snapshot) (maxSignerCount : Nat) (hash : Hash) : Option Snapshot :=
  if maxSignerCount * 2 ≤ s.HistoryHash.length then
    if maxSignerCount * 2 < 1 then none
    else some { s with HistoryHash := ((s.HistoryHash.take (maxSignerCount * 2)).drop 1) ++ [hash] }
  else some { s with HistoryHash := s.HistoryHash ++ [hash] }

/-- Lifts a possibly panicking fold into the control flow of `apply`. -/
def orPanic (o : Option Snapshot) : Except Outcome Snapshot :=
  match o with
  | some s => .ok s
  | none => .error Outcome.panicked

/-- Lines 1029-1035 (and 1036-1042): a storage fold whose failure ends `apply` with
`return reSnap, nil`. -/
def storageStage (r : StorageResult) : Except Outcome Snapshot :=
  match r.err with
  | some _ => .error (Outcome.returned r.reSnap none)
  | none => .ok r.snap

/-- The body of the per-header loop of `apply` (lines 917-1109). `s` is the receiver of
`apply`, `snap` the working copy; `Except.error` leaves `apply` at once. -/
def applyHeader (env : Collaborators) (s : Snapshot) (snap : Snapshot) (header : Header) :
    Except Outcome Snapshot := do
  let number := uint64 header.Number
  let coinbase ← match env.ecrecover header with
    | .ok c => pure c
    | .error e => throw (Outcome.returned none (some e))
  if coinbase ≠ header.Coinbase ∧ header.Number ≠ bugFixBlockNumber then
    throw (Outcome.returned none (some Error.errUnauthorized))
  let headerExtra ← match env.decodeHeaderExtra header with
    | .ok x => pure x
    | .error e => throw (Outcome.returned none (some e))
  let snap := { snap with
    HeaderTime := header.Time
    LoopStartTime := headerExtra.LoopStartTime
    Signers := headerExtra.SignerQueue
    ConfirmedNumber := headerExtra.ConfirmedBlockNumber }
  let snap ← orPanic (pushHistoryHash snap s.config.MaxSignerCount header.Hash)
  let snap := updateSnapshotByConfirmations snap headerExtra.CurrentBlockConfirmations
  let snap ← orPanic
    (updateSnapshotByVotes env.candidateNeedPD snap headerExtra.CurrentBlockVotes header.Number)
  let snap ← orPanic (updateSnapshotByMPVotes snap headerExtra.ModifyPredecessorVotes number)
  let snap := updateSnapshotForPunish snap headerExtra.SignerMissing header.Number header.Coinbase
  let snap := env.ledgers .proposals snap header headerExtra
  let snap := if snap.Period = 0 then { snap with Period := snap.config.Period } else snap
  let snap := env.ledgers .sideChain snap header headerExtra
  let snap := updateSnapshotForExpired snap header.Number
  let snap := env.ledgers .flowMiner snap header headerExtra
  let snap ←
    if number < PosrIncentiveEffectNumber then
      pure (env.ledgers .grantProfit snap header headerExtra)
    else
      match env.updateGrantProfit2 snap header headerExtra with
      | (_, some e) => throw (Outcome.returned none (some e))
      | (snap2, none) => pure snap2
  let snap := env.ledgers .locks snap header headerExtra
  let snap ←
    if StorageEffectBlockNumber ≤ number then storageStage (env.storageApply snap header headerExtra)
    else pure snap
  let snap ←
    if initStorageManagerNumber ≤ number then storageStage (env.sPApply snap header headerExtra)
    else pure snap
  let snap := env.ledgers .storageReset snap header headerExtra
  let snap ←
    if number = PledgeRevertLockEffectNumber - 1 then
      match env.newSRT header with
      | (srt, some _) => throw (Outcome.returned (some { snap with SRT := srt }) none)
      | (srt, none) => pure (env.ledgers .pledgeExitLock { snap with SRT := srt } header headerExtra)
    else pure snap
  let snap := env.ledgers .posPledge snap header headerExtra
  let snap :=
    if isGEPOSNewEffect number then
      let snap := removeCandidates snap headerExtra.CandidateAutoExit
      let snap := env.ledgers .posRate snap header headerExtra
      removeCandidates snap headerExtra.CandidateExit
    else snap
  pure (env.ledgers .posTail snap header headerExtra)

/-- `Snapshot.apply`. -/
def apply (env : Collaborators) (s : Snapshot) (headers : List Header) : Outcome :=
  match headers with
  | [] => Outcome.returned (some s) none
  | first :: _ =>
    if headersContiguous headers = false then
      Outcome.returned none (some Error.errInvalidVotingChain)
    else if uint64 first.Number ≠ (s.Number + 1) % 2 ^ 64 then
      Outcome.returned none (some Error.errInvalidVotingChain)
    else
      match headers.foldlM (applyHeader env s) (s.copy env.minerRewardPerThousand) with
      | .error out => out
      | .ok snap =>
        let snap := { snap with
          Number := (snap.Number + headers.length) % 2 ^ 64
          Hash := (headers.getLast?.map (fun h => h.Hash)).getD snap.Hash }
        match verifyTallyCnt snap with
        | some err => Outcome.returned none (some err)
        | none =>
          match snap.SRT with
          | none => Outcome.returned (some snap) none
          | some _ =>
            match env.srtSave snap with
            | .error err => Outcome.returned none (some err)
            | .ok root => Outcome.returned (some { snap with SRTHash := root }) none

/-! ## Versioned extra codec (`custom_tx.go` lines 401-904 and 946-1385) -/

/-- The field names of `HeaderExtra`, in the order of the struct declaration
(`custom_tx.go` lines 401-481). -/
inductive Field where
  | CurrentBlockConfirmations
  | CurrentBlockVotes
  | CurrentBlockProposals
  | CurrentBlockDeclares
  | ModifyPredecessorVotes
  | LoopStartTime
  | SignerQueue
  | SignerMissing
  | ConfirmedBlockNumber
  | SideChainConfirmations
  | SideChainSetCoinbases
  | SideChainNoticeConfirmed
  | SideChainCharging
  | ExchangeNFC
  | DeviceBind
  | CandidatePledge
  | CandidatePunish
  | MinerStake
  | CandidateExit
  | ClaimedBandwidth
  | FlowMinerExit
  | BandwidthPunish
  | ConfigExchRate
  | ConfigOffLine
  | ConfigDeposit
  | ConfigISPQOS
  | LockParameters
  | ManagerAddress
  | FlowHarvest
  | LockReward
  | GrantProfit
  | FlowReport
  | StoragePledge
  | StoragePledgeExit
  | LeaseRequest
  | ExchangeSRT
  | LeasePledge
  | LeaseRenewal
  | LeaseRenewalPledge
  | LeaseRescind
  | StorageRecoveryData
  | StorageProofRecord
  | StorageExchangePrice
  | ExtraStateRoot
  | LockAccountsRoot
  | StorageDataRoot
  | StorageExchangeBw
  | SRTDataRoot
  | StorageBwPay
  | GrantProfitHash
  | CandidatePledgeNew
  | CandidatePledgeEntrust
  | CandidatePEntrustExit
  | CandidateAutoExit
  | CandidateChangeRate
  | CurLeaseSpace
  | SpCreateParamter
  | ModifySManager
  | SpAdjustPgParamter
  | SpRemoveSnParamter
  | SpEttPledgeParamter
  | SpExitParameter
  | SpFeeParameter
  | SpEntrustParameter
  | CompleteSPledge
  | SPRewardRatio
  | SPPool
  | SPMigration
  | StoragePledge2
  | SPEntrust
  | SETransfer
  | SEExit
  | POSTransfer
  | SpBind
  | SpDataRoot
  | SPEPool
deriving DecidableEq, Repr

/-- The struct types that `encodeHeaderExtra` serialises. -/
inductive Schema where
  | OldHeaderExtra
  | StorageHeaderExtraV1
  | StorageHeaderExtraV2
  | StorageHeaderExtraV3
  | StorageHeaderExtraV4
  | HeaderExtraV5
  | HeaderExtraV6
  | HeaderExtraV7
  | HeaderExtra
deriving DecidableEq, Repr

/-- The declared fields of `struct OldHeaderExtra` (lines 870-904), in declaration order. -/
def oldHeaderExtraFields : List Field :=
  [
    Field.CurrentBlockConfirmations, Field.CurrentBlockVotes, Field.CurrentBlockProposals,
    Field.CurrentBlockDeclares, Field.ModifyPredecessorVotes, Field.LoopStartTime, Field.SignerQueue,
    Field.SignerMissing, Field.ConfirmedBlockNumber, Field.SideChainConfirmations, Field.SideChainSetCoinbases,
    Field.SideChainNoticeConfirmed, Field.SideChainCharging, Field.ExchangeNFC, Field.DeviceBind, Field.CandidatePledge,
    Field.CandidatePunish, Field.MinerStake, Field.CandidateExit, Field.ClaimedBandwidth, Field.FlowMinerExit,
    Field.BandwidthPunish, Field.ConfigExchRate, Field.ConfigOffLine, Field.ConfigDeposit, Field.ConfigISPQOS,
    Field.LockParameters, Field.ManagerAddress, Field.FlowHarvest, Field.LockReward, Field.GrantProfit, Field.FlowReport
  ]

/-- The declared fields of `struct StorageHeaderExtraV1` (lines 819-869), in declaration order. -/
def storageHeaderExtraV1Fields : List Field :=
  [
    Field.CurrentBlockConfirmations, Field.CurrentBlockVotes, Field.CurrentBlockProposals,
    Field.CurrentBlockDeclares, Field.ModifyPredecessorVotes, Field.LoopStartTime, Field.SignerQueue,
    Field.SignerMissing, Field.ConfirmedBlockNumber, Field.SideChainConfirmations, Field.SideChainSetCoinbases,
    Field.SideChainNoticeConfirmed, Field.SideChainCharging, Field.ExchangeNFC, Field.DeviceBind, Field.CandidatePledge,
    Field.CandidatePunish, Field.MinerStake, Field.CandidateExit, Field.ClaimedBandwidth, Field.FlowMinerExit,
    Field.BandwidthPunish, Field.ConfigExchRate, Field.ConfigOffLine, Field.ConfigDeposit, Field.ConfigISPQOS,
    Field.LockParameters, Field.ManagerAddress, Field.FlowHarvest, Field.LockReward, Field.GrantProfit, Field.FlowReport,
    Field.StoragePledge, Field.StoragePledgeExit, Field.LeaseRequest, Field.ExchangeSRT, Field.LeasePledge,
    Field.LeaseRenewal, Field.LeaseRenewalPledge, Field.LeaseRescind, Field.StorageRecoveryData,
    Field.StorageProofRecord, Field.StorageExchangePrice, Field.ExtraStateRoot, Field.LockAccountsRoot,
    Field.StorageDataRoot
  ]

/-- The declared fields of `struct StorageHeaderExtraV2` (lines 766-818), in declaration order. -/
def storageHeaderExtraV2Fields : List Field :=
  [
    Field.CurrentBlockConfirmations, Field.CurrentBlockVotes, Field.CurrentBlockProposals,
    Field.CurrentBlockDeclares, Field.ModifyPredecessorVotes, Field.LoopStartTime, Field.SignerQueue,
    Field.SignerMissing, Field.ConfirmedBlockNumber, Field.SideChainConfirmations, Field.SideChainSetCoinbases,
    Field.SideChainNoticeConfirmed, Field.SideChainCharging, Field.ExchangeNFC, Field.DeviceBind, Field.CandidatePledge,
    Field.CandidatePunish, Field.MinerStake, Field.CandidateExit, Field.ClaimedBandwidth, Field.FlowMinerExit,
    Field.BandwidthPunish, Field.ConfigExchRate, Field.ConfigOffLine, Field.ConfigDeposit, Field.ConfigISPQOS,
    Field.LockParameters, Field.ManagerAddress, Field.FlowHarvest, Field.LockReward, Field.GrantProfit, Field.FlowReport,
    Field.StoragePledge, Field.StoragePledgeExit, Field.LeaseRequest, Field.ExchangeSRT, Field.LeasePledge,
    Field.LeaseRenewal, Field.LeaseRenewalPledge, Field.LeaseRescind, Field.StorageRecoveryData,
    Field.StorageProofRecord, Field.StorageExchangePrice, Field.ExtraStateRoot, Field.LockAccountsRoot,
    Field.StorageDataRoot, Field.StorageExchangeBw
  ]

/-- The declared fields of `struct StorageHeaderExtraV3` (lines 713-765), in declaration order. -/
def storageHeaderExtraV3Fields : List Field :=
  [
    Field.CurrentBlockConfirmations, Field.CurrentBlockVotes, Field.CurrentBlockProposals,
    Field.CurrentBlockDeclares, Field.ModifyPredecessorVotes, Field.LoopStartTime, Field.SignerQueue,
    Field.SignerMissing, Field.ConfirmedBlockNumber, Field.SideChainConfirmations, Field.SideChainSetCoinbases,
    Field.SideChainNoticeConfirmed, Field.SideChainCharging, Field.ExchangeNFC, Field.DeviceBind, Field.CandidatePledge,
    Field.CandidatePunish, Field.MinerStake, Field.CandidateExit, Field.ClaimedBandwidth, Field.FlowMinerExit,
    Field.BandwidthPunish, Field.ConfigExchRate, Field.ConfigOffLine, Field.ConfigDeposit, Field.ConfigISPQOS,
    Field.LockParameters, Field.ManagerAddress, Field.FlowHarvest, Field.LockReward, Field.GrantProfit, Field.FlowReport,
    Field.StoragePledge, Field.StoragePledgeExit, Field.LeaseRequest, Field.ExchangeSRT, Field.LeasePledge,
    Field.LeaseRenewal, Field.LeaseRenewalPledge, Field.LeaseRescind, Field.StorageRecoveryData,
    Field.StorageProofRecord, Field.StorageExchangePrice, Field.ExtraStateRoot, Field.LockAccountsRoot,
    Field.StorageDataRoot, Field.StorageExchangeBw, Field.SRTDataRoot
  ]

/-- The declared fields of `struct StorageHeaderExtraV4` (lines 659-712), in declaration order. -/
def storageHeaderExtraV4Fields : List Field :=
  [
    Field.CurrentBlockConfirmations, Field.CurrentBlockVotes, Field.CurrentBlockProposals,
    Field.CurrentBlockDeclares, Field.ModifyPredecessorVotes, Field.LoopStartTime, Field.SignerQueue,
    Field.SignerMissing, Field.ConfirmedBlockNumber, Field.SideChainConfirmations, Field.SideChainSetCoinbases,
    Field.SideChainNoticeConfirmed, Field.SideChainCharging, Field.ExchangeNFC, Field.DeviceBind, Field.CandidatePledge,
    Field.CandidatePunish, Field.MinerStake, Field.CandidateExit, Field.ClaimedBandwidth, Field.FlowMinerExit,
    Field.BandwidthPunish, Field.ConfigExchRate, Field.ConfigOffLine, Field.ConfigDeposit, Field.ConfigISPQOS,
    Field.LockParameters, Field.ManagerAddress, Field.FlowHarvest, Field.LockReward, Field.GrantProfit, Field.FlowReport,
    Field.StoragePledge, Field.StoragePledgeExit, Field.LeaseRequest, Field.ExchangeSRT, Field.LeasePledge,
    Field.LeaseRenewal, Field.LeaseRenewalPledge, Field.LeaseRescind, Field.StorageRecoveryData,
    Field.StorageProofRecord, Field.StorageExchangePrice, Field.ExtraStateRoot, Field.LockAccountsRoot,
    Field.StorageDataRoot, Field.StorageExchangeBw, Field.SRTDataRoot, Field.StorageBwPay
  ]

/-- The declared fields of `struct HeaderExtraV5` (lines 603-658), in declaration order. -/
def headerExtraV5Fields : List Field :=
  [
    Field.CurrentBlockConfirmations, Field.CurrentBlockVotes, Field.CurrentBlockProposals,
    Field.CurrentBlockDeclares, Field.ModifyPredecessorVotes, Field.LoopStartTime, Field.SignerQueue,
    Field.SignerMissing, Field.ConfirmedBlockNumber, Field.SideChainConfirmations, Field.SideChainSetCoinbases,
    Field.SideChainNoticeConfirmed, Field.SideChainCharging, Field.ExchangeNFC, Field.DeviceBind, Field.CandidatePledge,
    Field.CandidatePunish, Field.MinerStake, Field.CandidateExit, Field.ClaimedBandwidth, Field.FlowMinerExit,
    Field.BandwidthPunish, Field.ConfigExchRate, Field.ConfigOffLine, Field.ConfigDeposit, Field.ConfigISPQOS,
    Field.LockParameters, Field.ManagerAddress, Field.FlowHarvest, Field.LockReward, Field.GrantProfit, Field.FlowReport,
    Field.StoragePledge, Field.StoragePledgeExit, Field.LeaseRequest, Field.ExchangeSRT, Field.LeasePledge,
    Field.LeaseRenewal, Field.LeaseRenewalPledge, Field.LeaseRescind, Field.StorageRecoveryData,
    Field.StorageProofRecord, Field.StorageExchangePrice, Field.ExtraStateRoot, Field.LockAccountsRoot,
    Field.StorageDataRoot, Field.StorageExchangeBw, Field.SRTDataRoot, Field.StorageBwPay, Field.GrantProfitHash
  ]

/-- The declared fields of `struct HeaderExtraV6` (lines 543-602), in declaration order. -/
def headerExtraV6Fields : List Field :=
  [
    Field.CurrentBlockConfirmations, Field.CurrentBlockVotes, Field.CurrentBlockProposals,
    Field.CurrentBlockDeclares, Field.ModifyPredecessorVotes, Field.LoopStartTime, Field.SignerQueue,
    Field.SignerMissing, Field.ConfirmedBlockNumber, Field.SideChainConfirmations, Field.SideChainSetCoinbases,
    Field.SideChainNoticeConfirmed, Field.SideChainCharging, Field.ExchangeNFC, Field.DeviceBind, Field.CandidatePledge,
    Field.CandidatePunish, Field.MinerStake, Field.CandidateExit, Field.ClaimedBandwidth, Field.FlowMinerExit,
    Field.BandwidthPunish, Field.ConfigExchRate, Field.ConfigOffLine, Field.ConfigDeposit, Field.ConfigISPQOS,
    Field.LockParameters, Field.ManagerAddress, Field.FlowHarvest, Field.LockReward, Field.GrantProfit, Field.FlowReport,
    Field.StoragePledge, Field.StoragePledgeExit, Field.LeaseRequest, Field.ExchangeSRT, Field.LeasePledge,
    Field.LeaseRenewal, Field.LeaseRenewalPledge, Field.LeaseRescind, Field.StorageRecoveryData,
    Field.StorageProofRecord, Field.StorageExchangePrice, Field.ExtraStateRoot, Field.LockAccountsRoot,
    Field.StorageDataRoot, Field.StorageExchangeBw, Field.SRTDataRoot, Field.StorageBwPay, Field.GrantProfitHash,
    Field.CandidatePledgeNew, Field.CandidatePledgeEntrust, Field.CandidatePEntrustExit, Field.CandidateAutoExit,
    Field.CandidateChangeRate
  ]

/-- The declared fields of `struct HeaderExtraV7` (lines 482-542), in declaration order. -/
def headerExtraV7Fields : List Field :=
  [
    Field.CurrentBlockConfirmations, Field.CurrentBlockVotes, Field.CurrentBlockProposals,
    Field.CurrentBlockDeclares, Field.ModifyPredecessorVotes, Field.LoopStartTime, Field.SignerQueue,
    Field.SignerMissing, Field.ConfirmedBlockNumber, Field.SideChainConfirmations, Field.SideChainSetCoinbases,
    Field.SideChainNoticeConfirmed, Field.SideChainCharging, Field.ExchangeNFC, Field.DeviceBind, Field.CandidatePledge,
    Field.CandidatePunish, Field.MinerStake, Field.CandidateExit, Field.ClaimedBandwidth, Field.FlowMinerExit,
    Field.BandwidthPunish, Field.ConfigExchRate, Field.ConfigOffLine, Field.ConfigDeposit, Field.ConfigISPQOS,
    Field.LockParameters, Field.ManagerAddress, Field.FlowHarvest, Field.LockReward, Field.GrantProfit, Field.FlowReport,
    Field.StoragePledge, Field.StoragePledgeExit, Field.LeaseRequest, Field.ExchangeSRT, Field.LeasePledge,
    Field.LeaseRenewal, Field.LeaseRenewalPledge, Field.LeaseRescind, Field.StorageRecoveryData,
    Field.StorageProofRecord, Field.StorageExchangePrice, Field.ExtraStateRoot, Field.LockAccountsRoot,
    Field.StorageDataRoot, Field.StorageExchangeBw, Field.SRTDataRoot, Field.StorageBwPay, Field.GrantProfitHash,
    Field.CandidatePledgeNew, Field.CandidatePledgeEntrust, Field.CandidatePEntrustExit, Field.CandidateAutoExit,
    Field.CandidateChangeRate, Field.CurLeaseSpace
  ]

/-- The declared fields of `struct HeaderExtra` (lines 401-481), in declaration order. -/
def headerExtraFields : List Field :=
  [
    Field.CurrentBlockConfirmations, Field.CurrentBlockVotes, Field.CurrentBlockProposals,
    Field.CurrentBlockDeclares, Field.ModifyPredecessorVotes, Field.LoopStartTime, Field.SignerQueue,
    Field.SignerMissing, Field.ConfirmedBlockNumber, Field.SideChainConfirmations, Field.SideChainSetCoinbases,
    Field.SideChainNoticeConfirmed, Field.SideChainCharging, Field.ExchangeNFC, Field.DeviceBind, Field.CandidatePledge,
    Field.CandidatePunish, Field.MinerStake, Field.CandidateExit, Field.ClaimedBandwidth, Field.FlowMinerExit,
    Field.BandwidthPunish, Field.ConfigExchRate, Field.ConfigOffLine, Field.ConfigDeposit, Field.ConfigISPQOS,
    Field.LockParameters, Field.ManagerAddress, Field.FlowHarvest, Field.LockReward, Field.GrantProfit, Field.FlowReport,
    Field.StoragePledge, Field.StoragePledgeExit, Field.LeaseRequest, Field.ExchangeSRT, Field.LeasePledge,
    Field.LeaseRenewal, Field.LeaseRenewalPledge, Field.LeaseRescind, Field.StorageRecoveryData,
    Field.StorageProofRecord, Field.StorageExchangePrice, Field.ExtraStateRoot, Field.LockAccountsRoot,
    Field.StorageDataRoot, Field.StorageExchangeBw, Field.SRTDataRoot, Field.StorageBwPay, Field.GrantProfitHash,
    Field.CandidatePledgeNew, Field.CandidatePledgeEntrust, Field.CandidatePEntrustExit, Field.CandidateAutoExit,
    Field.CandidateChangeRate, Field.CurLeaseSpace, Field.SpCreateParamter, Field.ModifySManager,
    Field.SpAdjustPgParamter, Field.SpRemoveSnParamter, Field.SpEttPledgeParamter, Field.SpExitParameter,
    Field.SpFeeParameter, Field.SpEntrustParameter, Field.CompleteSPledge, Field.SPRewardRatio, Field.SPPool,
    Field.SPMigration, Field.StoragePledge2, Field.SPEntrust, Field.SETransfer, Field.SEExit, Field.POSTransfer, Field.SpBind,
    Field.SpDataRoot, Field.SPEPool
  ]

/-- The composite literal `OldHeaderExtra{...}` of `encodeHeaderExtra`: each pair is a field of the
struct and the field of `val` assigned to it. -/
def oldHeaderExtraLiteral : List (Field × Field) :=
  [
    (Field.CurrentBlockConfirmations, Field.CurrentBlockConfirmations),
    (Field.CurrentBlockVotes, Field.CurrentBlockVotes), (Field.CurrentBlockProposals, Field.CurrentBlockProposals),
    (Field.CurrentBlockDeclares, Field.CurrentBlockDeclares),
    (Field.ModifyPredecessorVotes, Field.ModifyPredecessorVotes), (Field.LoopStartTime, Field.LoopStartTime),
    (Field.SignerQueue, Field.SignerQueue), (Field.SignerMissing, Field.SignerMissing),
    (Field.ConfirmedBlockNumber, Field.ConfirmedBlockNumber),
    (Field.SideChainConfirmations, Field.SideChainConfirmations),
    (Field.SideChainSetCoinbases, Field.SideChainSetCoinbases),
    (Field.SideChainNoticeConfirmed, Field.SideChainNoticeConfirmed),
    (Field.SideChainCharging, Field.SideChainCharging), (Field.ExchangeNFC, Field.ExchangeNFC),
    (Field.DeviceBind, Field.DeviceBind), (Field.CandidatePledge, Field.CandidatePledge),
    (Field.CandidatePunish, Field.CandidatePunish), (Field.MinerStake, Field.MinerStake),
    (Field.CandidateExit, Field.CandidateExit), (Field.ClaimedBandwidth, Field.ClaimedBandwidth),
    (Field.FlowMinerExit, Field.FlowMinerExit), (Field.BandwidthPunish, Field.BandwidthPunish),
    (Field.ConfigExchRate, Field.ConfigExchRate), (Field.ConfigOffLine, Field.ConfigOffLine),
    (Field.ConfigDeposit, Field.ConfigDeposit), (Field.ConfigISPQOS, Field.ConfigISPQOS),
    (Field.LockParameters, Field.LockParameters), (Field.ManagerAddress, Field.ManagerAddress),
    (Field.FlowHarvest, Field.FlowHarvest), (Field.LockReward, Field.LockReward), (Field.GrantProfit, Field.GrantProfit),
    (Field.FlowReport, Field.FlowReport)
  ]

/-- The composite literal `StorageHeaderExtraV1{...}` of `encodeHeaderExtra`: each pair is a field of the
struct and the field of `val` assigned to it. -/
def storageHeaderExtraV1Literal : List (Field × Field) :=
  [
    (Field.CurrentBlockConfirmations, Field.CurrentBlockConfirmations),
    (Field.CurrentBlockVotes, Field.CurrentBlockVotes), (Field.CurrentBlockProposals, Field.CurrentBlockProposals),
    (Field.CurrentBlockDeclares, Field.CurrentBlockDeclares),
    (Field.ModifyPredecessorVotes, Field.ModifyPredecessorVotes), (Field.LoopStartTime, Field.LoopStartTime),
    (Field.SignerQueue, Field.SignerQueue), (Field.SignerMissing, Field.SignerMissing),
    (Field.ConfirmedBlockNumber, Field.ConfirmedBlockNumber),
    (Field.SideChainConfirmations, Field.SideChainConfirmations),
    (Field.SideChainSetCoinbases, Field.SideChainSetCoinbases),
    (Field.SideChainNoticeConfirmed, Field.SideChainNoticeConfirmed),
    (Field.SideChainCharging, Field.SideChainCharging), (Field.ExchangeNFC, Field.ExchangeNFC),
    (Field.DeviceBind, Field.DeviceBind), (Field.CandidatePledge, Field.CandidatePledge),
    (Field.CandidatePunish, Field.CandidatePunish), (Field.MinerStake, Field.MinerStake),
    (Field.CandidateExit, Field.CandidateExit), (Field.ClaimedBandwidth, Field.ClaimedBandwidth),
    (Field.FlowMinerExit, Field.FlowMinerExit), (Field.BandwidthPunish, Field.BandwidthPunish),
    (Field.ConfigExchRate, Field.ConfigExchRate), (Field.ConfigOffLine, Field.ConfigOffLine),
    (Field.ConfigDeposit, Field.ConfigDeposit), (Field.ConfigISPQOS, Field.ConfigISPQOS),
    (Field.LockParameters, Field.LockParameters), (Field.ManagerAddress, Field.ManagerAddress),
    (Field.FlowHarvest, Field.FlowHarvest), (Field.LockReward, Field.LockReward), (Field.GrantProfit, Field.GrantProfit),
    (Field.FlowReport, Field.FlowReport), (Field.StoragePledge, Field.StoragePledge),
    (Field.StoragePledgeExit, Field.StoragePledgeExit), (Field.LeaseRequest, Field.LeaseRequest),
    (Field.ExchangeSRT, Field.ExchangeSRT), (Field.LeasePledge, Field.LeasePledge), (Field.LeaseRenewal, Field.LeaseRenewal),
    (Field.LeaseRenewalPledge, Field.LeaseRenewalPledge), (Field.LeaseRescind, Field.LeaseRescind),
    (Field.StorageRecoveryData, Field.StorageRecoveryData), (Field.StorageProofRecord, Field.StorageProofRecord),
    (Field.StorageExchangePrice, Field.StorageExchangePrice), (Field.ExtraStateRoot, Field.ExtraStateRoot),
    (Field.LockAccountsRoot, Field.LockAccountsRoot), (Field.StorageDataRoot, Field.StorageDataRoot)
  ]

/-- The composite literal `StorageHeaderExtraV2{...}` of `encodeHeaderExtra`: each pair is a field of the
struct and the field of `val` assigned to it. -/
def storageHeaderExtraV2Literal : List (Field × Field) :=
  [
    (Field.CurrentBlockConfirmations, Field.CurrentBlockConfirmations),
    (Field.CurrentBlockVotes, Field.CurrentBlockVotes), (Field.CurrentBlockProposals, Field.CurrentBlockProposals),
    (Field.CurrentBlockDeclares, Field.CurrentBlockDeclares),
    (Field.ModifyPredecessorVotes, Field.ModifyPredecessorVotes), (Field.LoopStartTime, Field.LoopStartTime),
    (Field.SignerQueue, Field.SignerQueue), (Field.SignerMissing, Field.SignerMissing),
    (Field.ConfirmedBlockNumber, Field.ConfirmedBlockNumber),
    (Field.SideChainConfirmations, Field.SideChainConfirmations),
    (Field.SideChainSetCoinbases, Field.SideChainSetCoinbases),
    (Field.SideChainNoticeConfirmed, Field.SideChainNoticeConfirmed),
    (Field.SideChainCharging, Field.SideChainCharging), (Field.ExchangeNFC, Field.ExchangeNFC),
    (Field.DeviceBind, Field.DeviceBind), (Field.CandidatePledge, Field.CandidatePledge),
    (Field.CandidatePunish, Field.CandidatePunish), (Field.MinerStake, Field.MinerStake),
    (Field.CandidateExit, Field.CandidateExit), (Field.ClaimedBandwidth, Field.ClaimedBandwidth),
    (Field.FlowMinerExit, Field.FlowMinerExit), (Field.BandwidthPunish, Field.BandwidthPunish),
    (Field.ConfigExchRate, Field.ConfigExchRate), (Field.ConfigOffLine, Field.ConfigOffLine),
    (Field.ConfigDeposit, Field.ConfigDeposit), (Field.ConfigISPQOS, Field.ConfigISPQOS),
    (Field.LockParameters, Field.LockParameters), (Field.ManagerAddress, Field.ManagerAddress),
    (Field.FlowHarvest, Field.FlowHarvest), (Field.LockReward, Field.LockReward), (Field.GrantProfit, Field.GrantProfit),
    (Field.FlowReport, Field.FlowReport), (Field.StoragePledge, Field.StoragePledge),
    (Field.StoragePledgeExit, Field.StoragePledgeExit), (Field.LeaseRequest, Field.LeaseRequest),
    (Field.ExchangeSRT, Field.ExchangeSRT), (Field.LeasePledge, Field.LeasePledge), (Field.LeaseRenewal, Field.LeaseRenewal),
    (Field.LeaseRenewalPledge, Field.LeaseRenewalPledge), (Field.LeaseRescind, Field.LeaseRescind),
    (Field.StorageRecoveryData, Field.StorageRecoveryData), (Field.StorageProofRecord, Field.StorageProofRecord),
    (Field.StorageExchangePrice, Field.StorageExchangePrice), (Field.ExtraStateRoot, Field.ExtraStateRoot),
    (Field.LockAccountsRoot, Field.LockAccountsRoot), (Field.StorageDataRoot, Field.StorageDataRoot),
    (Field.StorageExchangeBw, Field.StorageExchangeBw)
  ]

/-- The composite literal `StorageHeaderExtraV3{...}` of `encodeHeaderExtra`: each pair is a field of the
struct and the field of `val` assigned to it. -/
def storageHeaderExtraV3Literal : List (Field × Field) :=
  [
    (Field.CurrentBlockConfirmations, Field.CurrentBlockConfirmations),
    (Field.CurrentBlockVotes, Field.CurrentBlockVotes), (Field.CurrentBlockProposals, Field.CurrentBlockProposals),
    (Field.CurrentBlockDeclares, Field.CurrentBlockDeclares),
    (Field.ModifyPredecessorVotes, Field.ModifyPredecessorVotes), (Field.LoopStartTime, Field.LoopStartTime),
    (Field.SignerQueue, Field.SignerQueue), (Field.SignerMissing, Field.SignerMissing),
    (Field.ConfirmedBlockNumber, Field.ConfirmedBlockNumber),
    (Field.SideChainConfirmations, Field.SideChainConfirmations),
    (Field.SideChainSetCoinbases, Field.SideChainSetCoinbases),
    (Field.SideChainNoticeConfirmed, Field.SideChainNoticeConfirmed),
    (Field.SideChainCharging, Field.SideChainCharging), (Field.ExchangeNFC, Field.ExchangeNFC),
    (Field.DeviceBind, Field.DeviceBind), (Field.CandidatePledge, Field.CandidatePledge),
    (Field.CandidatePunish, Field.CandidatePunish), (Field.MinerStake, Field.MinerStake),
    (Field.CandidateExit, Field.CandidateExit), (Field.ClaimedBandwidth, Field.ClaimedBandwidth),
    (Field.FlowMinerExit, Field.FlowMinerExit), (Field.BandwidthPunish, Field.BandwidthPunish),
    (Field.ConfigExchRate, Field.ConfigExchRate), (Field.ConfigOffLine, Field.ConfigOffLine),
    (Field.ConfigDeposit, Field.ConfigDeposit), (Field.ConfigISPQOS, Field.ConfigISPQOS),
    (Field.LockParameters, Field.LockParameters), (Field.ManagerAddress, Field.ManagerAddress),
    (Field.FlowHarvest, Field.FlowHarvest), (Field.LockReward, Field.LockReward), (Field.GrantProfit, Field.GrantProfit),
    (Field.FlowReport, Field.FlowReport), (Field.StoragePledge, Field.StoragePledge),
    (Field.StoragePledgeExit, Field.StoragePledgeExit), (Field.LeaseRequest, Field.LeaseRequest),
    (Field.ExchangeSRT, Field.ExchangeSRT), (Field.LeasePledge, Field.LeasePledge), (Field.LeaseRenewal, Field.LeaseRenewal),
    (Field.LeaseRenewalPledge, Field.LeaseRenewalPledge), (Field.LeaseRescind, Field.LeaseRescind),
    (Field.StorageRecoveryData, Field.StorageRecoveryData), (Field.StorageProofRecord, Field.StorageProofRecord),
    (Field.StorageExchangePrice, Field.StorageExchangePrice), (Field.ExtraStateRoot, Field.ExtraStateRoot),
    (Field.LockAccountsRoot, Field.LockAccountsRoot), (Field.StorageDataRoot, Field.StorageDataRoot),
    (Field.StorageExchangeBw, Field.StorageExchangeBw), (Field.SRTDataRoot, Field.SRTDataRoot)
  ]

/-- The composite literal `StorageHeaderExtraV4{...}` of `encodeHeaderExtra`: each pair is a field of the
struct and the field of `val` assigned to it. -/
def storageHeaderExtraV4Literal : List (Field × Field) :=
  [
    (Field.CurrentBlockConfirmations, Field.CurrentBlockConfirmations),
    (Field.CurrentBlockVotes, Field.CurrentBlockVotes), (Field.CurrentBlockProposals, Field.CurrentBlockProposals),
    (Field.CurrentBlockDeclares, Field.CurrentBlockDeclares),
    (Field.ModifyPredecessorVotes, Field.ModifyPredecessorVotes), (Field.LoopStartTime, Field.LoopStartTime),
    (Field.SignerQueue, Field.SignerQueue), (Field.SignerMissing, Field.SignerMissing),
    (Field.ConfirmedBlockNumber, Field.ConfirmedBlockNumber),
    (Field.SideChainConfirmations, Field.SideChainConfirmations),
    (Field.SideChainSetCoinbases, Field.SideChainSetCoinbases),
    (Field.SideChainNoticeConfirmed, Field.SideChainNoticeConfirmed),
    (Field.SideChainCharging, Field.SideChainCharging), (Field.ExchangeNFC, Field.ExchangeNFC),
    (Field.DeviceBind, Field.DeviceBind), (Field.CandidatePledge, Field.CandidatePledge),
    (Field.CandidatePunish, Field.CandidatePunish), (Field.MinerStake, Field.MinerStake),
    (Field.CandidateExit, Field.CandidateExit), (Field.ClaimedBandwidth, Field.ClaimedBandwidth),
    (Field.FlowMinerExit, Field.FlowMinerExit), (Field.BandwidthPunish, Field.BandwidthPunish),
    (Field.ConfigExchRate, Field.ConfigExchRate), (Field.ConfigOffLine, Field.ConfigOffLine),
    (Field.ConfigDeposit, Field.ConfigDeposit), (Field.ConfigISPQOS, Field.ConfigISPQOS),
    (Field.LockParameters, Field.LockParameters), (Field.ManagerAddress, Field.ManagerAddress),
    (Field.FlowHarvest, Field.FlowHarvest), (Field.LockReward, Field.LockReward), (Field.GrantProfit, Field.GrantProfit),
    (Field.FlowReport, Field.FlowReport), (Field.StoragePledge, Field.StoragePledge),
    (Field.StoragePledgeExit, Field.StoragePledgeExit), (Field.LeaseRequest, Field.LeaseRequest),
    (Field.ExchangeSRT, Field.ExchangeSRT), (Field.LeasePledge, Field.LeasePledge), (Field.LeaseRenewal, Field.LeaseRenewal),
    (Field.LeaseRenewalPledge, Field.LeaseRenewalPledge), (Field.LeaseRescind, Field.LeaseRescind),
    (Field.StorageRecoveryData, Field.StorageRecoveryData), (Field.StorageProofRecord, Field.StorageProofRecord),
    (Field.StorageExchangePrice, Field.StorageExchangePrice), (Field.ExtraStateRoot, Field.ExtraStateRoot),
    (Field.LockAccountsRoot, Field.LockAccountsRoot), (Field.StorageDataRoot, Field.StorageDataRoot),
    (Field.StorageExchangeBw, Field.StorageExchangeBw), (Field.SRTDataRoot, Field.SRTDataRoot),
    (Field.StorageBwPay, Field.StorageBwPay)
  ]

/-- The composite literal `HeaderExtraV5{...}` of `encodeHeaderExtra`: each pair is a field of the
struct and the field of `val` assigned to it. -/
def headerExtraV5Literal : List (Field × Field) :=
  [
    (Field.CurrentBlockConfirmations, Field.CurrentBlockConfirmations),
    (Field.CurrentBlockVotes, Field.CurrentBlockVotes), (Field.CurrentBlockProposals, Field.CurrentBlockProposals),
    (Field.CurrentBlockDeclares, Field.CurrentBlockDeclares),
    (Field.ModifyPredecessorVotes, Field.ModifyPredecessorVotes), (Field.LoopStartTime, Field.LoopStartTime),
    (Field.SignerQueue, Field.SignerQueue), (Field.SignerMissing, Field.SignerMissing),
    (Field.ConfirmedBlockNumber, Field.ConfirmedBlockNumber),
    (Field.SideChainConfirmations, Field.SideChainConfirmations),
    (Field.SideChainSetCoinbases, Field.SideChainSetCoinbases),
    (Field.SideChainNoticeConfirmed, Field.SideChainNoticeConfirmed),
    (Field.SideChainCharging, Field.SideChainCharging), (Field.ExchangeNFC, Field.ExchangeNFC),
    (Field.DeviceBind, Field.DeviceBind), (Field.CandidatePledge, Field.CandidatePledge),
    (Field.CandidatePunish, Field.CandidatePunish), (Field.MinerStake, Field.MinerStake),
    (Field.CandidateExit, Field.CandidateExit), (Field.ClaimedBandwidth, Field.ClaimedBandwidth),
    (Field.FlowMinerExit, Field.FlowMinerExit), (Field.BandwidthPunish, Field.BandwidthPunish),
    (Field.ConfigExchRate, Field.ConfigExchRate), (Field.ConfigOffLine, Field.ConfigOffLine),
    (Field.ConfigDeposit, Field.ConfigDeposit), (Field.ConfigISPQOS, Field.ConfigISPQOS),
    (Field.LockParameters, Field.LockParameters), (Field.ManagerAddress, Field.ManagerAddress),
    (Field.FlowHarvest, Field.FlowHarvest), (Field.LockReward, Field.LockReward), (Field.GrantProfit, Field.GrantProfit),
    (Field.FlowReport, Field.FlowReport), (Field.StoragePledge, Field.StoragePledge),
    (Field.StoragePledgeExit, Field.StoragePledgeExit), (Field.LeaseRequest, Field.LeaseRequest),
    (Field.ExchangeSRT, Field.ExchangeSRT), (Field.LeasePledge, Field.LeasePledge), (Field.LeaseRenewal, Field.LeaseRenewal),
    (Field.LeaseRenewalPledge, Field.LeaseRenewalPledge), (Field.LeaseRescind, Field.LeaseRescind),
    (Field.StorageRecoveryData, Field.StorageRecoveryData), (Field.StorageProofRecord, Field.StorageProofRecord),
    (Field.StorageExchangePrice, Field.StorageExchangePrice), (Field.ExtraStateRoot, Field.ExtraStateRoot),
    (Field.LockAccountsRoot, Field.LockAccountsRoot), (Field.StorageDataRoot, Field.StorageDataRoot),
    (Field.StorageExchangeBw, Field.StorageExchangeBw), (Field.SRTDataRoot, Field.SRTDataRoot),
    (Field.StorageBwPay, Field.StorageBwPay), (Field.GrantProfitHash, Field.GrantProfitHash)
  ]

/-- The composite literal `HeaderExtraV6{...}` of `encodeHeaderExtra`: each pair is a field of the
struct and the field of `val` assigned to it. -/
def headerExtraV6Literal : List (Field × Field) :=
  [
    (Field.CurrentBlockConfirmations, Field.CurrentBlockConfirmations),
    (Field.CurrentBlockVotes, Field.CurrentBlockVotes), (Field.CurrentBlockProposals, Field.CurrentBlockProposals),
    (Field.CurrentBlockDeclares, Field.CurrentBlockDeclares),
    (Field.ModifyPredecessorVotes, Field.ModifyPredecessorVotes), (Field.LoopStartTime, Field.LoopStartTime),
    (Field.SignerQueue, Field.SignerQueue), (Field.SignerMissing, Field.SignerMissing),
    (Field.ConfirmedBlockNumber, Field.ConfirmedBlockNumber),
    (Field.SideChainConfirmations, Field.SideChainConfirmations),
    (Field.SideChainSetCoinbases, Field.SideChainSetCoinbases),
    (Field.SideChainNoticeConfirmed, Field.SideChainNoticeConfirmed),
    (Field.SideChainCharging, Field.SideChainCharging), (Field.ExchangeNFC, Field.ExchangeNFC),
    (Field.DeviceBind, Field.DeviceBind), (Field.CandidatePledge, Field.CandidatePledge),
    (Field.CandidatePunish, Field.CandidatePunish), (Field.MinerStake, Field.MinerStake),
    (Field.CandidateExit, Field.CandidateExit), (Field.ClaimedBandwidth, Field.ClaimedBandwidth),
    (Field.FlowMinerExit, Field.FlowMinerExit), (Field.BandwidthPunish, Field.BandwidthPunish),
    (Field.ConfigExchRate, Field.ConfigExchRate), (Field.ConfigOffLine, Field.ConfigOffLine),
    (Field.ConfigDeposit, Field.ConfigDeposit), (Field.ConfigISPQOS, Field.ConfigISPQOS),
    (Field.LockParameters, Field.LockParameters), (Field.ManagerAddress, Field.ManagerAddress),
    (Field.FlowHarvest, Field.FlowHarvest), (Field.LockReward, Field.LockReward), (Field.GrantProfit, Field.GrantProfit),
    (Field.FlowReport, Field.FlowReport), (Field.StoragePledge, Field.StoragePledge),
    (Field.StoragePledgeExit, Field.StoragePledgeExit), (Field.LeaseRequest, Field.LeaseRequest),
    (Field.ExchangeSRT, Field.ExchangeSRT), (Field.LeasePledge, Field.LeasePledge), (Field.LeaseRenewal, Field.LeaseRenewal),
    (Field.LeaseRenewalPledge, Field.LeaseRenewalPledge), (Field.LeaseRescind, Field.LeaseRescind),
    (Field.StorageRecoveryData, Field.StorageRecoveryData), (Field.StorageProofRecord, Field.StorageProofRecord),
    (Field.StorageExchangePrice, Field.StorageExchangePrice), (Field.ExtraStateRoot, Field.ExtraStateRoot),
    (Field.LockAccountsRoot, Field.LockAccountsRoot), (Field.StorageDataRoot, Field.StorageDataRoot),
    (Field.StorageExchangeBw, Field.StorageExchangeBw), (Field.SRTDataRoot, Field.SRTDataRoot),
    (Field.StorageBwPay, Field.StorageBwPay), (Field.GrantProfitHash, Field.GrantProfitHash),
    (Field.CandidatePledgeNew, Field.CandidatePledgeNew),
    (Field.CandidatePledgeEntrust, Field.CandidatePledgeEntrust),
    (Field.CandidatePEntrustExit, Field.CandidatePEntrustExit), (Field.CandidateAutoExit, Field.CandidateAutoExit),
    (Field.CandidateChangeRate, Field.CandidateChangeRate)
  ]

/-- The composite literal `HeaderExtraV7{...}` of `encodeHeaderExtra`: each pair is a field of the
struct and the field of `val` assigned to it. -/
def headerExtraV7Literal : List (Field × Field) :=
  [
    (Field.CurrentBlockConfirmations, Field.CurrentBlockConfirmations),
    (Field.CurrentBlockVotes, Field.CurrentBlockVotes), (Field.CurrentBlockProposals, Field.CurrentBlockProposals),
    (Field.CurrentBlockDeclares, Field.CurrentBlockDeclares),
    (Field.ModifyPredecessorVotes, Field.ModifyPredecessorVotes), (Field.LoopStartTime, Field.LoopStartTime),
    (Field.SignerQueue, Field.SignerQueue), (Field.SignerMissing, Field.SignerMissing),
    (Field.ConfirmedBlockNumber, Field.ConfirmedBlockNumber),
    (Field.SideChainConfirmations, Field.SideChainConfirmations),
    (Field.SideChainSetCoinbases, Field.SideChainSetCoinbases),
    (Field.SideChainNoticeConfirmed, Field.SideChainNoticeConfirmed),
    (Field.SideChainCharging, Field.SideChainCharging), (Field.ExchangeNFC, Field.ExchangeNFC),
    (Field.DeviceBind, Field.DeviceBind), (Field.CandidatePledge, Field.CandidatePledge),
    (Field.CandidatePunish, Field.CandidatePunish), (Field.MinerStake, Field.MinerStake),
    (Field.CandidateExit, Field.CandidateExit), (Field.ClaimedBandwidth, Field.ClaimedBandwidth),
    (Field.FlowMinerExit, Field.FlowMinerExit), (Field.BandwidthPunish, Field.BandwidthPunish),
    (Field.ConfigExchRate, Field.ConfigExchRate), (Field.ConfigOffLine, Field.ConfigOffLine),
    (Field.ConfigDeposit, Field.ConfigDeposit), (Field.ConfigISPQOS, Field.ConfigISPQOS),
    (Field.LockParameters, Field.LockParameters), (Field.ManagerAddress, Field.ManagerAddress),
    (Field.FlowHarvest, Field.FlowHarvest), (Field.LockReward, Field.LockReward), (Field.GrantProfit, Field.GrantProfit),
    (Field.FlowReport, Field.FlowReport), (Field.StoragePledge, Field.StoragePledge),
    (Field.StoragePledgeExit, Field.StoragePledgeExit), (Field.LeaseRequest, Field.LeaseRequest),
    (Field.ExchangeSRT, Field.ExchangeSRT), (Field.LeasePledge, Field.LeasePledge), (Field.LeaseRenewal, Field.LeaseRenewal),
    (Field.LeaseRenewalPledge, Field.LeaseRenewalPledge), (Field.LeaseRescind, Field.LeaseRescind),
    (Field.StorageRecoveryData, Field.StorageRecoveryData), (Field.StorageProofRecord, Field.StorageProofRecord),
    (Field.StorageExchangePrice, Field.StorageExchangePrice), (Field.ExtraStateRoot, Field.ExtraStateRoot),
    (Field.LockAccountsRoot, Field.LockAccountsRoot), (Field.StorageDataRoot, Field.StorageDataRoot),
    (Field.StorageExchangeBw, Field.StorageExchangeBw), (Field.SRTDataRoot, Field.SRTDataRoot),
    (Field.StorageBwPay, Field.StorageBwPay), (Field.GrantProfitHash, Field.GrantProfitHash),
    (Field.CandidatePledgeNew, Field.CandidatePledgeNew),
    (Field.CandidatePledgeEntrust, Field.CandidatePledgeEntrust),
    (Field.CandidatePEntrustExit, Field.CandidatePEntrustExit), (Field.CandidateAutoExit, Field.CandidateAutoExit),
    (Field.CandidateChangeRate, Field.CandidateChangeRate), (Field.CurLeaseSpace, Field.CurLeaseSpace)
  ]

/-- The declared fields of a struct type. -/
def Schema.fields : Schema → List Field
  | .OldHeaderExtra => oldHeaderExtraFields
  | .StorageHeaderExtraV1 => storageHeaderExtraV1Fields
  | .StorageHeaderExtraV2 => storageHeaderExtraV2Fields
  | .StorageHeaderExtraV3 => storageHeaderExtraV3Fields
  | .StorageHeaderExtraV4 => storageHeaderExtraV4Fields
  | .HeaderExtraV5 => headerExtraV5Fields
  | .HeaderExtraV6 => headerExtraV6Fields
  | .HeaderExtraV7 => headerExtraV7Fields
  | .HeaderExtra => headerExtraFields

/-- The value of a `HeaderExtra` (or of one of its historical struct types) as the codec
sees it: one value per field name. -/
abbrev Bundle (V : Type) := Field → V

/-- A composite literal `T{F1: val.G1, ...}`: a field that the literal assigns takes the
value of the named field of `val`, any other field keeps its zero value. -/
def buildStruct {V : Type} (zero : Field → V) (literal : List (Field × Field)) (val : Bundle V) :
    Bundle V :=
  fun f =>
    match literal.lookup f with
    | some source => val source
    | none => zero f

/-- Modelled from the spec: `rlp.EncodeToBytes` of package `rlp`, whose code is outside the
translated sources. By section 4.2 the encoder "serializes only fields known at that
height": the serialised form of a struct is the sequence of the values of its declared
fields, in declaration order. -/
def rlpEncodeToBytes {V : Type} (declared : List Field) (value : Bundle V) :
    Except Error (List V) :=
  .ok (declared.map value)

/-- Modelled from the spec: `rlp.DecodeBytes(b, val)` with `val *HeaderExtra`, of package
`rlp`, whose code is outside the translated sources. By sections 4.2 and 8 ("fields are
never renumbered or removed", "`decode(h, encode(h, bundle)) == bundle` restricted to
fields valid at height h") the i-th serialised value fills the i-th declared field of
`HeaderExtra` and a field without a serialised value keeps its zero value; a sequence with
more values than declared fields is rejected. -/
def rlpDecodeBytes {V : Type} (zero : Field → V) (b : List V) : Except Error (Bundle V) :=
  if headerExtraFields.length < b.length then .error (Error.collaborator 0)
  else .ok (fun f => ((headerExtraFields.zip b).lookup f).getD (zero f))

/-- `encodeHeaderExtra` (lines 946-1374). `zero` gives the zero value of each field. -/
def encodeHeaderExtra {V : Type} (zero : Field → V) (_config : AlienConfig) (number : Nat)
    (val : Bundle V) : Except Error (List V) :=
  if uint64 number < StorageEffectBlockNumber then
    rlpEncodeToBytes oldHeaderExtraFields (buildStruct zero oldHeaderExtraLiteral val)
  else if uint64 number < StorageChBwEffectNumber then
    rlpEncodeToBytes storageHeaderExtraV1Fields (buildStruct zero storageHeaderExtraV1Literal val)
  else if uint64 number < PledgeRevertLockEffectNumber then
    rlpEncodeToBytes storageHeaderExtraV2Fields (buildStruct zero storageHeaderExtraV2Literal val)
  else if uint64 number < StoragePledgeOptEffectNumber then
    rlpEncodeToBytes storageHeaderExtraV3Fields (buildStruct zero storageHeaderExtraV3Literal val)
  else if uint64 number < PosrIncentiveEffectNumber then
    rlpEncodeToBytes storageHeaderExtraV4Fields (buildStruct zero storageHeaderExtraV4Literal val)
  else if uint64 number < PosNewEffectNumber then
    rlpEncodeToBytes headerExtraV5Fields (buildStruct zero headerExtraV5Literal val)
  else if uint64 number < PoCrsAccCalNumber then
    rlpEncodeToBytes headerExtraV6Fields (buildStruct zero headerExtraV6Literal val)
  else if uint64 number < initStorageManagerNumber then
    rlpEncodeToBytes headerExtraV7Fields (buildStruct zero headerExtraV7Literal val)
  else
    rlpEncodeToBytes headerExtraFields val

/-- `decodeHeaderExtra` (lines 1377-1385): the height is not consulted. -/
def decodeHeaderExtra {V : Type} (zero : Field → V) (_config : AlienConfig) (_number : Nat)
    (b : List V) : Except Error (Bundle V) :=
  rlpDecodeBytes zero b

/-- The struct type that `encodeHeaderExtra` serialises at a height: the schema selected
for that height. -/
def schemaOf (number : Nat) : Schema :=
  if uint64 number < StorageEffectBlockNumber then .OldHeaderExtra
  else if uint64 number < StorageChBwEffectNumber then .StorageHeaderExtraV1
  else if uint64 number < PledgeRevertLockEffectNumber then .StorageHeaderExtraV2
  else if uint64 number < StoragePledgeOptEffectNumber then .StorageHeaderExtraV3
  else if uint64 number < PosrIncentiveEffectNumber then .StorageHeaderExtraV4
  else if uint64 number < PosNewEffectNumber then .HeaderExtraV5
  else if uint64 number < PoCrsAccCalNumber then .HeaderExtraV6
  else if uint64 number < initStorageManagerNumber then .HeaderExtraV7
  else .HeaderExtra

/-! ## Concrete configurations and snapshots used in the checks below -/

/-- A configuration with a 10 second period, 21 signers and no Trantor switch. -/
def sampleConfig : AlienConfig :=
  { Period := 10, Epoch := 201600, MaxSignerCount := 21, Trantor := fun _ => false }

/-- The content of a `Proposal` object that has not been written. -/
def blankProposal : Proposal :=
  { Hash := 0, ReceivedNumber := 0, CurrentDeposit := 0, ValidationLoopCnt := 0,
    ProposalType := 0, Proposer := 0, TargetAddress := 0, MinerRewardPerThousand := 0,
    SCHash := 0, SCBlockCountPerPeriod := 0, SCBlockRewardPerPeriod := 0, Declares := [],
    MinVoterBalance := 0, ProposalDeposit := 0, SCRentFee := 0, SCRentRate := 0,
    SCRentLength := 0 }

/-- A snapshot with every ledger empty (all maps created, no SRT ledger). -/
def emptySnapshot : Snapshot :=
  { config := sampleConfig, LCRS := 1, Period := 10, Number := 0, ConfirmedNumber := 0,
    Hash := 0, HistoryHash := [], Signers := [], Votes := ∅, Tally := ∅, Voters := ∅,
    Candidates := ∅, Punished := ∅, Confirmations := ∅, HeaderTime := 0, LoopStartTime := 0,
    MinVB := 0, SignerMissing := [], PosPledge := some ∅, SRT := none, SRTHash := 0,
    CandidatePledge := ∅, Proposals := ∅, ProposalObjs := fun _ => blankProposal,
    ProposalNext := 0, ProposalRefund := ∅, MinerReward := 618, SCRecordMap := ∅,
    SCNoticeMap := ∅, SCRewardMap := ∅, RevenueNormal := ∅, RevenueFlow := ∅,
    RevenueStorage := ∅, Bandwidth := ∅,
    SystemConfig :=
      { ExchRate := 0, OffLine := 0,
        Deposit := AList.insert 12 547 (AList.insert 13 30 (AList.insert 14 30 ∅)),
        ManagerAddress := ∅ },
    StorageEntrust := ∅, FlowPledge := ∅, SCCoinbase := ∅ }

/-- Candidate 7 holds a tally of zero and no recorded vote targets it. -/
def zeroTallySnapshot : Snapshot :=
  { emptySnapshot with Tally := AList.insert 7 0 ∅ }

/-- Three voters (1 and 2 back candidate 1, voter 3 backs candidate 3). -/
def pipelineSnapshot : Snapshot :=
  { emptySnapshot with
    Votes := AList.insert 1 ⟨1, 1, 100⟩ (AList.insert 2 ⟨2, 1, 50⟩ (AList.insert 3 ⟨3, 3, 70⟩ ∅))
    Tally := AList.insert 1 150 (AList.insert 3 70 ∅)
    Voters := AList.insert 1 0 (AList.insert 2 0 (AList.insert 3 0 ∅)) }

/-- Candidate 1 with tally 100 and no recorded votes (the scenario of the specification
before voter 4 votes). -/
def newVoterSnapshot : Snapshot :=
  { emptySnapshot with Tally := AList.insert 1 100 ∅ }

/-- Voter 4 backs candidate 1 with its whole balance of 5. -/
def revoteBase : Snapshot :=
  { emptySnapshot with
    Votes := AList.insert 4 ⟨4, 1, 5⟩ ∅
    Tally := AList.insert 1 5 ∅
    Voters := AList.insert 4 0 ∅ }

/-- The snapshot after a header at height 9 that refreshes the stake of voter 4 to its new
balance 0: `updateSnapshotByMPVotes` followed by `updateSnapshotForExpired`. -/
def revoteAfterRefresh : Option Snapshot :=
  (updateSnapshotByMPVotes revoteBase [⟨4, 0, 0⟩] 9).map
    (fun s => updateSnapshotForExpired s 9)

/-- Candidate 1 elected after the upgrade: tally 0, backed by its own zero-stake vote. -/
def posCandidateSnapshot : Snapshot :=
  { emptySnapshot with
    Votes := AList.insert 1 ⟨1, 1, 0⟩ ∅
    Tally := AList.insert 1 0 ∅
    Voters := AList.insert 1 0 ∅ }

/-- A header bundle without any intent. -/
def emptyExtra : HeaderExtra :=
  { CurrentBlockConfirmations := [], CurrentBlockVotes := [], ModifyPredecessorVotes := [],
    LoopStartTime := 0, SignerQueue := [], SignerMissing := [], ConfirmedBlockNumber := 0,
    CandidateExit := [], CandidateAutoExit := [], SideChainConfirmations := [],
    SideChainNoticeConfirmed := [], SideChainSetCoinbases := [], DeviceBind := [],
    ConfigExchRate := 0, ConfigOffLine := 0, ConfigDeposit := [], LockParameters := [],
    ConfigISPQOS := [], BandwidthPunish := [], Other := [] }

/-- Collaborators that all succeed: the seal recovers to the declared coinbase, every
header carries the empty bundle, the storage folds and the SRT ledger report no error, and
the sub-ledgers outside the model are left alone. -/
def quietCollaborators : Collaborators :=
  { candidateNeedPD := false
    minVoterBalance := 0
    minerRewardPerThousand := 618
    ecrecover := fun header => .ok header.Coinbase
    decodeHeaderExtra := fun _ => .ok emptyExtra
    ledgers := fun _ snap _ _ => snap
    updateGrantProfit2 := fun snap _ _ => (snap, none)
    storageApply := fun snap _ _ => { snap := snap, reSnap := some snap, err := none }
    sPApply := fun snap _ _ => { snap := snap, reSnap := some snap, err := none }
    newSRT := fun _ => (some 0, none)
    srtSave := fun snap => .ok snap.SRTHash }

/-- As `quietCollaborators`, but the database fails when the SRT ledger is created. -/
def srtFailure : Collaborators :=
  { quietCollaborators with newSRT := fun _ => (none, some (Error.collaborator 1)) }

/-- As `quietCollaborators`, but `storageApply` fails and returns no snapshot. -/
def storageFailure : Collaborators :=
  { quietCollaborators with
    storageApply := fun snap _ _ =>
      { snap := snap, reSnap := none, err := some (Error.collaborator 2) } }

/-- As `quietCollaborators`, but every header carries the vote intent (4, 1, 50) and
`storageApply` fails, returning its receiver. -/
def voteThenStorageFailure : Collaborators :=
  { quietCollaborators with
    decodeHeaderExtra := fun _ => .ok { emptyExtra with CurrentBlockVotes := [⟨4, 1, 50⟩] }
    storageApply := fun snap _ _ =>
      { snap := snap, reSnap := some snap, err := some (Error.collaborator 2) } }

/-- A header at the given height, sealed by signer 1, whose hash is its height. -/
def headerAt (number : Nat) : Header :=
  { Number := number, Coinbase := 1, Time := 0, Hash := number }

/-- A snapshot at height `PledgeRevertLockEffectNumber - 2` with empty ledgers. -/
def beforeSRTSnapshot : Snapshot :=
  { emptySnapshot with Number := 1495992, Hash := 1495992 }

/-- A snapshot at height `PledgeRevertLockEffectNumber - 2` whose tally does not match its
votes: candidate 7 holds a tally of 5 and nobody votes for it. -/
def mismatchedSnapshot : Snapshot :=
  { emptySnapshot with Number := 1495992, Hash := 1495992, Tally := AList.insert 7 5 ∅ }

/-- `posCandidateSnapshot` at height `PosNewEffectNumber - 1`. -/
def posCandidateAtUpgrade : Snapshot :=
  { posCandidateSnapshot with Number := 2558550, Hash := 2558550 }

/-- Zero values for a bundle of natural numbers. -/
def zeroNat : Field → Nat := fun _ => 0

/-- A bundle of natural numbers: every field holds 5. -/
def fiveBundle : Bundle Nat := fun _ => 5

/-- A bundle that agrees with `fiveBundle` on the fields of the oldest schema and differs
on a field added later (`StoragePledge`). -/
def fiveBundleWithPledge : Bundle Nat := fun f =>
  match f with
  | .StoragePledge => 9
  | _ => 5

/-! ## Payout cadence (`alien_setting.go` lines 5-13, 68, 124-133, 236-238) -/

def secondsPerDay : Nat := 24 * 60 * 60
def payFlowRewardInterval : Nat := 2 * 60 * 60 + 30 * 60
def utgLockRewardInterval : Nat := 30

/-- `isGEInitStorageManagerNumber`. -/
def isGEInitStorageManagerNumber (number : Nat) : Bool :=
  decide (initStorageManagerNumber ≤ number)

/-- `isPayFlowRewards`. The result is `none` when an integer division or remainder by zero
stops the program (`period = 0`, or a period longer than a day). -/
def isPayFlowRewards (number period : Nat) : Option Bool :=
  if period = 0 then none
  else
    let block := payFlowRewardInterval / period
    let blockPerDay := secondsPerDay / period
    if isGEInitStorageManagerNumber number then
      if utgLockRewardInterval * blockPerDay = 0 then none
      else some (decide (number % (utgLockRewardInterval * blockPerDay) = block))
    else
      if blockPerDay = 0 then none
      else some (decide (block = number % blockPerDay ∧ block ≠ number))

/-! ## Candidate punishment payments (`snapshot.go` lines 1296-1318, 2473-2490) -/

/-- `CandidatePunishRecord` (`custom_tx.go`): `Credit` is a `uint32`. -/
structure CandidatePunishRecord where
  Target : Address
  Amount : Int
  Credit : Nat
deriving DecidableEq, Repr

/-- `NewPledgeItem`. -/
def NewPledgeItem (amount : Int) : PledgeItem :=
  { Amount := amount, PledgeType := 0, Playment := 0, LockPeriod := 0, RlsPeriod := 0,
    Interval := 0, StartHigh := 0, TargetAddress := 0, RevenueAddress := 0,
    RevenueContract := 0, MultiSignature := 0, BurnAddress := 0, BurnRatio := some 0,
    BurnAmount := some 0 }

/-- The first statement of the loop body of `updateCandidatePunish` (lines 1298-1309): the
debt of the target is lowered by the credit bought, or deleted. -/
def payPunish (snap : Snapshot) (item : CandidatePunishRecord) (number : Nat) : Snapshot :=
  match snap.Punished.lookup item.Target with
  | some p =>
    if item.Credit % 2 ^ 32 < p then
      { snap with Punished := snap.Punished.insert item.Target (p - item.Credit % 2 ^ 32) }
    else
      let snap1 := { snap with Punished := snap.Punished.erase item.Target }
      if isGEPOSNewEffect number then
        match snap1.PosPledge with
        | some m =>
          match m.lookup item.Target with
          | some pledge =>
            { snap1 with PosPledge := some (m.insert item.Target { pledge with LastPunish := 0 }) }
          | none => snap1
        | none => snap1
      else snap1
  | none => snap

/-- The second statement of the loop body of `updateCandidatePunish` (lines 1310-1316). -/
def creditPledge (snap : Snapshot) (item : CandidatePunishRecord) (number : Nat) : Snapshot :=
  if !isGEPOSNewEffect number then
    match snap.CandidatePledge.lookup item.Target with
    | some pledge =>
      { snap with
        CandidatePledge :=
          snap.CandidatePledge.insert item.Target { pledge with Amount := pledge.Amount + item.Amount } }
    | none =>
      { snap with CandidatePledge := snap.CandidatePledge.insert item.Target (NewPledgeItem item.Amount) }
  else snap

/-- `Snapshot.updateCandidatePunish`. -/
def updateCandidatePunish (snap : Snapshot) (candidatePunish : List CandidatePunishRecord)
    (number : Nat) : Snapshot :=
  candidatePunish.foldl (fun acc item => creditPledge (payPunish acc item number) item number) snap

/-- Every recorded debt lies between 1 and `defaultFullCredit`. -/
def PunishedBounded (punished : GoMap Address Nat) : Prop :=
  ∀ a p, punished.lookup a = some p → 1 ≤ p ∧ p ≤ defaultFullCredit

/-! ## Concrete punishment scenarios -/

/-- Signers 1 and 2 share the queue, one slot each; nobody is punished. -/
def twoSignerSnapshot : Snapshot :=
  { emptySnapshot with Signers := [1, 2] }

/-- Signer 1 holds two of the three slots of the queue and a debt of 40; signer 3 is not in
the queue and owes 5. -/
def doubleSlotSnapshot : Snapshot :=
  { emptySnapshot with
    Signers := [1, 2, 1]
    Punished := AList.insert 1 40 (AList.insert 3 5 ∅) }

/-- A configuration whose Trantor switch is at height 50. -/
def trantorConfig : AlienConfig :=
  { sampleConfig with Trantor := fun n => decide (50 ≤ n) }

/-- As `doubleSlotSnapshot` with one slot per signer, under `trantorConfig`. -/
def trantorSnapshot : Snapshot :=
  { emptySnapshot with
    config := trantorConfig
    Signers := [1, 2]
    Punished := AList.insert 1 40 (AList.insert 3 5 ∅) }

/-! ## The debt of one address through `updateSnapshotForPunish` -/

/-- The effect on a debt of one listing in `signerMissing` (lines 2104-2113). -/
def missDebt (o : Option Nat) : Option Nat :=
  match o with
  | some p =>
    if (p + missingPublishCredit) % 2 ^ 64 ≤ defaultFullCredit then
      some ((p + missingPublishCredit) % 2 ^ 64)
    else some defaultFullCredit
  | none => some missingPublishCredit

/-- The effect on a debt of sealing the block (lines 2118-2124). -/
def sealDebt (o : Option Nat) : Option Nat :=
  match o with
  | some p => if signRewardCredit < p then some (p - signRewardCredit) else none
  | none => none

/-- The effect on a debt of one slot in the signer queue (lines 2128-2135). -/
def recoverDebt (o : Option Nat) : Option Nat :=
  match o with
  | some p => if autoRewardCredit < p then some (p - autoRewardCredit) else none
  | none => none

/-! ## Governance ledger (`snapshot.go` lines 1803-1944, `custom_tx.go` lines 158-165) -/

def proposalTypeCandidateAdd : Nat := 1
def proposalTypeCandidateRemove : Nat := 2
def proposalTypeMinerRewardDistributionModify : Nat := 3
def proposalTypeSideChainAdd : Nat := 4
def proposalTypeSideChainRemove : Nat := 5
def proposalTypeMinVoterBalanceModify : Nat := 6
def proposalTypeProposalDepositModify : Nat := 7
def proposalTypeRentSideChain : Nat := 8
def proposalRefundDelayLoopCount : Nat := 0
def proposalRefundExpiredLoopCount : Nat := proposalRefundDelayLoopCount + 2

/-- `Snapshot.isCandidate`. -/
def Snapshot.isCandidate (s : Snapshot) (address : Address) : Bool :=
  (s.Candidates.lookup address).isSome

/-- The body of the loop of `updateSnapshotByProposals`. `cell` is the address of the range
variable `proposal`: one variable serves the whole loop (the loop-variable rule of Go before
version 1.22, under which this code base was written), every iteration overwrites it and
stores its address under the hash of the proposal it then holds. -/
def storeProposal (headerNumber cell : Nat) (s : Snapshot) (proposal : Proposal) : Snapshot :=
  { s with
    ProposalObjs := Function.update s.ProposalObjs cell { proposal with ReceivedNumber := headerNumber }
    Proposals := s.Proposals.insert proposal.Hash cell }

/-- `Snapshot.updateSnapshotByProposals`. -/
def updateSnapshotByProposals (s : Snapshot) (proposals : List Proposal) (headerNumber : Nat) :
    Snapshot :=
  proposals.foldl (storeProposal headerNumber s.ProposalNext)
    { s with ProposalNext := s.ProposalNext + 1 }

/-- The deadline test of `updateSnapshotByDeclares` (line 1807): the header lies after the
validation window of the proposal. -/
def declareTooLate (s : Snapshot) (proposal : Proposal) (headerNumber : Nat) : Bool :=
  decide ((uint64 proposal.ReceivedNumber + proposal.ValidationLoopCnt * s.config.MaxSignerCount)
      % 2 ^ 64 < uint64 headerNumber)

/-- The inner loop of `updateSnapshotByDeclares` (lines 1811-1818). Addresses are compared
through their text form, which is one-to-one. -/
def alreadyDeclare (proposal : Proposal) (declarer : Address) : Bool :=
  proposal.Declares.any (fun v => decide (v.Declarer = declarer))

/-- The body of the loop of `updateSnapshotByDeclares`. -/
def declareStep (headerNumber : Nat) (s : Snapshot) (declare : Declare) : Snapshot :=
  match s.Proposals.lookup declare.ProposalHash with
  | some cell =>
    let proposal := s.ProposalObjs cell
    if declareTooLate s proposal headerNumber || !s.isCandidate declare.Declarer then s
    else if alreadyDeclare proposal declare.Declarer then s
    else
      { s with
        ProposalObjs := Function.update s.ProposalObjs cell
          { proposal with
            Declares := proposal.Declares ++
              [{ ProposalHash := declare.ProposalHash, Declarer := declare.Declarer,
                 Decision := declare.Decision }] } }
  | none => s

/-- `Snapshot.updateSnapshotByDeclares`. -/
def updateSnapshotByDeclares (s : Snapshot) (declares : List Declare) (headerNumber : Nat) :
    Snapshot :=
  declares.foldl (declareStep headerNumber) s

/-- The deposit refund of `calculateProposalResult` (lines 1841-1848). -/
def refundDeposit (refund : GoMap Nat (GoMap Address Int)) (number : Nat) (proposal : Proposal) :
    GoMap Nat (GoMap Address Int) :=
  let inner : GoMap Address Int :=
    match refund.lookup number with
    | some m => m
    | none => ∅
  match inner.lookup proposal.Proposer with
  | none => refund.insert number (inner.insert proposal.Proposer proposal.CurrentDeposit)
  | some v => refund.insert number (inner.insert proposal.Proposer (v + proposal.CurrentDeposit))

/-- The rent fee refund of `calculateProposalResult` (lines 1899-1900 and 1923-1924): the fee
is added to the refund entry of the proposer; without such an entry the receiver of `Add`
is nil and the program stops. -/
def refundRentFee (refund : GoMap Nat (GoMap Address Int)) (number : Nat) (proposal : Proposal) :
    Option (GoMap Nat (GoMap Address Int)) :=
  match refund.lookup number with
  | none => none
  | some inner =>
    match inner.lookup proposal.Proposer with
    | none => none
    | some v =>
      some (refund.insert number
        (inner.insert proposal.Proposer (v + (proposal.SCRentFee : Int) * 10 ^ 18)))

/-- The sum of all tallies (lines 1851-1854). -/
def tallyTotal (tally : GoMap Address Int) : Int :=
  (tally.entries.map (fun e => e.2)).sum

/-- `judegmentStake` (lines 1851-1856): two thirds of the total tally, by the Euclidean
division of `big.Int.Div`. -/
def judegmentStake (tally : GoMap Address Int) : Int :=
  (tallyTotal tally * 2) / 3

/-- `yesDeclareStake` (lines 1858-1865). -/
def yesDeclareStake (tally : GoMap Address Int) (declares : List Declare) : Int :=
  declares.foldl
    (fun acc declare =>
      if declare.Decision then
        match tally.lookup declare.Declarer with
        | some t => acc + t
        | none => acc
      else acc)
    0

/-- The branch of `calculateProposalResult` for a passed rent proposal whose side chain is
recorded (lines 1901-1914). `big.Int.Div` stops the program on a zero divisor. -/
def rentSideChain (s : Snapshot) (headerNumber : Nat) (proposal : Proposal) (record : SCRecord) :
    Option Snapshot :=
  if proposal.SCRentLength = 0 then none
  else
    let rentFee : Int := (proposal.SCRentFee : Int) * 10 ^ 18
    let rentPerPeriod : Int := rentFee / (proposal.SCRentLength : Int)
    let maxRewardNumber : Int := (headerNumber : Int) + (proposal.SCRentLength : Int)
    let record1 : SCRecord :=
      { record with
        RentReward := record.RentReward.insert proposal.Hash
          { RentPerPeriod := rentPerPeriod, MaxRewardNumber := maxRewardNumber } }
    let notice : CCNotice :=
      match s.SCNoticeMap.lookup proposal.SCHash with
      | some n => n
      | none => { CurrentCharging := ∅, ConfirmReceived := ∅ }
    let notice1 : CCNotice :=
      { notice with
        CurrentCharging := notice.CurrentCharging.insert proposal.Hash
          { Target := proposal.TargetAddress
            Volume := (proposal.SCRentFee * proposal.SCRentRate) % 2 ^ 64
            Hash := proposal.Hash } }
    some { s with
      SCRecordMap := s.SCRecordMap.insert proposal.SCHash record1
      SCNoticeMap := s.SCNoticeMap.insert proposal.SCHash notice1 }

/-- The typed effect of a passed proposal (lines 1867-1917). -/
def applyPassed (candidateNeedPD : Bool) (headerNumber : Nat) (s : Snapshot)
    (proposal : Proposal) : Option Snapshot :=
  if proposal.ProposalType = proposalTypeCandidateAdd then
    if candidateNeedPD then
      some { s with Candidates := s.Candidates.insert proposal.TargetAddress candidateStateNormal }
    else some s
  else if proposal.ProposalType = proposalTypeCandidateRemove then
    if (s.Candidates.lookup proposal.TargetAddress).isSome && candidateNeedPD then
      some { s with Candidates := s.Candidates.erase proposal.TargetAddress }
    else some s
  else if proposal.ProposalType = proposalTypeMinerRewardDistributionModify then
    some { s with MinerReward := proposal.MinerRewardPerThousand }
  else if proposal.ProposalType = proposalTypeSideChainAdd then
    match s.SCRecordMap.lookup proposal.SCHash with
    | none =>
      some { s with
        SCRecordMap := s.SCRecordMap.insert proposal.SCHash
          { Record := ∅, LastConfirmedNumber := 0, MaxHeaderNumber := 0,
            CountPerPeriod := proposal.SCBlockCountPerPeriod,
            RewardPerPeriod := proposal.SCBlockRewardPerPeriod, RentReward := ∅ } }
    | some record =>
      some { s with
        SCRecordMap := s.SCRecordMap.insert proposal.SCHash
          { record with
            CountPerPeriod := proposal.SCBlockCountPerPeriod
            RewardPerPeriod := proposal.SCBlockRewardPerPeriod } }
  else if proposal.ProposalType = proposalTypeSideChainRemove then
    some { s with SCRecordMap := s.SCRecordMap.erase proposal.SCHash }
  else if proposal.ProposalType = proposalTypeMinVoterBalanceModify then
    some { s with MinVB := (proposal.MinVoterBalance : Int) * 10 ^ 18 }
  else if proposal.ProposalType = proposalTypeProposalDepositModify then some s
  else if proposal.ProposalType = proposalTypeRentSideChain then
    match s.SCRecordMap.lookup proposal.SCHash with
    | none =>
      (refundRentFee s.ProposalRefund (uint64 headerNumber) proposal).map
        (fun refund => { s with ProposalRefund := refund })
    | some record => rentSideChain s headerNumber proposal record
  else some s

/-- The branch of a proposal that reached its deadline without passing (lines 1918-1929). -/
def applyFailed (headerNumber : Nat) (s : Snapshot) (proposal : Proposal) : Option Snapshot :=
  if proposal.ProposalType = proposalTypeRentSideChain then
    (refundRentFee s.ProposalRefund (uint64 headerNumber) proposal).map
      (fun refund => { s with ProposalRefund := refund })
  else some s

/-- The deadline test of `calculateProposalResult` (line 1839). -/
def proposalDue (s : Snapshot) (proposal : Proposal) (headerNumber : Nat) : Bool :=
  decide ((uint64 proposal.ReceivedNumber + proposal.ValidationLoopCnt * s.config.MaxSignerCount + 1)
      % 2 ^ 64 = uint64 headerNumber)

/-- The body of the loop of `calculateProposalResult` for the key `hashKey`. -/
def proposalResultStep (candidateNeedPD : Bool) (headerNumber : Nat) (s : Snapshot)
    (hashKey : Hash) : Option Snapshot :=
  match s.Proposals.lookup hashKey with
  | none => some s
  | some cell =>
    let proposal := s.ProposalObjs cell
    if proposalDue s proposal headerNumber then
      let s1 := { s with
        ProposalRefund := refundDeposit s.ProposalRefund (uint64 headerNumber) proposal }
      let resolved :=
        if judegmentStake s1.Tally < yesDeclareStake s1.Tally proposal.Declares then
          applyPassed candidateNeedPD headerNumber s1 proposal
        else applyFailed headerNumber s1 proposal
      resolved.map (fun s2 => { s2 with Proposals := s2.Proposals.erase hashKey })
    else some s

/-- `Snapshot.calculateProposalResult`, visiting the keys of `Proposals` in the given
order; `none` when the program stops. -/
def calculateProposalResultIn (candidateNeedPD : Bool) (order : List Hash) (s : Snapshot)
    (headerNumber : Nat) : Option Snapshot :=
  let expiredHeaderNumber :=
    uint64Sub (uint64 headerNumber) ((proposalRefundExpiredLoopCount * s.config.MaxSignerCount) % 2 ^ 64)
  order.foldlM (proposalResultStep candidateNeedPD headerNumber)
    { s with ProposalRefund := s.ProposalRefund.erase expiredHeaderNumber }

/-- `Snapshot.calculateProposalResult`, visiting the keys in the order of the table. -/
def calculateProposalResult (candidateNeedPD : Bool) (s : Snapshot) (headerNumber : Nat) :
    Option Snapshot :=
  calculateProposalResultIn candidateNeedPD s.Proposals.keys s headerNumber

/-- The governance statements of the per-header loop of `apply` (lines 958-962 and 979), in
their order; the side-chain statements between them do not touch `Proposals`. -/
def applyGovernance (candidateNeedPD : Bool) (s : Snapshot) (proposals : List Proposal)
    (declares : List Declare) (headerNumber : Nat) : Option Snapshot :=
  calculateProposalResult candidateNeedPD
    (updateSnapshotByDeclares (updateSnapshotByProposals s proposals headerNumber) declares
      headerNumber)
    headerNumber

/-- `ProposalRefund[number][address]`, zero when there is no such entry. -/
def refundOf (refund : GoMap Nat (GoMap Address Int)) (number : Nat) (address : Address) : Int :=
  match refund.lookup number with
  | some inner => (inner.lookup address).getD 0
  | none => 0

/-- The yes-weight of a list of declares in the words of the specification: the sum of
`Tally[d]` over the declares with decision yes whose declarer has a `Tally` entry. -/
def yesWeight (tally : GoMap Address Int) (declares : List Declare) : Int :=
  ((declares.filter (fun d => d.Decision && (tally.lookup d.Declarer).isSome)).map
    (fun d => (tally.lookup d.Declarer).getD 0)).sum

/-! ## Concrete governance scenarios -/

/-- A configuration with one signer, so that a validation loop count is a number of blocks. -/
def governanceConfig : AlienConfig :=
  { sampleConfig with MaxSignerCount := 1 }

/-- Candidates 1, 2 and 3 hold a tally of 10 each; no proposal is open. -/
def governanceSnapshot : Snapshot :=
  { emptySnapshot with
    config := governanceConfig
    Candidates := AList.insert 1 1 (AList.insert 2 1 (AList.insert 3 1 ∅))
    Tally := AList.insert 1 10 (AList.insert 2 10 (AList.insert 3 10 ∅)) }

/-- A proposal of candidate 1 with deposit 100 and validation loop count 4. -/
def proposalA : Proposal :=
  { blankProposal with
    Hash := 101, CurrentDeposit := 100, ValidationLoopCnt := 4,
    ProposalType := proposalTypeProposalDepositModify, Proposer := 1 }

/-- A proposal of candidate 2 with deposit 100 and validation loop count 5. -/
def proposalB : Proposal :=
  { blankProposal with
    Hash := 102, CurrentDeposit := 100, ValidationLoopCnt := 5,
    ProposalType := proposalTypeProposalDepositModify, Proposer := 2 }

/-- The snapshots after the headers 10, 11, ...: header 10 carries the given proposals, the
later headers carry none, and no header carries a declare. -/
def governanceTrace (proposals : List Proposal) : Nat → Option Snapshot
  | 0 => applyGovernance false governanceSnapshot proposals [] 10
  | n + 1 =>
    (governanceTrace proposals n).bind (fun s => applyGovernance false s [] [] (10 + (n + 1)))

/-- A request of candidate 1, received at height 10 with deposit 100 and validation loop
count 4, to rent side chain 9 for a fee of 3 coins over 5 blocks. -/
def rentProposal : Proposal :=
  { blankProposal with
    Hash := 201, ReceivedNumber := 10, CurrentDeposit := 100, ValidationLoopCnt := 4,
    ProposalType := proposalTypeRentSideChain, Proposer := 1, SCHash := 9, SCRentFee := 3,
    SCRentRate := 1, SCRentLength := 5 }

/-- `governanceSnapshot` with `rentProposal` open and no declare received. -/
def failedRentSnapshot : Snapshot :=
  { governanceSnapshot with
    Proposals := AList.insert 201 0 ∅
    ProposalObjs := Function.update governanceSnapshot.ProposalObjs 0 rentProposal
    ProposalNext := 1 }

/-- `governanceSnapshot` with `rentProposal` open and approved by all three candidates; no
side chain is recorded. -/
def passedRentSnapshot : Snapshot :=
  { governanceSnapshot with
    Proposals := AList.insert 201 0 ∅
    ProposalObjs := Function.update governanceSnapshot.ProposalObjs 0
      { rentProposal with Declares := [⟨201, 1, true⟩, ⟨201, 2, true⟩, ⟨201, 3, true⟩] }
    ProposalNext := 1 }

/-! ## Pledge ledger (`snapshot.go` lines 2624-2677 and 2973-3053, `custom_tx.go` lines 365-398) -/

/-- `CandidatePledgeNewRecord`. -/
structure CandidatePledgeNewRecord where
  Target : Address
  Amount : Int
  Manager : Address
  Hash : Hash
deriving DecidableEq, Repr

/-- `CandidatePledgeEntrustRecord`. -/
structure CandidatePledgeEntrustRecord where
  Target : Address
  Amount : Int
  Address : Address
  Hash : Hash
deriving DecidableEq, Repr

/-- `CandidatePEntrustExitRecord`. -/
structure CandidatePEntrustExitRecord where
  Target : Address
  Hash : Hash
  Address : Address
  Amount : Int
deriving DecidableEq, Repr

/-- The value of `POSTransferRecord.TargetType`, by the constant it equals
(`TargetTypePos`, `TargetTypeSp`, `TargetTypeSn`, declared outside the translated sources)
or none of them. -/
inductive TargetType where
  | pos
  | sp
  | sn
  | other
deriving DecidableEq, Repr

/-- `POSTransferRecord`. -/
structure POSTransferRecord where
  Address : Address
  PledgeHash : Hash
  Original : Alien.Address
  TargetType : TargetType
  Target : Alien.Address
  TargetHash : Hash
  PledgeAmount : Int
  LockAmount : Int
deriving DecidableEq, Repr

/-- The body of the loop of `updateCandidatePledgeNew`, on the pledge map (the miner tally it
also fills lies outside this model). -/
def pledgeNewStep (number : Nat) (m : GoMap Address PosPledgeItem)
    (item : CandidatePledgeNewRecord) : GoMap Address PosPledgeItem :=
  match m.lookup item.Target with
  | some _ => m
  | none =>
    m.insert item.Target
      { Manager := item.Manager
        Active := number
        TotalAmount := item.Amount
        Detail := AList.insert item.Hash
          { Address := item.Manager, Height := number, Amount := item.Amount } ∅
        LastPunish := 0
        DisRate := posDistributionDefaultRate }

/-- `Snapshot.updateCandidatePledgeNew`; the first record written into the nil map stops
the program. -/
def updateCandidatePledgeNew (snap : Snapshot) (candidatePledge : List CandidatePledgeNewRecord)
    (number : Nat) : Option Snapshot :=
  match candidatePledge with
  | [] => some snap
  | _ :: _ =>
    match snap.PosPledge with
    | none => none
    | some m => some { snap with PosPledge := some (candidatePledge.foldl (pledgeNewStep number) m) }

/-- The body of the loop of `updateCandidatePledgeEntrust`. -/
def pledgeEntrustStep (number : Nat) (m : GoMap Address PosPledgeItem)
    (item : CandidatePledgeEntrustRecord) : GoMap Address PosPledgeItem :=
  match m.lookup item.Target with
  | some pledge =>
    m.insert item.Target
      { pledge with
        Detail := pledge.Detail.insert item.Hash
          { Address := item.Address, Height := number, Amount := item.Amount }
        TotalAmount := pledge.TotalAmount + item.Amount }
  | none => m

/-- `Snapshot.updateCandidatePledgeEntrust`. -/
def updateCandidatePledgeEntrust (snap : Snapshot)
    (candidatePledge : List CandidatePledgeEntrustRecord) (number : Nat) : Snapshot :=
  { snap with PosPledge := snap.PosPledge.map (fun m => candidatePledge.foldl (pledgeEntrustStep number) m) }

/-- `Snapshot.isInTally`. -/
def Snapshot.isInTally (s : Snapshot) (minerAddress : Address) : Bool :=
  (s.Tally.lookup minerAddress).isSome

/-- The body of the loop of `updateCandidatePEntrustExit`, on the pledge map (the exit lock it
also records lies outside this model). -/
def pledgeExitStep (snap : Snapshot) (item : CandidatePEntrustExitRecord) : Snapshot :=
  match snap.PosPledge with
  | none => snap
  | some m =>
    match m.lookup item.Target with
    | none => snap
    | some pledge =>
      let pledge1 :=
        match pledge.Detail.lookup item.Hash with
        | some _ =>
          { pledge with
            TotalAmount := pledge.TotalAmount - item.Amount
            Detail := pledge.Detail.erase item.Hash }
        | none => pledge
      let snap1 := { snap with PosPledge := some (m.insert item.Target pledge1) }
      if !snap1.isInTally item.Target && decide (pledge1.TotalAmount ≤ 0) then
        removePosPledge snap1 item.Target
      else snap1

/-- `Snapshot.updateCandidatePEntrustExit`. -/
def updateCandidatePEntrustExit (snap : Snapshot)
    (candidatePledge : List CandidatePEntrustExitRecord) (_headerNumber : Nat) : Snapshot :=
  candidatePledge.foldl pledgeExitStep snap

/-- The first statement of the loop body of `updatePOSTransfer` (lines 2981-2989), on the
pledge map: the pledge arrives at a candidate. The branches for the other two target
types change ledgers outside this model. -/
def posTransferIn (number : Nat) (m : GoMap Address PosPledgeItem) (record : POSTransferRecord) :
    GoMap Address PosPledgeItem :=
  if record.TargetType = TargetType.pos then
    match m.lookup record.Target with
    | some posItem =>
      m.insert record.Target
        { posItem with
          Detail := posItem.Detail.insert record.PledgeHash
            { Address := record.Address, Height := uint64 number, Amount := record.PledgeAmount }
          TotalAmount := posItem.TotalAmount + record.PledgeAmount }
    | none => m
  else m

/-- The statement of the loop body of `updatePOSTransfer` for the original candidate (lines
3028-3041), on the pledge map: every detail of the sender is deleted and the total is
lowered by the amounts of the record. -/
def posTransferOut (m : GoMap Address PosPledgeItem) (record : POSTransferRecord) :
    GoMap Address PosPledgeItem :=
  match m.lookup record.Original with
  | some se =>
    m.insert record.Original
      { se with
        Detail := deleteWhere (fun _ detail => decide (record.Address = detail.Address)) se.Detail
        TotalAmount := se.TotalAmount - (record.LockAmount + record.PledgeAmount) }
  | none => m

/-- The body of the loop of `updatePOSTransfer`. -/
def posTransferStep (number : Nat) (m : GoMap Address PosPledgeItem) (record : POSTransferRecord) :
    GoMap Address PosPledgeItem :=
  posTransferOut (posTransferIn number m record) record

/-- `Snapshot.updatePOSTransfer`. -/
def updatePOSTransfer (s : Snapshot) (posTransferRecord : List POSTransferRecord) (number : Nat) :
    Snapshot :=
  { s with PosPledge := s.PosPledge.map (fun m => posTransferRecord.foldl (posTransferStep number) m) }

/-- Σ Detail[*].Amount. -/
def detailSum (detail : GoMap Hash PledgeDetail) : Int :=
  (detail.entries.map (fun e => e.2.Amount)).sum

/-- The sum of the amounts of the details owned by `address`. -/
def ownedSum (detail : GoMap Hash PledgeDetail) (address : Address) : Int :=
  ((detail.entries.filter (fun e => decide (address = e.2.Address))).map (fun e => e.2.Amount)).sum

/-- Pledge conservation on a pledge map: `TotalAmount = Σ Detail[*].Amount` for every item. -/
def PledgeConserved (m : GoMap Address PosPledgeItem) : Prop :=
  ∀ a item, m.lookup a = some item → item.TotalAmount = detailSum item.Detail

/-- Pledge conservation on a snapshot. -/
def Snapshot.PledgeConserved (s : Snapshot) : Prop :=
  ∀ m, s.PosPledge = some m → Alien.PledgeConserved m

/-- A record list fits a fold when every record meets the condition `fits` in the state in
which the fold reaches it. -/
def FitsAll {σ ρ : Type} (step : σ → ρ → σ) (fits : σ → ρ → Prop) : σ → List ρ → Prop
  | _, [] => True
  | state, r :: rs => fits state r ∧ FitsAll step fits (step state r) rs

/-- An entrust record fits when its hash is not yet a key of the details of its target. -/
def EntrustFits (m : GoMap Address PosPledgeItem) (item : CandidatePledgeEntrustRecord) : Prop :=
  ∀ pledge, m.lookup item.Target = some pledge → pledge.Detail.lookup item.Hash = none

/-- An exit record fits when its amount is the amount of the detail it removes. -/
def ExitFits (snap : Snapshot) (item : CandidatePEntrustExitRecord) : Prop :=
  ∀ m pledge detail, snap.PosPledge = some m → m.lookup item.Target = some pledge →
    pledge.Detail.lookup item.Hash = some detail → detail.Amount = item.Amount

/-- A transfer record fits when its pledge hash is not yet a key of the details of a
candidate it arrives at, and the amount it takes from the original candidate,
`LockAmount + PledgeAmount`, is the sum of the details of the sender deleted there. -/
def TransferFits (number : Nat) (m : GoMap Address PosPledgeItem) (record : POSTransferRecord) :
    Prop :=
  (record.TargetType = TargetType.pos → ∀ posItem, m.lookup record.Target = some posItem →
    posItem.Detail.lookup record.PledgeHash = none) ∧
  (∀ se, (posTransferIn number m record).lookup record.Original = some se →
    record.LockAmount + record.PledgeAmount = ownedSum se.Detail record.Address)

/-! ## Concrete pledge scenarios -/

/-- A pledge of 100 made by its manager 5 under hash 1. -/
def samplePledgeItem : PosPledgeItem :=
  { Manager := 5
    Active := 0
    TotalAmount := 100
    Detail := AList.insert 1 { Address := 5, Height := 0, Amount := 100 } ∅
    LastPunish := 0
    DisRate := posDistributionDefaultRate }

/-- Candidate 5 holds `samplePledgeItem` and is not in the tally. -/
def pledgeSnapshot : Snapshot :=
  { emptySnapshot with PosPledge := some (AList.insert 5 samplePledgeItem ∅) }

/-- Pledge conservation on a snapshot, as a test on the entries of the pledge map. -/
def pledgeConservedB (s : Snapshot) : Bool :=
  match s.PosPledge with
  | none => true
  | some m => m.entries.all (fun e => decide (e.2.TotalAmount = detailSum e.2.Detail))

/-- The deadline test of `calculateProposalResult` for the proposal stored under `hashKey`;
false when the key is absent. -/
def dueAt (s : Snapshot) (headerNumber : Nat) (hashKey : Hash) : Bool :=
  match s.Proposals.lookup hashKey with
  | some cell => proposalDue s (s.ProposalObjs cell) headerNumber
  | none => false

/-- The key `hashKey` is open: it points to an object handed out earlier that records the
receiving height `received` and the validation loop count `loopCnt`. -/
def OpenProposal (s : Snapshot) (hashKey : Hash) (cell received loopCnt : Nat) : Prop :=
  s.Proposals.lookup hashKey = some cell ∧ cell < s.ProposalNext ∧
  (s.ProposalObjs cell).ReceivedNumber = received ∧
  (s.ProposalObjs cell).ValidationLoopCnt = loopCnt

/-! ## Payout cadence of the signer and bandwidth streams (`alien_setting.go` lines 11-13, 113-143) -/

def paySignerRewardInterval : Nat := 0
def payBandwidthRewardInterval : Nat := 1 * 60 * 60 + 30 * 60

/-- `isPayBandWidthRewards`; `none` when a division or remainder by zero stops the program. -/
def isPayBandWidthRewards (number period : Nat) : Option Bool :=
  if period = 0 then none
  else
    let block := payBandwidthRewardInterval / period
    let blockPerDay := secondsPerDay / period
    if isGEInitStorageManagerNumber number then
      if utgLockRewardInterval * blockPerDay = 0 then none
      else some (decide (number % (utgLockRewardInterval * blockPerDay) = block))
    else
      if blockPerDay = 0 then none
      else some (decide (block = number % blockPerDay ∧ block ≠ number))

/-- `isPaySignerRewards`; `none` when a division or remainder by zero stops the program. -/
def isPaySignerRewards (number period : Nat) : Option Bool :=
  if period = 0 then none
  else
    let block := paySignerRewardInterval / period
    let blockPerDay := secondsPerDay / period
    if isGEInitStorageManagerNumber number then
      if utgLockRewardInterval * blockPerDay = 0 then none
      else some (decide (number % (utgLockRewardInterval * blockPerDay) = block))
    else
      if blockPerDay = 0 then none
      else some (decide (block = number % blockPerDay ∧ block ≠ number))

/-- The payout predicate in the words of the specification: the height is congruent to the
offset of the stream modulo the epoch and is not the offset itself; the epoch is one day
of blocks before `initStorageManagerNumber` and thirty days of blocks from there on. -/
def payoutFormula (offset number period : Nat) : Bool :=
  let epochBlocks :=
    if number < initStorageManagerNumber then secondsPerDay / period
    else utgLockRewardInterval * (secondsPerDay / period)
  decide (number % epochBlocks = offset / period ∧ number ≠ offset / period)

/-! ## Side-chain reward table (`snapshot.go` lines 59, 266-274, 1732-1741) -/

def scMaxCountPerPeriod : Nat := 6

/-- `SCCurrentBlockReward`: period length, then position in the period, to score. -/
def SCCurrentBlockReward : GoMap Nat (GoMap Nat Nat) :=
  AList.insert 1 (AList.insert 1 100 ∅)
  (AList.insert 2 (AList.insert 1 30 (AList.insert 2 70 ∅))
  (AList.insert 3 (AList.insert 1 15 (AList.insert 2 30 (AList.insert 3 55 ∅)))
  (AList.insert 4 (AList.insert 1 5 (AList.insert 2 15 (AList.insert 3 30 (AList.insert 4 50 ∅))))
  (AList.insert 5
    (AList.insert 1 5 (AList.insert 2 10 (AList.insert 3 15 (AList.insert 4 25
      (AList.insert 5 45 ∅)))))
  (AList.insert 6
    (AList.insert 1 1 (AList.insert 2 4 (AList.insert 3 10 (AList.insert 4 15
      (AList.insert 5 25 (AList.insert 6 45 ∅))))))
   ∅)))))

/-- `Snapshot.calculateCurrentBlockReward` (the receiver is not read). -/
def calculateCurrentBlockReward (currentCount periodCount : Nat) : Nat :=
  let periodCount := if scMaxCountPerPeriod < periodCount then scMaxCountPerPeriod else periodCount
  match SCCurrentBlockReward.lookup periodCount with
  | some row =>
    match row.lookup currentCount with
    | some v => v
    | none => 0
  | none => 0

/-! ## Intent decoder: payload grammar (`custom_tx.go` lines 40-157 and 907) -/

def ufoVersion : String := "1"
def ufoPrefix : String := "ufo"
def utgPrefix : String := "UTG"
def sscPrefix : String := "SSC"
def ufoCategoryEvent : String := "event"
def ufoCategoryLog : String := "oplog"
def ufoCategorySC : String := "sc"
def ufoEventVote : String := "vote"
def ufoEventConfirm : String := "confirm"
def ufoEventPorposal : String := "proposal"
def ufoEventDeclare : String := "declare"
def ufoEventSetCoinbase : String := "setcb"
def ufoEventDelCoinbase : String := "delcb"
def ufoEventFlowReport1 : String := "flwrpt"
def ufoEventFlowReport2 : String := "flwrptm"
def nfcCategoryExch : String := "Exch"
def nfcCategoryMultiSign : String := "Multi"
def nfcCategoryBind : String := "Bind"
def nfcCategoryUnbind : String := "Unbind"
def nfcCategoryRebind : String := "Rebind"
def nfcCategoryCandReq : String := "CandReq"
def nfcCategoryCandExit : String := "CandExit"
def nfcCategoryCandPnsh : String := "CandPnsh"
def nfcCategoryFlwReq : String := "FlwReq"
def nfcCategoryFlwExit : String := "FlwExit"
def categoryCandEntrust : String := "CandEntrust"
def categoryCandEntrustExit : String := "CandETExit"
def categoryCandChangeRate : String := "CandChaRate"
def categoryCandPoSwtfd : String := "PoSwtfd"
def sscCategoryExchRate : String := "ExchRate"
def sscCategoryDeposit : String := "Deposit"
def sscCategoryCndLock : String := "CndLock"
def sscCategoryFlwLock : String := "FlwLock"
def sscCategoryRwdLock : String := "RwdLock"
def sscCategoryOffLine : String := "OffLine"
def sscCategoryQOS : String := "QOS"
def sscCategoryWdthPnsh : String := "WdthPnsh"
def sscCategoryManager : String := "Manager"

def ufoMinSplitLen : Nat := 3
def posPrefix : Nat := 0
def posVersion : Nat := 1
def posCategory : Nat := 2
def posEventVote : Nat := 3
def posEventConfirm : Nat := 3
def posEventProposal : Nat := 3
def posEventDeclare : Nat := 3
def posEventSetCoinbase : Nat := 3
def posEventConfirmNumber : Nat := 4
def posEventFlowReport : Nat := 3
def nfcPosMinerAddress : Nat := 3
def nfcPosRevenueType : Nat := 4
def nfcPosRevenueContract : Nat := 5
def nfcPosMiltiSign : Nat := 6
def nfcPosRevenueAddress : Nat := 7
def sscPosExchRate : Nat := 3
def sscPosDeposit : Nat := 3
def sscPosDepositWho : Nat := 4
def sscPosLockPeriod : Nat := 3
def sscPosRlsPeriod : Nat := 4
def sscPosInterval : Nat := 5
def sscPosOffLine : Nat := 3
def sscPosQosID : Nat := 3
def sscPosQosValue : Nat := 4
def sscPosWdthPnsh : Nat := 4
def sscEnumCndLock : Nat := 0
def sscEnumFlwLock : Nat := 1
def sscEnumRwdLock : Nat := 2
def sscEnumBndwdthPunish : Nat := 1
def sscEnumExchRate : Nat := 0
def sscEnumSystem : Nat := 1
def sscEnumWdthPnsh : Nat := 2
def sscEnumFlowReport : Nat := 3
def tallyRevenueEffectBlockNumber : Nat := 516460

/-- `minSCSetCoinbaseValue = big.NewInt(5e+18)`. -/
def minSCSetCoinbaseValue : Int := 5000000000000000000

/-- `types.ReceiptStatusFailed`. -/
def ReceiptStatusFailed : Nat := 0

/-- The pieces of a text between the occurrences of the separator `sep`. -/
def splitChars (sep : Char) : List Char → List (List Char)
  | [] => [[]]
  | c :: cs =>
    if c = sep then [] :: splitChars sep cs
    else
      match splitChars sep cs with
      | [] => [[c]]
      | w :: ws => (c :: w) :: ws

/-- `strings.Split(s, sep)` for a separator of one byte. -/
def stringsSplit (s : String) (sep : Char) : List String :=
  (splitChars sep s.data).map String.mk

/-- `txDataInfo[i]`. Every index the decoders read lies below a length they have checked
before; the default stands for no reachable read. -/
def fieldAt (txDataInfo : List String) (i : Nat) : String := txDataInfo.getD i ""

/-! ## Intent decoder: transactions, receipts, state and collaborators -/

/-- `types.Transaction`: the values of the accessors the decoder calls. `To = none` is the
nil recipient of a contract creation; `Sender` is the result of
`types.Sender(types.NewEIP155Signer(tx.ChainId()), tx)`, `none` for an error; `Data` is
`string(tx.Data())`. -/
structure Transaction where
  Hash : Hash
  To : Option Address
  Value : Int
  GasPrice : Int
  Data : String
  Sender : Option Address
  AllSigners : List Address
deriving DecidableEq, Repr

/-- `types.Log` as `addCustomerTxLog` fills it: topics and data as numbers (`Data` word by
word), the transaction hash and the position among the logs of the receipt. -/
structure Log where
  Topics : List Nat
  Data : List Nat
  TxHash : Hash
  Index : Nat
deriving DecidableEq, Repr

/-- `types.Receipt`: the fields the decoder reads or writes. -/
structure Receipt where
  TxHash : Hash
  Status : Nat
  GasUsed : Nat
  Logs : List Log
deriving DecidableEq, Repr

/-- `state.StateDB`, by the values its accessors return (`GetBalance`, `GetNonce`,
`GetCodeHash`, `GetCode`, `Empty`). -/
structure StateDB where
  Balance : Address → Int
  Nonce : Address → Nat
  CodeHash : Address → Hash
  Code : Address → List Nat
  Empty : Address → Bool

/-- `consensus.MultiSignatureData`; `Threshold` is a `uint32`. -/
structure MultiSignatureData where
  Threshold : Nat
  MultiSigners : List Address
deriving DecidableEq, Repr

/-- `RefundPair` (`custom_tx.go` lines 190-193). -/
structure RefundPair where
  Sender : Address
  GasPrice : Int
deriving DecidableEq, Repr

/-- `RefundHash` (`custom_tx.go` line 196). -/
abbrev RefundHash := GoMap Hash RefundPair

/-- `RefundGas` (`custom_tx.go` line 187). -/
abbrev RefundGas := GoMap Address Int

/-- What `processCustomTx` carries from one transaction to the next: the bundle under
construction, the objects behind the pointers `snap` (the parent snapshot) and `snapCache`
(the working copy), the state database, the receipts and the refund table. -/
structure TxState where
  headerExtra : HeaderExtra
  snap : Snapshot
  snapCache : Snapshot
  state : StateDB
  receipts : List Receipt
  refundHash : RefundHash

/-- The decoders called by `processCustomTx` that are outside this model, named by the
branch of the dispatch that calls them. -/
inductive Intent where
  /-- `processEventProposal`. -/
  | eventProposal
  /-- `processEventDeclare`. -/
  | eventDeclare
  /-- `processFlowReport1` and the refund entry it grants. -/
  | flowReport1
  /-- `processFlowReport2` and the refund entry it grants. -/
  | flowReport2
  /-- `processExchangeNFC`. -/
  | exchangeNFC
  /-- `processCreateMultiSignature`. -/
  | createMultiSignature
  /-- `processCandidatePledgeNew`. -/
  | candidatePledgeNew
  /-- `processCandidatePledge`. -/
  | candidatePledge
  /-- `processCandidateExitNew`. -/
  | candidateExitNew
  /-- `processCandidateExit`. -/
  | candidateExit
  /-- `processCandidatePunish`. -/
  | candidatePunish
  /-- `processMinerPledge`. -/
  | minerPledge
  /-- `processMinerExit`. -/
  | minerExit
  /-- `processStorageCustomTx`. -/
  | storageCustomTx
  /-- `processCandidateWtfd`. -/
  | candidateWtfd
  /-- `processCandidatePledgeEntrust`. -/
  | candidatePledgeEntrust
  /-- `processCandidatePEntrustExit`. -/
  | candidatePEntrustExit
  /-- `processCandidateChangeRate`. -/
  | candidateChangeRate
  /-- `processSPCustomTx`. -/
  | sPCustomTx
  /-- `processManagerAddress`. -/
  | managerAddress
deriving DecidableEq, Repr

/-- The receiver `a *Alien` of the decoder: its configuration, together with the
collaborators whose code lies outside the translated sources (the chain reader, the codec
of the header bundle, the text parsers of the libraries) and the decoders outside this
model. A parser returns `none` where the library returns an error; a decoder outside the
model returns `none` where it stops the program. -/
structure Engine where
  config : AlienConfig
  /-- package constant `candidateNeedPD`. -/
  candidateNeedPD : Bool
  /-- package variable `minerRewardPerThousand`. -/
  minerRewardPerThousand : Nat
  /-- package constant `extraVanity`. -/
  extraVanity : Nat
  /-- package constant `extraSeal`. -/
  extraSeal : Nat
  /-- `crypto.Keccak256Hash(nil)`. -/
  emptyCodeHash : Hash
  /-- `chain.GetHeaderByNumber(n)`: the field `Extra` of the header, `none` for nil. -/
  GetHeaderByNumber : Nat → Option (List Nat)
  /-- `decodeHeaderExtra(a.config, number, payload, &extra)`. -/
  decodeHeaderExtra : Int → List Nat → Except Error HeaderExtra
  /-- `(*big.Int).UnmarshalText`. -/
  bigUnmarshalText : String → Option Int
  /-- `strconv.ParseUint(s, base, bitSize)`. -/
  ParseUint : String → Nat → Nat → Option Nat
  /-- `(*common.Address).UnmarshalText1`. -/
  addressUnmarshalText1 : String → Option Address
  /-- `hexutil.UnmarshalText1`. -/
  hexutilUnmarshalText1 : String → Option Int
  /-- `common.HexToHash`. -/
  HexToHash : String → Hash
  /-- `rlp.DecodeBytes(code, &parameter)` for a `consensus.MultiSignatureData`. -/
  rlpDecodeMultiSignatureData : List Nat → Option MultiSignatureData
  /-- `a.checkMaxStorageSpaceByAddr(alreadybind, snap, common.Big0) == nil`. -/
  checkMaxStorageSpaceByAddr : GoMap Address Nat → Snapshot → Bool
  /-- the decoders outside this model. -/
  handlers : Intent → List String → Address → Transaction → Nat → TxState → Option TxState

/-- `Snapshot.isVoter` (`snapshot.go` lines 2179-2184). -/
def Snapshot.isVoter (s : Snapshot) (address : Address) : Bool :=
  (s.Voters.lookup address).isSome

/-- `snap.SystemConfig.ManagerAddress[topic]`: the zero address when nothing is recorded. -/
def Snapshot.managerAddress (snap : Snapshot) (topic : Nat) : Address :=
  (snap.SystemConfig.ManagerAddress.lookup topic).getD 0

/-- `addCustomerTxLog` (`custom_tx.go` lines 1882-1906): the receipts after the call and the
returned flag. -/
def addCustomerTxLog (tx : Transaction) (receipts : List Receipt) (topics : List Nat)
    (data : List Nat) : List Receipt × Bool :=
  match receipts with
  | [] => ([], false)
  | receipt :: rest =>
    if receipt.TxHash ≠ tx.Hash then
      ((receipt :: (addCustomerTxLog tx rest topics data).1),
        (addCustomerTxLog tx rest topics data).2)
    else if receipt.Status = ReceiptStatusFailed then (receipt :: rest, false)
    else
      ({ receipt with
          Logs := receipt.Logs ++ [⟨topics, data, tx.Hash, receipt.Logs.length⟩] } :: rest,
        true)

/-! ## Multi-signature check (`custom_tx.go` lines 1908-1935) -/

/-- The body of the loop over `signers`: `(okNumber, okAddress)` after one more signer. -/
def multiSignStep (assistAddress : GoMap Address Bool) (acc : Nat × GoMap Address Bool)
    (signer : Address) : Nat × GoMap Address Bool :=
  if (acc.2.lookup signer).isSome then acc
  else if (assistAddress.lookup signer).isSome then (acc.1 + 1, acc.2.insert signer true)
  else acc

/-- `verifyMultiSignatureAddress`. -/
def verifyMultiSignatureAddress (a : Engine) (state : StateDB) (address : Address)
    (signers : List Address) : Bool :=
  if state.Empty address then false
  else
    let contractHash := state.CodeHash address
    if state.Nonce address ≠ 1 ∨ contractHash = 0 ∨ contractHash = a.emptyCodeHash then false
    else
      match a.rlpDecodeMultiSignatureData (state.Code address) with
      | none => false
      | some parameter =>
        let assistAddress : GoMap Address Bool :=
          parameter.MultiSigners.foldl (fun m assist => m.insert assist true) ∅
        let okNumber := (signers.foldl (multiSignStep assistAddress) (0, ∅)).1
        decide (parameter.Threshold ≤ okNumber)

/-! ## System-configuration decoders (`custom_tx.go` lines 2828-3071) -/

/-- `processBandwidthPunish`: the record list, the receipts and the working snapshot after
the call. -/
def processBandwidthPunish (a : Engine) (currentBandwidthPunish : List BandwidthPunishRecord)
    (txDataInfo : List String) (txSender : Address) (tx : Transaction)
    (receipts : List Receipt) (snap : Snapshot) :
    List BandwidthPunishRecord × List Receipt × Snapshot :=
  if txDataInfo.length ≤ sscPosWdthPnsh then (currentBandwidthPunish, receipts, snap)
  else if snap.managerAddress sscEnumWdthPnsh ≠ txSender then
    (currentBandwidthPunish, receipts, snap)
  else
    match a.addressUnmarshalText1 (fieldAt txDataInfo nfcPosMinerAddress) with
    | none => (currentBandwidthPunish, receipts, snap)
    | some target =>
      match snap.Bandwidth.lookup target with
      | none => (currentBandwidthPunish, receipts, snap)
      | some claimed =>
        match a.ParseUint (fieldAt txDataInfo sscPosWdthPnsh) 16 32 with
        | none => (currentBandwidthPunish, receipts, snap)
        | some bandwidth =>
          (currentBandwidthPunish ++ [⟨target, bandwidth⟩],
            (addCustomerTxLog tx receipts
              [0x041e56787332f2495a47171278fa0f1ddb21961f702d0ba53c2bb2c079ccd418, target,
                sscEnumBndwdthPunish]
              [claimed.ISPQosID, bandwidth]).1,
            { snap with
              Bandwidth :=
                snap.Bandwidth.insert target { claimed with BandwidthClaimed := bandwidth } })

/-- `processExchRate`. -/
def processExchRate (a : Engine) (txDataInfo : List String) (txSender : Address)
    (snap : Snapshot) : Nat :=
  if txDataInfo.length ≤ sscPosExchRate then 0
  else
    match a.ParseUint (fieldAt txDataInfo sscPosExchRate) 10 32 with
    | none => 0
    | some exchRate =>
      if snap.managerAddress sscEnumExchRate ≠ txSender then 0 else exchRate

/-- `processCandidateDeposit`. -/
def processCandidateDeposit (a : Engine) (currentDeposit : List ConfigDepositRecord)
    (txDataInfo : List String) (txSender : Address) (snap : Snapshot) :
    List ConfigDepositRecord :=
  if txDataInfo.length ≤ sscPosDepositWho then currentDeposit
  else
    match a.hexutilUnmarshalText1 (fieldAt txDataInfo sscPosDeposit) with
    | none => currentDeposit
    | some amount =>
      match a.ParseUint (fieldAt txDataInfo sscPosDepositWho) 10 32 with
      | none => currentDeposit
      | some id =>
        if snap.managerAddress sscEnumSystem ≠ txSender then currentDeposit
        else currentDeposit ++ [⟨id, amount⟩]

/-- The body shared, word for word, by `processCndLockConfig`, `processFlwLockConfig` and
`processRwdLockConfig`, which differ in the constant `who` alone. `none`: the initial value
`180 * 24 * 60 * 60 / a.config.Period` of the record divides by zero. -/
def processLockConfig (who : Nat) (a : Engine)
    (currentLockParameters : List LockParameterRecord) (txDataInfo : List String)
    (txSender : Address) (snap : Snapshot) : Option (List LockParameterRecord) :=
  if txDataInfo.length ≤ sscPosInterval then some currentLockParameters
  else if a.config.Period = 0 then none
  else
    match a.ParseUint (fieldAt txDataInfo sscPosLockPeriod) 16 32 with
    | none => some currentLockParameters
    | some lockPeriod =>
      match a.ParseUint (fieldAt txDataInfo sscPosRlsPeriod) 16 32 with
      | none => some currentLockParameters
      | some releasePeriod =>
        match a.ParseUint (fieldAt txDataInfo sscPosInterval) 16 32 with
        | none => some currentLockParameters
        | some interval =>
          if snap.managerAddress sscEnumSystem ≠ txSender then some currentLockParameters
          else some (currentLockParameters ++ [⟨lockPeriod, releasePeriod, interval, who⟩])

/-- `processCndLockConfig`. -/
def processCndLockConfig (a : Engine) (currentLockParameters : List LockParameterRecord)
    (txDataInfo : List String) (txSender : Address) (snap : Snapshot) :
    Option (List LockParameterRecord) :=
  processLockConfig sscEnumCndLock a currentLockParameters txDataInfo txSender snap

/-- `processFlwLockConfig`. -/
def processFlwLockConfig (a : Engine) (currentLockParameters : List LockParameterRecord)
    (txDataInfo : List String) (txSender : Address) (snap : Snapshot) :
    Option (List LockParameterRecord) :=
  processLockConfig sscEnumFlwLock a currentLockParameters txDataInfo txSender snap

/-- `processRwdLockConfig`. -/
def processRwdLockConfig (a : Engine) (currentLockParameters : List LockParameterRecord)
    (txDataInfo : List String) (txSender : Address) (snap : Snapshot) :
    Option (List LockParameterRecord) :=
  processLockConfig sscEnumRwdLock a currentLockParameters txDataInfo txSender snap

/-- `processOffLine`. -/
def processOffLine (a : Engine) (txDataInfo : List String) (txSender : Address)
    (snap : Snapshot) : Nat :=
  if txDataInfo.length ≤ sscPosOffLine then 0
  else
    match a.ParseUint (fieldAt txDataInfo sscPosOffLine) 10 32 with
    | none => 0
    | some offline =>
      if snap.managerAddress sscEnumSystem ≠ txSender then 0 else offline

/-- `processISPQos`. -/
def processISPQos (a : Engine) (currentISPQOS : List ISPQOSRecord) (txDataInfo : List String)
    (txSender : Address) (snap : Snapshot) : List ISPQOSRecord :=
  if txDataInfo.length ≤ sscPosQosValue then currentISPQOS
  else
    match a.ParseUint (fieldAt txDataInfo sscPosQosID) 10 32 with
    | none => currentISPQOS
    | some id =>
      match a.ParseUint (fieldAt txDataInfo sscPosQosValue) 10 32 with
      | none => currentISPQOS
      | some qos =>
        if snap.managerAddress sscEnumSystem ≠ txSender then currentISPQOS
        else currentISPQOS ++ [⟨id, qos⟩]

/-! ## Vote, confirmation and side-chain decoders (`custom_tx.go` lines 1607-1659, 1800-1880) -/

/-- `processEventVote`; `none`: `*tx.To()` dereferences the nil recipient of a contract
creation. -/
def processEventVote (currentBlockVotes : List Vote) (state : StateDB) (tx : Transaction)
    (voter : Address) : Option (List Vote) :=
  match tx.To with
  | none => none
  | some candidate => some (currentBlockVotes ++ [⟨voter, candidate, state.Balance voter⟩])

/-- `processEventConfirm`: the confirmation list and the refund table after the call. The
tests read `confirmedBlockNumber.Uint64()`; the record stores `confirmedBlockNumber`. The
loop over the signer queue appends at its first match and leaves. -/
def processEventConfirm (a : Engine) (currentBlockConfirmations : List Confirmation)
    (txDataInfo : List String) (number : Nat) (tx : Transaction) (confirmer : Address)
    (refundHash : RefundHash) : List Confirmation × RefundHash :=
  if posEventConfirmNumber < txDataInfo.length then
    match a.bigUnmarshalText (fieldAt txDataInfo posEventConfirmNumber) with
    | none => (currentBlockConfirmations, refundHash)
    | some confirmedBlockNumber =>
      if a.config.MaxSignerCount < uint64Sub number (bigUint64 confirmedBlockNumber)
          ∨ uint64Sub number (bigUint64 confirmedBlockNumber) < 0 then
        (currentBlockConfirmations, refundHash)
      else
        match a.GetHeaderByNumber (bigUint64 confirmedBlockNumber) with
        | none => (currentBlockConfirmations, refundHash)
        | some extra =>
          if extra.length < a.extraVanity + a.extraSeal then
            (currentBlockConfirmations, refundHash)
          else
            match a.decodeHeaderExtra confirmedBlockNumber
                ((extra.take (extra.length - a.extraSeal)).drop a.extraVanity) with
            | .error _ => (currentBlockConfirmations, refundHash)
            | .ok confirmedHeaderExtra =>
              if confirmedHeaderExtra.SignerQueue.contains confirmer then
                (currentBlockConfirmations ++ [⟨confirmer, confirmedBlockNumber⟩],
                  refundHash.insert tx.Hash ⟨confirmer, tx.GasPrice⟩)
              else (currentBlockConfirmations, refundHash)
  else (currentBlockConfirmations, refundHash)

/-- `processSCEventConfirm`. -/
def processSCEventConfirm (scEventConfirmaions : List SCConfirmation) (hash : Hash)
    (number : Nat) (loopInfo : String) (tx : Transaction) (txSender : Address)
    (refundHash : RefundHash) : List SCConfirmation × RefundHash :=
  (scEventConfirmaions ++ [⟨hash, txSender, number, stringsSplit loopInfo '#'⟩],
    refundHash.insert tx.Hash ⟨txSender, tx.GasPrice⟩)

/-- `processSCEventNoticeConfirm`. -/
def processSCEventNoticeConfirm (scEventNoticeConfirm : List SCConfirmation) (hash : Hash)
    (number : Nat) (chargingInfo : String) (txSender : Address) : List SCConfirmation :=
  if chargingInfo ≠ "" then
    scEventNoticeConfirm ++ [⟨hash, txSender, number, stringsSplit chargingInfo '#'⟩]
  else scEventNoticeConfirm

/-- `processSCEventSetCoinbase`. -/
def processSCEventSetCoinbase (scEventSetCoinbases : List SCSetCoinbase) (hash : Hash)
    (signer coinbase : Address) (optype : Bool) : List SCSetCoinbase :=
  scEventSetCoinbases ++ [⟨hash, signer, coinbase, optype⟩]

/-- `addRevenueAddrBal` (`custom_tx.go` lines 3164-3172). -/
def addRevenueAddrBal (stake : Int) (voter : Address) (number : Nat) (snap : Snapshot)
    (state : StateDB) : Int :=
  if tallyRevenueEffectBlockNumber < number then
    match snap.RevenueNormal.lookup voter with
    | some revenue => stake + state.Balance revenue.RevenueAddress
    | none => stake
  else stake

/-- `processPredecessorVoter` (`custom_tx.go` lines 1852-1880). -/
def processPredecessorVoter (modifyPredecessorVotes : List Vote) (state : StateDB)
    (tx : Transaction) (voter : Address) (snap : Snapshot) (number : Nat) : List Vote :=
  match tx.To with
  | none => modifyPredecessorVotes
  | some recipient =>
    if 0 < tx.Value then
      let votes :=
        if snap.isVoter voter then
          modifyPredecessorVotes ++
            [⟨voter, 0, addRevenueAddrBal (state.Balance voter) voter number snap state⟩]
        else modifyPredecessorVotes
      if snap.isVoter recipient then
        votes ++
          [⟨recipient, 0, addRevenueAddrBal (state.Balance recipient) recipient number snap state⟩]
      else votes
    else modifyPredecessorVotes

/-! ## Revenue-binding decoders (`custom_tx.go` lines 2047-2444, 3148-3194, 3410-3493) and
their replay (`snapshot.go` lines 1336-1373) -/

/-- `len(s)` of a Go string: its number of bytes. -/
def len (s : String) : Nat := s.utf8ByteSize

/-- `isPosManager`. -/
def isPosManager (snap : Snapshot) (deviceBind : DeviceBindRecord) (txSender : Address) : Bool :=
  match snap.PosPledge with
  | none => false
  | some pledges =>
    match pledges.lookup deviceBind.Device with
    | some item => if item.Manager ≠ txSender then false else true
    | none => false

/-- `isStorageManager`. -/
def isStorageManager (snap : Snapshot) (deviceBind : DeviceBindRecord) (txSender : Address) :
    Bool :=
  match snap.StorageEntrust.lookup deviceBind.Device with
  | some manager => if manager ≠ txSender then false else true
  | none => false

/-- `checkRevenueNormalBind`: `true` where the function returns a nil error. -/
def checkRevenueNormalBind (deviceBind : DeviceBindRecord) (snap : Snapshot) : Bool :=
  if deviceBind.RevenueType = 0 then
    !(snap.RevenueNormal.entries.any (fun e => decide (deviceBind.Revenue = e.2.RevenueAddress)))
  else true

/-- `checkBindMaxStorageSpace`: `true` where the function returns a nil error. -/
def checkBindMaxStorageSpace (a : Engine) (currentDeviceBind : List DeviceBindRecord)
    (deviceBind : DeviceBindRecord) (snap : Snapshot) (number : Nat) : Bool :=
  if PledgeRevertLockEffectNumber < number ∧ deviceBind.RevenueType = 1 then
    let alreadybind0 : GoMap Address Nat := AList.insert deviceBind.Device 1 ∅
    let alreadybind1 :=
      snap.RevenueStorage.entries.foldl
        (fun m e => if deviceBind.Revenue = e.2.RevenueAddress then m.insert e.1 1 else m)
        alreadybind0
    let alreadybind2 :=
      currentDeviceBind.foldl
        (fun m item => if item.Revenue = deviceBind.Revenue then m.insert item.Device 1 else m)
        alreadybind1
    a.checkMaxStorageSpaceByAddr alreadybind2 snap
  else true

/-- The test an Unbind or a Rebind applies to the binding `oldBind` it replaces when no
manager rule is in force: the sender is the recorded revenue address, or, for a binding
with a multi-signature address, the multi-signature check passes. -/
def ownerMayChange (a : Engine) (state : StateDB) (oldBind : RevenueParameter)
    (txSender : Address) (tx : Transaction) : Bool :=
  if oldBind.MultiSignature = 0 ∨ oldBind.MultiSignature = 0 then
    if oldBind.RevenueAddress ≠ txSender then false else true
  else verifyMultiSignatureAddress a state oldBind.MultiSignature tx.AllSigners

/-- Lines 2064-2092 of `processDeviceBind`: `true` where the function has returned the list
unchanged for the revenue type it has parsed. -/
def bindRefused (snap : Snapshot) (deviceBind : DeviceBindRecord) (txSender : Address)
    (revenueType number : Nat) : Bool :=
  if revenueType = 0 then
    if (snap.RevenueNormal.lookup deviceBind.Device).isSome then true
    else if isGEPOSNewEffect number then !isPosManager snap deviceBind txSender
    else false
  else if StorageEffectBlockNumber ≤ number then
    if (snap.RevenueStorage.lookup deviceBind.Device).isSome then true
    else if isGEInitStorageManagerNumber number then !isStorageManager snap deviceBind txSender
    else false
  else (snap.RevenueFlow.lookup deviceBind.Device).isSome

/-- The optional address fields of a Bind or Rebind payload (lines 2097-2109, 2384-2397):
below `PledgeRevertLockEffectNumber` a non-empty contract field and a non-empty
multi-signature field are parsed into the record; `none` where a parse fails. -/
def parseContractFields (a : Engine) (txDataInfo : List String) (deviceBind : DeviceBindRecord)
    (number : Nat) : Option DeviceBindRecord :=
  if number < PledgeRevertLockEffectNumber then
    match (if 0 < len (fieldAt txDataInfo nfcPosRevenueContract) then
        a.addressUnmarshalText1 (fieldAt txDataInfo nfcPosRevenueContract)
      else some deviceBind.Contract) with
    | none => none
    | some contract =>
      match (if 0 < len (fieldAt txDataInfo nfcPosMiltiSign) then
          a.addressUnmarshalText1 (fieldAt txDataInfo nfcPosMiltiSign)
        else some deviceBind.MultiSign) with
      | none => none
      | some multiSign => some { deviceBind with Contract := contract, MultiSign := multiSign }
  else some deviceBind

/-- The optional revenue field of a Bind payload (lines 2111-2120); `none` where the parse
fails. -/
def parseRevenueField (a : Engine) (txDataInfo : List String) (deviceBind : DeviceBindRecord)
    (number : Nat) : Option DeviceBindRecord :=
  if StorageEffectBlockNumber ≤ number ∧ nfcPosRevenueAddress < txDataInfo.length
      ∧ 0 < len (fieldAt txDataInfo nfcPosRevenueAddress) then
    match a.addressUnmarshalText1 (fieldAt txDataInfo nfcPosRevenueAddress) with
    | none => none
    | some revenue => some { deviceBind with Revenue := revenue }
  else some deviceBind

/-- The event signature `DeviceBind(uint32,byte32,byte32,address)` the three decoders log. -/
def deviceBindTopic : Nat :=
  0xf061654231b0035280bd8dd06084a38aa871445d0b7311be8cc2605c5672a6e3

/-- `processDeviceBind`: the record list, the receipts and the working snapshot after the
call. -/
def processDeviceBind (a : Engine) (currentDeviceBind : List DeviceBindRecord)
    (txDataInfo : List String) (txSender : Address) (tx : Transaction)
    (receipts : List Receipt) (snap : Snapshot) (number : Nat) :
    List DeviceBindRecord × List Receipt × Snapshot :=
  if txDataInfo.length ≤ nfcPosMiltiSign then (currentDeviceBind, receipts, snap)
  else
    match a.addressUnmarshalText1 (fieldAt txDataInfo nfcPosMinerAddress) with
    | none => (currentDeviceBind, receipts, snap)
    | some device =>
      match a.ParseUint (fieldAt txDataInfo nfcPosRevenueType) 10 32 with
      | none => (currentDeviceBind, receipts, snap)
      | some revenueType =>
        if bindRefused snap ⟨device, txSender, 0, 0, 0, true⟩ txSender revenueType number then
          (currentDeviceBind, receipts, snap)
        else
          match (parseContractFields a txDataInfo ⟨device, txSender, 0, 0, revenueType, true⟩
              number).bind (fun r => parseRevenueField a txDataInfo r number) with
          | none => (currentDeviceBind, receipts, snap)
          | some deviceBind =>
            if !checkRevenueNormalBind deviceBind snap then (currentDeviceBind, receipts, snap)
            else if !checkBindMaxStorageSpace a currentDeviceBind deviceBind snap number then
              (currentDeviceBind, receipts, snap)
            else
              (currentDeviceBind ++ [deviceBind],
                (addCustomerTxLog tx receipts
                  [deviceBindTopic, deviceBind.Device, deviceBind.RevenueType]
                  [deviceBind.Revenue, deviceBind.Contract, deviceBind.MultiSign]).1,
                if deviceBind.RevenueType = 0 then
                  { snap with
                    RevenueNormal :=
                      snap.RevenueNormal.insert deviceBind.Device
                        ⟨deviceBind.Revenue, deviceBind.Contract, deviceBind.MultiSign⟩ }
                else if StorageEffectBlockNumber ≤ number then
                  { snap with
                    RevenueStorage :=
                      snap.RevenueStorage.insert deviceBind.Device
                        ⟨deviceBind.Revenue, deviceBind.Contract, deviceBind.MultiSign⟩ }
                else
                  { snap with
                    RevenueFlow :=
                      snap.RevenueFlow.insert deviceBind.Device
                        ⟨deviceBind.Revenue, deviceBind.Contract, deviceBind.MultiSign⟩ })

/-- Lines 2189-2250 of `processDeviceUnbind`: `true` where the function has returned the
list unchanged for the revenue type it has parsed. -/
def unbindRefused (a : Engine) (state : StateDB) (snap : Snapshot)
    (deviceBind : DeviceBindRecord) (txSender : Address) (tx : Transaction)
    (revenueType number : Nat) : Bool :=
  if revenueType = 0 then
    match snap.RevenueNormal.lookup deviceBind.Device with
    | none => true
    | some oldBind =>
      if oldBind.MultiSignature = 0 ∨ oldBind.MultiSignature = 0 then
        if isGEPOSNewEffect number then !isPosManager snap deviceBind txSender
        else if oldBind.RevenueAddress ≠ txSender then true else false
      else !verifyMultiSignatureAddress a state oldBind.MultiSignature tx.AllSigners
  else if StorageEffectBlockNumber ≤ number then
    match snap.RevenueStorage.lookup deviceBind.Device with
    | none => true
    | some oldBind =>
      if oldBind.MultiSignature = 0 ∨ oldBind.MultiSignature = 0 then
        if isGEInitStorageManagerNumber number then !isStorageManager snap deviceBind txSender
        else if oldBind.RevenueAddress ≠ txSender then true else false
      else !verifyMultiSignatureAddress a state oldBind.MultiSignature tx.AllSigners
  else
    match snap.RevenueFlow.lookup deviceBind.Device with
    | none => true
    | some oldBind => !ownerMayChange a state oldBind txSender tx

/-- `processDeviceUnbind`: the record list, the receipts and the working snapshot after the
call. -/
def processDeviceUnbind (a : Engine) (currentDeviceBind : List DeviceBindRecord)
    (txDataInfo : List String) (txSender : Address) (tx : Transaction)
    (receipts : List Receipt) (state : StateDB) (snap : Snapshot) (number : Nat) :
    List DeviceBindRecord × List Receipt × Snapshot :=
  if txDataInfo.length ≤ nfcPosRevenueType then (currentDeviceBind, receipts, snap)
  else
    match a.addressUnmarshalText1 (fieldAt txDataInfo nfcPosMinerAddress) with
    | none => (currentDeviceBind, receipts, snap)
    | some device =>
      match a.ParseUint (fieldAt txDataInfo nfcPosRevenueType) 10 32 with
      | none => (currentDeviceBind, receipts, snap)
      | some revenueType =>
        if unbindRefused a state snap ⟨device, 0, 0, 0, 0, false⟩ txSender tx revenueType
            number then
          (currentDeviceBind, receipts, snap)
        else
          (currentDeviceBind ++ [⟨device, 0, 0, 0, revenueType, false⟩],
            (addCustomerTxLog tx receipts [deviceBindTopic, device, revenueType] []).1,
            if revenueType = 0 then
              { snap with RevenueNormal := snap.RevenueNormal.erase device }
            else if StorageEffectBlockNumber ≤ number then
              { snap with RevenueStorage := snap.RevenueStorage.erase device }
            else { snap with RevenueFlow := snap.RevenueFlow.erase device })

/-- The test a Rebind applies where no manager rule is in force (lines 2314-2331, 2345-2381):
`true` where the function has returned the list unchanged. -/
def rebindOwnerRefused (a : Engine) (state : StateDB) (oldBind : Option RevenueParameter)
    (deviceBind : DeviceBindRecord) (txSender : Address) (tx : Transaction) : Bool :=
  match oldBind with
  | some oldBind => !ownerMayChange a state oldBind txSender tx
  | none => if deviceBind.Revenue ≠ txSender then true else false

/-- Lines 2303-2385 of `processDeviceRebind`: `true` where the function has returned the
list unchanged for the revenue type it has parsed. -/
def rebindRefused (a : Engine) (state : StateDB) (snap : Snapshot)
    (deviceBind : DeviceBindRecord) (txSender : Address) (tx : Transaction)
    (revenueType number : Nat) : Bool :=
  if revenueType = 0 then
    if isGEPOSNewEffect number then
      if (snap.RevenueNormal.lookup deviceBind.Device).isSome then
        !isPosManager snap deviceBind txSender
      else true
    else rebindOwnerRefused a state (snap.RevenueNormal.lookup deviceBind.Device) deviceBind
      txSender tx
  else if isGEInitStorageManagerNumber number then
    if (snap.RevenueStorage.lookup deviceBind.Device).isSome then
      !isStorageManager snap deviceBind txSender
    else true
  else if StorageEffectBlockNumber ≤ number then
    rebindOwnerRefused a state (snap.RevenueStorage.lookup deviceBind.Device) deviceBind
      txSender tx
  else
    rebindOwnerRefused a state (snap.RevenueFlow.lookup deviceBind.Device) deviceBind
      txSender tx

/-- `processDeviceRebind`: the record list, the receipts and the working snapshot after the
call. -/
def processDeviceRebind (a : Engine) (currentDeviceBind : List DeviceBindRecord)
    (txDataInfo : List String) (txSender : Address) (tx : Transaction)
    (receipts : List Receipt) (state : StateDB) (snap : Snapshot) (number : Nat) :
    List DeviceBindRecord × List Receipt × Snapshot :=
  if txDataInfo.length ≤ nfcPosRevenueAddress then (currentDeviceBind, receipts, snap)
  else
    match a.addressUnmarshalText1 (fieldAt txDataInfo nfcPosMinerAddress) with
    | none => (currentDeviceBind, receipts, snap)
    | some device =>
      match a.addressUnmarshalText1 (fieldAt txDataInfo nfcPosRevenueAddress) with
      | none => (currentDeviceBind, receipts, snap)
      | some revenue =>
        match a.ParseUint (fieldAt txDataInfo nfcPosRevenueType) 10 32 with
        | none => (currentDeviceBind, receipts, snap)
        | some revenueType =>
          if rebindRefused a state snap ⟨device, revenue, 0, 0, 0, true⟩ txSender tx
              revenueType number then
            (currentDeviceBind, receipts, snap)
          else
            match parseContractFields a txDataInfo ⟨device, revenue, 0, 0, revenueType, true⟩
                number with
            | none => (currentDeviceBind, receipts, snap)
            | some deviceBind =>
              if !checkRevenueNormalBind deviceBind snap then
                (currentDeviceBind, receipts, snap)
              else if !checkBindMaxStorageSpace a currentDeviceBind deviceBind snap number then
                (currentDeviceBind, receipts, snap)
              else
                (currentDeviceBind ++ [deviceBind],
                  (addCustomerTxLog tx receipts
                    [deviceBindTopic, deviceBind.Device, deviceBind.RevenueType]
                    [deviceBind.Revenue, deviceBind.Contract, deviceBind.MultiSign]).1,
                  if deviceBind.RevenueType = 0 then
                    { snap with
                      RevenueNormal :=
                        snap.RevenueNormal.insert deviceBind.Device
                          ⟨deviceBind.Revenue, deviceBind.Contract, deviceBind.MultiSign⟩ }
                  else if StorageEffectBlockNumber ≤ number then
                    { snap with
                      RevenueStorage :=
                        snap.RevenueStorage.insert deviceBind.Device
                          ⟨deviceBind.Revenue, deviceBind.Contract, deviceBind.MultiSign⟩ }
                  else
                    { snap with
                      RevenueFlow :=
                        snap.RevenueFlow.insert deviceBind.Device
                          ⟨deviceBind.Revenue, deviceBind.Contract, deviceBind.MultiSign⟩ })

/-- The tests of line 1434 that follow the comparison with `ufoEventVote`:
`(!candidateNeedPD || snap.isCandidate(*tx.To())) && balance > snap.MinVB`. `none`:
`*tx.To()` dereferences the nil recipient of a contract creation. -/
def voteAdmitted (a : Engine) (st : TxState) (tx : Transaction) (txSender : Address) :
    Option Bool :=
  if a.candidateNeedPD then
    match tx.To with
    | none => none
    | some candidate =>
      some (st.snap.isCandidate candidate && decide (st.snap.MinVB < st.state.Balance txSender))
  else some (decide (st.snap.MinVB < st.state.Balance txSender))

/-- Lines 1430-1446: the category `event`. `none`: the program stops. -/
def eventIntent (a : Engine) (number : Nat) (st : TxState) (tx : Transaction)
    (txSender : Address) (txDataInfo : List String) : Option TxState :=
  if ufoMinSplitLen < txDataInfo.length then
    match (if fieldAt txDataInfo posEventVote = ufoEventVote then voteAdmitted a st tx txSender
      else some false) with
    | none => none
    | some true =>
      match processEventVote st.headerExtra.CurrentBlockVotes st.state tx txSender with
      | none => none
      | some votes =>
        some { st with headerExtra := { st.headerExtra with CurrentBlockVotes := votes } }
    | some false =>
      if fieldAt txDataInfo posEventConfirm = ufoEventConfirm ∧ st.snap.isCandidate txSender then
        some { st with
          headerExtra :=
            { st.headerExtra with
              CurrentBlockConfirmations :=
                (processEventConfirm a st.headerExtra.CurrentBlockConfirmations txDataInfo number
                  tx txSender st.refundHash).1 }
          refundHash :=
            (processEventConfirm a st.headerExtra.CurrentBlockConfirmations txDataInfo number
              tx txSender st.refundHash).2 }
      else if fieldAt txDataInfo posEventProposal = ufoEventPorposal then
        a.handlers .eventProposal txDataInfo txSender tx number st
      else if fieldAt txDataInfo posEventDeclare = ufoEventDeclare
          ∧ st.snap.isCandidate txSender then
        a.handlers .eventDeclare txDataInfo txSender tx number st
      else some st
  else some st

/-- Lines 1450-1468: a side-chain confirmation. The flag is `false` where the body of the
loop is left through `continue`. -/
def scConfirmIntent (a : Engine) (st : TxState) (tx : Transaction) (txSender : Address)
    (txDataInfo : List String) : TxState × Bool :=
  if ufoMinSplitLen + 5 < txDataInfo.length then
    match a.bigUnmarshalText (fieldAt txDataInfo (ufoMinSplitLen + 2)) with
    | none => (st, false)
    | some scNumber =>
      match a.bigUnmarshalText (fieldAt txDataInfo (ufoMinSplitLen + 3)) with
      | none => (st, false)
      | some _ =>
        ({ st with
            headerExtra :=
              { st.headerExtra with
                SideChainConfirmations :=
                  (processSCEventConfirm st.headerExtra.SideChainConfirmations
                    (a.HexToHash (fieldAt txDataInfo (ufoMinSplitLen + 1))) (bigUint64 scNumber)
                    (fieldAt txDataInfo (ufoMinSplitLen + 4)) tx txSender st.refundHash).1
                SideChainNoticeConfirmed :=
                  processSCEventNoticeConfirm st.headerExtra.SideChainNoticeConfirmed
                    (a.HexToHash (fieldAt txDataInfo (ufoMinSplitLen + 1))) (bigUint64 scNumber)
                    (fieldAt txDataInfo (ufoMinSplitLen + 5)) txSender }
            refundHash :=
              (processSCEventConfirm st.headerExtra.SideChainConfirmations
                (a.HexToHash (fieldAt txDataInfo (ufoMinSplitLen + 1))) (bigUint64 scNumber)
                (fieldAt txDataInfo (ufoMinSplitLen + 4)) tx txSender st.refundHash).2 },
          true)
  else (st, true)

/-- Lines 1471-1484: `setcb` (`optype = true`, which asks for a value of at least
`minSCSetCoinbaseValue`) and `delcb`. `none`: `*tx.To()` dereferences the nil recipient. -/
def setCoinbaseIntent (a : Engine) (st : TxState) (tx : Transaction) (txSender : Address)
    (txDataInfo : List String) (optype : Bool) : Option TxState :=
  if ufoMinSplitLen + 1 < txDataInfo.length then
    if optype = true ∧ tx.Value < minSCSetCoinbaseValue then some st
    else
      match tx.To with
      | none => none
      | some coinbase =>
        some { st with
          headerExtra :=
            { st.headerExtra with
              SideChainSetCoinbases :=
                processSCEventSetCoinbase st.headerExtra.SideChainSetCoinbases
                  (a.HexToHash (fieldAt txDataInfo (ufoMinSplitLen + 1))) txSender coinbase
                  optype } }
  else some st

/-- Lines 1448-1498: the category `sc`. `none`: the program stops; the flag is `false`
where the body of the loop is left through `continue`. -/
def scIntent (a : Engine) (number : Nat) (st : TxState) (tx : Transaction)
    (txSender : Address) (txDataInfo : List String) : Option (TxState × Bool) :=
  if ufoMinSplitLen < txDataInfo.length then
    if fieldAt txDataInfo posEventConfirm = ufoEventConfirm then
      some (scConfirmIntent a st tx txSender txDataInfo)
    else if fieldAt txDataInfo posEventSetCoinbase = ufoEventSetCoinbase
        ∧ st.snap.isCandidate txSender then
      (setCoinbaseIntent a st tx txSender txDataInfo true).map (fun s => (s, true))
    else if fieldAt txDataInfo posEventSetCoinbase = ufoEventDelCoinbase
        ∧ st.snap.isCandidate txSender then
      (setCoinbaseIntent a st tx txSender txDataInfo false).map (fun s => (s, true))
    else if ufoEventFlowReport1 = fieldAt txDataInfo posEventFlowReport then
      (a.handlers .flowReport1 txDataInfo txSender tx number st).map (fun s => (s, true))
    else if ufoEventFlowReport2 = fieldAt txDataInfo posEventFlowReport then
      if txSender = st.snap.managerAddress sscEnumFlowReport then
        (a.handlers .flowReport2 txDataInfo txSender tx number st).map (fun s => (s, true))
      else some (st, true)
    else some (st, true)
  else some (st, true)

/-- Lines 1431-1499: the payloads tagged `ufo`. -/
def ufoIntent (a : Engine) (number : Nat) (st : TxState) (tx : Transaction)
    (txSender : Address) (txDataInfo : List String) : Option (TxState × Bool) :=
  if fieldAt txDataInfo posCategory = ufoCategoryEvent then
    (eventIntent a number st tx txSender txDataInfo).map (fun s => (s, true))
  else if fieldAt txDataInfo posCategory = ufoCategoryLog then some (st, true)
  else if fieldAt txDataInfo posCategory = ufoCategorySC then
    scIntent a number st tx txSender txDataInfo
  else some (st, true)

/-- Lines 1502-1535: the chain of categories of a payload tagged `UTG`. -/
def utgCategoryIntent (a : Engine) (number : Nat) (st : TxState) (tx : Transaction)
    (txSender : Address) (txDataInfo : List String) : Option TxState :=
  if fieldAt txDataInfo posCategory = nfcCategoryExch then
    if number < StorageEffectBlockNumber then
      a.handlers .exchangeNFC txDataInfo txSender tx number st
    else some st
  else if fieldAt txDataInfo posCategory = nfcCategoryMultiSign then
    a.handlers .createMultiSignature txDataInfo txSender tx number st
  else if fieldAt txDataInfo posCategory = nfcCategoryBind then
    some { st with
      headerExtra :=
        { st.headerExtra with
          DeviceBind :=
            (processDeviceBind a st.headerExtra.DeviceBind txDataInfo txSender tx st.receipts
              st.snapCache number).1 }
      receipts :=
        (processDeviceBind a st.headerExtra.DeviceBind txDataInfo txSender tx st.receipts
          st.snapCache number).2.1
      snapCache :=
        (processDeviceBind a st.headerExtra.DeviceBind txDataInfo txSender tx st.receipts
          st.snapCache number).2.2 }
  else if fieldAt txDataInfo posCategory = nfcCategoryUnbind then
    some { st with
      headerExtra :=
        { st.headerExtra with
          DeviceBind :=
            (processDeviceUnbind a st.headerExtra.DeviceBind txDataInfo txSender tx st.receipts
              st.state st.snapCache number).1 }
      receipts :=
        (processDeviceUnbind a st.headerExtra.DeviceBind txDataInfo txSender tx st.receipts
          st.state st.snapCache number).2.1
      snapCache :=
        (processDeviceUnbind a st.headerExtra.DeviceBind txDataInfo txSender tx st.receipts
          st.state st.snapCache number).2.2 }
  else if fieldAt txDataInfo posCategory = nfcCategoryRebind then
    some { st with
      headerExtra :=
        { st.headerExtra with
          DeviceBind :=
            (processDeviceRebind a st.headerExtra.DeviceBind txDataInfo txSender tx st.receipts
              st.state st.snapCache number).1 }
      receipts :=
        (processDeviceRebind a st.headerExtra.DeviceBind txDataInfo txSender tx st.receipts
          st.state st.snapCache number).2.1
      snapCache :=
        (processDeviceRebind a st.headerExtra.DeviceBind txDataInfo txSender tx st.receipts
          st.state st.snapCache number).2.2 }
  else if fieldAt txDataInfo posCategory = nfcCategoryCandReq then
    if isGEPOSNewEffect number then
      a.handlers .candidatePledgeNew txDataInfo txSender tx number st
    else a.handlers .candidatePledge txDataInfo txSender tx number st
  else if fieldAt txDataInfo posCategory = nfcCategoryCandExit then
    if isGEPOSNewEffect number then
      a.handlers .candidateExitNew txDataInfo txSender tx number st
    else a.handlers .candidateExit txDataInfo txSender tx number st
  else if fieldAt txDataInfo posCategory = nfcCategoryCandPnsh then
    a.handlers .candidatePunish txDataInfo txSender tx number st
  else if fieldAt txDataInfo posCategory = nfcCategoryFlwReq then
    if number < PledgeRevertLockEffectNumber then
      a.handlers .minerPledge txDataInfo txSender tx number st
    else some st
  else if fieldAt txDataInfo posCategory = nfcCategoryFlwExit then
    a.handlers .minerExit txDataInfo txSender tx number st
  else some st

/-- A call of a decoder outside this model under the condition `guard`. -/
def guardedHandler (a : Engine) (guard : Bool) (intent : Intent) (number : Nat)
    (tx : Transaction) (txSender : Address) (txDataInfo : List String) (st : TxState) :
    Option TxState :=
  if guard then a.handlers intent txDataInfo txSender tx number st else some st

/-- Lines 1501-1557: the payloads tagged `UTG`: the chain of categories, then the storage
decoder, the pledge decoders of the new rules and the storage-pool decoder, each under its
height gate. -/
def utgIntent (a : Engine) (number : Nat) (st : TxState) (tx : Transaction)
    (txSender : Address) (txDataInfo : List String) : Option TxState :=
  (utgCategoryIntent a number st tx txSender txDataInfo).bind fun st1 =>
  (guardedHandler a (decide (StorageEffectBlockNumber < number)) .storageCustomTx number tx
    txSender txDataInfo st1).bind fun st2 =>
  (guardedHandler a
    (isGEPOSNewEffect number && isGEInitStorageManagerNumber number
      && decide (fieldAt txDataInfo posCategory = categoryCandPoSwtfd))
    .candidateWtfd number tx txSender txDataInfo st2).bind fun st3 =>
  (guardedHandler a
    (isGEPOSNewEffect number && decide (fieldAt txDataInfo posCategory = categoryCandEntrust))
    .candidatePledgeEntrust number tx txSender txDataInfo st3).bind fun st4 =>
  (guardedHandler a
    (isGEPOSNewEffect number
      && decide (fieldAt txDataInfo posCategory = categoryCandEntrustExit))
    .candidatePEntrustExit number tx txSender txDataInfo st4).bind fun st5 =>
  (guardedHandler a
    (isGEPOSNewEffect number && decide (fieldAt txDataInfo posCategory = categoryCandChangeRate))
    .candidateChangeRate number tx txSender txDataInfo st5).bind fun st6 =>
  guardedHandler a (decide (initStorageManagerNumber < number)) .sPCustomTx number tx txSender
    txDataInfo st6

/-- The update of `headerExtra.LockParameters` by one of the three lock decoders. -/
def setLockParameters (st : TxState) (result : Option (List LockParameterRecord)) :
    Option TxState :=
  result.map (fun l => { st with headerExtra := { st.headerExtra with LockParameters := l } })

/-- Lines 1559-1579: the payloads tagged `SSC`. `ConfigExchRate` and `ConfigOffLine` are
assigned the value their decoder returns; the lists are handed to their decoder and
assigned its result. -/
def sscIntent (a : Engine) (number : Nat) (st : TxState) (tx : Transaction)
    (txSender : Address) (txDataInfo : List String) : Option TxState :=
  if fieldAt txDataInfo posCategory = sscCategoryExchRate then
    some { st with
      headerExtra :=
        { st.headerExtra with
          ConfigExchRate := processExchRate a txDataInfo txSender st.snapCache } }
  else if fieldAt txDataInfo posCategory = sscCategoryDeposit then
    some { st with
      headerExtra :=
        { st.headerExtra with
          ConfigDeposit :=
            processCandidateDeposit a st.headerExtra.ConfigDeposit txDataInfo txSender
              st.snapCache } }
  else if fieldAt txDataInfo posCategory = sscCategoryCndLock then
    setLockParameters st
      (processCndLockConfig a st.headerExtra.LockParameters txDataInfo txSender st.snapCache)
  else if fieldAt txDataInfo posCategory = sscCategoryFlwLock then
    setLockParameters st
      (processFlwLockConfig a st.headerExtra.LockParameters txDataInfo txSender st.snapCache)
  else if fieldAt txDataInfo posCategory = sscCategoryRwdLock then
    setLockParameters st
      (processRwdLockConfig a st.headerExtra.LockParameters txDataInfo txSender st.snapCache)
  else if fieldAt txDataInfo posCategory = sscCategoryOffLine then
    some { st with
      headerExtra :=
        { st.headerExtra with
          ConfigOffLine := processOffLine a txDataInfo txSender st.snapCache } }
  else if fieldAt txDataInfo posCategory = sscCategoryQOS then
    some { st with
      headerExtra :=
        { st.headerExtra with
          ConfigISPQOS :=
            processISPQos a st.headerExtra.ConfigISPQOS txDataInfo txSender st.snapCache } }
  else if fieldAt txDataInfo posCategory = sscCategoryWdthPnsh then
    some { st with
      headerExtra :=
        { st.headerExtra with
          BandwidthPunish :=
            (processBandwidthPunish a st.headerExtra.BandwidthPunish txDataInfo txSender tx
              st.receipts st.snapCache).1 }
      receipts :=
        (processBandwidthPunish a st.headerExtra.BandwidthPunish txDataInfo txSender tx
          st.receipts st.snapCache).2.1
      snapCache :=
        (processBandwidthPunish a st.headerExtra.BandwidthPunish txDataInfo txSender tx
          st.receipts st.snapCache).2.2 }
  else if fieldAt txDataInfo posCategory = sscCategoryManager then
    a.handlers .managerAddress txDataInfo txSender tx number st
  else some st

/-- Lines 1424-1582: the part of the body of the loop that reads the payload. `none`: the
program stops; the flag is `false` where the body is left through `continue`. -/
def decodeIntent (a : Engine) (number : Nat) (st : TxState) (tx : Transaction)
    (txSender : Address) : Option (TxState × Bool) :=
  if len ufoPrefix ≤ len tx.Data then
    if ufoMinSplitLen ≤ (stringsSplit tx.Data ':').length then
      if fieldAt (stringsSplit tx.Data ':') posPrefix = ufoPrefix then
        if fieldAt (stringsSplit tx.Data ':') posVersion = ufoVersion then
          ufoIntent a number st tx txSender (stringsSplit tx.Data ':')
        else some (st, true)
      else if fieldAt (stringsSplit tx.Data ':') posPrefix = utgPrefix then
        if fieldAt (stringsSplit tx.Data ':') posVersion = ufoVersion then
          (utgIntent a number st tx txSender (stringsSplit tx.Data ':')).map (fun s => (s, true))
        else some (st, true)
      else if fieldAt (stringsSplit tx.Data ':') posPrefix = sscPrefix then
        if fieldAt (stringsSplit tx.Data ':') posVersion = ufoVersion then
          (sscIntent a number st tx txSender (stringsSplit tx.Data ':')).map (fun s => (s, true))
        else some (st, true)
      else some (st, true)
    else some (st, true)
  else some (st, true)

/-- Lines 1583-1586: the refresh of the predecessor votes that ends the body of the loop. -/
def refreshPredecessor (number : Nat) (st : TxState) (tx : Transaction) (txSender : Address) :
    TxState :=
  if 1 < number then
    { st with
      headerExtra :=
        { st.headerExtra with
          ModifyPredecessorVotes :=
            processPredecessorVoter st.headerExtra.ModifyPredecessorVotes st.state tx txSender
              st.snap number } }
  else st

/-- The body of the loop of `processCustomTx` over the transactions (lines 1418-1587).
`none`: the program stops. -/
def processTx (a : Engine) (number : Nat) (st : TxState) (tx : Transaction) : Option TxState :=
  match tx.Sender with
  | none => some st
  | some txSender =>
    match decodeIntent a number st tx txSender with
    | none => none
    | some (st1, false) => some st1
    | some (st1, true) => some (refreshPredecessor number st1 tx txSender)

/-- The loop of `processCustomTx` over the transactions. -/
def processTxs (a : Engine) (number : Nat) (st : TxState) (txs : List Transaction) :
    Option TxState :=
  txs.foldlM (processTx a number) st

/-- `int64(x)` of a `uint64`. -/
def int64OfUint64 (x : Nat) : Int := if x % 2 ^ 64 < 2 ^ 63 then x % 2 ^ 64 else x % 2 ^ 64 - 2 ^ 64

/-- `refundAddGas` (`custom_tx.go` lines 1598-1606). -/
def refundAddGas (refundGas : RefundGas) (address : Address) (value : Int) : RefundGas :=
  match refundGas.lookup address with
  | some old => refundGas.insert address (old + value)
  | none => refundGas.insert address value

/-- The body of the loop over the receipts (lines 1589-1594); the receipts of one block
carry distinct transaction hashes. -/
def refundStep (refundHash : RefundHash) (refundGas : RefundGas) (receipt : Receipt) :
    RefundGas :=
  match refundHash.lookup receipt.TxHash with
  | some pair =>
    if receipt.Status = 1 then
      refundAddGas refundGas pair.Sender (pair.GasPrice * int64OfUint64 receipt.GasUsed)
    else refundGas
  | none => refundGas

/-- How a call of `processCustomTx` ends: with its three results, in a run-time panic, or,
at height 0, outside this model. -/
inductive DecodeResult where
  | returned (headerExtra : HeaderExtra) (refundGas : Option RefundGas) (err : Option Error)
  | panicked
  | genesis
deriving DecidableEq

/-- Lines 1589-1595: the refund table and the return of `processCustomTx`, from what the
loop over the transactions has left. -/
def finishCustomTx (loop : Option TxState) : DecodeResult :=
  match loop with
  | none => .panicked
  | some st => .returned st.headerExtra (some (st.receipts.foldl (refundStep st.refundHash) ∅)) none

/-- `processCustomTx` at a height `number ≥ 1`; `parent` is the pair returned by
`a.snapshot(chain, number-1, header.ParentHash, ...)`. -/
def processCustomTx (a : Engine) (headerExtra : HeaderExtra) (number : Nat)
    (parent : Except Error Snapshot) (state : StateDB) (txs : List Transaction)
    (receipts : List Receipt) : DecodeResult :=
  if 1 ≤ number then
    match parent with
    | .error err => .returned headerExtra none (some err)
    | .ok snap =>
      finishCustomTx (processTxs a number ⟨headerExtra, snap, snap.copy a.minerRewardPerThousand, state, receipts, ∅⟩
        txs)
  else .genesis

/-- The bundle a call of `processCustomTx` returns. -/
def DecodeResult.bundle : DecodeResult → Option HeaderExtra
  | .returned headerExtra _ _ => some headerExtra
  | _ => none

/-! ## A concrete engine -/

/-- The value of a digit or letter as a numeral digit. -/
def digitValue (c : Char) : Option Nat :=
  if '0' ≤ c ∧ c ≤ '9' then some (c.toNat - '0'.toNat)
  else if 'a' ≤ c ∧ c ≤ 'z' then some (c.toNat - 'a'.toNat + 10)
  else if 'A' ≤ c ∧ c ≤ 'Z' then some (c.toNat - 'A'.toNat + 10)
  else none

/-- The number a non-empty text of digits below `base` denotes. -/
def parseDigits (base : Nat) (s : String) : Option Nat :=
  if s.data = [] then none
  else
    s.data.foldl
      (fun acc c =>
        acc.bind fun n => (digitValue c).bind fun d => if d < base then some (n * base + d) else none)
      (some 0)

/-- `strconv.ParseUint` for the bases 10 and 16: digits only, and a value that fits in
`bitSize` bits. -/
def sampleParseUint (s : String) (base bitSize : Nat) : Option Nat :=
  (parseDigits base s).bind fun n => if n < 2 ^ bitSize then some n else none

/-- An engine for the checks below: 21 signers, candidates need no proposal, numbers are
read as decimal numerals (on which the parser agrees with `big.Int.UnmarshalText`),
addresses and hashes as hexadecimal numerals, no header is stored, no account holds a
multi-signature contract, and the decoders outside the model leave everything alone. -/
def sampleEngine : Engine :=
  { config := sampleConfig
    candidateNeedPD := false
    minerRewardPerThousand := 618
    extraVanity := 32
    extraSeal := 65
    emptyCodeHash := 0xc5d2460186f7233c927e7db2dcc703c0e500b653ca82273b7bfad8045d85a470
    GetHeaderByNumber := fun _ => none
    decodeHeaderExtra := fun _ _ => .ok emptyExtra
    bigUnmarshalText := fun s => (parseDigits 10 s).map Int.ofNat
    ParseUint := sampleParseUint
    addressUnmarshalText1 := fun s => parseDigits 16 s
    hexutilUnmarshalText1 := fun s => (parseDigits 16 s).map Int.ofNat
    HexToHash := fun s => (parseDigits 16 s).getD 0
    rlpDecodeMultiSignatureData := fun _ => none
    checkMaxStorageSpaceByAddr := fun _ _ => true
    handlers := fun _ _ _ _ _ st => some st }

/-- A state database in which every account holds `balance` and nothing else. -/
def uniformState (balance : Int) : StateDB :=
  { Balance := fun _ => balance
    Nonce := fun _ => 0
    CodeHash := fun _ => 0
    Code := fun _ => []
    Empty := fun _ => decide (balance = 0) }

/-- A transaction of sender 7 to recipient 8 without value; hash and payload as given. -/
def sampleTx (hash : Hash) (data : String) : Transaction :=
  { Hash := hash, To := some 8, Value := 0, GasPrice := 1, Data := data, Sender := some 7,
    AllSigners := [7] }

/-! ## Payloads outside the grammar and concrete decoder scenarios -/

/-- The payload is outside the grammar of the three tags: split on `:` it has fewer than 3
fields, or its first field is none of the three tags, or its second field is not the
version. -/
def ForeignPayload (data : String) : Prop :=
  (stringsSplit data ':').length < ufoMinSplitLen
  ∨ fieldAt (stringsSplit data ':') posPrefix ∉ [ ufoPrefix, utgPrefix, sscPrefix]
  ∨ fieldAt (stringsSplit data ':') posVersion ≠ ufoVersion

/-- What the body of the loop of `processCustomTx` leaves when nothing but the refresh of
the predecessor votes has run (nothing at all for a transaction without recoverable
sender). -/
def refreshOnly (number : Nat) (st : TxState) (tx : Transaction) : TxState :=
  match tx.Sender with
  | none => st
  | some txSender => refreshPredecessor number st tx txSender

/-- Address 7 is recorded as the manager of the topics `sscEnumExchRate`, `sscEnumSystem`
and `sscEnumWdthPnsh`, and address 50 has claimed bandwidth. -/
def managerSnapshot : Snapshot :=
  { emptySnapshot with
    Bandwidth := AList.insert 50 ⟨1, 100⟩ ∅
    SystemConfig :=
      { ExchRate := 0, OffLine := 0, Deposit := emptySnapshot.SystemConfig.Deposit,
        ManagerAddress :=
          AList.insert sscEnumExchRate 7
            (AList.insert sscEnumSystem 7 (AList.insert sscEnumWdthPnsh 7 ∅)) } }

/-- As `sampleEngine`, with header 5 stored (an `Extra` of 97 bytes) and every bundle
decoding to the signer queue `[7]`. -/
def confirmEngine : Engine :=
  { sampleEngine with
    GetHeaderByNumber := fun n => if n = 5 then some (List.replicate 97 0) else none
    decodeHeaderExtra := fun _ _ => .ok { emptyExtra with SignerQueue := [7] } }

/-- Address 7 is a candidate. -/
def confirmSnapshot : Snapshot :=
  { emptySnapshot with Candidates := AList.insert 7 1 ∅ }

def scRewardDelayLoopCount : Nat := 0
def scRewardExpiredLoopCount : Nat := scRewardDelayLoopCount + 4

/-- `strings.Join(elems, sep)`. -/
def stringsJoin (elems : List String) (sep : String) : String := sep.intercalate elems

/-- The values the counter of the Go loop `for i := lo; i <= hi; i++` takes when `i`, `lo`
and `hi` are `uint64`: `lo, ..., hi`, none when `hi < lo`. `none`: `hi` is the largest
`uint64`, so the test `i <= hi` holds for every value of the counter, which wraps around
to 0 after `hi`, and the loop does not end. -/
def uint64Upto (lo hi : Nat) : Option (List Nat) :=
  if hi < 2 ^ 64 - 1 then some (List.range' lo (hi + 1 - lo)) else none

/-- The confirmations the first loop of `calculateSCConfirmedNumber` visits, in its order:
those of `Record[i]` for `i` from `LastConfirmedNumber + 1` to `MaxHeaderNumber`. `none`:
the loop does not end (`MaxHeaderNumber` is the largest `uint64`). -/
def scannedConfirmations (record : SCRecord) : Option (List SCConfirmation) :=
  (uint64Upto (uint64 (record.LastConfirmedNumber + 1)) record.MaxHeaderNumber).map
    (fun heights => heights.flatMap (fun i => (record.Record.lookup i).getD []))

/-- The body of the first loop of `calculateSCConfirmedNumber`, on the pair
`(confirmedNumber, confirmedRecordMap)`. `none`: `LoopInfo[len(LoopInfo)-2]` is read in a
loop-info of fewer than two entries. -/
def scanConfirm (unmarshalText : String → Option Int) (minConfirmedSignerCount : Nat)
    (acc : Nat × GoMap String (GoMap Address Bool)) (scConfirm : SCConfirmation) :
    Option (Nat × GoMap String (GoMap Address Bool)) :=
  if minConfirmedSignerCount * 2 ≤ scConfirm.LoopInfo.length then
    if (((acc.2.lookup (stringsJoin scConfirm.LoopInfo ":")).getD ∅).lookup
        scConfirm.Coinbase).isSome then
      some acc
    else if minConfirmedSignerCount
        ≤ (((acc.2.lookup (stringsJoin scConfirm.LoopInfo ":")).getD ∅).insert
            scConfirm.Coinbase true).entries.length then
      if scConfirm.LoopInfo.length < 2 then none
      else
        match unmarshalText (scConfirm.LoopInfo.getD (scConfirm.LoopInfo.length - 2) "") with
        | some tmpHeaderNum =>
          if acc.1 < bigUint64 tmpHeaderNum then
            some (bigUint64 tmpHeaderNum,
              acc.2.insert (stringsJoin scConfirm.LoopInfo ":")
                (((acc.2.lookup (stringsJoin scConfirm.LoopInfo ":")).getD ∅).insert
                  scConfirm.Coinbase true))
          else
            some (acc.1,
              acc.2.insert (stringsJoin scConfirm.LoopInfo ":")
                (((acc.2.lookup (stringsJoin scConfirm.LoopInfo ":")).getD ∅).insert
                  scConfirm.Coinbase true))
        | none =>
          some (acc.1,
            acc.2.insert (stringsJoin scConfirm.LoopInfo ":")
              (((acc.2.lookup (stringsJoin scConfirm.LoopInfo ":")).getD ∅).insert
                scConfirm.Coinbase true))
    else
      some (acc.1,
        acc.2.insert (stringsJoin scConfirm.LoopInfo ":")
          (((acc.2.lookup (stringsJoin scConfirm.LoopInfo ":")).getD ∅).insert
            scConfirm.Coinbase true))
  else some acc

/-- The inner loop of the second loop of `calculateSCConfirmedNumber`: the pairs
`(number, coinbase)` of one loop-info are entered into `confirmedCoinbase`. -/
def coinbasesOfInfo (unmarshalText : String → Option Int) (hexToAddress : String → Address) :
    List String → GoMap Nat Address → GoMap Nat Address
  | numberText :: addressText :: rest, confirmedCoinbase =>
    match unmarshalText numberText with
    | none => coinbasesOfInfo unmarshalText hexToAddress rest confirmedCoinbase
    | some tmpHeaderNum =>
      coinbasesOfInfo unmarshalText hexToAddress rest
        (confirmedCoinbase.insert (bigUint64 tmpHeaderNum) (hexToAddress addressText))
  | _, confirmedCoinbase => confirmedCoinbase

/-- The second loop of `calculateSCConfirmedNumber`; `order` rearranges the keys of
`confirmedRecordMap` into the order in which `range` visits them. -/
def confirmedCoinbaseOf (unmarshalText : String → Option Int)
    (hexToAddress : String → Address) (order : List String → List String)
    (minConfirmedSignerCount : Nat) (confirmedRecordMap : GoMap String (GoMap Address Bool)) :
    GoMap Nat Address :=
  (order (confirmedRecordMap.entries.map (fun e => e.1))).foldl
    (fun confirmedCoinbase info =>
      match confirmedRecordMap.lookup info with
      | some confirm =>
        if minConfirmedSignerCount ≤ confirm.entries.length then
          coinbasesOfInfo unmarshalText hexToAddress (stringsSplit info ':') confirmedCoinbase
        else confirmedCoinbase
      | none => confirmedCoinbase)
    ∅

/-- The end of `calculateSCConfirmedNumber` (lines 1712-1727): with more than one block per
period the confirmed number steps back to the first height, among the `CountPerPeriod - 1`
below it, whose coinbase differs from the last one, and the coinbases of the heights of
the period left unfinished are dropped. Both loops count in `uint64`: the first does not
run when `confirmedNumber - CountPerPeriod` wraps around, the second runs from
`confirmedNumber + 1` up to, not including, `confirmedNumber + CountPerPeriod`, each taken
modulo 2^64. -/
def adjustForPeriod (record : SCRecord) (confirmedNumber : Nat)
    (confirmedCoinbase : GoMap Nat Address) : Nat × GoMap Nat Address :=
  if 1 < record.CountPerPeriod ∧ record.LastConfirmedNumber < confirmedNumber then
    match confirmedCoinbase.lookup confirmedNumber with
    | some lastConfirmedCoinbase =>
      let adjusted :=
        ((if confirmedNumber < record.CountPerPeriod then []
          else (List.range (record.CountPerPeriod - 1)).map
            (fun k => confirmedNumber - 1 - k)).find?
          (fun i => decide (lastConfirmedCoinbase ≠ (confirmedCoinbase.lookup i).getD 0))).getD
          confirmedNumber
      (adjusted,
        (List.range' (uint64 (adjusted + 1))
            (uint64 (adjusted + record.CountPerPeriod) - uint64 (adjusted + 1))).foldl
          (fun m i => m.erase i) confirmedCoinbase)
    | none => (confirmedNumber, confirmedCoinbase)
  else (confirmedNumber, confirmedCoinbase)

/-- `Snapshot.calculateSCConfirmedNumber`. `none`: the first loop does not end, or reads
`LoopInfo[len(LoopInfo)-2]` in a loop-info of fewer than two entries. -/
def calculateSCConfirmedNumber (unmarshalText : String → Option Int)
    (hexToAddress : String → Address) (order : List String → List String)
    (record : SCRecord) (minConfirmedSignerCount : Nat) : Option (Nat × GoMap Nat Address) :=
  match scannedConfirmations record with
  | none => none
  | some scanned =>
    (scanned.foldlM (scanConfirm unmarshalText minConfirmedSignerCount)
      (record.LastConfirmedNumber, ∅)).map
      (fun scan =>
        adjustForPeriod record scan.1
          (confirmedCoinbaseOf unmarshalText hexToAddress order minConfirmedSignerCount
            scan.2))

/-- The body of the reward loop of `updateSCConfirmation` (lines 1755-1773), on the triple
`(lastSCCoinbase, currentSCCoinbaseCount, RewardScoreMap)`. -/
def rewardStep (countPerPeriod : Nat) (confirmedCoinbase : GoMap Nat Address)
    (acc : Address × Nat × GoMap Address Nat) (n : Nat) : Address × Nat × GoMap Address Nat :=
  match confirmedCoinbase.lookup n with
  | some scCoinbase =>
    (scCoinbase,
      (if acc.1 ≠ scCoinbase then 1 else uint64 (acc.2.1 + 1)),
      match acc.2.2.lookup scCoinbase with
      | none =>
        acc.2.2.insert scCoinbase
          (calculateCurrentBlockReward
            (if acc.1 ≠ scCoinbase then 1 else uint64 (acc.2.1 + 1)) countPerPeriod)
      | some score =>
        acc.2.2.insert scCoinbase
          (uint64 (score + calculateCurrentBlockReward
            (if acc.1 ≠ scCoinbase then 1 else uint64 (acc.2.1 + 1)) countPerPeriod)))
  | none => acc

/-- The heights the reward loop and the deletion loop of `updateSCConfirmation` (lines
1755 and 1775) visit, both inside `if confirmedNumber > record.LastConfirmedNumber`: from
`LastConfirmedNumber + 1` to `confirmedNumber`. `none`: the loops do not end
(`confirmedNumber` is the largest `uint64`). -/
def confirmedHeights (record : SCRecord) (confirmedNumber : Nat) : Option (List Nat) :=
  if record.LastConfirmedNumber < confirmedNumber then
    uint64Upto (uint64 (record.LastConfirmedNumber + 1)) confirmedNumber
  else some []

/-- The body of the first loop of `updateSCConfirmation` for the side chain `scHash`.
`none`: `calculateSCConfirmedNumber` does not return, or the loops over the confirmed
heights do not end. -/
def confirmSideChain (unmarshalText : String → Option Int) (hexToAddress : String → Address)
    (order : List String → List String) (headerNumber : Int) (s : Snapshot) (scHash : Hash) :
    Option Snapshot :=
  match s.SCRecordMap.lookup scHash with
  | none => some s
  | some record =>
    match calculateSCConfirmedNumber unmarshalText hexToAddress order record
        (uint64 (2 * s.config.MaxSignerCount) / 3) with
    | none => none
    | some (confirmedNumber, confirmedCoinbase) =>
      match confirmedHeights record confirmedNumber with
      | none => none
      | some heights =>
        let rewardMap :=
          if (s.SCRewardMap.lookup scHash).isSome then s.SCRewardMap
          else s.SCRewardMap.insert scHash ⟨∅⟩
        let currentReward : GoMap Address Nat :=
          (heights.foldl (rewardStep record.CountPerPeriod confirmedCoinbase) (0, 0, ∅)).2.2
        some { s with
          SCRecordMap :=
            if record.LastConfirmedNumber < confirmedNumber then
              s.SCRecordMap.insert scHash
                { record with
                  Record := heights.foldl (fun m i => m.erase i) record.Record
                  LastConfirmedNumber := confirmedNumber }
            else s.SCRecordMap
          SCRewardMap :=
            if currentReward.entries.length ≠ 0 then
              rewardMap.insert scHash
                ⟨((rewardMap.lookup scHash).getD ⟨∅⟩).SCBlockRewardMap.insert
                  (bigUint64 headerNumber) ⟨currentReward⟩⟩
            else rewardMap }

/-- The second loop of `updateSCConfirmation` (lines 1787-1798): reward records older than
`scRewardExpiredLoopCount` loops are deleted, and with them the side chains left without a
reward record. -/
def expireSCReward (s : Snapshot) (headerNumber : Int) : Snapshot :=
  { s with
    SCRewardMap :=
      s.SCRewardMap.entries.foldl
        (fun m e =>
          if (deleteWhere
              (fun number _ =>
                decide (number < uint64Sub (bigUint64 headerNumber)
                  (uint64 (scRewardExpiredLoopCount * s.config.MaxSignerCount))))
              e.2.SCBlockRewardMap).entries.length = 0 then
            m.erase e.1
          else
            m.insert e.1
              ⟨deleteWhere
                (fun number _ =>
                  decide (number < uint64Sub (bigUint64 headerNumber)
                    (uint64 (scRewardExpiredLoopCount * s.config.MaxSignerCount))))
                e.2.SCBlockRewardMap⟩)
        s.SCRewardMap }

/-- `Snapshot.updateSCConfirmation`; the side chains are independent of each other, so the
order in which `range s.SCRecordMap` visits them does not matter and is that of the map.
`none`: the call does not return. -/
def updateSCConfirmation (unmarshalText : String → Option Int)
    (hexToAddress : String → Address) (order : List String → List String) (s : Snapshot)
    (headerNumber : Int) : Option Snapshot :=
  ((s.SCRecordMap.entries.map (fun e => e.1)).foldlM
    (confirmSideChain unmarshalText hexToAddress order headerNumber) s).map
    (fun s1 => expireSCReward s1 headerNumber)

/-- The distinct coinbases that have recorded, among the confirmations `l`, a loop-info of
at least `2 * minConfirmedSignerCount` entries whose joined text is `key`. -/
def confirmers (minConfirmedSignerCount : Nat) (l : List SCConfirmation) (key : String) :
    Finset Address :=
  ((l.filter (fun c => decide (minConfirmedSignerCount * 2 ≤ c.LoopInfo.length)
      && decide (stringsJoin c.LoopInfo ":" = key))).map (fun c => c.Coinbase)).toFinset

/-- What the first loop of `calculateSCConfirmedNumber` holds after the confirmations `p`,
when `keyL` is the one joined loop-info that may reach the threshold `min` and carries the
height `n`: the inner maps hold the confirmers of each loop-info, and the confirmed number
is `n` once `keyL` has `min` confirmers and the last confirmed number `lcn` before. -/
def ScanInvariant (min : Nat) (keyL : String) (n lcn : Nat) (p : List SCConfirmation)
    (acc : Nat × GoMap String (GoMap Address Bool)) : Prop :=
  (∀ k c, (((acc.2.lookup k).getD ∅).lookup c).isSome = true ↔ c ∈ confirmers min p k)
  ∧ (∀ k, ((acc.2.lookup k).getD ∅).entries.length = (confirmers min p k).card)
  ∧ acc.1 = if min ≤ (confirmers min p keyL).card then n else lcn

/-- A loop-info of 28 entries: thirteen pairs `(height, coinbase)` for the heights 1 to 13
sealed by `c1`, then the height 5 with the coinbase `c2`. -/
def sampleLoopInfo : List String :=
  (List.replicate 13 ["1", "c1"]).flatten ++ ["5", "c2"]

/-- A side chain (one block per period, nothing confirmed yet) for which the coinbases 1
to 15 have each recorded, at height 5, a confirmation carrying `sampleLoopInfo`, and
coinbase 16 one carrying another loop-info. -/
def sampleSCRecord : SCRecord :=
  { Record :=
      AList.insert 5
        (((List.range 15).map (fun k => (⟨77, k + 1, 5, sampleLoopInfo⟩ : SCConfirmation)))
          ++ [⟨77, 16, 5, (List.replicate 14 ["2", "c3"]).flatten⟩]) ∅
    LastConfirmedNumber := 0
    MaxHeaderNumber := 5
    CountPerPeriod := 1
    RewardPerPeriod := 0
    RentReward := ∅ }

/-- The snapshot that records `sampleSCRecord` for the side chain 77. -/
def sideChainSnapshot : Snapshot :=
  { emptySnapshot with SCRecordMap := AList.insert 77 sampleSCRecord ∅ }

/-- Decimal numerals as `big.Int.UnmarshalText` reads them. -/
def decimalText (s : String) : Option Int := (parseDigits 10 s).map Int.ofNat

/-! ## Payout cadence of the remaining streams (`alien_setting.go` lines 54-75, 155-179,
240-300) and the dispatch of `calPayProfit` (`snapshot.go` lines 2547-2607) -/

def payPOSPGRedeemInterval : Nat := 1 * 60 * 60 + 40 * 60
def payPOSExitInterval : Nat := 1 * 60 * 60 + 50 * 60
def paySpReWardInterval : Nat := 2 * 60 * 60 + 10 * 50
def paySpEntrustRewardInterval : Nat := 2 * 60 * 60 + 10 * 60
def paySTPEntrustExitInterval : Nat := 2 * 60 * 60 + 10 * 70
def paySpExitInterval : Nat := 2 * 60 * 60 + 10 * 80
def paySpEntrustExitInterval : Nat := 2 * 60 * 60 + 10 * 90
def paySTPEntrustInterval : Nat := 2 * 60 * 60 + 10 * 100

/-- `isPayPosPledgeExit`; `none` when a division or remainder by zero stops the program. -/
def isPayPosPledgeExit (number period : Nat) : Option Bool :=
  if isGEInitStorageManagerNumber number then
    if period = 0 then none
    else
      let block := payPOSPGRedeemInterval / period
      let blockPerDay := secondsPerDay / period
      if utgLockRewardInterval * blockPerDay = 0 then none
      else some (decide (number % (utgLockRewardInterval * blockPerDay) = block))
  else if number < PledgeRevertLockEffectNumber then some false
  else if period = 0 then none
  else
    let block := payPOSPGRedeemInterval / period
    let blockPerDay := secondsPerDay / period
    if blockPerDay = 0 then none
    else some (decide (block = number % blockPerDay ∧ block ≠ number))

/-- `isPayPosExit`; `none` when a division or remainder by zero stops the program. -/
def isPayPosExit (number period : Nat) : Option Bool :=
  if isGEInitStorageManagerNumber number then
    if period = 0 then none
    else
      let block := payPOSExitInterval / period
      let blockPerDay := secondsPerDay / period
      if utgLockRewardInterval * blockPerDay = 0 then none
      else some (decide (number % (utgLockRewardInterval * blockPerDay) = block))
  else if number < PosNewEffectNumber then some false
  else if period = 0 then none
  else
    let block := payPOSExitInterval / period
    let blockPerDay := secondsPerDay / period
    if blockPerDay = 0 then none
    else some (decide (block = number % blockPerDay ∧ block ≠ number))

/-- The common body of the six storage payout predicates: false below
`initStorageManagerNumber`, then `number % (30 * blockPerDay) == interval / period`. -/
def isPayStorageStream (interval number period : Nat) : Option Bool :=
  if number < initStorageManagerNumber then some false
  else if period = 0 then none
  else
    let block := interval / period
    let blockPerDay := secondsPerDay / period
    if utgLockRewardInterval * blockPerDay = 0 then none
    else some (decide (number % (utgLockRewardInterval * blockPerDay) = block))

/-- `isPaySTPEntrustExit`. -/
def isPaySTPEntrustExit (number period : Nat) : Option Bool :=
  isPayStorageStream paySTPEntrustExitInterval number period

/-- `isPaySTPEntrust`. -/
def isPaySTPEntrust (number period : Nat) : Option Bool :=
  isPayStorageStream paySTPEntrustInterval number period

/-- `isPaySpExit`. -/
def isPaySpExit (number period : Nat) : Option Bool :=
  isPayStorageStream paySpExitInterval number period

/-- `isPaySpEntrustExit`. -/
def isPaySpEntrustExit (number period : Nat) : Option Bool :=
  isPayStorageStream paySpEntrustExitInterval number period

/-- `isPaySpEntrustReWard`. -/
def isPaySpEntrustReWard (number period : Nat) : Option Bool :=
  isPayStorageStream paySpEntrustRewardInterval number period

/-- `isPaySpReWard`. -/
def isPaySpReWard (number period : Nat) : Option Bool :=
  isPayStorageStream paySpReWardInterval number period

/-- The eleven payout streams of `calPayProfit`, in the order in which it tests them. -/
inductive PayStream where
  | RewardLock | FlowLock | BandwidthLock | PosPgExitLock | PosExitLock
  | STPEntrustExitLock | STPEntrustLock | SpLock | SpEntrustLock | SpExitLock
  | SpEntrustExitLock
  deriving DecidableEq, Repr

/-- The streams in the order of the `if` chain of `calPayProfit`. -/
def payStreams : List PayStream :=
  [.RewardLock, .FlowLock, .BandwidthLock, .PosPgExitLock, .PosExitLock,
   .STPEntrustExitLock, .STPEntrustLock, .SpLock, .SpEntrustLock, .SpExitLock,
   .SpEntrustExitLock]

/-- The predicate `calPayProfit` tests for a stream. -/
def PayStream.isDue : PayStream → Nat → Nat → Option Bool
  | .RewardLock => isPaySignerRewards
  | .FlowLock => isPayFlowRewards
  | .BandwidthLock => isPayBandWidthRewards
  | .PosPgExitLock => isPayPosPledgeExit
  | .PosExitLock => isPayPosExit
  | .STPEntrustExitLock => isPaySTPEntrustExit
  | .STPEntrustLock => isPaySTPEntrust
  | .SpLock => isPaySpReWard
  | .SpEntrustLock => isPaySpEntrustReWard
  | .SpExitLock => isPaySpExit
  | .SpEntrustExitLock => isPaySpEntrustExit

/-- Whether `calPayProfit` tests the lock table of the stream for `nil` before it returns:
the first three streams are paid unconditionally. -/
def PayStream.guarded : PayStream → Bool
  | .RewardLock | .FlowLock | .BandwidthLock => false
  | _ => true

/-- The `if` chain of `calPayProfit` from a given position: the first stream whose
predicate holds and whose lock table is there (`present`) is paid and the function returns;
`some none` is the final `return playGrantProfit, nil`; `none` is a stopped program. -/
def payChain (present : PayStream → Bool) (number period : Nat) :
    List PayStream → Option (Option PayStream)
  | [] => some none
  | st :: rest =>
    match st.isDue number period with
    | none => none
    | some true =>
      if !st.guarded || present st then some (some st)
      else payChain present number period rest
    | some false => payChain present number period rest

/-- The stream `calPayProfit` pays at a height: none at height 0. -/
def calPayProfitStream (present : PayStream → Bool) (number period : Nat) :
    Option (Option PayStream) :=
  if number = 0 then some none else payChain present number period payStreams

/-- The offset of a stream within its payout epoch, in seconds. -/
def PayStream.interval : PayStream → Nat
  | .RewardLock => paySignerRewardInterval
  | .FlowLock => payFlowRewardInterval
  | .BandwidthLock => payBandwidthRewardInterval
  | .PosPgExitLock => payPOSPGRedeemInterval
  | .PosExitLock => payPOSExitInterval
  | .STPEntrustExitLock => paySTPEntrustExitInterval
  | .STPEntrustLock => paySTPEntrustInterval
  | .SpLock => paySpReWardInterval
  | .SpEntrustLock => paySpEntrustRewardInterval
  | .SpExitLock => paySpExitInterval
  | .SpEntrustExitLock => paySpEntrustExitInterval

/-! ## Scheduled pledge payouts (`snapshot.go` lines 1388-1409) -/

/-- `consensus.GrantProfitRecord`, with the fields the translated sources read or fill
(`calPayProfit`, `updateGrantProfit`). -/
structure GrantProfitRecord where
  Which : Nat
  MinerAddress : Address
  BlockNumber : Nat
  Amount : Int
  RevenueAddress : Address
  RevenueContract : Address
  MultiSignature : Address
deriving DecidableEq, Repr

/-- The statements of the loop body of `updateGrantProfit` on one pledge table: the payment
is added to `Playment` and the pledge is deleted once `Playment` has reached `Amount`. -/
def grantPledgeStep (pledges : GoMap Address PledgeItem) (item : GrantProfitRecord) :
    GoMap Address PledgeItem :=
  match pledges.lookup item.MinerAddress with
  | some pledge =>
    if pledge.Amount ≤ pledge.Playment + item.Amount then pledges.erase item.MinerAddress
    else pledges.insert item.MinerAddress { pledge with Playment := pledge.Playment + item.Amount }
  | none => pledges

/-- The body of the loop of `updateGrantProfit`. -/
def grantProfitStep (snap : Snapshot) (item : GrantProfitRecord) : Snapshot :=
  if item.BlockNumber = 0 then
    if item.Which = sscEnumCndLock then
      { snap with CandidatePledge := grantPledgeStep snap.CandidatePledge item }
    else if item.Which = sscEnumFlwLock then
      { snap with FlowPledge := grantPledgeStep snap.FlowPledge item }
    else snap
  else snap

/-- `Snapshot.updateGrantProfit`, on the two pledge tables (the lock ledger `FlowRevenue`
updated by the last statement lies outside this model). -/
def updateGrantProfit (snap : Snapshot) (grantProfit : List GrantProfitRecord) : Snapshot :=
  grantProfit.foldl grantProfitStep snap

/-- A candidate pledge of 100 of which 30 are paid, and a flow pledge of 50 of which 40 are
paid, both of miner 9. -/
def payoutSnapshot : Snapshot :=
  { emptySnapshot with
    CandidatePledge := AList.insert 9 { NewPledgeItem 100 with Playment := 30 } ∅
    FlowPledge := AList.insert 9 { NewPledgeItem 50 with Playment := 40 } ∅ }

/-- The expiry rule in the words of the specification: the voter has a recorded vote that
has not been refreshed for more than `Epoch` blocks, or, only when there are more than
10000 voters, whose stake is below the threshold (`MinVB` before `PosNewEffectNumber`, 0
from it on). -/
def voteExpired (s : Snapshot) (headerNumber : Nat) (voter : Address) : Bool :=
  match s.Voters.lookup voter, s.Votes.lookup voter with
  | some voteNumber, some vote =>
    decide (s.config.Epoch < headerNumber - voteNumber) ||
      (decide (10000 < s.Voters.entries.length) &&
        decide (vote.Stake < (if headerNumber < PosNewEffectNumber then s.MinVB else 0)))
  | _, _ => false

/-- Three voters of which voter 1 last voted at height 0 and the others at height 500,
with an epoch of 100 blocks and a signer queue of two. -/
def expirySnapshot : Snapshot :=
  { pipelineSnapshot with
    config := { sampleConfig with Epoch := 100, MaxSignerCount := 2 }
    Voters := AList.insert 1 0 (AList.insert 2 500 (AList.insert 3 500 ∅)) }

/-! ## Automatic exit of a candidate in continuous debt (`snapshot.go` lines 1188-1190,
2678-2704; `alien_setting.go` lines 62, 97, 181-188)

The two `range` loops visit map entries in an order the language does not fix; the orders
are the arguments `minerOrder` and `detailOrder`, which rearrange the entries of a map. -/

def maxPosContinueDayFail : Nat := 30
def checkPOSAutoExit : Nat := 1 * 60 * 60 + 60 * 60

/-- `isCheckPOSAutoExit`; `none` when a division or remainder by zero stops the program. -/
def isCheckPOSAutoExit (number period : Nat) : Option Bool :=
  if number < PosNewEffectNumber then some false
  else if period = 0 then none
  else
    let block := checkPOSAutoExit / period
    let blockPerDay := secondsPerDay / period
    if blockPerDay = 0 then none
    else some (decide (block = number % blockPerDay ∧ block ≠ number))

/-- `Snapshot.getBlockPreDay`; `none` when the division by a zero period stops the
program. -/
def Snapshot.getBlockPreDay (snap : Snapshot) : Option Nat :=
  if snap.config.Period = 0 then none else some (secondsPerDay / snap.config.Period)

/-- The body of the inner loop of `checkCandidateAutoExit`, on the pair
`(burnAmount, candidatePEntrustExit)`. -/
def autoExitDetailStep (miner manager : Address)
    (acc : Int × List CandidatePEntrustExitRecord) (e : Sigma (fun _ : Hash => PledgeDetail)) :
    Int × List CandidatePEntrustExitRecord :=
  if e.2.Address = manager then (acc.1 + e.2.Amount, acc.2)
  else (acc.1, acc.2 ++ [⟨miner, e.1, e.2.Address, e.2.Amount⟩])

/-- The body of the outer loop of `checkCandidateAutoExit`, on the triple
`(candidateAutoExit, burnAmount, candidatePEntrustExit)`. -/
def autoExitMinerStep (snap : Snapshot) (number : Nat)
    (detailOrder : List (Sigma (fun _ : Hash => PledgeDetail))
      → List (Sigma (fun _ : Hash => PledgeDetail)))
    (acc : List Address × Int × List CandidatePEntrustExitRecord)
    (e : Sigma (fun _ : Address => PosPledgeItem)) :
    Option (List Address × Int × List CandidatePEntrustExitRecord) :=
  if 0 < e.2.LastPunish then
    match snap.getBlockPreDay with
    | none => none
    | some blockPreDay =>
      if uint64 (maxPosContinueDayFail * blockPreDay) ≤ uint64Sub number e.2.LastPunish then
        some (acc.1 ++ [e.1],
          (detailOrder e.2.Detail.entries).foldl (autoExitDetailStep e.1 e.2.Manager) acc.2)
      else some acc
  else some acc

/-- `Snapshot.checkCandidateAutoExit`. The result holds the two lists returned and the
amount passed to `state.AddBalance` for the zero address (`none`: no call). -/
def checkCandidateAutoExit
    (minerOrder : List (Sigma (fun _ : Address => PosPledgeItem))
      → List (Sigma (fun _ : Address => PosPledgeItem)))
    (detailOrder : List (Sigma (fun _ : Hash => PledgeDetail))
      → List (Sigma (fun _ : Hash => PledgeDetail)))
    (snap : Snapshot) (number : Nat) (candidateAutoExit : List Address)
    (candidatePEntrustExit : List CandidatePEntrustExitRecord) :
    Option (List Address × List CandidatePEntrustExitRecord × Option Int) :=
  match isCheckPOSAutoExit number snap.Period with
  | none => none
  | some check =>
    (if check then
      (minerOrder (match snap.PosPledge with
        | some m => m.entries
        | none => [])).foldlM (autoExitMinerStep snap number detailOrder)
        (candidateAutoExit, 0, candidatePEntrustExit)
    else some (candidateAutoExit, 0, candidatePEntrustExit)).map
      (fun r => (r.1, r.2.2, if 0 < r.2.1 then some r.2.1 else none))

/-- The condition of the specification under which a candidate is force-exited: the height
is a check height, the candidate is in debt (`LastPunish > 0`) and has been for at least
`maxPosContinueDayFail` days of blocks. -/
def autoExitDue (snap : Snapshot) (number : Nat) (item : PosPledgeItem) : Bool :=
  decide (isCheckPOSAutoExit number snap.Period = some true) &&
    decide (0 < item.LastPunish) &&
    decide (maxPosContinueDayFail * (secondsPerDay / snap.config.Period)
      ≤ number - item.LastPunish)

/-- The sum of the amounts of the exit records that name the candidate `miner`. -/
def returnedSum (records : List CandidatePEntrustExitRecord) (miner : Address) : Int :=
  ((records.filter (fun r => decide (r.Target = miner))).map (fun r => r.Amount)).sum

/-- The exit records the inner loop of `checkCandidateAutoExit` appends for one candidate:
one for each detail the manager does not own, in the order of the visit. -/
def autoExitRecords
    (detailOrder : List (Sigma (fun _ : Hash => PledgeDetail))
      → List (Sigma (fun _ : Hash => PledgeDetail)))
    (e : Sigma (fun _ : Address => PosPledgeItem)) : List CandidatePEntrustExitRecord :=
  ((detailOrder e.2.Detail.entries).filter (fun d => !decide (d.2.Address = e.2.Manager))).map
    (fun d => ⟨e.1, d.1, d.2.Address, d.2.Amount⟩)

/-- The amount the inner loop of `checkCandidateAutoExit` adds to `burnAmount` for one
candidate: the details the manager owns. -/
def autoExitBurn
    (detailOrder : List (Sigma (fun _ : Hash => PledgeDetail))
      → List (Sigma (fun _ : Hash => PledgeDetail)))
    (e : Sigma (fun _ : Address => PosPledgeItem)) : Int :=
  (((detailOrder e.2.Detail.entries).filter (fun d => decide (d.2.Address = e.2.Manager))).map
    (fun d => d.2.Amount)).sum

/-- The test of the outer loop of `checkCandidateAutoExit` for one candidate, given the
number of blocks per day. -/
def autoExitTest (number blockPreDay : Nat) (e : Sigma (fun _ : Address => PosPledgeItem)) :
    Bool :=
  decide (0 < e.2.LastPunish) &&
    decide (uint64 (maxPosContinueDayFail * blockPreDay) ≤ uint64Sub number e.2.LastPunish)

/-- Candidate 10, in debt since height 1, holds a detail of 100 of its manager (itself) and
a detail of 40 of address 20. -/
def autoExitItem : PosPledgeItem :=
  { Manager := 10, Active := 0, TotalAmount := 140,
    Detail := AList.insert 1 ⟨10, 0, 100⟩ (AList.insert 2 ⟨20, 0, 40⟩ ∅),
    LastPunish := 1, DisRate := 0 }

/-- The pledge table that holds `autoExitItem` for candidate 10. -/
def autoExitPledge : GoMap Address PosPledgeItem := AList.insert 10 autoExitItem ∅

/-- A snapshot whose only pledged candidate is candidate 10. -/
def autoExitSnapshot : Snapshot :=
  { emptySnapshot with PosPledge := some autoExitPledge }

/-! ## Proposal decoding (`custom_tx.go` lines 167-177, 1641-1770) -/

def maxValidationLoopCnt : Nat := 12342
def minValidationLoopCnt : Nat := 4
def defaultValidationLoopCnt : Nat := 2880
def maxProposalDeposit : Nat := 100000
def minSCRentFee : Nat := 100
def minSCRentLength : Nat := 259200
def defaultSCRentLength : Nat := minSCRentLength * 3
def maxSCRentLength : Nat := defaultSCRentLength * 4

/-- What `processEventProposal` takes from outside the translated sources: the parser
`strconv.Atoi` (`none` for an error), the value a hash or an address holds after
`UnmarshalText` of a text (the error is not looked at), and the package variables
`proposalDeposit`, `minVoterBalance` and `minerRewardPerThousand`. -/
structure ProposalEnv where
  atoi : String → Option Int
  hashUnmarshalText : Hash → String → Hash
  addressUnmarshalText : Address → String → Address
  proposalDeposit : Int
  minVoterBalance : Int
  minerRewardPerThousand : Nat

/-- `state.SetBalance(addr, amount)`, by the value `GetBalance` returns afterwards. -/
def StateDB.SetBalance (state : StateDB) (addr : Address) (amount : Int) : StateDB :=
  { state with Balance := fun a => if a = addr then amount else state.Balance a }

/-- `Snapshot.isSideChainExist`. -/
def Snapshot.isSideChainExist (s : Snapshot) (hash : Alien.Hash) : Bool :=
  (s.SCRecordMap.lookup hash).isSome

/-- The key/value pairs the loop of `processEventProposal` reads from the fields after the
intent name: `(tail[2*i], tail[2*i+1])` for `i < len(tail) / 2`. -/
def keyValuePairs : List String → List (String × String)
  | k :: v :: rest => (k, v) :: keyValuePairs rest
  | _ => []

/-- The cases of the `switch` in the loop body of `processEventProposal`. -/
inductive ProposalKey where
  | vlcnt | schash | sccount | screward | proposalType | candidate | mrpt | mvb | mpd
  | scrt | scrf | scrr | scrl | other
deriving DecidableEq, Repr

/-- The case of the `switch` a key selects. -/
def proposalKeyOf (k : String) : ProposalKey :=
  if k = "vlcnt" then .vlcnt
  else if k = "schash" then .schash
  else if k = "sccount" then .sccount
  else if k = "screward" then .screward
  else if k = "proposal_type" then .proposalType
  else if k = "candidate" then .candidate
  else if k = "mrpt" then .mrpt
  else if k = "mvb" then .mvb
  else if k = "mpd" then .mpd
  else if k = "scrt" then .scrt
  else if k = "scrf" then .scrf
  else if k = "scrr" then .scrr
  else if k = "scrl" then .scrl
  else .other

/-- The bodies of the cases of the `switch`; `none` is the
`return currentBlockProposals` of a value that is refused. -/
def proposalCase (env : ProposalEnv) (proposal : Proposal) (v : String) :
    ProposalKey → Option Proposal
  | .vlcnt =>
    match env.atoi v with
    | none => none
    | some validationLoopCnt =>
      if validationLoopCnt < minValidationLoopCnt ∨ validationLoopCnt > maxValidationLoopCnt then
        none
      else some { proposal with ValidationLoopCnt := uint64OfInt validationLoopCnt }
  | .schash => some { proposal with SCHash := env.hashUnmarshalText proposal.SCHash v }
  | .sccount =>
    match env.atoi v with
    | none => none
    | some scBlockCountPerPeriod =>
      some { proposal with SCBlockCountPerPeriod := uint64OfInt scBlockCountPerPeriod }
  | .screward =>
    match env.atoi v with
    | none => none
    | some scBlockRewardPerPeriod =>
      some { proposal with SCBlockRewardPerPeriod := uint64OfInt scBlockRewardPerPeriod }
  | .proposalType =>
    match env.atoi v with
    | none => none
    | some proposalType => some { proposal with ProposalType := uint64OfInt proposalType }
  | .candidate =>
    some { proposal with TargetAddress := env.addressUnmarshalText proposal.TargetAddress v }
  | .mrpt =>
    match env.atoi v with
    | none => none
    | some mrpt =>
      if mrpt ≤ 0 ∨ mrpt > 1000 then none
      else some { proposal with MinerRewardPerThousand := uint64OfInt mrpt }
  | .mvb =>
    match env.atoi v with
    | none => none
    | some mvb =>
      if mvb ≤ 0 then none else some { proposal with MinVoterBalance := uint64OfInt mvb }
  | .mpd =>
    match env.atoi v with
    | none => none
    | some mpd =>
      if mpd ≤ 0 ∨ mpd > maxProposalDeposit then none
      else some { proposal with ProposalDeposit := uint64OfInt mpd }
  | .scrt =>
    some { proposal with TargetAddress := env.addressUnmarshalText proposal.TargetAddress v }
  | .scrf =>
    match env.atoi v with
    | none => none
    | some scrf =>
      if scrf < minSCRentFee then none else some { proposal with SCRentFee := uint64OfInt scrf }
  | .scrr =>
    match env.atoi v with
    | none => none
    | some scrr =>
      if scrr ≤ 0 then none else some { proposal with SCRentRate := uint64OfInt scrr }
  | .scrl =>
    match env.atoi v with
    | none => none
    | some scrl =>
      if scrl < minSCRentLength ∨ scrl > maxSCRentLength then none
      else some { proposal with SCRentLength := uint64OfInt scrl }
  | .other => some proposal

/-- The `switch` of the loop body of `processEventProposal` on one pair. -/
def proposalField (env : ProposalEnv) (proposal : Proposal) (k v : String) : Option Proposal :=
  proposalCase env proposal v (proposalKeyOf k)

/-- The proposal `processEventProposal` starts from (lines 1650-1668). -/
def defaultProposal (env : ProposalEnv) (tx : Transaction) (proposer : Address) : Proposal :=
  { Hash := tx.Hash
    ReceivedNumber := 0
    CurrentDeposit := env.proposalDeposit
    ValidationLoopCnt := defaultValidationLoopCnt
    ProposalType := proposalTypeCandidateAdd
    Proposer := proposer
    TargetAddress := 0
    SCHash := 0
    SCBlockCountPerPeriod := 1
    SCBlockRewardPerPeriod := 0
    MinerRewardPerThousand := env.minerRewardPerThousand
    Declares := []
    MinVoterBalance := bigUint64 (env.minVoterBalance / 10 ^ 18)
    ProposalDeposit := bigUint64 (env.proposalDeposit / 10 ^ 18)
    SCRentFee := 0
    SCRentRate := 1
    SCRentLength := defaultSCRentLength }

/-- The proposal the loop of `processEventProposal` builds from the pairs; `none` when a
value is refused. -/
def buildProposal (env : ProposalEnv) (proposal : Proposal) :
    List (String × String) → Option Proposal
  | [] => some proposal
  | (k, v) :: rest =>
    match proposalField env proposal k v with
    | none => none
    | some proposal1 => buildProposal env proposal1 rest

/-- `processEventProposal`: the list of proposals and the state it leaves. -/
def processEventProposal (env : ProposalEnv) (currentBlockProposals : List Proposal)
    (txDataInfo : List String) (state : StateDB) (tx : Transaction) (proposer : Address)
    (snap : Snapshot) : List Proposal × StateDB :=
  if txDataInfo.length ≤ posEventProposal + 2 then (currentBlockProposals, state)
  else
    match buildProposal env (defaultProposal env tx proposer)
        (keyValuePairs (txDataInfo.drop (posEventProposal + 1))) with
    | none => (currentBlockProposals, state)
    | some proposal =>
      let currentProposalPay : Int :=
        if proposal.ProposalType = proposalTypeRentSideChain then
          env.proposalDeposit + (proposal.SCRentFee : Int) * 10 ^ 18
        else env.proposalDeposit
      if proposal.ProposalType = proposalTypeRentSideChain
          ∧ ¬ snap.isSideChainExist proposal.SCHash = true then
        (currentBlockProposals, state)
      else if proposal.ProposalType = proposalTypeRentSideChain
          ∧ proposal.TargetAddress = 0 then
        (currentBlockProposals, state)
      else if state.Balance proposer < currentProposalPay then (currentBlockProposals, state)
      else
        (currentBlockProposals ++ [proposal],
          state.SetBalance proposer (state.Balance proposer - currentProposalPay))

/-- `strconv.Atoi` on decimal numerals with an optional sign, within the range of a 64-bit
`int`. -/
def sampleAtoi (s : String) : Option Int :=
  match s.data with
  | '-' :: rest =>
    (parseDigits 10 (String.mk rest)).bind fun n =>
      if n ≤ 2 ^ 63 then some (-(n : Int)) else none
  | '+' :: rest =>
    (parseDigits 10 (String.mk rest)).bind fun n => if n < 2 ^ 63 then some (n : Int) else none
  | _ => (parseDigits 10 s).bind fun n => if n < 2 ^ 63 then some (n : Int) else none

/-- An environment for the checks below: a deposit of 100, no minimal balance, the parser
`sampleAtoi`, and hashes and addresses read as hexadecimal numerals. -/
def sampleProposalEnv : ProposalEnv :=
  { atoi := sampleAtoi
    hashUnmarshalText := fun old v => (parseDigits 16 v).getD old
    addressUnmarshalText := fun old v => (parseDigits 16 v).getD old
    proposalDeposit := 100
    minVoterBalance := 0
    minerRewardPerThousand := 618 }

/-- The limits of the specification on a proposal. -/
def ProposalWithinLimits (p : Proposal) : Prop :=
  minValidationLoopCnt ≤ p.ValidationLoopCnt ∧ p.ValidationLoopCnt ≤ maxValidationLoopCnt ∧
  minSCRentLength ≤ p.SCRentLength ∧ p.SCRentLength ≤ maxSCRentLength ∧ 1 ≤ p.SCRentRate

/-- A pair whose key is one of `vlcnt`, `scrl`, `scrr` and whose value is unparsable or out
of the range of that key. -/
def RefusedValue (env : ProposalEnv) (k v : String) : Prop :=
  (k = "vlcnt" ∧ ∀ x, env.atoi v = some x → x < 4 ∨ 12342 < x) ∨
  (k = "scrl" ∧ ∀ x, env.atoi v = some x → x < 259200 ∨ 3110400 < x) ∨
  (k = "scrr" ∧ ∀ x, env.atoi v = some x → x ≤ 0)

/-! ## Exit of an entrusted pledge (`custom_tx.go` lines 152-154, 3261-3359, 3471-3480;
`snapshot.go` lines 2719-2732)

A nil pointer that is dereferenced (a candidate or a detail read from a map that holds no
such key, a missing `Deposit` threshold) and a division by a zero period stop the program;
the functions of this section return `none` there. -/

def sscEnumPosCommitPeriod : Nat := 12
def sscEnumPosBeyondCommitPeriod : Nat := 13
def sscEnumPosWithinCommitPeriod : Nat := 14

/-- The topic `web3.sha3("PledgeEntrustExit(address,bytes32)")` of the log. -/
def pledgeEntrustExitTopic : Nat :=
  0xaf7cf8bf073a87df843f342229f11fc2ecc069751926bc402836a4f1f2a52403

/-- `isInCurrentCandidatePEntrustExit`. -/
def isInCurrentCandidatePEntrustExit
    (currentCandidatePEntrustExit : List CandidatePEntrustExitRecord) (hash : Hash) : Bool :=
  currentCandidatePEntrustExit.any (fun currentItem => decide (currentItem.Hash = hash))

/-- `snap.PosPledge[minerAddress]`, a pointer: `none` for nil. -/
def Snapshot.posPledgeOf (snap : Snapshot) (minerAddress : Address) : Option PosPledgeItem :=
  snap.PosPledge.bind (fun m => m.lookup minerAddress)

/-- `snap.SystemConfig.Deposit[key].Uint64()`. -/
def Snapshot.depositUint64 (snap : Snapshot) (key : Nat) : Option Nat :=
  (snap.SystemConfig.Deposit.lookup key).map bigUint64

/-- `Snapshot.isInPosCommitPeriod`. -/
def Snapshot.isInPosCommitPeriod (snap : Snapshot) (minerAddress : Address) (number : Nat) :
    Option Bool :=
  match snap.posPledgeOf minerAddress, snap.depositUint64 sscEnumPosCommitPeriod,
      snap.getBlockPreDay with
  | some item, some setting, some blockPreDay =>
    some (decide (uint64Sub number item.Active ≤ uint64 (setting * blockPreDay)))
  | _, _, _ => none

/-- `Snapshot.isInPosCommitPeriodPass`. -/
def Snapshot.isInPosCommitPeriodPass (snap : Snapshot) (minerAddress : Address) (number : Nat)
    (hash : Alien.Hash) (setting : Nat) : Option Bool :=
  match (snap.posPledgeOf minerAddress).bind (fun item => item.Detail.lookup hash),
      snap.getBlockPreDay with
  | some pledgeDetail, some blockPreDay =>
    some (decide (uint64Sub number pledgeDetail.Height ≤ uint64 (setting * blockPreDay)))
  | _, _ => none

/-- The tests of the commit period in `processCandidatePEntrustExit` (lines 3304-3319):
`some true` where the function returns the list unchanged. -/
def entrustExitRefused (snap : Snapshot) (target : Address) (hash : Hash)
    (txSender manager : Address) (number : Nat) : Option Bool :=
  match snap.isInPosCommitPeriod target number with
  | none => none
  | some true =>
    if txSender = manager then some true
    else
      match snap.depositUint64 sscEnumPosWithinCommitPeriod with
      | none => none
      | some setting => snap.isInPosCommitPeriodPass target number hash setting
  | some false =>
    match snap.depositUint64 sscEnumPosBeyondCommitPeriod with
    | none => none
    | some setting => snap.isInPosCommitPeriodPass target number hash setting

/-- The loop that fills `exitPledge` (lines 3337-3343): the hashes of the records of the
block whose detail under the candidate of the current transaction belongs to the sender.
The detail is read without a test of the key. -/
def exitPledgeOf (detail : GoMap Hash PledgeDetail) (txSender : Address) :
    List CandidatePEntrustExitRecord → Option (List Hash)
  | [] => some []
  | item :: rest =>
    match detail.lookup item.Hash with
    | none => none
    | some pledgeDetail =>
      match exitPledgeOf detail txSender rest with
      | none => none
      | some exitPledge =>
        if pledgeDetail.Address = txSender then some (item.Hash :: exitPledge)
        else some exitPledge

/-- The statements of `processCandidatePEntrustExit` for a manager who exits a candidate
outside `Tally` (lines 3330-3356): once the manager has exited every detail of its own, a
record is appended for every other detail. `detailOrder` is the order of the last
`range`. -/
def managerExitAll
    (detailOrder : List (Sigma (fun _ : Hash => PledgeDetail))
      → List (Sigma (fun _ : Hash => PledgeDetail)))
    (pledge : PosPledgeItem) (target txSender : Address)
    (currentCandidatePEntrustExit : List CandidatePEntrustExitRecord) :
    Option (List CandidatePEntrustExitRecord) :=
  let managerPledge :=
    (pledge.Detail.entries.filter (fun e => decide (e.2.Address = txSender))).map (fun e => e.1)
  match exitPledgeOf pledge.Detail txSender currentCandidatePEntrustExit with
  | none => none
  | some exitPledge =>
    if 0 < exitPledge.length ∧ exitPledge.length = managerPledge.length then
      some ((detailOrder pledge.Detail.entries).foldl
        (fun current e =>
          if !isInCurrentCandidatePEntrustExit current e.1 then
            current ++ [⟨target, e.1, e.2.Address, e.2.Amount⟩]
          else current)
        currentCandidatePEntrustExit)
    else some currentCandidatePEntrustExit

/-- `processCandidatePEntrustExit`: the record list and the receipts after the call. The
data of the log, the 32 bytes of the hash, is held as the hash. -/
def processCandidatePEntrustExit (a : Engine)
    (detailOrder : List (Sigma (fun _ : Hash => PledgeDetail))
      → List (Sigma (fun _ : Hash => PledgeDetail)))
    (currentCandidatePEntrustExit : List CandidatePEntrustExitRecord)
    (txDataInfo : List String) (txSender : Address) (tx : Transaction)
    (receipts : List Receipt) (snap : Snapshot) (number : Nat) :
    Option (List CandidatePEntrustExitRecord × List Receipt) :=
  if txDataInfo.length ≤ 4 then some (currentCandidatePEntrustExit, receipts)
  else
    match a.addressUnmarshalText1 (fieldAt txDataInfo 3) with
    | none => some (currentCandidatePEntrustExit, receipts)
    | some target =>
      match snap.posPledgeOf target with
      | none => some (currentCandidatePEntrustExit, receipts)
      | some pledge =>
        match pledge.Detail.lookup (a.HexToHash (fieldAt txDataInfo 4)) with
        | none => some (currentCandidatePEntrustExit, receipts)
        | some pledgeDetail =>
          if pledgeDetail.Address ≠ txSender then some (currentCandidatePEntrustExit, receipts)
          else if isInCurrentCandidatePEntrustExit currentCandidatePEntrustExit
              (a.HexToHash (fieldAt txDataInfo 4)) then
            some (currentCandidatePEntrustExit, receipts)
          else
            match entrustExitRefused snap target (a.HexToHash (fieldAt txDataInfo 4)) txSender
                pledge.Manager number with
            | none => none
            | some true => some (currentCandidatePEntrustExit, receipts)
            | some false =>
              if txSender = pledge.Manager ∧ ¬ snap.isInTally target = true then
                (managerExitAll detailOrder pledge target txSender
                  (currentCandidatePEntrustExit ++
                    [⟨target, a.HexToHash (fieldAt txDataInfo 4), pledgeDetail.Address,
                      pledgeDetail.Amount⟩])).map
                  (fun current =>
                    (current,
                      (addCustomerTxLog tx receipts [pledgeEntrustExitTopic, target, sscEnumCndLock]
                        [a.HexToHash (fieldAt txDataInfo 4)]).1))
              else
                some (currentCandidatePEntrustExit ++
                    [⟨target, a.HexToHash (fieldAt txDataInfo 4), pledgeDetail.Address,
                      pledgeDetail.Amount⟩],
                  (addCustomerTxLog tx receipts [pledgeEntrustExitTopic, target, sscEnumCndLock]
                    [a.HexToHash (fieldAt txDataInfo 4)]).1)

/-- Two candidates outside `Tally`, both active since height 0: candidate 10, whose only
detail (hash 1) is that of its manager, address 10; and candidate 11, which holds a detail
of its manager (hash 6) and a detail of address 20 (hash 5). -/
def entrustExitSnapshot : Snapshot :=
  { emptySnapshot with
    PosPledge := some
      (AList.insert 10
        { Manager := 10, Active := 0, TotalAmount := 100,
          Detail := AList.insert 1 ⟨10, 0, 100⟩ ∅, LastPunish := 0, DisRate := 0 }
        (AList.insert 11
          { Manager := 11, Active := 0, TotalAmount := 100,
            Detail := AList.insert 5 ⟨20, 0, 40⟩ (AList.insert 6 ⟨11, 0, 60⟩ ∅),
            LastPunish := 0, DisRate := 0 } ∅)) }

/-! ## Flow report of the manager (`custom_tx.go` lines 96-97, 347-358, 3119-3146)

A slice expression `buffer[low:high]` is checked against the capacity of the slice, not
its length, and stops the program when `high` exceeds the capacity. A byte slice is held
as its backing array, from the first element of the slice to its capacity, and its
length. The decoder `common.Hex2Bytes` lies outside the translated sources and is an
argument. -/

def posEventFlowValue : Nat := 4

/-- A Go `[]byte`: the backing array from the start of the slice to its capacity, and the
length. -/
structure ByteSlice where
  array : List Nat
  len : Nat
deriving DecidableEq, Repr

/-- `cap(b)`. -/
def ByteSlice.cap (b : ByteSlice) : Nat := b.array.length

/-- `b[low:high]`: the bytes of the new slice; `none` when the bounds stop the program. -/
def ByteSlice.slice (b : ByteSlice) (low high : Nat) : Option (List Nat) :=
  if low ≤ high ∧ high ≤ b.cap then some ((b.array.drop low).take (high - low)) else none

/-- `new(big.Int).SetBytes(bytes)`: the bytes read as a big-endian numeral. -/
def bigEndian (bytes : List Nat) : Nat := bytes.foldl (fun acc b => acc * 256 + b) 0

/-- `MinerFlowReportItem` (`custom_tx.go` lines 347-352). -/
structure MinerFlowReportItem where
  Target : Address
  ReportNumber : Nat
  FlowValue1 : Nat
  FlowValue2 : Nat
deriving DecidableEq, Repr

/-- `MinerFlowReportRecord` (`custom_tx.go` lines 354-358). -/
structure MinerFlowReportRecord where
  ChainHash : Hash
  ReportTime : Nat
  ReportContent : List MinerFlowReportItem
deriving DecidableEq, Repr

/-- The body of the loop of `processFlowReport2` at the position `post`: the item read from
the 40 bytes that start there. -/
def flowReportItemAt (buffer : ByteSlice) (post : Nat) : Option MinerFlowReportItem :=
  match buffer.slice post (post + 20), buffer.slice (post + 20) (post + 20 + 8),
      buffer.slice (post + 20 + 8) (post + 20 + 16),
      buffer.slice (post + 20 + 16) (post + 20 + 20) with
  | some address, some flowValue1, some flowValue2, some reportNumber =>
    some
      { Target := bigEndian address
        FlowValue1 := uint64 (bigEndian flowValue1)
        FlowValue2 := uint64 (bigEndian flowValue2)
        ReportNumber := uint64 (bigEndian reportNumber) % 2 ^ 32 }
  | _, _, _, _ => none

/-- The loop `for post+40 <= len(buffer)` of `processFlowReport2`; every turn moves `post`
forward by 40, so `fuel` turns are enough once `fuel` is the length of the buffer. -/
def flowReportLoop (buffer : ByteSlice) :
    Nat → Nat → List MinerFlowReportItem → Option (List MinerFlowReportItem)
  | 0, _, content => some content
  | fuel + 1, post, content =>
    if post + 40 ≤ buffer.len then
      match flowReportItemAt buffer post with
      | none => none
      | some item => flowReportLoop buffer fuel (post + 40) (content ++ [item])
    else some content

/-- `processFlowReport2`; `none` when a slice expression stops the program. -/
def processFlowReport2 (hex2Bytes : String → ByteSlice) (flowReport : List MinerFlowReportRecord)
    (txDataInfo : List String) : Option (List MinerFlowReportRecord) :=
  if txDataInfo.length ≤ posEventFlowValue then some flowReport
  else
    match (hex2Bytes (fieldAt txDataInfo posEventFlowValue)).slice 0 8 with
    | none => none
    | some head =>
      match flowReportLoop (hex2Bytes (fieldAt txDataInfo posEventFlowValue))
          (hex2Bytes (fieldAt txDataInfo posEventFlowValue)).len 8 [] with
      | none => none
      | some content =>
        some (flowReport ++
          [{ ChainHash := 0, ReportTime := uint64 (bigEndian head), ReportContent := content }])

/-- The bytes a text of hexadecimal digit pairs denotes, up to the first pair that is not
one. -/
def hexPairs : List Char → List Nat
  | c1 :: c2 :: rest =>
    match digitValue c1, digitValue c2 with
    | some d1, some d2 => if d1 < 16 ∧ d2 < 16 then (d1 * 16 + d2) :: hexPairs rest else []
    | _, _ => []
  | _ => []

/-- A decoder of hexadecimal text whose result has no spare capacity. -/
def sampleHex2Bytes (s : String) : ByteSlice :=
  { array := hexPairs s.data, len := (hexPairs s.data).length }

/-- The item the specification reads from the 40 bytes at `post`: a 20-byte address, the
8 bytes of `FlowValue1`, the 8 bytes of `FlowValue2` and the 4 bytes of `ReportNumber`,
each big-endian. -/
def reportItemOfBytes (bytes : List Nat) (post : Nat) : MinerFlowReportItem :=
  { Target := bigEndian ((bytes.drop post).take 20)
    FlowValue1 := uint64 (bigEndian ((bytes.drop (post + 20)).take 8))
    FlowValue2 := uint64 (bigEndian ((bytes.drop (post + 28)).take 8))
    ReportNumber := uint64 (bigEndian ((bytes.drop (post + 36)).take 4)) % 2 ^ 32 }

/-! ## Transfer of an entrusted pledge (`custom_tx.go` lines 3495-3663)

The ledgers of the storage pools and storage nodes, the function
`getEntrustPledgeMinBLock` and the constants `TargetTypePos`, `TargetTypeSp`,
`TargetTypeSn`, `spStatusActive`, `SPledgeInactive` and `utgOneValue` are declared outside
the translated sources; `TransferEnv` holds what `processCandidateWtfd` reads from them. -/

structure TransferEnv where
  /-- `a.getEntrustPledgeMinBLock(posEntrustMinDay)`. -/
  getEntrustPledgeMinBLock : Int → Int
  /-- the constant, if any, that the text of a target type equals. -/
  targetTypeOf : String → TargetType
  /-- `(*common.Hash).UnmarshalText1`. -/
  hashUnmarshalText1 : String → Option Hash
  /-- `snap.SpData.PoolPledge[hash]`: `none` for no entry, else `Status == spStatusActive`. -/
  poolActive : Snapshot → Hash → Option Bool
  /-- `snap.findSPTargetMiner(txSender)`. -/
  findSPTargetMiner : Snapshot → Address → Hash
  /-- whether `snap.StorageData.StoragePledge` holds the address. -/
  isStoragePledge : Snapshot → Address → Bool
  /-- `snap.findStorageTargetMiner(txSender)`. -/
  findStorageTargetMiner : Snapshot → Address → Address
  /-- `snap.StorageData.StorageEntrust[target].PledgeAmount`, `none` for no entry. -/
  storageEntrustAmount : Snapshot → Address → Option Int
  /-- `snap.StorageData.StoragePledge[target]`: `none` for no entry, else whether
  `PledgeStatus` is `SPledgeInactive`, and `SpaceDeposit`. -/
  storagePledge : Snapshot → Address → Option (Bool × Int)
  /-- package variable `utgOneValue`. -/
  utgOneValue : Int

/-- The topic `web3.sha3("POS transfer")` of the log. -/
def posTransferTopic : Nat :=
  0x366499285eb44b2e5126cf0f717b1636116ea0ac4b12624b54c2347714c56a8a

/-- `isInCurrentPOSTransfer`. -/
def isInCurrentPOSTransfer (currentEntrustPledge : List POSTransferRecord)
    (txSender : Address) : Bool :=
  currentEntrustPledge.any (fun currentItem => decide (currentItem.Address = txSender))

/-- The body of the loop over `se.Detail` (lines 3528-3537) on `transAmount`; `none` once
the function has returned for a detail of the sender that is too young. -/
def transAmountStep (snapNumber : Nat) (txSender : Address) (pledgeMinBLock : Int)
    (acc : Option Int) (e : Sigma (fun _ : Hash => PledgeDetail)) : Option Int :=
  match acc with
  | none => none
  | some transAmount =>
    if e.2.Address = txSender then
      if (snapNumber : Int) - (e.2.Height : Int) < pledgeMinBLock then none
      else some (transAmount + e.2.Amount)
    else some transAmount

/-- What a branch of `processCandidateWtfd` comes to: the program stops, the function
returns the list unchanged, or it goes on with the two amounts of the record. -/
inductive TransferOutcome where
  | stopped
  | refused
  | amounts (pledgeAmount lockAmount : Int)
deriving DecidableEq, Repr

/-- The branch `TargetTypeSn` of `processCandidateWtfd` after the tests on the addresses
(lines 3597-3631): the part of the pledge above the free space of the node, and the part
that is not a whole number of `utgOneValue`, go to `LockAmount`. -/
def snTransferAmounts (env : TransferEnv) (snap : Snapshot)
    (currentPOSTransfer : List POSTransferRecord) (target : Address) (pledgeAmount : Int) :
    TransferOutcome :=
  let currBlockTranAmount : Int :=
    ((currentPOSTransfer.filter
      (fun item => decide (item.Target = target) && decide (item.TargetType = TargetType.sn))).map
      (fun item => item.PledgeAmount)).sum
  match env.storageEntrustAmount snap target with
  | none => .refused
  | some etPledgeAmount =>
    match env.storagePledge snap target with
    | none => .amounts pledgeAmount 0
    | some (inactive, spaceDeposit) =>
      if !inactive then .refused
      else if spaceDeposit ≤ currBlockTranAmount + etPledgeAmount then .refused
      else if env.utgOneValue = 0 then .stopped
      else
        let estimateAmountV2 := currBlockTranAmount + etPledgeAmount + pledgeAmount
        let lockAmount0 : Int :=
          if spaceDeposit < estimateAmountV2 then estimateAmountV2 - spaceDeposit else 0
        let pledgeAmount1 : Int := pledgeAmount - lockAmount0
        let depositMode : Int := pledgeAmount1 % env.utgOneValue
        if 0 < depositMode then
          .amounts (pledgeAmount1 - depositMode)
            (if 0 < lockAmount0 + depositMode then lockAmount0 + depositMode else 0)
        else .amounts pledgeAmount1 (if 0 < lockAmount0 then lockAmount0 else 0)

/-- The part of `processCandidateWtfd` that reads the target (lines 3549-3636): the target
address, the target hash and the two amounts of the record. -/
def transferTarget (a : Engine) (env : TransferEnv) (snap : Snapshot)
    (currentPOSTransfer : List POSTransferRecord) (txDataInfo : List String)
    (txSender : Address) (transAmount : Int) :
    TargetType → Option (Address × Hash × TransferOutcome)
  | .pos =>
    match a.addressUnmarshalText1 (fieldAt txDataInfo 5) with
    | none => some (0, 0, .refused)
    | some target =>
      if (snap.posPledgeOf target).isSome then some (target, 0, .amounts transAmount 0)
      else some (target, 0, .refused)
  | .sp =>
    match env.hashUnmarshalText1 (fieldAt txDataInfo 5) with
    | none => some (0, 0, .refused)
    | some targetHash =>
      match env.poolActive snap targetHash with
      | none => some (0, targetHash, .refused)
      | some false => some (0, targetHash, .refused)
      | some true =>
        if env.findSPTargetMiner snap txSender ≠ 0
            ∧ env.findSPTargetMiner snap txSender ≠ targetHash then
          some (0, targetHash, .refused)
        else some (0, targetHash, .amounts transAmount 0)
  | .sn =>
    if env.isStoragePledge snap txSender then some (0, 0, .refused)
    else
      match a.addressUnmarshalText1 (fieldAt txDataInfo 5) with
      | none => some (0, 0, .refused)
      | some target =>
        if env.findStorageTargetMiner snap txSender ≠ 0
            ∧ env.findStorageTargetMiner snap txSender ≠ target then
          some (target, 0, .refused)
        else some (target, 0, snTransferAmounts env snap currentPOSTransfer target transAmount)
  | .other => some (0, 0, .refused)

/-- `processCandidateWtfd`: the record list and the receipts after the call; `none` when
the program stops. `detailOrder` is the order of `range se.Detail`. -/
def processCandidateWtfd (a : Engine) (env : TransferEnv)
    (detailOrder : List (Sigma (fun _ : Hash => PledgeDetail))
      → List (Sigma (fun _ : Hash => PledgeDetail)))
    (currentPOSTransfer : List POSTransferRecord) (txDataInfo : List String)
    (txSender : Address) (tx : Transaction) (receipts : List Receipt) (snap : Snapshot)
    (number : Nat) : Option (List POSTransferRecord × List Receipt) :=
  if txDataInfo.length ≤ 5 then some (currentPOSTransfer, receipts)
  else if isInCurrentPOSTransfer currentPOSTransfer txSender then
    some (currentPOSTransfer, receipts)
  else
    match a.addressUnmarshalText1 (fieldAt txDataInfo 3) with
    | none => some (currentPOSTransfer, receipts)
    | some original =>
      match snap.posPledgeOf original with
      | none => some (currentPOSTransfer, receipts)
      | some se =>
        if se.Manager = txSender then some (currentPOSTransfer, receipts)
        else
          match snap.SystemConfig.Deposit.lookup sscEnumPosBeyondCommitPeriod,
              snap.isInPosCommitPeriod original number with
          | some beyond, some inCommit =>
            match (if inCommit then
                snap.SystemConfig.Deposit.lookup sscEnumPosWithinCommitPeriod
              else some beyond) with
            | none => none
            | some posEntrustMinDay =>
              match (detailOrder se.Detail.entries).foldl
                  (transAmountStep snap.Number txSender
                    (env.getEntrustPledgeMinBLock posEntrustMinDay)) (some 0) with
              | none => some (currentPOSTransfer, receipts)
              | some transAmount =>
                if transAmount ≤ 0 then some (currentPOSTransfer, receipts)
                else
                  match transferTarget a env snap currentPOSTransfer txDataInfo txSender
                      transAmount (env.targetTypeOf (fieldAt txDataInfo 4)) with
                  | none => none
                  | some (_, _, .stopped) => none
                  | some (_, _, .refused) => some (currentPOSTransfer, receipts)
                  | some (target, targetHash, .amounts pledgeAmount lockAmount) =>
                    some (currentPOSTransfer ++
                        [{ Address := txSender, PledgeHash := tx.Hash, Original := original,
                           TargetType := env.targetTypeOf (fieldAt txDataInfo 4),
                           Target := target, TargetHash := targetHash,
                           PledgeAmount := pledgeAmount, LockAmount := lockAmount }],
                      (addCustomerTxLog tx receipts
                        [posTransferTopic, lockAmount.natAbs, pledgeAmount.natAbs] []).1)
          | _, _ => none

/-- An environment for the checks below: a pledge may move after the configured days at
8640 blocks a day, the target types are written `PoS`, `SP` and `SN`, and the storage
ledgers are empty. -/
def sampleTransferEnv : TransferEnv :=
  { getEntrustPledgeMinBLock := fun days => days * 8640
    targetTypeOf := fun s =>
      if s = "PoS" then .pos else if s = "SP" then .sp else if s = "SN" then .sn else .other
    hashUnmarshalText1 := fun s => parseDigits 16 s
    poolActive := fun _ _ => none
    findSPTargetMiner := fun _ _ => 0
    isStoragePledge := fun _ _ => false
    findStorageTargetMiner := fun _ _ => 0
    storageEntrustAmount := fun _ _ => none
    storagePledge := fun _ _ => none
    utgOneValue := 10 ^ 18 }

/-- The snapshot `entrustExitSnapshot` at height 5200000. -/
def transferSnapshot : Snapshot :=
  { entrustExitSnapshot with Number := 5200000 }


/-- Voter 4 backs candidate 1 with a stake of 0, recorded at height 0; the tally of
candidate 1 is 0. -/
def zeroStakeVoteSnapshot : Snapshot :=
  { emptySnapshot with
    Votes := AList.insert 4 ⟨4, 1, 0⟩ ∅
    Tally := AList.insert 1 0 ∅
    Voters := AList.insert 4 0 ∅ }

/-! ## Recording of side-chain confirmations (`snapshot.go` lines 1521-1566, 1641-1661) -/

def scMaxConfirmedRecordLength : Nat := 21 * 50

/-- `Snapshot.isSideChainCoinbase`. -/
def Snapshot.isSideChainCoinbase (s : Snapshot) (sc : Alien.Hash) (address : Address)
    (_realtime : Bool) : Bool :=
  match s.SCCoinbase.lookup sc with
  | some coinbaseMap => (coinbaseMap.lookup address).isSome
  | none => false

/-- The body of the first loop of `updateSnapshotBySCConfirm`. -/
def recordSCConfirmation (s : Snapshot) (scc : SCConfirmation) : Snapshot :=
  if s.isSideChainCoinbase scc.Hash scc.Coinbase false then
    match s.SCRecordMap.lookup scc.Hash with
    | some record =>
      if record.LastConfirmedNumber < scc.Number then
        { s with
          SCRecordMap := s.SCRecordMap.insert scc.Hash
            { record with
              Record := record.Record.insert scc.Number
                ((record.Record.lookup scc.Number).getD [] ++ [scc])
              MaxHeaderNumber :=
                if record.MaxHeaderNumber < scc.Number then scc.Number
                else record.MaxHeaderNumber } }
      else s
    | none => s
  else s

/-- The body of the loop of `checkSCConfirmation` on one record: the rent rewards past
their last height are deleted, and a record table longer than the limit is reset. -/
def checkSCRecord (maxSignerCount : Nat) (headerNumber : Int)
    (scRecord : SCRecord) : SCRecord :=
  if scMaxConfirmedRecordLength < scRecord.Record.entries.length then
    { scRecord with
      RentReward :=
        deleteWhere (fun _ scRentInfo =>
          decide (bigUint64 scRentInfo.MaxRewardNumber
            < uint64Sub (bigUint64 headerNumber) (uint64 (scRewardExpiredLoopCount * maxSignerCount))))
          scRecord.RentReward
      Record := ∅
      LastConfirmedNumber := 0
      MaxHeaderNumber := 0 }
  else
    { scRecord with
      RentReward :=
        deleteWhere (fun _ scRentInfo =>
          decide (bigUint64 scRentInfo.MaxRewardNumber
            < uint64Sub (bigUint64 headerNumber) (uint64 (scRewardExpiredLoopCount * maxSignerCount))))
          scRecord.RentReward }

/-- `Snapshot.checkSCConfirmation`. -/
def checkSCConfirmation (s : Snapshot) (headerNumber : Int) : Snapshot :=
  { s with
    SCRecordMap :=
      s.SCRecordMap.entries.foldl
        (fun m e =>
          m.insert e.1
            (checkSCRecord s.config.MaxSignerCount headerNumber e.2))
        s.SCRecordMap }

/-- `Snapshot.updateSnapshotBySCConfirm`; `none` when the remainder by a zero
`MaxSignerCount` stops the program or `updateSCConfirmation` does not return. -/
def updateSnapshotBySCConfirm
    (unmarshalText : String → Option Int) (hexToAddress : String → Address)
    (order : List String → List String) (s : Snapshot) (scConfirmations : List SCConfirmation)
    (headerNumber : Int) : Option Snapshot :=
  if s.config.MaxSignerCount = 0 then none
  else if uint64 (bigUint64 headerNumber + 1) % s.config.MaxSignerCount = 0 then
    updateSCConfirmation unmarshalText hexToAddress order
      (checkSCConfirmation (scConfirmations.foldl recordSCConfirmation s) headerNumber)
      headerNumber
  else some (scConfirmations.foldl recordSCConfirmation s)

/-- No counter of the loops of `updateSCConfirmation` reaches the largest `uint64` for this
record: `MaxHeaderNumber` is below 2^64 - 1, and so is every height that the second-to-last
entry of a recorded loop-info reads as. -/
def SCRecordBounded (unmarshalText : String → Option Int) (record : SCRecord) : Prop :=
  record.MaxHeaderNumber < 2 ^ 64 - 1 ∧
  ∀ e ∈ record.Record.entries, ∀ x ∈ e.2,
    ((unmarshalText (x.LoopInfo.getD (x.LoopInfo.length - 2) "")).map bigUint64).getD 0
      < 2 ^ 64 - 1

/-- The confirmations recorded in a snapshot for the height `number` of the side chain
`sc`. -/
def Snapshot.recordedConfirmations (s : Snapshot) (sc : Alien.Hash) (number : Nat) :
    List SCConfirmation :=
  match s.SCRecordMap.lookup sc with
  | some record => (record.Record.lookup number).getD []
  | none => []

/-- What the first loop of `calculateSCConfirmedNumber` holds after the confirmations `p`:
the inner maps hold the confirmers of each joined loop-info, the confirmed number is not
below the last confirmed number `lcn`, and it is above it only if some joined loop-info has
`min` confirmers. -/
def ScanGrowth (min lcn : Nat) (p : List SCConfirmation)
    (acc : Nat × GoMap String (GoMap Address Bool)) : Prop :=
  (∀ k c, (((acc.2.lookup k).getD ∅).lookup c).isSome = true ↔ c ∈ confirmers min p k)
  ∧ (∀ k, ((acc.2.lookup k).getD ∅).entries.length = (confirmers min p k).card)
  ∧ lcn ≤ acc.1
  ∧ (lcn < acc.1 → ∃ key, min ≤ (confirmers min p key).card)

/-- The snapshot `sideChainSnapshot` with the coinbase 1 registered for the side chain 77
by the signer 100. -/
def registeredSnapshot : Snapshot :=
  { sideChainSnapshot with SCCoinbase := AList.insert 77 (AList.insert 1 100 ∅) ∅ }

/-- The snapshot `registeredSnapshot` after the registered coinbase 1 has recorded a
confirmation for the height 2^64 - 1 of the side chain 77. -/
def maxHeightSnapshot : Snapshot :=
  recordSCConfirmation registeredSnapshot ⟨77, 1, 18446744073709551615, sampleLoopInfo⟩

/-- The stake that the expired votes for candidate `c` have contributed to its tally: the
sum of the stakes of the recorded votes that are expired and name `c`. -/
def expiredStake (s : Snapshot) (headerNumber : Nat) (c : Address) : Int :=
  ((s.Votes.entries.filter
      (fun e => voteExpired s headerNumber e.1 && decide (e.2.Candidate = c))).map
    (fun e => e.2.Stake)).sum

/-- Whether a tally of `t` outlasts `updateSnapshotForExpired`: before `PosNewEffectNumber`
a tally that is not positive is removed, from it on a negative one. -/
def tallyKept (headerNumber : Nat) (t : Int) : Bool :=
  if headerNumber < PosNewEffectNumber then decide (0 < t) else decide (0 ≤ t)

/-! # Lemmas and theorems -/

/-! ## Finite maps -/

theorem lookup_insert_eq {K V : Type} [DecidableEq K] (m : GoMap K V) (k c : K) (v : V) :
    (m.insert k v).lookup c = if c = k then some v else m.lookup c := by
  by_cases h : c = k
  · subst h; simp [AList.lookup_insert]
  · simp [h, AList.lookup_insert_ne h]

theorem lookup_erase_eq {K V : Type} [DecidableEq K] (m : GoMap K V) (k c : K) :
    (m.erase k).lookup c = if c = k then none else m.lookup c := by
  by_cases h : c = k
  · subst h; simp [AList.lookup_erase]
  · simp [h, AList.lookup_erase_ne h]

theorem sum_kerase (c k : Address) (l : List (Sigma (fun _ : Address => Vote))) :
    (((List.kerase k l).filter (fun e => decide (e.2.Candidate = c))).map (fun e => e.2.Stake)).sum
      = ((l.filter (fun e => decide (e.2.Candidate = c))).map (fun e => e.2.Stake)).sum
        - voteShare (List.dlookup k l) c := by
  induction l with
  | nil => simp [voteShare]
  | cons e l ih =>
    obtain ⟨a, b⟩ := e
    by_cases h : k = a
    · subst h
      have h1 : List.kerase k ((⟨k, b⟩ : Sigma (fun _ : Address => Vote)) :: l) = l :=
        List.kerase_cons_eq rfl
      rw [h1, List.dlookup_cons_eq]
      by_cases hc : b.Candidate = c <;> simp [voteShare, hc, List.filter_cons]
    · rw [List.kerase_cons_ne h, List.dlookup_cons_ne _ _ h]
      by_cases hc : b.Candidate = c
      · simp [hc, List.filter_cons, ih]; ring
      · simp [hc, List.filter_cons, ih]

theorem stakeSum_erase (votes : GoMap Address Vote) (k c : Address) :
    stakeSum (votes.erase k) c = stakeSum votes c - voteShare (votes.lookup k) c := by
  unfold stakeSum
  exact sum_kerase c k votes.entries

theorem stakeSum_insert (votes : GoMap Address Vote) (k c : Address) (v : Vote) :
    stakeSum (votes.insert k v) c
      = stakeSum votes c - voteShare (votes.lookup k) c + voteShare (some v) c := by
  unfold stakeSum
  rw [AList.insert_entries]
  by_cases hc : v.Candidate = c
  · simp only [List.filter_cons, hc, decide_True, if_true, List.map_cons, List.sum_cons]
    rw [sum_kerase]; simp [voteShare, hc, AList.lookup]; ring
  · simp only [List.filter_cons, hc, decide_False, Bool.false_eq_true, if_false]
    rw [sum_kerase]; simp [voteShare, hc, AList.lookup]

/-! ## Tally check -/

theorem lookup_tallyTargetStep (acc : GoMap Address Int) (v : Vote) (c : Address) :
    (tallyTargetStep acc v).lookup c
      = if v.Candidate = c then some ((acc.lookup c).getD 0 + v.Stake) else acc.lookup c := by
  unfold tallyTargetStep
  by_cases h : v.Candidate = c
  · subst h
    cases hl : acc.lookup v.Candidate <;> simp [hl, AList.lookup_insert]
  · have h2 : c ≠ v.Candidate := fun e => h e.symm
    cases hl : acc.lookup v.Candidate <;> simp [h, AList.lookup_insert_ne h2]

theorem lookup_foldl_tallyTargetStep (c : Address)
    (l : List (Sigma (fun _ : Address => Vote))) (acc : GoMap Address Int) :
    (l.foldl (fun acc e => tallyTargetStep acc e.2) acc).lookup c
      = if l.filter (fun e => decide (e.2.Candidate = c)) = [] then acc.lookup c
        else some ((acc.lookup c).getD 0
          + ((l.filter (fun e => decide (e.2.Candidate = c))).map (fun e => e.2.Stake)).sum) := by
  induction l generalizing acc with
  | nil => simp
  | cons e l ih =>
    rw [List.foldl_cons, ih, lookup_tallyTargetStep]
    by_cases hc : e.2.Candidate = c
    · simp only [hc, if_true, List.filter_cons, decide_True, Option.getD_some, List.map_cons,
        List.sum_cons]
      by_cases hl : l.filter (fun e => decide (e.2.Candidate = c)) = []
      · simp [hl]
      · simp [hl]; ring
    · simp [hc, List.filter_cons]

theorem filter_ne_nil_iff_vote (votes : GoMap Address Vote) (c : Address) :
    votes.entries.filter (fun e => decide (e.2.Candidate = c)) ≠ []
      ↔ ∃ k v, votes.lookup k = some v ∧ v.Candidate = c := by
  constructor
  · intro h
    obtain ⟨e, he⟩ := List.exists_mem_of_ne_nil _ h
    rw [List.mem_filter] at he
    obtain ⟨a, b⟩ := e
    refine ⟨a, b, ?_, by simpa using he.2⟩
    exact AList.mem_lookup_iff.mpr he.1
  · rintro ⟨k, v, hk, hv⟩ hnil
    have hmem : (⟨k, v⟩ : Sigma (fun _ : Address => Vote)) ∈ votes.entries :=
      AList.mem_lookup_iff.mp hk
    have : (⟨k, v⟩ : Sigma (fun _ : Address => Vote))
        ∈ votes.entries.filter (fun e => decide (e.2.Candidate = c)) := by
      rw [List.mem_filter]; exact ⟨hmem, by simpa using hv⟩
    rw [hnil] at this
    exact List.not_mem_nil _ this

theorem lookup_tallyTarget (votes : GoMap Address Vote) (c : Address) :
    (tallyTarget votes).lookup c
      = if votes.entries.filter (fun e => decide (e.2.Candidate = c)) = [] then none
        else some (stakeSum votes c) := by
  unfold tallyTarget stakeSum
  rw [lookup_foldl_tallyTargetStep]
  simp

theorem verifyTallyCnt_eq_none_iff (s : Snapshot) :
    verifyTallyCnt s = none ↔
      ∀ c t, s.Tally.lookup c = some t →
        (∃ k v, s.Votes.lookup k = some v ∧ v.Candidate = c) ∧ t = stakeSum s.Votes c := by
  unfold verifyTallyCnt
  rw [ite_eq_left_iff]
  simp only [reduceCtorEq, imp_false, not_not, List.all_eq_true]
  constructor
  · intro h c t hct
    have hmem : (⟨c, t⟩ : Sigma (fun _ : Address => Int)) ∈ s.Tally.entries :=
      AList.mem_lookup_iff.mp hct
    have := h _ hmem
    rw [lookup_tallyTarget] at this
    by_cases hnil : s.Votes.entries.filter (fun e => decide (e.2.Candidate = c)) = []
    · simp [hnil] at this
    · simp only [hnil, if_false, decide_eq_true_eq] at this
      exact ⟨(filter_ne_nil_iff_vote s.Votes c).mp hnil, this.symm⟩
  · intro h e he
    obtain ⟨c, t⟩ := e
    have hct : s.Tally.lookup c = some t := AList.mem_lookup_iff.mpr he
    obtain ⟨hex, ht⟩ := h c t hct
    have hnil := (filter_ne_nil_iff_vote s.Votes c).mpr hex
    rw [lookup_tallyTarget]
    simp [hnil, ht]

/-- C10 (as amended): `verifyTallyCnt` returns nil exactly when every candidate with a
`Tally` entry is targeted by at least one recorded vote and its tally equals the sum of
the stakes of the votes targeting it; in every other case it returns
`errIncorrectTallyCount`. -/
theorem verifyTallyCnt_spec (s : Snapshot) :
    (verifyTallyCnt s = none ↔
      ∀ c t, s.Tally.lookup c = some t →
        (∃ k v, s.Votes.lookup k = some v ∧ v.Candidate = c) ∧ t = stakeSum s.Votes c)
    ∧ (verifyTallyCnt s ≠ none → verifyTallyCnt s = some Error.errIncorrectTallyCount) := by
  refine ⟨verifyTallyCnt_eq_none_iff s, ?_⟩
  intro h
  unfold verifyTallyCnt at h ⊢
  split_ifs at h ⊢ with hall
  · exact absurd rfl h
  · rfl

/-- C10 (counterexample to the claim as stated): a candidate with tally 0 that no recorded
vote targets satisfies `Tally[c] == Σ stakes` (the empty sum), yet `verifyTallyCnt`
returns `errIncorrectTallyCount`. -/
theorem verifyTallyCnt_zero_tally_rejected :
    TallyInvariant zeroTallySnapshot
    ∧ verifyTallyCnt zeroTallySnapshot = some Error.errIncorrectTallyCount
    ∧ ¬ (verifyTallyCnt zeroTallySnapshot = none ↔ TallyInvariant zeroTallySnapshot) := by
  have h1 : TallyInvariant zeroTallySnapshot := by
    intro c t h
    simp only [zeroTallySnapshot, emptySnapshot, lookup_insert_eq, AList.lookup_empty] at h
    split_ifs at h
    simp only [Option.some.injEq] at h
    subst h
    rfl
  have h2 : verifyTallyCnt zeroTallySnapshot = some Error.errIncorrectTallyCount := by decide
  refine ⟨h1, h2, ?_⟩
  intro h
  have := h.mpr h1
  rw [h2] at this
  exact absurd this (by decide)

/-! ## Vote folds below `PosNewEffectNumber` -/

theorem uint64_of_lt_PosNew {h : Nat} (hh : h < PosNewEffectNumber) :
    ¬ PosNewEffectNumber ≤ uint64 h := by
  unfold uint64 PosNewEffectNumber at *
  omega

/-- C6: below `PosNewEffectNumber`, folding the single vote intent (D, A, k) at header
height `h` into a snapshot in which D has no recorded vote and A has a `Tally` entry adds
exactly `k` to `Tally[A]`, records `Votes[D] = (D, A, k)`, sets `Voters[D] = h` and leaves
every other `Tally`, `Votes` and `Voters` entry unchanged. -/
theorem updateSnapshotByVotes_new_voter (candidateNeedPD : Bool) (s : Snapshot)
    (D A : Address) (k tA : Int) (h : Nat)
    (hh : h < PosNewEffectNumber)
    (hD : s.Votes.lookup D = none)
    (hA : s.Tally.lookup A = some tA) :
    ∃ s', updateSnapshotByVotes candidateNeedPD s [⟨D, A, k⟩] h = some s'
      ∧ s'.Tally.lookup A = some (tA + k)
      ∧ s'.Votes.lookup D = some ⟨D, A, k⟩
      ∧ s'.Voters.lookup D = some h
      ∧ (∀ c, c ≠ A → s'.Tally.lookup c = s.Tally.lookup c)
      ∧ (∀ v, v ≠ D → s'.Votes.lookup v = s.Votes.lookup v)
      ∧ (∀ v, v ≠ D → s'.Voters.lookup v = s.Voters.lookup v) := by
  have hne := uint64_of_lt_PosNew hh
  refine ⟨{ s with
      Tally := s.Tally.insert A (tA + k)
      Votes := s.Votes.insert D ⟨D, A, k⟩
      Voters := s.Voters.insert D h }, ?_, ?_, ?_, ?_, ?_, ?_, ?_⟩
  · simp [updateSnapshotByVotes, hne, voteStep, subLastVote, hD, hA]
  · simp [lookup_insert_eq]
  · simp [lookup_insert_eq]
  · simp [lookup_insert_eq]
  · intro c hc; simp [lookup_insert_eq, hc]
  · intro v hv; simp [lookup_insert_eq, hv]
  · intro v hv; simp [lookup_insert_eq, hv]

/-- C6 (witness): the scenario of the specification, stake 50 for candidate 1 cast by
voter 4 at height 1. -/
theorem updateSnapshotByVotes_new_voter_witness :
    (1 < PosNewEffectNumber ∧ newVoterSnapshot.Votes.lookup 4 = none
      ∧ newVoterSnapshot.Tally.lookup 1 = some 100)
    ∧ ∃ s', updateSnapshotByVotes false newVoterSnapshot [⟨4, 1, 50⟩] 1 = some s'
      ∧ s'.Tally.lookup 1 = some (100 + 50)
      ∧ s'.Votes.lookup 4 = some ⟨4, 1, 50⟩
      ∧ s'.Voters.lookup 4 = some 1
      ∧ (∀ c, c ≠ 1 → s'.Tally.lookup c = newVoterSnapshot.Tally.lookup c)
      ∧ (∀ v, v ≠ 4 → s'.Votes.lookup v = newVoterSnapshot.Votes.lookup v)
      ∧ (∀ v, v ≠ 4 → s'.Voters.lookup v = newVoterSnapshot.Voters.lookup v) :=
  ⟨⟨by decide, by decide, by decide⟩,
    updateSnapshotByVotes_new_voter false newVoterSnapshot 4 1 50 100 1
      (by decide) (by decide) (by decide)⟩

theorem stakeSum_eq_zero_of_no_vote (votes : GoMap Address Vote) (c : Address)
    (h : ∀ k v, votes.lookup k = some v → v.Candidate ≠ c) : stakeSum votes c = 0 := by
  unfold stakeSum
  have : votes.entries.filter (fun e => decide (e.2.Candidate = c)) = [] := by
    by_contra hne
    obtain ⟨k, v, hk, hv⟩ := (filter_ne_nil_iff_vote votes c).mp hne
    exact h k v hk hv
  simp [this]

theorem voteStep_preserves (candidateNeedPD : Bool) (h : Nat) (s : Snapshot) (vote : Vote)
    (hT : TallyInvariant s) (hK : VotesKeyed s) (hV : VotesTargetTally s) :
    ∃ s', voteStep candidateNeedPD h s vote = some s'
      ∧ TallyInvariant s' ∧ VotesKeyed s' ∧ VotesTargetTally s' := by
  unfold voteStep subLastVote tallySub
  cases hl : s.Votes.lookup vote.Voter with
  | none =>
    simp only
    cases ht : s.Tally.lookup vote.Candidate with
    | none =>
      refine ⟨_, rfl, ?_, ?_, ?_⟩
      · intro c t hc
        simp only [lookup_insert_eq] at hc
        rw [stakeSum_insert, hl]
        simp only [voteShare]
        split_ifs at hc with h1
        · subst h1
          have h0 : stakeSum s.Votes vote.Candidate = 0 := by
            apply stakeSum_eq_zero_of_no_vote
            intro k v hk hv
            obtain ⟨t0, ht0⟩ := hV k v hk
            rw [hv, ht] at ht0
            exact absurd ht0 (by simp)
          simp only [Option.some.injEq] at hc
          simp [h0, hc]
        · have := hT c t hc
          have hne : ¬ vote.Candidate = c := fun e => h1 e.symm
          simp [hne, this]
      · intro k v hk
        simp only [lookup_insert_eq] at hk
        split_ifs at hk with h1
        · simp only [Option.some.injEq] at hk
          subst hk; exact h1.symm
        · exact hK k v hk
      · intro k v hk
        simp only [lookup_insert_eq] at hk ⊢
        split_ifs at hk with h1
        · simp only [Option.some.injEq] at hk
          subst hk; simp
        · obtain ⟨t0, ht0⟩ := hV k v hk
          split_ifs
          · exact ⟨_, rfl⟩
          · exact ⟨t0, ht0⟩
    | some t =>
      refine ⟨_, rfl, ?_, ?_, ?_⟩
      · intro c t' hc
        simp only [lookup_insert_eq] at hc
        rw [stakeSum_insert, hl]
        simp only [voteShare]
        split_ifs at hc with h1
        · subst h1
          have := hT _ t ht
          simp only [Option.some.injEq] at hc
          simp [← hc, this]
        · have := hT c t' hc
          have hne : ¬ vote.Candidate = c := fun e => h1 e.symm
          simp [hne, this]
      · intro k v hk
        simp only [lookup_insert_eq] at hk
        split_ifs at hk with h1
        · simp only [Option.some.injEq] at hk
          subst hk; exact h1.symm
        · exact hK k v hk
      · intro k v hk
        simp only [lookup_insert_eq] at hk ⊢
        split_ifs at hk with h1
        · simp only [Option.some.injEq] at hk
          subst hk; simp
        · obtain ⟨t0, ht0⟩ := hV k v hk
          split_ifs
          · exact ⟨_, rfl⟩
          · exact ⟨t0, ht0⟩
  | some lv =>
    obtain ⟨t0, ht0⟩ := hV _ _ hl
    simp only [ht0]
    have hlv := hT _ _ ht0
    cases ht : (s.Tally.insert lv.Candidate (t0 - lv.Stake)).lookup vote.Candidate with
    | none =>
      rw [lookup_insert_eq] at ht
      split_ifs at ht with h0
      refine ⟨_, rfl, ?_, ?_, ?_⟩
      · intro c t hc
        simp only [lookup_insert_eq] at hc
        rw [stakeSum_insert, hl]
        simp only [voteShare]
        split_ifs at hc with h1 h2
        · subst h1
          have hne : ¬ lv.Candidate = vote.Candidate := fun e => h0 e.symm
          have hz : stakeSum s.Votes vote.Candidate = 0 := by
            apply stakeSum_eq_zero_of_no_vote
            intro k v hk hv
            obtain ⟨t1, ht1⟩ := hV k v hk
            rw [hv, ht] at ht1
            exact absurd ht1 (by simp)
          simp only [Option.some.injEq] at hc
          simp [hne, hz, hc]
        · subst h2
          simp only [Option.some.injEq] at hc
          have hne : ¬ vote.Candidate = lv.Candidate := fun e => h1 e.symm
          simp [hne, ← hc, hlv]
        · have := hT c t hc
          have hne1 : ¬ vote.Candidate = c := fun e => h1 e.symm
          have hne2 : ¬ lv.Candidate = c := fun e => h2 e.symm
          simp [hne1, hne2, this]
      · intro k v hk
        simp only [lookup_insert_eq] at hk
        split_ifs at hk with h1
        · simp only [Option.some.injEq] at hk
          subst hk; exact h1.symm
        · exact hK k v hk
      · intro k v hk
        simp only [lookup_insert_eq] at hk ⊢
        split_ifs at hk with h1
        · simp only [Option.some.injEq] at hk
          subst hk; simp
        · obtain ⟨t1, ht1⟩ := hV k v hk
          split_ifs
          · exact ⟨_, rfl⟩
          · exact ⟨_, rfl⟩
          · exact ⟨t1, ht1⟩
    | some t =>
      rw [lookup_insert_eq] at ht
      refine ⟨_, rfl, ?_, ?_, ?_⟩
      · intro c t' hc
        simp only [lookup_insert_eq] at hc
        rw [stakeSum_insert, hl]
        simp only [voteShare]
        split_ifs at hc with h1 h2
        · subst h1
          simp only [Option.some.injEq] at hc
          split_ifs at ht with h3
          · simp only [Option.some.injEq] at ht
            have hlv' := hlv
            rw [← h3] at hlv'
            simp [h3.symm, ← hc, ← ht, hlv']
          · have := hT _ _ ht
            have hne : ¬ lv.Candidate = vote.Candidate := fun e => h3 e.symm
            simp [hne, ← hc, this]
        · subst h2
          simp only [Option.some.injEq] at hc
          have hne : ¬ vote.Candidate = lv.Candidate := fun e => h1 e.symm
          simp [hne, ← hc, hlv]
        · have := hT c t' hc
          have hne1 : ¬ vote.Candidate = c := fun e => h1 e.symm
          have hne2 : ¬ lv.Candidate = c := fun e => h2 e.symm
          simp [hne1, hne2, this]
      · intro k v hk
        simp only [lookup_insert_eq] at hk
        split_ifs at hk with h1
        · simp only [Option.some.injEq] at hk
          subst hk; exact h1.symm
        · exact hK k v hk
      · intro k v hk
        simp only [lookup_insert_eq] at hk ⊢
        split_ifs at hk with h1
        · simp only [Option.some.injEq] at hk
          subst hk; simp
        · obtain ⟨t1, ht1⟩ := hV k v hk
          split_ifs
          · exact ⟨_, rfl⟩
          · exact ⟨_, rfl⟩
          · exact ⟨t1, ht1⟩

theorem checkPosPledgePunish_frame (s : Snapshot) (a : Address) (n : Nat) :
    (checkPosPledgePunish s a n).Tally = s.Tally
      ∧ (checkPosPledgePunish s a n).Votes = s.Votes
      ∧ (checkPosPledgePunish s a n).Voters = s.Voters := by
  unfold checkPosPledgePunish
  split_ifs
  · cases s.PosPledge with
    | none => exact ⟨rfl, rfl, rfl⟩
    | some m =>
      simp only
      cases m.lookup a with
      | none => exact ⟨rfl, rfl, rfl⟩
      | some pledge =>
        simp only
        cases s.Punished.lookup a <;> simp only <;> split_ifs <;> exact ⟨rfl, rfl, rfl⟩
  · exact ⟨rfl, rfl, rfl⟩

theorem mpVoteStep_preserves (h : Nat) (s : Snapshot) (txVote : Vote)
    (hT : TallyInvariant s) (hK : VotesKeyed s) (hV : VotesTargetTally s) :
    ∃ s', mpVoteStep h s txVote = some s'
      ∧ TallyInvariant s' ∧ VotesKeyed s' ∧ VotesTargetTally s' := by
  unfold mpVoteStep
  cases hl : s.Votes.lookup txVote.Voter with
  | none => exact ⟨s, rfl, hT, hK, hV⟩
  | some lv =>
    obtain ⟨t0, ht0⟩ := hV _ _ hl
    simp only [ht0]
    have hlv := hT _ _ ht0
    refine ⟨_, rfl, ?_, ?_, ?_⟩
    · intro c t hc
      rw [(checkPosPledgePunish_frame _ _ _).1] at hc
      rw [(checkPosPledgePunish_frame _ _ _).2.1]
      simp only [lookup_insert_eq] at hc
      rw [stakeSum_insert, hl]
      simp only [voteShare]
      split_ifs at hc with h1
      · subst h1
        simp only [Option.some.injEq] at hc
        simp [← hc, hlv]
      · have := hT c t hc
        have hne : ¬ lv.Candidate = c := fun e => h1 e.symm
        simp [hne, this]
    · intro k v hk
      rw [(checkPosPledgePunish_frame _ _ _).2.1] at hk
      simp only [lookup_insert_eq] at hk
      split_ifs at hk with h1
      · simp only [Option.some.injEq] at hk
        subst hk; exact h1.symm
      · exact hK k v hk
    · intro k v hk
      rw [(checkPosPledgePunish_frame _ _ _).2.1] at hk
      rw [(checkPosPledgePunish_frame _ _ _).1]
      simp only [lookup_insert_eq] at hk ⊢
      split_ifs at hk with h1
      · simp only [Option.some.injEq] at hk
        subst hk; simp
      · obtain ⟨t1, ht1⟩ := hV k v hk
        split_ifs
        · exact ⟨_, rfl⟩
        · exact ⟨t1, ht1⟩

theorem foldlM_preserves {α : Type} (P : Snapshot → Prop) (f : Snapshot → α → Option Snapshot)
    (hf : ∀ s a, P s → ∃ s', f s a = some s' ∧ P s') (l : List α) (s : Snapshot) (hs : P s) :
    ∃ s', l.foldlM f s = some s' ∧ P s' := by
  induction l generalizing s with
  | nil => exact ⟨s, rfl, hs⟩
  | cons a l ih =>
    obtain ⟨s1, h1, hP1⟩ := hf s a hs
    obtain ⟨s2, h2, hP2⟩ := ih s1 hP1
    refine ⟨s2, ?_, hP2⟩
    rw [List.foldlM_cons, h1]
    exact h2

theorem lookup_foldl_erase_some {K V : Type} [DecidableEq K] (p : K → V → Bool) (c : K) (t : V)
    (l : List (Sigma (fun _ : K => V))) (acc : GoMap K V)
    (h : (l.foldl (fun acc e => if p e.1 e.2 then acc.erase e.1 else acc) acc).lookup c = some t) :
    acc.lookup c = some t := by
  induction l generalizing acc with
  | nil => exact h
  | cons e l ih =>
    rw [List.foldl_cons] at h
    have := ih _ h
    split_ifs at this
    · rw [lookup_erase_eq] at this
      split_ifs at this
      exact this
    · exact this

theorem lookup_deleteWhere_some {K V : Type} [DecidableEq K] (p : K → V → Bool) (m : GoMap K V)
    (c : K) (t : V) (h : (deleteWhere p m).lookup c = some t) : m.lookup c = some t :=
  lookup_foldl_erase_some p c t m.entries m h

theorem expireStep_preserves (h : Nat) (s : Snapshot) (ev : Vote)
    (hT : TallyInvariant s) (hev : s.Votes.lookup ev.Voter = some ev) :
    TallyInvariant (expireStep h s ev) := by
  intro c t hc
  simp only [expireStep] at hc ⊢
  rw [stakeSum_erase, hev]
  simp only [voteShare]
  cases ht : s.Tally.lookup ev.Candidate with
  | none =>
    simp only [ht] at hc
    have hne : ¬ ev.Candidate = c := by
      intro e; rw [e, hc] at ht; exact absurd ht (by simp)
    simp [hne, hT c t hc]
  | some t0 =>
    simp only [ht] at hc
    have h0 := hT _ _ ht
    split_ifs at hc with h1 h2 h2
    all_goals
      simp only [lookup_insert_eq, lookup_erase_eq] at hc
      split_ifs at hc with h3 <;>
      first
        | (subst h3
           simp only [Option.some.injEq] at hc
           simp [← hc, h0])
        | (have hne : ¬ ev.Candidate = c := fun e => h3 e.symm
           simp [hne, hT c t hc])

theorem expireFold_preserves (h : Nat) (evs : List Vote) (s : Snapshot)
    (hT : TallyInvariant s)
    (hnd : (evs.map (fun v => v.Voter)).Nodup)
    (hev : ∀ ev ∈ evs, s.Votes.lookup ev.Voter = some ev) :
    TallyInvariant (evs.foldl (expireStep h) s) := by
  induction evs generalizing s with
  | nil => exact hT
  | cons ev evs ih =>
    rw [List.foldl_cons]
    rw [List.map_cons, List.nodup_cons] at hnd
    apply ih
    · exact expireStep_preserves h s ev hT (hev ev (List.mem_cons_self _ _))
    · exact hnd.2
    · intro ev' hmem
      have hne : ev'.Voter ≠ ev.Voter := by
        intro e
        apply hnd.1
        rw [← e]
        exact List.mem_map_of_mem (fun v => v.Voter) hmem
      simp only [expireStep, lookup_erase_eq, hne, if_false]
      exact hev ev' (List.mem_cons_of_mem _ hmem)

theorem collectExpiredVotes_recorded (s : Snapshot) (order : List Address) (h : Nat)
    (ev : Vote) (hmem : ev ∈ collectExpiredVotes s order h) :
    ∃ a, a ∈ order ∧ s.Votes.lookup a = some ev := by
  unfold collectExpiredVotes at hmem
  simp only [List.mem_filterMap] at hmem
  obtain ⟨a, ha, hf⟩ := hmem
  refine ⟨a, ha, ?_⟩
  cases h1 : s.Voters.lookup a with
  | none => simp [h1] at hf
  | some n =>
    cases h2 : s.Votes.lookup a with
    | none => simp [h1, h2] at hf
    | some v =>
      simp only [h1, h2] at hf
      split_ifs at hf
      simp only [Option.some.injEq] at hf
      rw [hf]

theorem collectExpiredVotes_nodup (s : Snapshot) (order : List Address) (h : Nat)
    (hK : VotesKeyed s) (hnd : order.Nodup) :
    ((collectExpiredVotes s order h).map (fun v => v.Voter)).Nodup := by
  unfold collectExpiredVotes
  simp only
  induction order with
  | nil => simp
  | cons a order ih =>
    rw [List.nodup_cons] at hnd
    rw [List.filterMap_cons]
    split
    · exact ih hnd.2
    · rename_i b hb
      rw [List.map_cons, List.nodup_cons]
      refine ⟨?_, ih hnd.2⟩
      intro hmem
      rw [List.mem_map] at hmem
      obtain ⟨ev, hev, hvoter⟩ := hmem
      obtain ⟨a', ha', hlook⟩ := collectExpiredVotes_recorded s order h ev hev
      have h1 : ev.Voter = a' := hK _ _ hlook
      have h2 : b.Voter = a := by
        cases h3 : s.Voters.lookup a with
        | none => simp [h3] at hb
        | some n =>
          cases h4 : s.Votes.lookup a with
          | none => simp [h3, h4] at hb
          | some v =>
            simp only [h3, h4] at hb
            split_ifs at hb
            simp only [Option.some.injEq] at hb
            rw [← hb]
            exact hK _ _ h4
      apply hnd.1
      rw [← h2, ← hvoter, h1]
      exact ha'

theorem updateSnapshotForExpiredIn_preserves (order : List Address) (s : Snapshot) (h : Nat)
    (hT : TallyInvariant s) (hK : VotesKeyed s) (hnd : order.Nodup) :
    TallyInvariant (updateSnapshotForExpiredIn order s h) := by
  have key : TallyInvariant
      (if s.config.MaxSignerCount ≤
          uint64OfInt ((s.Voters.entries.length : Int)
            - ((collectExpiredVotes s order h).length : Int)) then
        (collectExpiredVotes s order h).foldl (expireStep h) s
      else s) := by
    split_ifs
    · apply expireFold_preserves h _ s hT (collectExpiredVotes_nodup s order h hK hnd)
      intro ev hev
      obtain ⟨a, _, hlook⟩ := collectExpiredVotes_recorded s order h ev hev
      rw [hK _ _ hlook]
      exact hlook
    · exact hT
  intro c t hc
  simp only [updateSnapshotForExpiredIn] at hc ⊢
  exact key c t (lookup_deleteWhere_some _ _ c t hc)

theorem tallyInvariant_iff_entries (s : Snapshot) :
    TallyInvariant s ↔ ∀ e ∈ s.Tally.entries, e.2 = stakeSum s.Votes e.1 := by
  constructor
  · intro h e he
    obtain ⟨c, t⟩ := e
    exact h c t (AList.mem_lookup_iff.mpr he)
  · intro h c t hc
    exact h ⟨c, t⟩ (AList.mem_lookup_iff.mp hc)

theorem votesKeyed_iff_entries (s : Snapshot) :
    VotesKeyed s ↔ ∀ e ∈ s.Votes.entries, e.2.Voter = e.1 := by
  constructor
  · intro h e he
    obtain ⟨k, v⟩ := e
    exact h k v (AList.mem_lookup_iff.mpr he)
  · intro h k v hk
    exact h ⟨k, v⟩ (AList.mem_lookup_iff.mp hk)

theorem votesTargetTally_iff_entries (s : Snapshot) :
    VotesTargetTally s ↔ ∀ e ∈ s.Votes.entries, (s.Tally.lookup e.2.Candidate).isSome = true := by
  constructor
  · intro h e he
    obtain ⟨k, v⟩ := e
    obtain ⟨t, ht⟩ := h k v (AList.mem_lookup_iff.mpr he)
    simp [ht]
  · intro h k v hk
    have := h ⟨k, v⟩ (AList.mem_lookup_iff.mp hk)
    exact Option.isSome_iff_exists.mp this

/-- C8: below `PosNewEffectNumber` the per-header vote pipeline preserves the tally
invariant. If every recorded vote is stored under its voter, every recorded vote's
candidate has a `Tally` entry and `Tally[c]` equals the stake sum of the votes targeting
`c` for every `c` in `Tally`, then `updateSnapshotByVotes` and `updateSnapshotByMPVotes`
return (for any vote lists) and after `updateSnapshotForExpired`, whatever the order in
which it visits the voters, `Tally[c]` again equals the stake sum for every `c` in `Tally`. -/
theorem vote_pipeline_preserves_tally (candidateNeedPD : Bool) (s : Snapshot)
    (votes mpVotes : List Vote) (h : Nat) (order : List Address)
    (hh : h < PosNewEffectNumber)
    (hK : VotesKeyed s) (hV : VotesTargetTally s) (hT : TallyInvariant s)
    (hnd : order.Nodup) :
    ∃ s1 s2, updateSnapshotByVotes candidateNeedPD s votes h = some s1
      ∧ updateSnapshotByMPVotes s1 mpVotes (uint64 h) = some s2
      ∧ TallyInvariant (updateSnapshotForExpiredIn order s2 h)
      ∧ TallyInvariant (updateSnapshotForExpired s2 h) := by
  have hne := uint64_of_lt_PosNew hh
  obtain ⟨s1, h1, hT1, hK1, hV1⟩ :=
    foldlM_preserves (fun s => TallyInvariant s ∧ VotesKeyed s ∧ VotesTargetTally s)
      (voteStep candidateNeedPD h)
      (fun s a hs => voteStep_preserves candidateNeedPD h s a hs.1 hs.2.1 hs.2.2)
      votes s ⟨hT, hK, hV⟩
  obtain ⟨s2, h2, hT2, hK2, _⟩ :=
    foldlM_preserves (fun s => TallyInvariant s ∧ VotesKeyed s ∧ VotesTargetTally s)
      (mpVoteStep (uint64 h))
      (fun s a hs => mpVoteStep_preserves (uint64 h) s a hs.1 hs.2.1 hs.2.2)
      mpVotes s1 ⟨hT1, hK1, hV1⟩
  refine ⟨s1, s2, ?_, h2, ?_, ?_⟩
  · simp only [updateSnapshotByVotes, hne, if_false]
    exact h1
  · exact updateSnapshotForExpiredIn_preserves order s2 h hT2 hK2 hnd
  · exact updateSnapshotForExpiredIn_preserves _ s2 h hT2 hK2 (AList.keys_nodup _)

/-- C8 (witness): voter 4 votes for candidate 1, voter 2 moves to candidate 3 and the
stake of voter 1 is refreshed, at height 1. -/
theorem vote_pipeline_preserves_tally_witness :
    (1 < PosNewEffectNumber ∧ VotesKeyed pipelineSnapshot ∧ VotesTargetTally pipelineSnapshot
      ∧ TallyInvariant pipelineSnapshot ∧ [3, 1, 4, 2].Nodup)
    ∧ ∃ s1 s2, updateSnapshotByVotes false pipelineSnapshot [⟨4, 1, 50⟩, ⟨2, 3, 20⟩] 1 = some s1
      ∧ updateSnapshotByMPVotes s1 [⟨1, 0, 80⟩] (uint64 1) = some s2
      ∧ TallyInvariant (updateSnapshotForExpiredIn [3, 1, 4, 2] s2 1)
      ∧ TallyInvariant (updateSnapshotForExpired s2 1) :=
  ⟨⟨by decide, (votesKeyed_iff_entries _).mpr (by decide),
      (votesTargetTally_iff_entries _).mpr (by decide),
      (tallyInvariant_iff_entries _).mpr (by decide), by decide⟩,
    vote_pipeline_preserves_tally false pipelineSnapshot [⟨4, 1, 50⟩, ⟨2, 3, 20⟩] [⟨1, 0, 80⟩] 1
      [3, 1, 4, 2] (by decide) ((votesKeyed_iff_entries _).mpr (by decide))
      ((votesTargetTally_iff_entries _).mpr (by decide))
      ((tallyInvariant_iff_entries _).mpr (by decide)) (by decide)⟩

/-- Re-voting below `PosNewEffectNumber` when the previous candidate has a `Tally` entry:
the vote of D is replaced, the old stake leaves `Tally[A]` and the new stake enters
`Tally[B]`, and the stake sums move accordingly. -/
theorem updateSnapshotByVotes_revote (candidateNeedPD : Bool) (s : Snapshot)
    (D A B : Address) (k k' tA : Int) (h : Nat)
    (hh : h < PosNewEffectNumber)
    (hD : s.Votes.lookup D = some ⟨D, A, k⟩)
    (hA : s.Tally.lookup A = some tA) :
    ∃ s', updateSnapshotByVotes candidateNeedPD s [⟨D, B, k'⟩] h = some s'
      ∧ s'.Votes.lookup D = some ⟨D, B, k'⟩
      ∧ (A = B → s'.Tally.lookup A = some (tA - k + k'))
      ∧ (A ≠ B → s'.Tally.lookup A = some (tA - k)
          ∧ s'.Tally.lookup B = some ((s.Tally.lookup B).getD 0 + k'))
      ∧ (∀ c, stakeSum s'.Votes c
          = stakeSum s.Votes c - (if A = c then k else 0) + (if B = c then k' else 0)) := by
  have hne := uint64_of_lt_PosNew hh
  by_cases hAB : A = B
  · subst hAB
    refine ⟨{ s with
        Tally := (s.Tally.insert A (tA - k)).insert A (tA - k + k')
        Votes := s.Votes.insert D ⟨D, A, k'⟩
        Voters := s.Voters.insert D h }, ?_, ?_, ?_, ?_, ?_⟩
    · simp [updateSnapshotByVotes, hne, voteStep, subLastVote, tallySub, hD, hA,
        lookup_insert_eq]
    · simp [lookup_insert_eq]
    · intro _; simp [lookup_insert_eq]
    · intro hc; exact absurd rfl hc
    · intro c; simp [stakeSum_insert, hD, voteShare]
  · have hBA : ¬ B = A := fun e => hAB e.symm
    cases hB : s.Tally.lookup B with
    | none =>
      refine ⟨{ s with
          Tally := (s.Tally.insert A (tA - k)).insert B k'
          Candidates :=
            if candidateNeedPD then s.Candidates
            else s.Candidates.insert B candidateStateNormal
          Votes := s.Votes.insert D ⟨D, B, k'⟩
          Voters := s.Voters.insert D h }, ?_, ?_, ?_, ?_, ?_⟩
      · simp [updateSnapshotByVotes, hne, voteStep, subLastVote, tallySub, hD, hA,
          lookup_insert_eq, hBA, hB]
      · simp [lookup_insert_eq]
      · intro hc; exact absurd hc hAB
      · intro _; simp [lookup_insert_eq, hAB]
      · intro c; simp [stakeSum_insert, hD, voteShare]
    | some tB =>
      refine ⟨{ s with
          Tally := (s.Tally.insert A (tA - k)).insert B (tB + k')
          Votes := s.Votes.insert D ⟨D, B, k'⟩
          Voters := s.Voters.insert D h }, ?_, ?_, ?_, ?_, ?_⟩
      · simp [updateSnapshotByVotes, hne, voteStep, subLastVote, tallySub, hD, hA,
          lookup_insert_eq, hBA, hB]
      · simp [lookup_insert_eq]
      · intro hc; exact absurd hc hAB
      · intro _; simp [lookup_insert_eq, hAB]
      · intro c; simp [stakeSum_insert, hD, voteShare]

/-- C7 (failing input): voter 4 backs candidate 1; a header at height 9 refreshes its stake
to 0, so `updateSnapshotForExpired` removes the zero tally of candidate 1 while the vote
stays recorded; the resulting snapshot passes `verifyTallyCnt`. When voter 4 then votes
for candidate 2 at height 10, `updateSnapshotByVotes` reads the missing `Tally[1]` and the
fold does not return (nil pointer method call), so the vote is never replaced. -/
theorem updateSnapshotByVotes_revote_missing_tally :
    revoteAfterRefresh.isSome = true
    ∧ revoteAfterRefresh.map verifyTallyCnt = some none
    ∧ revoteAfterRefresh.map (fun s => s.Votes.lookup 4) = some (some ⟨4, 1, 0⟩)
    ∧ revoteAfterRefresh.map (fun s => s.Tally.lookup 1) = some none
    ∧ revoteAfterRefresh.bind (fun s => updateSnapshotByVotes false s [⟨4, 2, 7⟩] 10) = none := by
  refine ⟨by decide, by decide, by decide, by decide, ?_⟩
  exact Option.isNone_iff_eq_none.mp (by decide)

/-- C9 (failing input): at height `PosNewEffectNumber` the snapshot holds candidate 1 with
tally 0 backed by its own zero-stake vote (tally invariant satisfied). Folding the vote
intent (4, 1, 50) adds 50 to `Tally[1]` but records the vote of voter 4 with stake 0, so
afterwards `Tally[1] = 50` while the stake sum of the votes targeting candidate 1 is 0:
the invariant is broken and `verifyTallyCnt` rejects the snapshot. -/
theorem updateSnapshotByVotesV2_breaks_tally :
    TallyInvariant posCandidateSnapshot
    ∧ verifyTallyCnt posCandidateSnapshot = none
    ∧ ∃ s', updateSnapshotByVotes false posCandidateSnapshot [⟨4, 1, 50⟩] PosNewEffectNumber
          = some s'
        ∧ s'.Tally.lookup 1 = some 50
        ∧ s'.Votes.lookup 4 = some ⟨4, 1, 0⟩
        ∧ stakeSum s'.Votes 1 = 0
        ∧ ¬ TallyInvariant s'
        ∧ verifyTallyCnt s' = some Error.errIncorrectTallyCount := by
  refine ⟨(tallyInvariant_iff_entries _).mpr (by decide), by decide, ?_⟩
  refine ⟨_, rfl, by decide, by decide, by decide, ?_, by decide⟩
  intro hinv
  have := hinv 1 50 (by decide)
  revert this
  decide

/-! ## Snapshot transition -/

theorem headersContiguous_pairs (headers : List Header) (hc : headersContiguous headers = true)
    (i : Nat) (a b : Header) (ha : headers[i]? = some a) (hb : headers[i + 1]? = some b) :
    uint64 b.Number = (uint64 a.Number + 1) % 2 ^ 64 := by
  induction headers generalizing i with
  | nil => simp at ha
  | cons x rest ih =>
    cases rest with
    | nil => simp at hb
    | cons y rest =>
      simp only [headersContiguous] at hc
      split_ifs at hc with hxy
      cases i with
      | zero =>
        simp only [List.getElem?_cons_zero, Option.some.injEq] at ha
        simp only [zero_add, List.getElem?_cons_succ, List.getElem?_cons_zero,
          Option.some.injEq] at hb
        subst ha; subst hb
        exact not_not.mp hxy
      | succ j =>
        rw [List.getElem?_cons_succ] at ha hb
        exact ih hc j ha hb

/-- C2: `apply` rejects non-contiguous input. For a non-empty list of headers whose heights
lie below the `uint64` wrap-around, if some consecutive pair of headers does not differ in
height by exactly 1, or the first header's height is not the snapshot's `Number + 1`, then
`apply` returns `errInvalidVotingChain` and no snapshot (the input snapshot, an immutable
value read only before the working copy is made, is unmodified); for the empty list it
returns the input snapshot itself and no error. -/
theorem apply_rejects_non_contiguous (env : Collaborators) (s : Snapshot) (headers : List Header)
    (hne : headers ≠ [])
    (hrange : ∀ h ∈ headers, h.Number + 1 < 2 ^ 64)
    (hs : s.Number + 1 < 2 ^ 64)
    (hbad : (∃ i a b, headers[i]? = some a ∧ headers[i + 1]? = some b
              ∧ b.Number ≠ a.Number + 1)
            ∨ (∃ first, headers.head? = some first ∧ first.Number ≠ s.Number + 1)) :
    apply env s headers = Outcome.returned none (some Error.errInvalidVotingChain)
    ∧ apply env s [] = Outcome.returned (some s) none := by
  refine ⟨?_, rfl⟩
  cases headers with
  | nil => exact absurd rfl hne
  | cons first rest =>
    simp only [apply]
    by_cases hc' : headersContiguous (first :: rest) = true
    swap
    · have hc : headersContiguous (first :: rest) = false := by
        cases hcc : headersContiguous (first :: rest)
        · rfl
        · exact absurd hcc hc'
      rw [hc, if_pos rfl]
    · rw [hc', if_neg (by decide)]
      rcases hbad with ⟨i, a, b, ha, hb, hab⟩ | ⟨f, hf, hfs⟩
      · exfalso
        have hpair := headersContiguous_pairs _ hc' i a b ha hb
        have hamem : a ∈ first :: rest := List.mem_iff_getElem?.mpr ⟨i, ha⟩
        have hbmem : b ∈ first :: rest := List.mem_iff_getElem?.mpr ⟨i + 1, hb⟩
        have h1 := hrange a hamem
        have h2 := hrange b hbmem
        unfold uint64 at hpair
        rw [Nat.mod_eq_of_lt (by omega : b.Number < 2 ^ 64),
          Nat.mod_eq_of_lt (by omega : a.Number < 2 ^ 64),
          Nat.mod_eq_of_lt h1] at hpair
        exact hab hpair
      · simp only [List.head?_cons, Option.some.injEq] at hf
        subst hf
        have h1 := hrange first (List.mem_cons_self _ _)
        have hneq : uint64 first.Number ≠ (s.Number + 1) % 2 ^ 64 := by
          unfold uint64
          rw [Nat.mod_eq_of_lt (by omega : first.Number < 2 ^ 64), Nat.mod_eq_of_lt hs]
          exact hfs
        rw [if_pos hneq]

/-- C2 (witness): headers at heights 1 and 3 on top of a snapshot at height 0. -/
theorem apply_rejects_non_contiguous_witness :
    ([headerAt 1, headerAt 3] ≠ []
      ∧ (∀ h ∈ [headerAt 1, headerAt 3], h.Number + 1 < 2 ^ 64)
      ∧ emptySnapshot.Number + 1 < 2 ^ 64
      ∧ (headerAt 3).Number ≠ (headerAt 1).Number + 1)
    ∧ apply quietCollaborators emptySnapshot [headerAt 1, headerAt 3]
        = Outcome.returned none (some Error.errInvalidVotingChain)
    ∧ apply quietCollaborators emptySnapshot [] = Outcome.returned (some emptySnapshot) none :=
  ⟨⟨by decide, by decide, by decide, by decide⟩,
    apply_rejects_non_contiguous quietCollaborators emptySnapshot [headerAt 1, headerAt 3]
      (by decide) (by decide) (by decide)
      (Or.inl ⟨0, headerAt 1, headerAt 3, rfl, rfl, by decide⟩)⟩

/-- C3 (failing input): a snapshot at height 1495992 and the two headers 1495993 and
1495994. At height 1495993 = `PledgeRevertLockEffectNumber - 1` the creation of the SRT
ledger fails; `apply` returns the working snapshot with a nil error although no header was
applied in full: its `Number` is still 1495992 (not 1495994) and its `Hash` is not the hash
of the last header. When instead `storageApply` fails without a snapshot, `apply` returns
neither a snapshot nor an error. -/
theorem apply_swallows_ledger_failure :
    (∃ snap, apply srtFailure beforeSRTSnapshot [headerAt 1495993, headerAt 1495994]
          = Outcome.returned (some snap) none
        ∧ snap.Number = 1495992
        ∧ snap.Number ≠ beforeSRTSnapshot.Number + 2
        ∧ snap.Hash ≠ (headerAt 1495994).Hash)
    ∧ apply storageFailure beforeSRTSnapshot [headerAt 1495993, headerAt 1495994]
        = Outcome.returned none none := by
  refine ⟨⟨_, rfl, by decide, by decide, by decide⟩, rfl⟩

/-- C1 (failing input): (a) a stored snapshot at height 1495992 whose tally does not match
its votes (candidate 7: tally 5, no vote) and the header 1495993, at which the creation of
the SRT ledger fails: `apply` returns that snapshot with a nil error and the tally check is
never run, whereas the same batch is rejected with `errIncorrectTallyCount` when the SRT
ledger is created without error. (b) a snapshot at height `PosNewEffectNumber - 1` that satisfies the invariant,
a header carrying the vote intent (4, 1, 50) and a failing `storageApply` that hands back
its receiver: `apply` returns, with a nil error, a snapshot with `Tally[1] = 50` while the
votes targeting candidate 1 sum to 0. -/
theorem apply_early_return_skips_tally_check :
    (∃ snap, apply srtFailure mismatchedSnapshot [headerAt 1495993]
          = Outcome.returned (some snap) none
        ∧ snap.Tally.lookup 7 = some 5
        ∧ stakeSum snap.Votes 7 = 0
        ∧ ¬ TallyInvariant snap)
    ∧ apply quietCollaborators mismatchedSnapshot [headerAt 1495993]
        = Outcome.returned none (some Error.errIncorrectTallyCount)
    ∧ TallyInvariant posCandidateAtUpgrade
    ∧ (∃ snap, apply voteThenStorageFailure posCandidateAtUpgrade [headerAt 2558551]
          = Outcome.returned (some snap) none
        ∧ snap.Tally.lookup 1 = some 50
        ∧ stakeSum snap.Votes 1 = 0
        ∧ ¬ TallyInvariant snap) := by
  refine ⟨⟨_, rfl, by decide, by decide, ?_⟩, rfl,
    (tallyInvariant_iff_entries _).mpr (by decide), ⟨_, rfl, by decide, by decide, ?_⟩⟩
  · intro hinv
    have := hinv 7 5 (by decide)
    revert this
    decide
  · intro hinv
    have := hinv 1 50 (by decide)
    revert this
    decide

/-! ## Versioned extra codec -/

theorem lookup_map_self {V : Type} (g : Field → V) (f : Field) (l : List Field) :
    (l.map (fun x => (x, g x))).lookup f = if f ∈ l then some (g f) else none := by
  induction l with
  | nil => simp
  | cons x l ih =>
    rw [List.map_cons, List.lookup_cons]
    by_cases h : f = x
    · subst h; simp
    · have hb : (f == x) = false := by simpa using h
      simp [hb, ih, h]

theorem zip_take_map {V : Type} (g : Field → V) (l : List Field) (n : Nat) :
    l.zip ((l.take n).map g) = (l.take n).map (fun x => (x, g x)) := by
  induction l generalizing n with
  | nil => simp
  | cons x l ih =>
    cases n with
    | zero => simp
    | succ n => simp only [List.take_succ_cons, List.map_cons, List.zip_cons_cons, ih]

theorem rlpDecodeBytes_take {V : Type} (zero : Field → V) (g : Bundle V) (n : Nat) :
    rlpDecodeBytes zero ((headerExtraFields.take n).map g)
      = .ok (fun f => if f ∈ headerExtraFields.take n then g f else zero f) := by
  unfold rlpDecodeBytes
  have hlen : ¬ headerExtraFields.length < ((headerExtraFields.take n).map g).length := by
    simp [List.length_take]
  rw [if_neg hlen, zip_take_map]
  congr 1
  funext f
  rw [lookup_map_self]
  split_ifs <;> rfl

theorem schema_fields_take (sch : Schema) :
    sch.fields = headerExtraFields.take sch.fields.length := by
  cases sch <;> decide

theorem buildStruct_self {V : Type} (zero : Field → V) (literal : List (Field × Field))
    (declared : List Field) (val : Bundle V)
    (h : ∀ f ∈ declared, literal.lookup f = some f) :
    declared.map (buildStruct zero literal val) = declared.map val := by
  apply List.map_congr_left
  intro f hf
  simp [buildStruct, h f hf]

theorem encodeHeaderExtra_eq {V : Type} (zero : Field → V) (config : AlienConfig) (number : Nat)
    (val : Bundle V) :
    encodeHeaderExtra zero config number val = .ok ((schemaOf number).fields.map val) := by
  unfold encodeHeaderExtra schemaOf rlpEncodeToBytes
  split_ifs <;> simp only [Schema.fields] <;>
    exact congrArg Except.ok (buildStruct_self zero _ _ val (by decide))

/-- C4: codec round trip. For every height and every bundle, `encodeHeaderExtra` succeeds
and `decodeHeaderExtra` applied to its output at the same height succeeds and yields a
bundle that equals the original on every field of the schema selected for that height and
holds the zero value on every other field. -/
theorem decode_encode_headerExtra {V : Type} (zero : Field → V) (config : AlienConfig)
    (number : Nat) (val : Bundle V) :
    ∃ b decoded, encodeHeaderExtra zero config number val = .ok b
      ∧ decodeHeaderExtra zero config number b = .ok decoded
      ∧ (∀ f, f ∈ (schemaOf number).fields → decoded f = val f)
      ∧ (∀ f, f ∉ (schemaOf number).fields → decoded f = zero f) := by
  refine ⟨_, (fun f => if f ∈ (schemaOf number).fields then val f else zero f),
    encodeHeaderExtra_eq zero config number val, ?_, ?_, ?_⟩
  · unfold decodeHeaderExtra
    have h := rlpDecodeBytes_take zero val (schemaOf number).fields.length
    rw [← schema_fields_take (schemaOf number)] at h
    exact h
  · intro f hf
    simp only [hf, if_true]
  · intro f hf
    simp only [hf, if_false]

theorem schemaOf_cases (h : Nat) (hlt : h < 2 ^ 64) :
    (h < 834261 ∧ schemaOf h = Schema.OldHeaderExtra)
    ∨ (834261 ≤ h ∧ h < 1170700 ∧ schemaOf h = Schema.StorageHeaderExtraV1)
    ∨ (1170700 ≤ h ∧ h < 1495994 ∧ schemaOf h = Schema.StorageHeaderExtraV2)
    ∨ (1495994 ≤ h ∧ h < 1608207 ∧ schemaOf h = Schema.StorageHeaderExtraV3)
    ∨ (1608207 ≤ h ∧ h < 1744720 ∧ schemaOf h = Schema.StorageHeaderExtraV4)
    ∨ (1744720 ≤ h ∧ h < 2558551 ∧ schemaOf h = Schema.HeaderExtraV5)
    ∨ (2558551 ≤ h ∧ h < 3946692 ∧ schemaOf h = Schema.HeaderExtraV6)
    ∨ (3946692 ≤ h ∧ h < 5173314 ∧ schemaOf h = Schema.HeaderExtraV7)
    ∨ (5173314 ≤ h ∧ schemaOf h = Schema.HeaderExtra) := by
  have e : uint64 h = h := Nat.mod_eq_of_lt hlt
  unfold schemaOf
  rw [e]
  by_cases c1 : h < StorageEffectBlockNumber
  · exact Or.inl ⟨c1, if_pos c1⟩
  right; rw [if_neg c1]
  by_cases c2 : h < StorageChBwEffectNumber
  · exact Or.inl ⟨Nat.le_of_not_lt c1, c2, if_pos c2⟩
  right; rw [if_neg c2]
  by_cases c3 : h < PledgeRevertLockEffectNumber
  · exact Or.inl ⟨Nat.le_of_not_lt c2, c3, if_pos c3⟩
  right; rw [if_neg c3]
  by_cases c4 : h < StoragePledgeOptEffectNumber
  · exact Or.inl ⟨Nat.le_of_not_lt c3, c4, if_pos c4⟩
  right; rw [if_neg c4]
  by_cases c5 : h < PosrIncentiveEffectNumber
  · exact Or.inl ⟨Nat.le_of_not_lt c4, c5, if_pos c5⟩
  right; rw [if_neg c5]
  by_cases c6 : h < PosNewEffectNumber
  · exact Or.inl ⟨Nat.le_of_not_lt c5, c6, if_pos c6⟩
  right; rw [if_neg c6]
  by_cases c7 : h < PoCrsAccCalNumber
  · exact Or.inl ⟨Nat.le_of_not_lt c6, c7, if_pos c7⟩
  right; rw [if_neg c7]
  by_cases c8 : h < initStorageManagerNumber
  · exact Or.inl ⟨Nat.le_of_not_lt c7, c8, if_pos c8⟩
  right; rw [if_neg c8]
  exact ⟨Nat.le_of_not_lt c8, rfl⟩

theorem schema_length_mono (h1 h2 : Nat) (hle : h1 ≤ h2) (hlt : h2 < 2 ^ 64) :
    (schemaOf h1).fields.length ≤ (schemaOf h2).fields.length := by
  have l0 : Schema.OldHeaderExtra.fields.length = 32 := by decide
  have l1 : Schema.StorageHeaderExtraV1.fields.length = 46 := by decide
  have l2 : Schema.StorageHeaderExtraV2.fields.length = 47 := by decide
  have l3 : Schema.StorageHeaderExtraV3.fields.length = 48 := by decide
  have l4 : Schema.StorageHeaderExtraV4.fields.length = 49 := by decide
  have l5 : Schema.HeaderExtraV5.fields.length = 50 := by decide
  have l6 : Schema.HeaderExtraV6.fields.length = 55 := by decide
  have l7 : Schema.HeaderExtraV7.fields.length = 56 := by decide
  have l8 : Schema.HeaderExtra.fields.length = 76 := by decide
  have c1 := schemaOf_cases h1 (by omega)
  have c2 := schemaOf_cases h2 hlt
  rcases c1 with ⟨a1, s1⟩ | ⟨a1, b1, s1⟩ | ⟨a1, b1, s1⟩ | ⟨a1, b1, s1⟩ | ⟨a1, b1, s1⟩
    | ⟨a1, b1, s1⟩ | ⟨a1, b1, s1⟩ | ⟨a1, b1, s1⟩ | ⟨a1, s1⟩ <;>
  rcases c2 with ⟨a2, s2⟩ | ⟨a2, b2, s2⟩ | ⟨a2, b2, s2⟩ | ⟨a2, b2, s2⟩ | ⟨a2, b2, s2⟩
    | ⟨a2, b2, s2⟩ | ⟨a2, b2, s2⟩ | ⟨a2, b2, s2⟩ | ⟨a2, s2⟩ <;>
  rw [s1, s2] <;> omega

theorem schema_fields_nested (h1 h2 : Nat) (hle : h1 ≤ h2) (hlt : h2 < 2 ^ 64) :
    (schemaOf h1).fields <+: (schemaOf h2).fields := by
  have e1 := schema_fields_take (schemaOf h1)
  have e2 := schema_fields_take (schemaOf h2)
  rw [e1, e2]
  exact List.take_prefix_take_left _ (schema_length_mono h1 h2 hle hlt)

/-- C5: the schema used by `encodeHeaderExtra` depends on the height alone and the schemas
are nested. At every height the encoder serialises exactly the fields of the struct
selected for that height, whatever the configuration; for heights `h1 <= h2` (in the
`uint64` range) the field list serialised at `h1` is an initial segment of the one
serialised at `h2`; two bundles that agree on every field of the schema selected for `h1`
encode to identical bytes at `h1`; and the selecting thresholds are strictly increasing. -/
theorem encodeHeaderExtra_schemas_nested {V : Type} (zero : Field → V) (h1 h2 : Nat)
    (hle : h1 ≤ h2) (hlt : h2 < 2 ^ 64) :
    (∀ (config : AlienConfig) (val : Bundle V),
        encodeHeaderExtra zero config h1 val = .ok ((schemaOf h1).fields.map val))
    ∧ (schemaOf h1).fields <+: (schemaOf h2).fields
    ∧ (∀ (config config' : AlienConfig) (val val' : Bundle V),
        (∀ f ∈ (schemaOf h1).fields, val f = val' f) →
        encodeHeaderExtra zero config h1 val = encodeHeaderExtra zero config' h1 val')
    ∧ (StorageEffectBlockNumber < StorageChBwEffectNumber
        ∧ StorageChBwEffectNumber < PledgeRevertLockEffectNumber
        ∧ PledgeRevertLockEffectNumber < StoragePledgeOptEffectNumber
        ∧ StoragePledgeOptEffectNumber < PosrIncentiveEffectNumber
        ∧ PosrIncentiveEffectNumber < PosNewEffectNumber
        ∧ PosNewEffectNumber < PoCrsAccCalNumber
        ∧ PoCrsAccCalNumber < initStorageManagerNumber) := by
  refine ⟨fun config val => encodeHeaderExtra_eq zero config h1 val,
    schema_fields_nested h1 h2 hle hlt, ?_, by decide⟩
  intro config config' val val' hagree
  rw [encodeHeaderExtra_eq, encodeHeaderExtra_eq]
  exact congrArg Except.ok (List.map_congr_left hagree)

/-- C5 (witness): heights 834260 (oldest schema) and 834261 (first storage schema), with
two bundles that differ only on a field outside the oldest schema. -/
theorem encodeHeaderExtra_schemas_nested_witness :
    (834260 ≤ 834261 ∧ 834261 < 2 ^ 64)
    ∧ (schemaOf 834260).fields <+: (schemaOf 834261).fields
    ∧ (schemaOf 834260).fields.length = 32 ∧ (schemaOf 834261).fields.length = 46
    ∧ encodeHeaderExtra zeroNat sampleConfig 834260 fiveBundle
        = encodeHeaderExtra zeroNat sampleConfig 834260 fiveBundleWithPledge :=
  have h := encodeHeaderExtra_schemas_nested zeroNat 834260 834261 (by decide) (by decide)
  ⟨⟨by decide, by decide⟩, h.2.1, by decide, by decide,
    h.2.2.1 sampleConfig sampleConfig fiveBundle fiveBundleWithPledge (by decide)⟩

/-! ## Payout cadence -/

/-- C20: with period 10, at every height below `initStorageManagerNumber`, `isPayFlowRewards`
returns, and it returns true exactly when `h mod 8640 = 900` and `h ≠ 900`. -/
theorem isPayFlowRewards_period_ten (h : Nat) (hlt : h < initStorageManagerNumber) :
    isPayFlowRewards h 10 = some (decide (h % 8640 = 900 ∧ h ≠ 900)) := by
  have hge : isGEInitStorageManagerNumber h = false := by
    unfold isGEInitStorageManagerNumber
    exact decide_eq_false (by omega)
  unfold isPayFlowRewards
  rw [if_neg (by decide), hge]
  simp only [Bool.false_eq_true, if_false]
  have e1 : payFlowRewardInterval / 10 = 900 := by decide
  have e2 : secondsPerDay / 10 = 8640 := by decide
  rw [e1, e2, if_neg (by decide)]
  congr 1
  apply decide_eq_decide.mpr
  constructor
  · rintro ⟨a, b⟩; exact ⟨a.symm, fun e => b e.symm⟩
  · rintro ⟨a, b⟩; exact ⟨a.symm, fun e => b e.symm⟩

/-- C20 (witness): height 9540 = 8640 + 900, the first payout height. -/
theorem isPayFlowRewards_period_ten_witness :
    9540 < initStorageManagerNumber ∧
      isPayFlowRewards 9540 10 = some (decide (9540 % 8640 = 900 ∧ 9540 ≠ 900)) :=
  ⟨by decide, isPayFlowRewards_period_ten 9540 (by decide)⟩

/-! ## Punishment ledger -/

theorem punishMissing_bounded (m : GoMap Address Nat) (a : Address) (hm : PunishedBounded m) :
    PunishedBounded (punishMissing m a) := by
  intro c p hc
  unfold punishMissing at hc
  cases hl : m.lookup a with
  | none =>
    rw [hl] at hc
    simp only [lookup_insert_eq] at hc
    split_ifs at hc with h1
    · cases hc; decide
    · exact hm c p hc
  | some q =>
    rw [hl] at hc
    have hq := hm a q hl
    unfold defaultFullCredit at hq
    have e : (q + missingPublishCredit) % 2 ^ 64 = q + 30 := by
      unfold missingPublishCredit; omega
    simp only [e] at hc
    unfold defaultFullCredit at hc ⊢
    split_ifs at hc with h1 <;> simp only [lookup_insert_eq] at hc <;>
      split_ifs at hc with h2 <;>
      first
        | exact hm c p hc
        | (cases hc; omega)

theorem foldl_punishMissing_bounded (l : List Address) (m : GoMap Address Nat)
    (hm : PunishedBounded m) : PunishedBounded (l.foldl punishMissing m) := by
  induction l generalizing m with
  | nil => exact hm
  | cons a l ih => exact ih _ (punishMissing_bounded m a hm)

theorem rewardCoinbase_bounded (m : GoMap Address Nat) (a : Address) (hm : PunishedBounded m) :
    PunishedBounded (rewardCoinbase m a) := by
  intro c p hc
  unfold rewardCoinbase at hc
  cases hl : m.lookup a with
  | none => rw [hl] at hc; exact hm c p hc
  | some q =>
    rw [hl] at hc
    have hq := hm a q hl
    unfold signRewardCredit at hc
    simp only at hc
    split_ifs at hc with h1
    · simp only [lookup_insert_eq] at hc
      split_ifs at hc with h2
      · cases hc; constructor <;> omega
      · exact hm c p hc
    · simp only [lookup_erase_eq] at hc
      split_ifs at hc with h2
      exact hm c p hc

theorem updatePosPledgePunish_Punished (s : Snapshot) (a : Address) (n h : Nat) :
    (updatePosPledgePunish s a n h).Punished = s.Punished := by
  unfold updatePosPledgePunish
  split_ifs
  · split
    · rfl
    · split <;> rfl
  · rfl

theorem updatePosPledgePunish_Signers (s : Snapshot) (a : Address) (n h : Nat) :
    (updatePosPledgePunish s a n h).Signers = s.Signers := by
  unfold updatePosPledgePunish
  split_ifs
  · split
    · rfl
    · split <;> rfl
  · rfl

theorem updatePosPledgePunish_config (s : Snapshot) (a : Address) (n h : Nat) :
    (updatePosPledgePunish s a n h).config = s.config := by
  unfold updatePosPledgePunish
  split_ifs
  · split
    · rfl
    · split <;> rfl
  · rfl

/-- The debt map after one step of the auto-recovery loop. -/
theorem autoRecoverStep_Punished (h : Nat) (s : Snapshot) (a : Address) :
    (autoRecoverStep h s a).Punished =
      match s.Punished.lookup a with
      | some p => if autoRewardCredit < p then s.Punished.insert a (p - autoRewardCredit)
                  else s.Punished.erase a
      | none => s.Punished := by
  unfold autoRecoverStep
  cases s.Punished.lookup a with
  | none => simp only [updatePosPledgePunish_Punished]
  | some p =>
    simp only
    split_ifs <;> simp only [updatePosPledgePunish_Punished]

theorem autoRecoverStep_bounded (h : Nat) (s : Snapshot) (a : Address)
    (hm : PunishedBounded s.Punished) : PunishedBounded (autoRecoverStep h s a).Punished := by
  intro c p hc
  rw [autoRecoverStep_Punished] at hc
  cases hl : s.Punished.lookup a with
  | none => rw [hl] at hc; exact hm c p hc
  | some q =>
    rw [hl] at hc
    have hq := hm a q hl
    unfold autoRewardCredit at hc
    simp only at hc
    split_ifs at hc with h1
    · simp only [lookup_insert_eq] at hc
      split_ifs at hc with h2
      · cases hc; constructor <;> omega
      · exact hm c p hc
    · simp only [lookup_erase_eq] at hc
      split_ifs at hc with h2
      exact hm c p hc

theorem foldl_autoRecoverStep_bounded (h : Nat) (l : List Address) (s : Snapshot)
    (hm : PunishedBounded s.Punished) :
    PunishedBounded (l.foldl (autoRecoverStep h) s).Punished := by
  induction l generalizing s with
  | nil => exact hm
  | cons a l ih => exact ih _ (autoRecoverStep_bounded h s a hm)

theorem updateSnapshotForPunish_bounded (s : Snapshot) (signerMissing : List Address)
    (headerNumber : Nat) (coinbase : Address) (hm : PunishedBounded s.Punished) :
    PunishedBounded (updateSnapshotForPunish s signerMissing headerNumber coinbase).Punished := by
  unfold updateSnapshotForPunish
  simp only
  split_ifs
  · intro c p hc
    simp at hc
  · apply foldl_autoRecoverStep_bounded
    exact rewardCoinbase_bounded _ _ (foldl_punishMissing_bounded _ _ hm)

theorem payPunish_bounded (s : Snapshot) (item : CandidatePunishRecord) (number : Nat)
    (hm : PunishedBounded s.Punished) : PunishedBounded (payPunish s item number).Punished := by
  have key : (payPunish s item number).Punished =
      match s.Punished.lookup item.Target with
      | some p => if item.Credit % 2 ^ 32 < p then s.Punished.insert item.Target (p - item.Credit % 2 ^ 32)
                  else s.Punished.erase item.Target
      | none => s.Punished := by
    unfold payPunish
    cases s.Punished.lookup item.Target with
    | none => rfl
    | some p =>
      simp only
      split_ifs
      · rfl
      · cases s.PosPledge with
        | none => rfl
        | some m => simp only; cases m.lookup item.Target <;> rfl
      · rfl
  intro c p hc
  rw [key] at hc
  cases hl : s.Punished.lookup item.Target with
  | none => rw [hl] at hc; exact hm c p hc
  | some q =>
    rw [hl] at hc
    have hq := hm _ q hl
    simp only at hc
    split_ifs at hc with h1
    · simp only [lookup_insert_eq] at hc
      split_ifs at hc with h2
      · cases hc; constructor <;> omega
      · exact hm c p hc
    · simp only [lookup_erase_eq] at hc
      split_ifs at hc with h2
      exact hm c p hc

theorem creditPledge_Punished (s : Snapshot) (item : CandidatePunishRecord) (number : Nat) :
    (creditPledge s item number).Punished = s.Punished := by
  unfold creditPledge
  split_ifs
  · cases s.CandidatePledge.lookup item.Target <;> rfl
  · rfl

theorem updateCandidatePunish_bounded (records : List CandidatePunishRecord) (number : Nat)
    (s : Snapshot) (hm : PunishedBounded s.Punished) :
    PunishedBounded (updateCandidatePunish s records number).Punished := by
  unfold updateCandidatePunish
  induction records generalizing s with
  | nil => exact hm
  | cons r l ih =>
    apply ih
    rw [creditPledge_Punished]
    exact payPunish_bounded s r number hm

/-- C11: if every recorded debt lies in [1, 100], then after `updateSnapshotForPunish` (any
missing list, coinbase, signer queue and height) and after `updateCandidatePunish` (any
record list and height) every recorded debt still lies in [1, 100]; in particular no entry
is stored with value 0. -/
theorem punishment_bound_preserved (s : Snapshot) (signerMissing : List Address)
    (headerNumber : Nat) (coinbase : Address) (records : List CandidatePunishRecord)
    (number : Nat) (hm : ∀ a p, s.Punished.lookup a = some p → 1 ≤ p ∧ p ≤ 100) :
    (∀ a p, (updateSnapshotForPunish s signerMissing headerNumber coinbase).Punished.lookup a
        = some p → 1 ≤ p ∧ p ≤ 100) ∧
    (∀ a p, (updateCandidatePunish s records number).Punished.lookup a = some p →
        1 ≤ p ∧ p ≤ 100) :=
  ⟨updateSnapshotForPunish_bounded s signerMissing headerNumber coinbase hm,
   updateCandidatePunish_bounded records number s hm⟩


theorem lookup_punishMissing (m : GoMap Address Nat) (x a : Address) :
    (punishMissing m x).lookup a = if a = x then missDebt (m.lookup a) else m.lookup a := by
  unfold punishMissing missDebt
  by_cases h : a = x
  · subst h
    rw [if_pos rfl]
    cases m.lookup a with
    | none => simp only [lookup_insert_eq, if_true]
    | some p => simp only; split_ifs <;> simp only [lookup_insert_eq, if_true]
  · rw [if_neg h]
    cases m.lookup x with
    | none => simp only [lookup_insert_eq, if_neg h]
    | some p => simp only; split_ifs <;> simp only [lookup_insert_eq, if_neg h]

theorem lookup_foldl_punishMissing (l : List Address) (m : GoMap Address Nat) (a : Address) :
    (l.foldl punishMissing m).lookup a = missDebt^[l.count a] (m.lookup a) := by
  induction l generalizing m with
  | nil => rfl
  | cons x l ih =>
    rw [List.foldl_cons, ih, lookup_punishMissing, List.count_cons]
    by_cases h : a = x
    · subst h
      simp only [if_true, beq_self_eq_true, Function.iterate_succ_apply]
    · have h2 : (x == a) = false := by simpa using fun e => h e.symm
      simp only [if_neg h, h2, Bool.false_eq_true, if_false, Nat.add_zero]

theorem lookup_rewardCoinbase (m : GoMap Address Nat) (c a : Address) :
    (rewardCoinbase m c).lookup a = if a = c then sealDebt (m.lookup a) else m.lookup a := by
  unfold rewardCoinbase sealDebt
  by_cases h : a = c
  · subst h
    rw [if_pos rfl]
    cases hl : m.lookup a with
    | none => simp only [hl]
    | some p => simp only; split_ifs <;> simp only [lookup_insert_eq, lookup_erase_eq, if_true]
  · rw [if_neg h]
    cases m.lookup c with
    | none => rfl
    | some p => simp only; split_ifs <;> simp only [lookup_insert_eq, lookup_erase_eq, if_neg h]

theorem lookup_autoRecoverStep (h : Nat) (s : Snapshot) (x a : Address) :
    (autoRecoverStep h s x).Punished.lookup a
      = if a = x then recoverDebt (s.Punished.lookup a) else s.Punished.lookup a := by
  rw [autoRecoverStep_Punished]
  unfold recoverDebt
  by_cases h : a = x
  · subst h
    rw [if_pos rfl]
    cases hl : s.Punished.lookup a with
    | none => simp only [hl]
    | some p => simp only; split_ifs <;> simp only [lookup_insert_eq, lookup_erase_eq, if_true]
  · rw [if_neg h]
    cases s.Punished.lookup x with
    | none => rfl
    | some p => simp only; split_ifs <;> simp only [lookup_insert_eq, lookup_erase_eq, if_neg h]

theorem autoRecoverStep_Signers (h : Nat) (s : Snapshot) (x : Address) :
    (autoRecoverStep h s x).Signers = s.Signers := by
  unfold autoRecoverStep
  cases s.Punished.lookup x with
  | none => simp only [updatePosPledgePunish_Signers]
  | some p => simp only; split_ifs <;> simp only [updatePosPledgePunish_Signers]

theorem autoRecoverStep_config (h : Nat) (s : Snapshot) (x : Address) :
    (autoRecoverStep h s x).config = s.config := by
  unfold autoRecoverStep
  cases s.Punished.lookup x with
  | none => simp only [updatePosPledgePunish_config]
  | some p => simp only; split_ifs <;> simp only [updatePosPledgePunish_config]

theorem foldl_autoRecoverStep_frame (h : Nat) (l : List Address) (s : Snapshot) :
    (l.foldl (autoRecoverStep h) s).Signers = s.Signers ∧
    (l.foldl (autoRecoverStep h) s).config = s.config := by
  induction l generalizing s with
  | nil => exact ⟨rfl, rfl⟩
  | cons x l ih =>
    rw [List.foldl_cons]
    obtain ⟨h1, h2⟩ := ih (autoRecoverStep h s x)
    rw [h1, h2, autoRecoverStep_Signers, autoRecoverStep_config]
    exact ⟨rfl, rfl⟩

theorem lookup_foldl_autoRecoverStep (h : Nat) (l : List Address) (s : Snapshot) (a : Address) :
    (l.foldl (autoRecoverStep h) s).Punished.lookup a
      = recoverDebt^[l.count a] (s.Punished.lookup a) := by
  induction l generalizing s with
  | nil => rfl
  | cons x l ih =>
    rw [List.foldl_cons, ih, lookup_autoRecoverStep, List.count_cons]
    by_cases h : a = x
    · subst h
      simp only [if_true, beq_self_eq_true, Function.iterate_succ_apply]
    · have h2 : (x == a) = false := by simpa using fun e => h e.symm
      simp only [if_neg h, h2, Bool.false_eq_true, if_false, Nat.add_zero]

theorem updateSnapshotForPunish_frame (s : Snapshot) (missing : List Address) (h : Nat)
    (c : Address) :
    (updateSnapshotForPunish s missing h c).Signers = s.Signers ∧
    (updateSnapshotForPunish s missing h c).config = s.config := by
  unfold updateSnapshotForPunish
  simp only
  split_ifs
  · exact ⟨(foldl_autoRecoverStep_frame h _ _).1, (foldl_autoRecoverStep_frame h _ _).2⟩
  · exact ⟨(foldl_autoRecoverStep_frame h _ _).1, (foldl_autoRecoverStep_frame h _ _).2⟩

/-- The debt of one address after `updateSnapshotForPunish` at a header that is not the
first Trantor block: one `missDebt` per listing, the seal reward for the coinbase, one
`recoverDebt` per slot in the queue. -/
theorem lookup_updateSnapshotForPunish (s : Snapshot) (missing : List Address) (h : Nat)
    (c a : Address)
    (ht : (s.config.Trantor (h : Int) && !s.config.Trantor ((h : Int) - 1)) = false) :
    (updateSnapshotForPunish s missing h c).Punished.lookup a
      = recoverDebt^[s.Signers.count a]
          (if a = c then sealDebt (missDebt^[missing.count a] (s.Punished.lookup a))
           else missDebt^[missing.count a] (s.Punished.lookup a)) := by
  unfold updateSnapshotForPunish
  simp only
  rw [(foldl_autoRecoverStep_frame h _ _).2]
  simp only [ht, Bool.false_eq_true, if_false]
  rw [lookup_foldl_autoRecoverStep]
  simp only [lookup_rewardCoinbase, lookup_foldl_punishMissing]


theorem doubleSlotSnapshot_bounded :
    ∀ a p, doubleSlotSnapshot.Punished.lookup a = some p → 1 ≤ p ∧ p ≤ 100 := by
  intro a p h
  have e : doubleSlotSnapshot.Punished = AList.insert 1 40 (AList.insert 3 5 ∅) := rfl
  rw [e] at h
  simp only [lookup_insert_eq, AList.lookup_empty] at h
  split_ifs at h <;> cases h <;> decide

/-- C11 (witness): `doubleSlotSnapshot` (debts 40 and 5), a header at height 7 sealed by signer 1
that reports signer 2 missing, and a punishment payment of 5 credits by candidate 1. -/
theorem punishment_bound_preserved_witness :
    (∀ a p, doubleSlotSnapshot.Punished.lookup a = some p → 1 ≤ p ∧ p ≤ 100) ∧
    ((∀ a p, (updateSnapshotForPunish doubleSlotSnapshot [2] 7 1).Punished.lookup a = some p →
        1 ≤ p ∧ p ≤ 100) ∧
     (∀ a p, (updateCandidatePunish doubleSlotSnapshot [⟨1, 0, 5⟩] 7).Punished.lookup a = some p →
        1 ≤ p ∧ p ≤ 100)) :=
  ⟨doubleSlotSnapshot_bounded,
   punishment_bound_preserved doubleSlotSnapshot [2] 7 1 [⟨1, 0, 5⟩] 7 doubleSlotSnapshot_bounded⟩

/-- C12 (counterexample to the claim as stated): signer 1 is in the queue of `twoSignerSnapshot`, owes nothing, and is
reported missing by three consecutive headers sealed by signer 2; its debt is 29, 58 and
87 after them, not 30, 60 and 90. -/
theorem three_misses_not_30_60_90 :
    twoSignerSnapshot.Punished.lookup 1 = none ∧ 1 ∈ twoSignerSnapshot.Signers ∧
    (updateSnapshotForPunish twoSignerSnapshot [1] 7 2).Punished.lookup 1 = some 29 ∧
    (updateSnapshotForPunish (updateSnapshotForPunish twoSignerSnapshot [1] 7 2) [1] 8 2
      ).Punished.lookup 1 = some 58 ∧
    (updateSnapshotForPunish
      (updateSnapshotForPunish (updateSnapshotForPunish twoSignerSnapshot [1] 7 2) [1] 8 2)
      [1] 9 2).Punished.lookup 1 = some 87 := by
  refine ⟨by decide, by decide, by decide, by decide, by decide⟩

/-- C12 (as amended): if candidate A has no Punished entry, occupies exactly one slot of the
signer queue, and is listed exactly once in SignerMissing of each of three consecutive
headers whose coinbase is not A and none of which is the first Trantor block, then
Punished[A] is 29, 58 and 87 after the first, second and third `updateSnapshotForPunish`:
every miss adds 30 and the same call recovers one unit for the slot. -/
theorem three_misses_one_slot (s : Snapshot) (A : Address) (m1 m2 m3 : List Address)
    (c1 c2 c3 : Address) (h : Nat)
    (h0 : s.Punished.lookup A = none) (hq : s.Signers.count A = 1)
    (hm1 : m1.count A = 1) (hm2 : m2.count A = 1) (hm3 : m3.count A = 1)
    (hc1 : c1 ≠ A) (hc2 : c2 ≠ A) (hc3 : c3 ≠ A)
    (ht1 : (s.config.Trantor (h : Int) && !s.config.Trantor ((h : Int) - 1)) = false)
    (ht2 : (s.config.Trantor ((h + 1 : Nat) : Int)
              && !s.config.Trantor (((h + 1 : Nat) : Int) - 1)) = false)
    (ht3 : (s.config.Trantor ((h + 2 : Nat) : Int)
              && !s.config.Trantor (((h + 2 : Nat) : Int) - 1)) = false) :
    (updateSnapshotForPunish s m1 h c1).Punished.lookup A = some 29 ∧
    (updateSnapshotForPunish (updateSnapshotForPunish s m1 h c1) m2 (h + 1) c2
      ).Punished.lookup A = some 58 ∧
    (updateSnapshotForPunish
      (updateSnapshotForPunish (updateSnapshotForPunish s m1 h c1) m2 (h + 1) c2)
      m3 (h + 2) c3).Punished.lookup A = some 87 := by
  have f1 := updateSnapshotForPunish_frame s m1 h c1
  have f2 := updateSnapshotForPunish_frame (updateSnapshotForPunish s m1 h c1) m2 (h + 1) c2
  have e1 : (updateSnapshotForPunish s m1 h c1).Punished.lookup A = some 29 := by
    rw [lookup_updateSnapshotForPunish s m1 h c1 A ht1, hq, hm1, h0,
      if_neg (fun e => hc1 e.symm)]
    decide
  have e2 : (updateSnapshotForPunish (updateSnapshotForPunish s m1 h c1) m2 (h + 1) c2
      ).Punished.lookup A = some 58 := by
    rw [lookup_updateSnapshotForPunish _ m2 (h + 1) c2 A (by rw [f1.2]; exact ht2), f1.1, hq,
      hm2, e1, if_neg (fun e => hc2 e.symm)]
    decide
  refine ⟨e1, e2, ?_⟩
  rw [lookup_updateSnapshotForPunish _ m3 (h + 2) c3 A (by rw [f2.2, f1.2]; exact ht3), f2.1,
    f1.1, hq, hm3, e2, if_neg (fun e => hc3 e.symm)]
  decide

/-- C12 (witness): signer 1 of `twoSignerSnapshot` is reported missing by the headers 7, 8 and 9. -/
theorem three_misses_one_slot_witness :
    (updateSnapshotForPunish twoSignerSnapshot [1, 3] 7 2).Punished.lookup 1 = some 29 ∧
    (updateSnapshotForPunish (updateSnapshotForPunish twoSignerSnapshot [1, 3] 7 2) [1] 8 2
      ).Punished.lookup 1 = some 58 ∧
    (updateSnapshotForPunish
      (updateSnapshotForPunish (updateSnapshotForPunish twoSignerSnapshot [1, 3] 7 2) [1] 8 2)
      [3, 1] 9 4).Punished.lookup 1 = some 87 :=
  three_misses_one_slot twoSignerSnapshot 1 [1, 3] [1] [3, 1] 2 2 4 7
    (by decide) (by decide) (by decide) (by decide) (by decide) (by decide) (by decide)
    (by decide) (by decide) (by decide) (by decide)

/-- C13 (counterexample to the claim as stated): signer 1 holds two slots of the queue of `doubleSlotSnapshot` and owes
40; a header sealed by signer 2 that reports nobody missing lowers that debt by two units,
to 38. At the first Trantor block (height 50 under `trantorConfig`) the debt of signer 1,
which holds one slot, is not lowered to 39 but removed, as is the debt of address 3, which
is not in the queue. -/
theorem auto_recovery_not_one_unit :
    doubleSlotSnapshot.Punished.lookup 1 = some 40 ∧
    (updateSnapshotForPunish doubleSlotSnapshot [] 7 2).Punished.lookup 1 = some 38 ∧
    trantorSnapshot.Punished.lookup 1 = some 40 ∧
    (updateSnapshotForPunish trantorSnapshot [] 50 2).Punished.lookup 1 = none ∧
    (updateSnapshotForPunish trantorSnapshot [] 50 2).Punished.lookup 3 = none := by
  refine ⟨by decide, by decide, by decide, by decide, by decide⟩

/-- C13 (as amended): at a header that is not the first Trantor block, for an address that
occupies exactly one slot of the signer queue and is not reported missing,
`updateSnapshotForPunish` leaves an absent debt absent; if the address is not the coinbase
it lowers the debt by one unit (deleting the entry when the debt was 1); if it is the
coinbase it lowers the debt by `signRewardCredit + autoRewardCredit = 11` (deleting the
entry when the debt was at most 11). At the first Trantor block the whole `Punished` map is
cleared instead, whatever the queue, the coinbase and the missing signers. -/
theorem auto_recovery_single_slot (s : Snapshot) (missing : List Address) (h : Nat)
    (c a : Address) :
    ((s.config.Trantor (h : Int) && !s.config.Trantor ((h : Int) - 1)) = false →
      s.Signers.count a = 1 → a ∉ missing →
      (updateSnapshotForPunish s missing h c).Punished.lookup a =
        match s.Punished.lookup a with
        | none => none
        | some p =>
          if a = c then (if 11 < p then some (p - 11) else none)
          else (if 1 < p then some (p - 1) else none)) ∧
    ((s.config.Trantor (h : Int) && !s.config.Trantor ((h : Int) - 1)) = true →
      (updateSnapshotForPunish s missing h c).Punished = ∅) := by
  constructor
  · intro ht hq hnm
    rw [lookup_updateSnapshotForPunish s missing h c a ht, hq,
      List.count_eq_zero_of_not_mem hnm]
    simp only [Function.iterate_zero, Function.iterate_succ, Function.comp, id]
    cases s.Punished.lookup a with
    | none => by_cases hc : a = c <;> simp [hc, sealDebt, recoverDebt]
    | some p =>
      unfold sealDebt recoverDebt signRewardCredit autoRewardCredit
      by_cases hc : a = c
      · simp only [hc, if_true]
        by_cases h1 : 10 < p
        · simp only [h1, if_true]
          by_cases h2 : 11 < p
          · have h3 : 1 < p - 10 := by omega
            have h4 : p - 10 - 1 = p - 11 := by omega
            simp only [h2, h3, h4, if_true]
          · have h3 : ¬ 1 < p - 10 := by omega
            simp only [h2, h3, if_false]
        · have h2 : ¬ 11 < p := by omega
          simp only [h1, h2, if_false]
      · simp only [hc, if_false]
  · intro ht
    unfold updateSnapshotForPunish
    simp only
    rw [(foldl_autoRecoverStep_frame h _ _).2]
    simp only [ht, if_true]

/-- C13 (witness): signer 1 of `trantorSnapshot` (one slot, debt 40) at header 7, sealed by
signer 2, long before the Trantor switch, owes 39 afterwards; at header 50, the first
Trantor block, the map of debts is empty afterwards. -/
theorem auto_recovery_single_slot_witness :
    (updateSnapshotForPunish trantorSnapshot [2] 7 2).Punished.lookup 1 = some 39 ∧
    (updateSnapshotForPunish trantorSnapshot [2] 50 2).Punished = ∅ :=
  ⟨((auto_recovery_single_slot trantorSnapshot [2] 7 2 1).1 (by decide) (by decide)
      (by decide)).trans (by decide),
    (auto_recovery_single_slot trantorSnapshot [2] 50 2 1).2 (by decide)⟩


/-! ## Governance ledger -/

theorem yesDeclareStake_foldl (tally : GoMap Address Int) (declares : List Declare) (z : Int) :
    declares.foldl
      (fun acc declare =>
        if declare.Decision then
          match tally.lookup declare.Declarer with
          | some t => acc + t
          | none => acc
        else acc) z = z + yesWeight tally declares := by
  induction declares generalizing z with
  | nil => simp [yesWeight]
  | cons d l ih =>
    rw [List.foldl_cons, ih]
    unfold yesWeight
    cases hd : d.Decision
    · simp [List.filter_cons, hd]
    · cases hl : tally.lookup d.Declarer with
      | none => simp [List.filter_cons, hd, hl]
      | some t => simp [List.filter_cons, hd, hl]; ring

theorem yesDeclareStake_eq_yesWeight (tally : GoMap Address Int) (declares : List Declare) :
    yesDeclareStake tally declares = yesWeight tally declares := by
  unfold yesDeclareStake
  rw [yesDeclareStake_foldl]
  ring

theorem judegmentStake_lt_iff (tally : GoMap Address Int) (y : Int) :
    judegmentStake tally < y ↔ 2 * tallyTotal tally < 3 * y := by
  unfold judegmentStake
  omega

/-- The loop of `calculateProposalResult` reaches the key `hashKey` in the state left by the
keys visited before it, runs its body there, and goes on with the keys after it. -/
theorem calculateProposalResultIn_split (candidateNeedPD : Bool) (before after : List Hash)
    (hashKey : Hash) (s : Snapshot) (headerNumber : Nat) :
    calculateProposalResultIn candidateNeedPD (before ++ hashKey :: after) s headerNumber =
      ((calculateProposalResultIn candidateNeedPD before s headerNumber).bind
        (fun reached => proposalResultStep candidateNeedPD headerNumber reached hashKey)).bind
        (fun resolved => after.foldlM (proposalResultStep candidateNeedPD headerNumber) resolved) := by
  unfold calculateProposalResultIn
  simp only [List.foldlM_append, List.foldlM_cons, Option.bind_eq_bind, Option.bind_assoc]

/-- The loop body of `calculateProposalResult` at a key whose proposal is due. -/
theorem proposalResultStep_of_due (candidateNeedPD : Bool) (headerNumber : Nat)
    (s : Snapshot) (hashKey : Hash) (cell : Nat)
    (hl : s.Proposals.lookup hashKey = some cell)
    (hd : proposalDue s (s.ProposalObjs cell) headerNumber = true) :
    proposalResultStep candidateNeedPD headerNumber s hashKey =
      (if 2 * tallyTotal s.Tally < 3 * yesWeight s.Tally (s.ProposalObjs cell).Declares then
        applyPassed candidateNeedPD headerNumber
          { s with
            ProposalRefund :=
              refundDeposit s.ProposalRefund (uint64 headerNumber) (s.ProposalObjs cell) }
          (s.ProposalObjs cell)
      else
        applyFailed headerNumber
          { s with
            ProposalRefund :=
              refundDeposit s.ProposalRefund (uint64 headerNumber) (s.ProposalObjs cell) }
          (s.ProposalObjs cell)).map
        (fun s2 => { s2 with Proposals := s2.Proposals.erase hashKey }) := by
  unfold proposalResultStep
  rw [hl]
  simp only [hd, if_true]
  by_cases hp : 2 * tallyTotal s.Tally < 3 * yesWeight s.Tally (s.ProposalObjs cell).Declares
  · rw [if_pos hp, if_pos]
    rw [yesDeclareStake_eq_yesWeight]
    exact (judegmentStake_lt_iff _ _).mpr hp
  · rw [if_neg hp, if_neg]
    rw [yesDeclareStake_eq_yesWeight]
    exact fun h => hp ((judegmentStake_lt_iff _ _).mp h)

/-- C16: when the loop body of `calculateProposalResult` resolves a proposal (the key holds
a proposal whose deadline test succeeds), the typed effect `applyPassed` is applied if
`3 * Y > 2 * T` and the failure branch `applyFailed` otherwise, where `Y` is the yes-weight
of the proposal's declares and `T` the sum of all tallies; this holds for all tallies, in
particular for non-negative ones. -/
theorem proposalResultStep_passes_iff (candidateNeedPD : Bool) (headerNumber : Nat)
    (s : Snapshot) (hashKey : Hash) (cell : Nat)
    (hl : s.Proposals.lookup hashKey = some cell)
    (hd : proposalDue s (s.ProposalObjs cell) headerNumber = true) :
    proposalResultStep candidateNeedPD headerNumber s hashKey =
      (if 2 * tallyTotal s.Tally < 3 * yesWeight s.Tally (s.ProposalObjs cell).Declares then
        applyPassed candidateNeedPD headerNumber
          { s with
            ProposalRefund :=
              refundDeposit s.ProposalRefund (uint64 headerNumber) (s.ProposalObjs cell) }
          (s.ProposalObjs cell)
      else
        applyFailed headerNumber
          { s with
            ProposalRefund :=
              refundDeposit s.ProposalRefund (uint64 headerNumber) (s.ProposalObjs cell) }
          (s.ProposalObjs cell)).map
        (fun s2 => { s2 with Proposals := s2.Proposals.erase hashKey }) :=
  proposalResultStep_of_due candidateNeedPD headerNumber s hashKey cell hl hd

/-- C16 (witness): `rentProposal`, approved by all three candidates, at its deadline header 15. -/
theorem proposalResultStep_passes_iff_witness :
    proposalResultStep false 15 passedRentSnapshot 201 =
      (if 2 * tallyTotal passedRentSnapshot.Tally
            < 3 * yesWeight passedRentSnapshot.Tally (passedRentSnapshot.ProposalObjs 0).Declares then
        applyPassed false 15
          { passedRentSnapshot with
            ProposalRefund :=
              refundDeposit passedRentSnapshot.ProposalRefund (uint64 15)
                (passedRentSnapshot.ProposalObjs 0) }
          (passedRentSnapshot.ProposalObjs 0)
      else
        applyFailed 15
          { passedRentSnapshot with
            ProposalRefund :=
              refundDeposit passedRentSnapshot.ProposalRefund (uint64 15)
                (passedRentSnapshot.ProposalObjs 0) }
          (passedRentSnapshot.ProposalObjs 0)).map
        (fun s2 => { s2 with Proposals := s2.Proposals.erase 201 }) :=
  proposalResultStep_passes_iff false 15 passedRentSnapshot 201 0 (by decide) (by decide)


theorem refundOf_insert (r : GoMap Nat (GoMap Address Int)) (n : Nat)
    (inner : GoMap Address Int) (n' : Nat) (a : Address) :
    refundOf (r.insert n inner) n' a
      = if n' = n then (inner.lookup a).getD 0 else refundOf r n' a := by
  unfold refundOf
  rw [lookup_insert_eq]
  split_ifs <;> rfl

theorem refundDeposit_eq (r : GoMap Nat (GoMap Address Int)) (n : Nat) (p : Proposal) :
    refundDeposit r n p
      = r.insert n (((r.lookup n).getD ∅).insert p.Proposer
          ((((r.lookup n).getD ∅).lookup p.Proposer).getD 0 + p.CurrentDeposit)) := by
  unfold refundDeposit
  cases h1 : r.lookup n with
  | none =>
    simp only [Option.getD_none, AList.lookup_empty, zero_add]
  | some inner =>
    cases h2 : inner.lookup p.Proposer with
    | none => simp only [Option.getD_some, h2, Option.getD_none, zero_add]
    | some v => simp only [Option.getD_some, h2]

theorem refundOf_eq_getD (r : GoMap Nat (GoMap Address Int)) (n : Nat) (a : Address) :
    refundOf r n a = (((r.lookup n).getD ∅).lookup a).getD 0 := by
  unfold refundOf
  cases r.lookup n with
  | none => simp only [Option.getD_none, AList.lookup_empty]
  | some inner => simp only [Option.getD_some]

theorem refundOf_refundDeposit (r : GoMap Nat (GoMap Address Int)) (n : Nat) (p : Proposal)
    (n' : Nat) (a : Address) :
    refundOf (refundDeposit r n p) n' a
      = refundOf r n' a + if n' = n ∧ a = p.Proposer then p.CurrentDeposit else 0 := by
  rw [refundDeposit_eq, refundOf_insert]
  by_cases hn : n' = n
  · subst hn
    rw [if_pos rfl, lookup_insert_eq, refundOf_eq_getD]
    by_cases ha : a = p.Proposer
    · subst ha
      simp only [if_true, Option.getD_some, and_self]
    · simp only [ha, if_false, and_false, add_zero]
  · simp only [hn, if_false, false_and, add_zero]

theorem refundOf_of_lookup (r : GoMap Nat (GoMap Address Int)) (n : Nat)
    (inner : GoMap Address Int) (a : Address) (h : r.lookup n = some inner) :
    refundOf r n a = (inner.lookup a).getD 0 := by
  unfold refundOf
  rw [h]

theorem refundRentFee_refundDeposit (r : GoMap Nat (GoMap Address Int)) (n : Nat)
    (p : Proposal) :
    ∃ r', refundRentFee (refundDeposit r n p) n p = some r' ∧
      ∀ n' a, refundOf r' n' a
        = refundOf r n' a
          + if n' = n ∧ a = p.Proposer then p.CurrentDeposit + (p.SCRentFee : Int) * 10 ^ 18
            else 0 := by
  have key : ∃ inner v, (refundDeposit r n p).lookup n = some inner ∧
      inner.lookup p.Proposer = some v := by
    refine ⟨((r.lookup n).getD ∅).insert p.Proposer
        ((((r.lookup n).getD ∅).lookup p.Proposer).getD 0 + p.CurrentDeposit),
      (((r.lookup n).getD ∅).lookup p.Proposer).getD 0 + p.CurrentDeposit, ?_, ?_⟩
    · rw [refundDeposit_eq, lookup_insert_eq, if_pos rfl]
    · rw [lookup_insert_eq, if_pos rfl]
  obtain ⟨inner, v, hi, hv⟩ := key
  refine ⟨(refundDeposit r n p).insert n
      (inner.insert p.Proposer (v + (p.SCRentFee : Int) * 10 ^ 18)), ?_, ?_⟩
  · unfold refundRentFee
    rw [hi]
    simp only [hv]
  intro n' a
  have base := refundOf_refundDeposit r n p n' a
  rw [refundOf_insert]
  by_cases hn : n' = n
  · subst hn
    rw [refundOf_of_lookup _ _ _ a hi] at base
    rw [if_pos rfl, lookup_insert_eq]
    by_cases ha : a = p.Proposer
    · subst ha
      rw [hv] at base
      simp only [Option.getD_some, and_self, if_true] at base
      simp only [if_true, Option.getD_some, and_self, base]
      ring
    · simp only [ha, and_false, if_false, add_zero] at base
      simp only [ha, if_false, and_false, add_zero, base]
  · simp only [hn, false_and, if_false, add_zero] at base
    simp only [hn, if_false, false_and, add_zero, base]

theorem proposalDue_of_deadline (s : Snapshot) (p : Proposal) (headerNumber : Nat)
    (hh : headerNumber = p.ReceivedNumber + p.ValidationLoopCnt * s.config.MaxSignerCount + 1)
    (hb : headerNumber < 2 ^ 64) : proposalDue s p headerNumber = true := by
  unfold proposalDue uint64
  apply decide_eq_true
  have h1 : p.ReceivedNumber % 2 ^ 64 = p.ReceivedNumber := Nat.mod_eq_of_lt (by omega)
  rw [h1, ← hh]

/-- C17 (as amended): if the proposal stored under `hashKey` was received at height R with
validation loop count L and deposit D, and its yes-weight is not above 2/3 of the tally,
then the loop body of `calculateProposalResult` at header R + L * MaxSignerCount + 1 returns,
adds D to `ProposalRefund[header][proposer]` - plus `SCRentFee * 10^18` when the proposal is
a rent-side-chain proposal - removes the key from `Proposals` and leaves Candidates,
MinerReward, MinVB, SCRecordMap and SCNoticeMap as they were. -/
theorem failed_proposal_refund (candidateNeedPD : Bool) (headerNumber : Nat) (s : Snapshot)
    (hashKey : Hash) (cell : Nat)
    (hl : s.Proposals.lookup hashKey = some cell)
    (hh : headerNumber = (s.ProposalObjs cell).ReceivedNumber
            + (s.ProposalObjs cell).ValidationLoopCnt * s.config.MaxSignerCount + 1)
    (hb : headerNumber < 2 ^ 64)
    (hfail : ¬ 2 * tallyTotal s.Tally < 3 * yesWeight s.Tally (s.ProposalObjs cell).Declares) :
    ∃ s', proposalResultStep candidateNeedPD headerNumber s hashKey = some s' ∧
      refundOf s'.ProposalRefund headerNumber (s.ProposalObjs cell).Proposer
        = refundOf s.ProposalRefund headerNumber (s.ProposalObjs cell).Proposer
          + (s.ProposalObjs cell).CurrentDeposit
          + (if (s.ProposalObjs cell).ProposalType = proposalTypeRentSideChain then
              ((s.ProposalObjs cell).SCRentFee : Int) * 10 ^ 18
             else 0) ∧
      s'.Proposals.lookup hashKey = none ∧ s'.Candidates = s.Candidates ∧
      s'.MinerReward = s.MinerReward ∧ s'.MinVB = s.MinVB ∧
      s'.SCRecordMap = s.SCRecordMap ∧ s'.SCNoticeMap = s.SCNoticeMap := by
  have hd := proposalDue_of_deadline s (s.ProposalObjs cell) headerNumber hh hb
  have hu : uint64 headerNumber = headerNumber := Nat.mod_eq_of_lt hb
  rw [proposalResultStep_of_due candidateNeedPD headerNumber s hashKey cell hl hd, if_neg hfail,
    hu]
  unfold applyFailed
  by_cases ht : (s.ProposalObjs cell).ProposalType = proposalTypeRentSideChain
  · simp only [ht, if_true, hu]
    obtain ⟨r', hr, hv⟩ := refundRentFee_refundDeposit s.ProposalRefund headerNumber
      (s.ProposalObjs cell)
    rw [hr]
    refine ⟨_, rfl, ?_, by simp [lookup_erase_eq], rfl, rfl, rfl, rfl, rfl⟩
    simp only [hv, and_self, if_true]
    ring
  · simp only [ht, if_false]
    refine ⟨_, rfl, ?_, by simp [lookup_erase_eq], rfl, rfl, rfl, rfl, rfl⟩
    simp only [Option.map_some, refundOf_refundDeposit, and_self, if_true, add_zero]

/-- C17 (witness): `rentProposal` without any declare, at its deadline header 15 = 10 + 4 * 1 + 1. -/
theorem failed_proposal_refund_witness :
    ∃ s', proposalResultStep false 15 failedRentSnapshot 201 = some s' ∧
      refundOf s'.ProposalRefund 15 (failedRentSnapshot.ProposalObjs 0).Proposer
        = refundOf failedRentSnapshot.ProposalRefund 15 (failedRentSnapshot.ProposalObjs 0).Proposer
          + (failedRentSnapshot.ProposalObjs 0).CurrentDeposit
          + (if (failedRentSnapshot.ProposalObjs 0).ProposalType = proposalTypeRentSideChain then
              ((failedRentSnapshot.ProposalObjs 0).SCRentFee : Int) * 10 ^ 18
             else 0) ∧
      s'.Proposals.lookup 201 = none ∧ s'.Candidates = failedRentSnapshot.Candidates ∧
      s'.MinerReward = failedRentSnapshot.MinerReward ∧ s'.MinVB = failedRentSnapshot.MinVB ∧
      s'.SCRecordMap = failedRentSnapshot.SCRecordMap ∧
      s'.SCNoticeMap = failedRentSnapshot.SCNoticeMap :=
  failed_proposal_refund false 15 failedRentSnapshot 201 0 (by decide) (by decide) (by decide)
    (by decide)

/-- C17 (counterexample to the claim as stated): `rentProposal` (deposit 100, rent fee 3) is open in
`failedRentSnapshot` and no candidate declared for it; at its deadline header 15
`calculateProposalResult` adds 100 + 3 * 10^18 to the refund of its proposer, not 100. -/
theorem failed_rent_proposal_refunds_fee :
    (failedRentSnapshot.ProposalObjs 0).CurrentDeposit = 100 ∧
    yesWeight failedRentSnapshot.Tally (failedRentSnapshot.ProposalObjs 0).Declares = 0 ∧
    refundOf failedRentSnapshot.ProposalRefund 15 1 = 0 ∧
    (calculateProposalResult false failedRentSnapshot 15).map
        (fun s => refundOf s.ProposalRefund 15 1) = some (100 + 3 * 10 ^ 18) := by
  refine ⟨by decide, by decide, by decide, by decide⟩


theorem applyPassed_rent (candidateNeedPD : Bool) (headerNumber : Nat) (s : Snapshot)
    (p : Proposal) (hrent : p.ProposalType = proposalTypeRentSideChain) :
    applyPassed candidateNeedPD headerNumber s p =
      match s.SCRecordMap.lookup p.SCHash with
      | none =>
        (refundRentFee s.ProposalRefund (uint64 headerNumber) p).map
          (fun refund => { s with ProposalRefund := refund })
      | some record => rentSideChain s headerNumber p record := by
  unfold applyPassed
  rw [hrent, if_neg (by decide), if_neg (by decide), if_neg (by decide), if_neg (by decide),
    if_neg (by decide), if_neg (by decide), if_neg (by decide), if_pos rfl]

/-- C18 (counterexample to the claim as stated): `rentProposal` (deposit 100, rent fee 3) is open in
`passedRentSnapshot`, all three candidates declared yes (weight 30 of a total tally 30), and
side chain 9 is not recorded; at its deadline header 15 the proposal passes and
`calculateProposalResult` still adds the rent fee to the refund: 100 + 3 * 10^18. -/
theorem passed_rent_proposal_refunds_fee :
    2 * tallyTotal passedRentSnapshot.Tally
      < 3 * yesWeight passedRentSnapshot.Tally (passedRentSnapshot.ProposalObjs 0).Declares ∧
    passedRentSnapshot.SCRecordMap.lookup 9 = none ∧
    refundOf passedRentSnapshot.ProposalRefund 15 1 = 0 ∧
    (calculateProposalResult false passedRentSnapshot 15).map
        (fun s => refundOf s.ProposalRefund 15 1) = some (100 + 3 * 10 ^ 18) := by
  refine ⟨by decide, by decide, by decide, by decide⟩

/-- C18 (as amended): when the loop body of `calculateProposalResult` resolves a
rent-side-chain proposal with a non-zero rent length, it returns and adds to the refund of
the proposer the deposit, plus the rent fee `SCRentFee * 10^18` unless the proposal passed
and its side chain is recorded: the fee is refunded if and only if the proposal failed or
its side chain no longer exists. -/
theorem rent_fee_refund (candidateNeedPD : Bool) (headerNumber : Nat) (s : Snapshot)
    (hashKey : Hash) (cell : Nat)
    (hl : s.Proposals.lookup hashKey = some cell)
    (hd : proposalDue s (s.ProposalObjs cell) headerNumber = true)
    (hrent : (s.ProposalObjs cell).ProposalType = proposalTypeRentSideChain)
    (hlen : (s.ProposalObjs cell).SCRentLength ≠ 0) :
    ∃ s', proposalResultStep candidateNeedPD headerNumber s hashKey = some s' ∧
      refundOf s'.ProposalRefund (uint64 headerNumber) (s.ProposalObjs cell).Proposer
        = refundOf s.ProposalRefund (uint64 headerNumber) (s.ProposalObjs cell).Proposer
          + (s.ProposalObjs cell).CurrentDeposit
          + (if 2 * tallyTotal s.Tally < 3 * yesWeight s.Tally (s.ProposalObjs cell).Declares
                ∧ (s.SCRecordMap.lookup (s.ProposalObjs cell).SCHash).isSome = true then 0
             else ((s.ProposalObjs cell).SCRentFee : Int) * 10 ^ 18) := by
  rw [proposalResultStep_of_due candidateNeedPD headerNumber s hashKey cell hl hd]
  obtain ⟨r', hr, hv⟩ := refundRentFee_refundDeposit s.ProposalRefund (uint64 headerNumber)
    (s.ProposalObjs cell)
  by_cases hp : 2 * tallyTotal s.Tally < 3 * yesWeight s.Tally (s.ProposalObjs cell).Declares
  · rw [if_pos hp, applyPassed_rent _ _ _ _ hrent]
    cases hsc : s.SCRecordMap.lookup (s.ProposalObjs cell).SCHash with
    | none =>
      simp only [hr, Option.map_some]
      refine ⟨_, rfl, ?_⟩
      simp only [hv, and_self, if_true, Option.isSome_none, Bool.false_eq_true, and_false,
        if_false]
      ring
    | some record =>
      simp only [rentSideChain, if_neg hlen, Option.map_some]
      refine ⟨_, rfl, ?_⟩
      simp only [refundOf_refundDeposit, and_self, if_true, hp, Option.isSome_some, add_zero]
  · rw [if_neg hp]
    unfold applyFailed
    simp only [hrent, if_true, hr, Option.map_some]
    refine ⟨_, rfl, ?_⟩
    simp only [hv, and_self, if_true, hp, false_and, if_false]
    ring

/-- C18 (witness): `rentProposal`, approved by all three candidates, at its deadline header 15. -/
theorem rent_fee_refund_witness :
    ∃ s', proposalResultStep false 15 passedRentSnapshot 201 = some s' ∧
      refundOf s'.ProposalRefund (uint64 15) (passedRentSnapshot.ProposalObjs 0).Proposer
        = refundOf passedRentSnapshot.ProposalRefund (uint64 15)
            (passedRentSnapshot.ProposalObjs 0).Proposer
          + (passedRentSnapshot.ProposalObjs 0).CurrentDeposit
          + (if 2 * tallyTotal passedRentSnapshot.Tally
                  < 3 * yesWeight passedRentSnapshot.Tally
                      (passedRentSnapshot.ProposalObjs 0).Declares
                ∧ (passedRentSnapshot.SCRecordMap.lookup
                    (passedRentSnapshot.ProposalObjs 0).SCHash).isSome = true then 0
             else ((passedRentSnapshot.ProposalObjs 0).SCRentFee : Int) * 10 ^ 18) :=
  rent_fee_refund false 15 passedRentSnapshot 201 0 (by decide) (by decide) (by decide)
    (by decide)


theorem declareStep_frame (h : Nat) (s : Snapshot) (d : Declare) :
    (declareStep h s d).Proposals = s.Proposals ∧
    (declareStep h s d).Candidates = s.Candidates ∧
    (declareStep h s d).config = s.config := by
  unfold declareStep
  cases s.Proposals.lookup d.ProposalHash with
  | none => exact ⟨rfl, rfl, rfl⟩
  | some cell =>
    simp only
    split_ifs <;> exact ⟨rfl, rfl, rfl⟩

/-- What one step of `updateSnapshotByDeclares` does to the object at `cell`: it appends
nothing, or the declare itself under the four conditions of the loop body. -/
theorem declareStep_object (h : Nat) (s : Snapshot) (d : Declare) (cell : Nat) :
    ∃ added : List Declare,
      (declareStep h s d).ProposalObjs cell
        = { s.ProposalObjs cell with Declares := (s.ProposalObjs cell).Declares ++ added } ∧
      (∀ a ∈ added, a = d ∧ s.Proposals.lookup a.ProposalHash = some cell ∧
        declareTooLate s (s.ProposalObjs cell) h = false ∧ s.isCandidate a.Declarer = true ∧
        a.Declarer ∉ (s.ProposalObjs cell).Declares.map (fun v => v.Declarer)) ∧
      (added.map (fun v => v.Declarer)).Nodup := by
  have none_case : ∀ s' : Snapshot, s'.ProposalObjs = s.ProposalObjs →
      ∃ added : List Declare,
        s'.ProposalObjs cell
          = { s.ProposalObjs cell with Declares := (s.ProposalObjs cell).Declares ++ added } ∧
        (∀ a ∈ added, a = d ∧ s.Proposals.lookup a.ProposalHash = some cell ∧
          declareTooLate s (s.ProposalObjs cell) h = false ∧ s.isCandidate a.Declarer = true ∧
          a.Declarer ∉ (s.ProposalObjs cell).Declares.map (fun v => v.Declarer)) ∧
        (added.map (fun v => v.Declarer)).Nodup := by
    intro s' hs'
    refine ⟨[], ?_, ?_, List.nodup_nil⟩
    · rw [hs', List.append_nil]
    · intro a ha; cases ha
  unfold declareStep
  cases hl : s.Proposals.lookup d.ProposalHash with
  | none => exact none_case s rfl
  | some c =>
    simp only
    by_cases h1 : (declareTooLate s (s.ProposalObjs c) h || !s.isCandidate d.Declarer) = true
    · rw [if_pos h1]; exact none_case s rfl
    · rw [if_neg h1]
      by_cases h2 : alreadyDeclare (s.ProposalObjs c) d.Declarer = true
      · rw [if_pos h2]; exact none_case s rfl
      · rw [if_neg h2]
        by_cases hc : cell = c
        · subst hc
          refine ⟨[d], ?_, ?_, by simp⟩
          · simp only [Function.update_same]
          · intro a ha
            rw [List.mem_singleton] at ha
            subst ha
            simp only [Bool.or_eq_true, Bool.not_eq_true', not_or, Bool.not_eq_true,
              Bool.not_eq_false] at h1
            refine ⟨rfl, hl, h1.1, h1.2, ?_⟩
            intro hmem
            apply h2
            unfold alreadyDeclare
            rw [List.any_eq_true]
            obtain ⟨v, hv, hvd⟩ := List.mem_map.mp hmem
            exact ⟨v, hv, by simpa using hvd⟩
        · refine ⟨[], ?_, ?_, List.nodup_nil⟩
          · simp only [Function.update_noteq hc, List.append_nil]
          · intro a ha; cases ha

/-- The objects after `updateSnapshotByDeclares`: each object gains a list of declares, every
one of them taken from the header under the four conditions of the loop body, no two of
them by the same declarer. -/
theorem updateSnapshotByDeclares_object (h : Nat) (declares : List Declare) (s : Snapshot)
    (cell : Nat) :
    ((updateSnapshotByDeclares s declares h).Proposals = s.Proposals ∧
     (updateSnapshotByDeclares s declares h).Candidates = s.Candidates ∧
     (updateSnapshotByDeclares s declares h).config = s.config) ∧
    ∃ added : List Declare,
      (updateSnapshotByDeclares s declares h).ProposalObjs cell
        = { s.ProposalObjs cell with Declares := (s.ProposalObjs cell).Declares ++ added } ∧
      (∀ a ∈ added, a ∈ declares ∧ s.Proposals.lookup a.ProposalHash = some cell ∧
        declareTooLate s (s.ProposalObjs cell) h = false ∧ s.isCandidate a.Declarer = true ∧
        a.Declarer ∉ (s.ProposalObjs cell).Declares.map (fun v => v.Declarer)) ∧
      (added.map (fun v => v.Declarer)).Nodup := by
  unfold updateSnapshotByDeclares
  induction declares generalizing s with
  | nil =>
    refine ⟨⟨rfl, rfl, rfl⟩, [], ?_, ?_, List.nodup_nil⟩
    · simp only [List.foldl_nil, List.append_nil]
    · intro a ha; cases ha
  | cons d ds ih =>
    rw [List.foldl_cons]
    obtain ⟨⟨f1, f2, f3⟩, added2, e2, c2, n2⟩ := ih (declareStep h s d)
    obtain ⟨g1, g2, g3⟩ := declareStep_frame h s d
    obtain ⟨added1, e1, c1, n1⟩ := declareStep_object h s d cell
    refine ⟨⟨f1.trans g1, f2.trans g2, f3.trans g3⟩, added1 ++ added2, ?_, ?_, ?_⟩
    · rw [e2, e1]
      simp only [List.append_assoc]
    · intro a ha
      rcases List.mem_append.mp ha with ha | ha
      · obtain ⟨q1, q2, q3, q4, q5⟩ := c1 a ha
        exact ⟨by rw [q1]; exact List.mem_cons_self _ _, q2, q3, q4, q5⟩
      · obtain ⟨q1, q2, q3, q4, q5⟩ := c2 a ha
        refine ⟨List.mem_cons_of_mem _ q1, by rw [← g1]; exact q2, ?_, ?_, ?_⟩
        · rw [← q3]
          unfold declareTooLate
          rw [g3, e1]
        · rw [← q4]
          unfold Snapshot.isCandidate
          rw [g2]
        · intro hmem
          apply q5
          rw [e1]
          simp only [List.map_append, List.mem_append]
          exact Or.inl hmem
    · rw [List.map_append, List.nodup_append]
      refine ⟨n1, n2, ?_⟩
      intro x hx1 hx2
      obtain ⟨a, ha, hax⟩ := List.mem_map.mp hx2
      apply (c2 a ha).2.2.2.2
      rw [e1]
      simp only [List.map_append, List.mem_append]
      exact Or.inr (by rw [hax]; exact hx1)

/-- C19: `updateSnapshotByDeclares` changes an object of `Proposals` only by appending
declares to it; every declare it appends is one of the header's declares, names the hash
of a key that points to the object, arrives at a height that the deadline test accepts
(at most ReceivedNumber + ValidationLoopCnt * MaxSignerCount), comes from a candidate, and
its declarer has no declare recorded before; no two appended declares share a declarer.
Hence pairwise distinct declarers stay pairwise distinct, and the first declare recorded
for a declarer stays the first one. -/
theorem updateSnapshotByDeclares_spec (s : Snapshot) (declares : List Declare) (h : Nat)
    (cell : Nat) :
    (∃ added : List Declare,
      (updateSnapshotByDeclares s declares h).ProposalObjs cell
        = { s.ProposalObjs cell with Declares := (s.ProposalObjs cell).Declares ++ added } ∧
      (∀ a ∈ added, a ∈ declares ∧ s.Proposals.lookup a.ProposalHash = some cell ∧
        declareTooLate s (s.ProposalObjs cell) h = false ∧ s.isCandidate a.Declarer = true ∧
        a.Declarer ∉ (s.ProposalObjs cell).Declares.map (fun v => v.Declarer)) ∧
      (added.map (fun v => v.Declarer)).Nodup) ∧
    (((s.ProposalObjs cell).Declares.map (fun v => v.Declarer)).Nodup →
      (((updateSnapshotByDeclares s declares h).ProposalObjs cell).Declares.map
        (fun v => v.Declarer)).Nodup) ∧
    (∀ a d, (s.ProposalObjs cell).Declares.find? (fun v => decide (v.Declarer = a)) = some d →
      ((updateSnapshotByDeclares s declares h).ProposalObjs cell).Declares.find?
        (fun v => decide (v.Declarer = a)) = some d) := by
  obtain ⟨_, added, e, c, n⟩ := updateSnapshotByDeclares_object h declares s cell
  refine ⟨⟨added, e, c, n⟩, ?_, ?_⟩
  · intro hn
    rw [e]
    simp only [List.map_append]
    rw [List.nodup_append]
    refine ⟨hn, n, ?_⟩
    intro x hx1 hx2
    obtain ⟨a, ha, hax⟩ := List.mem_map.mp hx2
    exact (c a ha).2.2.2.2 (by rw [hax]; exact hx1)
  · intro a d hf
    rw [e]
    simp only [List.find?_append, hf]
    rfl


/-- C19 (witness): at header 12 candidates 1 and 2 declare on `rentProposal`, candidate 1 twice,
and address 7, which is no candidate, once; the declares recorded are the first one of
candidate 1 and the one of candidate 2. -/
theorem updateSnapshotByDeclares_spec_witness :
    ((failedRentSnapshot.ProposalObjs 0).Declares.map (fun v => v.Declarer)).Nodup ∧
    (((updateSnapshotByDeclares failedRentSnapshot
        [⟨201, 1, true⟩, ⟨201, 1, false⟩, ⟨201, 2, false⟩, ⟨201, 7, true⟩] 12).ProposalObjs 0
      ).Declares.map (fun v => v.Declarer)).Nodup ∧
    ((updateSnapshotByDeclares failedRentSnapshot
        [⟨201, 1, true⟩, ⟨201, 1, false⟩, ⟨201, 2, false⟩, ⟨201, 7, true⟩] 12).ProposalObjs 0
      ).Declares = [⟨201, 1, true⟩, ⟨201, 2, false⟩] :=
  ⟨by decide,
   (updateSnapshotByDeclares_spec failedRentSnapshot
      [⟨201, 1, true⟩, ⟨201, 1, false⟩, ⟨201, 2, false⟩, ⟨201, 7, true⟩] 12 0).2.1 (by decide),
   by decide⟩

/-- C15 (failing input): header 10 carries `proposalA` (hash 101, validation loop count 4) and `proposalB`
(hash 102, validation loop count 5) and MaxSignerCount is 1. After header 10 both keys
point to one object, which holds `proposalB`; key 101 is still present after header
15 = 10 + 4 * 1 + 1 and disappears at header 16, where the proposer of `proposalB` is
refunded twice and the proposer of `proposalA` not at all; copying the snapshot after
header 10 gives key 101 an object of its own that still holds `proposalB`. Submitted
alone, `proposalA` is present after header 14 and absent after header 15. -/
theorem proposal_removed_at_wrong_height :
    (governanceTrace [proposalA, proposalB] 0).map
        (fun s => (s.Proposals.lookup 101, s.Proposals.lookup 102)) = some (some 0, some 0) ∧
    (governanceTrace [proposalA, proposalB] 0).map
        (fun s => ((s.ProposalObjs 0).Hash, (s.ProposalObjs 0).ValidationLoopCnt))
      = some (102, 5) ∧
    (governanceTrace [proposalA, proposalB] 5).map
        (fun s => (s.Proposals.lookup 101).isSome) = some true ∧
    (governanceTrace [proposalA, proposalB] 6).map
        (fun s => (s.Proposals.lookup 101).isSome) = some false ∧
    (governanceTrace [proposalA, proposalB] 6).map
        (fun s => (refundOf s.ProposalRefund 16 1, refundOf s.ProposalRefund 16 2))
      = some (0, 200) ∧
    (governanceTrace [proposalA, proposalB] 0).map
        (fun s => ((copyProposals s).Proposals.lookup 101).map
          (fun cell => ((copyProposals s).ProposalObjs cell).Hash)) = some (some 102) ∧
    (governanceTrace [proposalA] 4).map
        (fun s => (s.Proposals.lookup 101).isSome) = some true ∧
    (governanceTrace [proposalA] 5).map
        (fun s => (s.Proposals.lookup 101).isSome) = some false := by
  refine ⟨by decide, by decide, by decide, by decide, by decide, by decide, by decide,
    by decide⟩


/-! ## Pledge ledger -/

theorem sum_kerase_amount (k : Hash) (l : List (Sigma (fun _ : Hash => PledgeDetail))) :
    ((List.kerase k l).map (fun e => e.2.Amount)).sum
      = (l.map (fun e => e.2.Amount)).sum
        - ((List.dlookup k l).map (fun d => d.Amount)).getD 0 := by
  induction l with
  | nil => simp
  | cons e l ih =>
    obtain ⟨a, b⟩ := e
    by_cases h : k = a
    · subst h
      have h1 : List.kerase k ((⟨k, b⟩ : Sigma (fun _ : Hash => PledgeDetail)) :: l) = l :=
        List.kerase_cons_eq rfl
      rw [h1, List.dlookup_cons_eq]
      simp
    · rw [List.kerase_cons_ne h, List.dlookup_cons_ne _ _ h]
      simp only [List.map_cons, List.sum_cons, ih]
      ring

theorem detailSum_erase (d : GoMap Hash PledgeDetail) (k : Hash) :
    detailSum (d.erase k) = detailSum d - ((d.lookup k).map (fun x => x.Amount)).getD 0 := by
  unfold detailSum
  exact sum_kerase_amount k d.entries

theorem detailSum_insert (d : GoMap Hash PledgeDetail) (k : Hash) (v : PledgeDetail) :
    detailSum (d.insert k v)
      = detailSum d - ((d.lookup k).map (fun x => x.Amount)).getD 0 + v.Amount := by
  unfold detailSum
  rw [AList.insert_entries]
  simp only [List.map_cons, List.sum_cons]
  rw [sum_kerase_amount]
  simp only [AList.lookup]
  ring

theorem detailSum_foldl_erase (p : Hash → PledgeDetail → Bool)
    (l : List (Sigma (fun _ : Hash => PledgeDetail))) (acc : GoMap Hash PledgeDetail)
    (hn : l.NodupKeys) (hl : ∀ e ∈ l, acc.lookup e.1 = some e.2) :
    detailSum (l.foldl (fun acc e => if p e.1 e.2 then acc.erase e.1 else acc) acc)
      = detailSum acc - ((l.filter (fun e => p e.1 e.2)).map (fun e => e.2.Amount)).sum := by
  induction l generalizing acc with
  | nil => simp
  | cons e l ih =>
    rw [List.nodupKeys_cons] at hn
    rw [List.foldl_cons]
    by_cases hp : p e.1 e.2 = true
    · rw [if_pos hp, ih _ hn.2, detailSum_erase, hl e (List.mem_cons_self _ _)]
      · simp only [List.filter_cons, hp, if_true, List.map_cons, List.sum_cons, Option.map_some',
          Option.getD_some]
        ring
      · intro e' he'
        rw [lookup_erase_eq, if_neg]
        · exact hl e' (List.mem_cons_of_mem _ he')
        · intro heq
          apply hn.1
          rw [← heq]
          exact List.mem_keys_of_mem he'
    · rw [if_neg hp, ih _ hn.2]
      · simp only [List.filter_cons, hp, if_false, Bool.false_eq_true]
      · intro e' he'
        exact hl e' (List.mem_cons_of_mem _ he')

theorem detailSum_deleteWhere (address : Address) (d : GoMap Hash PledgeDetail) :
    detailSum (deleteWhere (fun _ detail => decide (address = detail.Address)) d)
      = detailSum d - ownedSum d address := by
  unfold deleteWhere ownedSum
  apply detailSum_foldl_erase (fun _ detail => decide (address = detail.Address)) d.entries d
    d.nodupKeys
  intro e he
  have : e.2 ∈ d.lookup e.1 := AList.mem_lookup_iff.mpr he
  exact this

theorem pledgeConserved_insert (m : GoMap Address PosPledgeItem) (k : Address)
    (item : PosPledgeItem) (hm : PledgeConserved m)
    (hi : item.TotalAmount = detailSum item.Detail) : PledgeConserved (m.insert k item) := by
  intro a x hx
  rw [lookup_insert_eq] at hx
  split_ifs at hx with h
  · cases hx; exact hi
  · exact hm a x hx

theorem pledgeConserved_erase (m : GoMap Address PosPledgeItem) (k : Address)
    (hm : PledgeConserved m) : PledgeConserved (m.erase k) := by
  intro a x hx
  rw [lookup_erase_eq] at hx
  split_ifs at hx with h
  exact hm a x hx

theorem foldl_preserves_of_fits {σ ρ : Type} (step : σ → ρ → σ) (fits : σ → ρ → Prop)
    (P : σ → Prop) (hstep : ∀ s r, P s → fits s r → P (step s r)) (rs : List ρ) (s : σ)
    (hs : P s) (hf : FitsAll step fits s rs) : P (rs.foldl step s) := by
  induction rs generalizing s with
  | nil => exact hs
  | cons r rs ih => exact ih _ (hstep s r hs hf.1) hf.2

theorem pledgeNewStep_conserved (number : Nat) (m : GoMap Address PosPledgeItem)
    (item : CandidatePledgeNewRecord) (hm : PledgeConserved m) :
    PledgeConserved (pledgeNewStep number m item) := by
  unfold pledgeNewStep
  cases m.lookup item.Target with
  | some _ => exact hm
  | none =>
    apply pledgeConserved_insert _ _ _ hm
    rw [detailSum_insert]
    simp [detailSum]

theorem foldl_pledgeNewStep_conserved (number : Nat) (rs : List CandidatePledgeNewRecord)
    (m : GoMap Address PosPledgeItem) (hm : PledgeConserved m) :
    PledgeConserved (rs.foldl (pledgeNewStep number) m) := by
  induction rs generalizing m with
  | nil => exact hm
  | cons r rs ih => exact ih _ (pledgeNewStep_conserved number m r hm)

theorem pledgeEntrustStep_conserved (number : Nat) (m : GoMap Address PosPledgeItem)
    (item : CandidatePledgeEntrustRecord) (hm : PledgeConserved m) (hf : EntrustFits m item) :
    PledgeConserved (pledgeEntrustStep number m item) := by
  unfold pledgeEntrustStep
  cases hl : m.lookup item.Target with
  | none => exact hm
  | some pledge =>
    apply pledgeConserved_insert _ _ _ hm
    simp only
    rw [detailSum_insert, hf pledge hl, hm _ _ hl]
    simp

theorem pledgeExitStep_conserved (snap : Snapshot) (item : CandidatePEntrustExitRecord)
    (hm : snap.PledgeConserved) (hf : ExitFits snap item) :
    (pledgeExitStep snap item).PledgeConserved := by
  unfold pledgeExitStep
  cases hp : snap.PosPledge with
  | none => exact hm
  | some m =>
    simp only
    cases hl : m.lookup item.Target with
    | none => exact hm
    | some pledge =>
      simp only
      have hc : PledgeConserved (m.insert item.Target
          (match pledge.Detail.lookup item.Hash with
            | some _ =>
              { pledge with
                TotalAmount := pledge.TotalAmount - item.Amount
                Detail := pledge.Detail.erase item.Hash }
            | none => pledge)) := by
        apply pledgeConserved_insert _ _ _ (hm m hp)
        cases hd : pledge.Detail.lookup item.Hash with
        | none => exact hm m hp _ _ hl
        | some detail =>
          simp only
          rw [detailSum_erase, hd, hm m hp _ _ hl, ← hf m pledge detail hp hl hd]
          simp
      split_ifs
      · intro m' hm'
        unfold removePosPledge at hm'
        simp only [Option.map_some', Option.some.injEq] at hm'
        rw [← hm']
        exact pledgeConserved_erase _ _ hc
      · intro m' hm'
        simp only [Option.some.injEq] at hm'
        rw [← hm']
        exact hc

theorem posTransferIn_conserved (number : Nat) (m : GoMap Address PosPledgeItem)
    (record : POSTransferRecord) (hm : PledgeConserved m)
    (hf : record.TargetType = TargetType.pos → ∀ posItem,
      m.lookup record.Target = some posItem → posItem.Detail.lookup record.PledgeHash = none) :
    PledgeConserved (posTransferIn number m record) := by
  unfold posTransferIn
  split_ifs with ht
  · cases hl : m.lookup record.Target with
    | none => exact hm
    | some posItem =>
      apply pledgeConserved_insert _ _ _ hm
      simp only
      rw [detailSum_insert, hf ht posItem hl, hm _ _ hl]
      simp
  · exact hm

theorem posTransferOut_conserved (m : GoMap Address PosPledgeItem) (record : POSTransferRecord)
    (hm : PledgeConserved m)
    (hf : ∀ se, m.lookup record.Original = some se →
      record.LockAmount + record.PledgeAmount = ownedSum se.Detail record.Address) :
    PledgeConserved (posTransferOut m record) := by
  unfold posTransferOut
  cases hl : m.lookup record.Original with
  | none => exact hm
  | some se =>
    apply pledgeConserved_insert _ _ _ hm
    simp only
    rw [detailSum_deleteWhere, hf se hl, hm _ _ hl]

theorem posTransferStep_conserved (number : Nat) (m : GoMap Address PosPledgeItem)
    (record : POSTransferRecord) (hm : PledgeConserved m) (hf : TransferFits number m record) :
    PledgeConserved (posTransferStep number m record) :=
  posTransferOut_conserved _ record (posTransferIn_conserved number m record hm hf.1) hf.2


theorem pledgeConserved_iff (s : Snapshot) : s.PledgeConserved ↔ pledgeConservedB s = true := by
  unfold Snapshot.PledgeConserved pledgeConservedB PledgeConserved
  cases hp : s.PosPledge with
  | none => simp
  | some m =>
    simp only [Option.some.injEq, forall_eq', List.all_eq_true, decide_eq_true_eq]
    constructor
    · intro h e he
      apply h e.1 e.2
      have : e.2 ∈ m.lookup e.1 := AList.mem_lookup_iff.mpr he
      exact this
    · intro h a item ha
      have : (⟨a, item⟩ : Sigma (fun _ : Address => PosPledgeItem)) ∈ m.entries :=
        AList.mem_lookup_iff.mp ha
      exact h _ this

/-- C14 (counterexample to the claim as stated): in `pledgeSnapshot` candidate 5 holds a total of 100 and one detail of
100 under hash 1. An entrust record that reuses hash 1, an exit record for hash 1 with
amount 30, and a transfer record of a sender without details each leave candidate 5 with
`TotalAmount ≠ Σ Detail[*].Amount`. -/
theorem pledge_conservation_broken :
    pledgeSnapshot.PledgeConserved ∧
    ¬ (updateCandidatePledgeEntrust pledgeSnapshot [⟨5, 50, 6, 1⟩] 7).PledgeConserved ∧
    ¬ (updateCandidatePEntrustExit pledgeSnapshot [⟨5, 1, 5, 30⟩] 7).PledgeConserved ∧
    ¬ (updatePOSTransfer pledgeSnapshot [⟨6, 9, 5, TargetType.pos, 8, 0, 10, 0⟩] 7
        ).PledgeConserved := by
  refine ⟨(pledgeConserved_iff _).mpr (by decide), ?_, ?_, ?_⟩
  · exact fun h => absurd ((pledgeConserved_iff _).mp h) (by decide)
  · exact fun h => absurd ((pledgeConserved_iff _).mp h) (by decide)
  · exact fun h => absurd ((pledgeConserved_iff _).mp h) (by decide)

/-- C14 (as amended): in a snapshot in which every PosPledgeItem satisfies
`TotalAmount = Σ Detail[*].Amount`, the same holds after `updateCandidatePledgeNew` for any
record list (the call returns when the pledge map exists or the list is empty); after
`updateCandidatePledgeEntrust` when the hash of every record is new to the details of its
target; after `updateCandidatePEntrustExit` when the amount of every record is the amount
of the detail it removes; and after `updatePOSTransfer` when the pledge hash of every
record is new to the candidate it arrives at and `LockAmount + PledgeAmount` is the sum of
the sender's details deleted from the original candidate. Each condition is taken in the
state in which the loop reaches the record. -/
theorem pledge_conservation (s : Snapshot) (number : Nat)
    (newRecords : List CandidatePledgeNewRecord)
    (entrustRecords : List CandidatePledgeEntrustRecord)
    (exitRecords : List CandidatePEntrustExitRecord)
    (transferRecords : List POSTransferRecord)
    (hc : s.PledgeConserved) :
    (s.PosPledge ≠ none ∨ newRecords = [] →
      ∃ s', updateCandidatePledgeNew s newRecords number = some s' ∧ s'.PledgeConserved) ∧
    ((∀ m, s.PosPledge = some m →
        FitsAll (pledgeEntrustStep number) EntrustFits m entrustRecords) →
      (updateCandidatePledgeEntrust s entrustRecords number).PledgeConserved) ∧
    (FitsAll pledgeExitStep ExitFits s exitRecords →
      (updateCandidatePEntrustExit s exitRecords number).PledgeConserved) ∧
    ((∀ m, s.PosPledge = some m →
        FitsAll (posTransferStep number) (TransferFits number) m transferRecords) →
      (updatePOSTransfer s transferRecords number).PledgeConserved) := by
  refine ⟨?_, ?_, ?_, ?_⟩
  · intro h
    unfold updateCandidatePledgeNew
    cases newRecords with
    | nil => exact ⟨s, rfl, hc⟩
    | cons r rs =>
      cases hp : s.PosPledge with
      | none =>
        rcases h with h | h
        · exact absurd hp h
        · cases h
      | some m =>
        refine ⟨_, rfl, ?_⟩
        intro m' hm'
        simp only [Option.some.injEq] at hm'
        rw [← hm']
        exact foldl_pledgeNewStep_conserved number _ m (hc m hp)
  · intro hf m' hm'
    unfold updateCandidatePledgeEntrust at hm'
    cases hp : s.PosPledge with
    | none => rw [hp] at hm'; cases hm'
    | some m =>
      rw [hp] at hm'
      simp only [Option.map_some', Option.some.injEq] at hm'
      rw [← hm']
      exact foldl_preserves_of_fits _ _ PledgeConserved
        (fun m r => pledgeEntrustStep_conserved number m r) _ m (hc m hp) (hf m hp)
  · intro hf
    unfold updateCandidatePEntrustExit
    exact foldl_preserves_of_fits _ _ Snapshot.PledgeConserved
      (fun s r => pledgeExitStep_conserved s r) _ s hc hf
  · intro hf m' hm'
    unfold updatePOSTransfer at hm'
    cases hp : s.PosPledge with
    | none => rw [hp] at hm'; cases hm'
    | some m =>
      rw [hp] at hm'
      simp only [Option.map_some', Option.some.injEq] at hm'
      rw [← hm']
      exact foldl_preserves_of_fits _ _ PledgeConserved
        (fun m r => posTransferStep_conserved number m r) _ m (hc m hp) (hf m hp)

theorem pledgeSnapshot_entrust_fits :
    ∀ m, pledgeSnapshot.PosPledge = some m →
      FitsAll (pledgeEntrustStep 7) EntrustFits m [⟨5, 50, 6, 3⟩] := by
  intro m hm
  cases hm
  refine ⟨?_, trivial⟩
  intro pledge hl
  have e : pledge = samplePledgeItem := (Option.some.inj hl).symm
  rw [e]
  decide

theorem pledgeSnapshot_exit_fits :
    FitsAll pledgeExitStep ExitFits pledgeSnapshot [⟨5, 1, 5, 100⟩] := by
  refine ⟨?_, trivial⟩
  intro m pledge detail hm hl hd
  cases hm
  have e : pledge = samplePledgeItem := (Option.some.inj hl).symm
  rw [e] at hd
  have e2 : detail = { Address := 5, Height := 0, Amount := 100 } := (Option.some.inj hd).symm
  rw [e2]

theorem pledgeSnapshot_transfer_fits :
    ∀ m, pledgeSnapshot.PosPledge = some m →
      FitsAll (posTransferStep 7) (TransferFits 7) m
        [⟨5, 9, 5, TargetType.pos, 8, 0, 100, 0⟩] := by
  intro m hm
  cases hm
  refine ⟨⟨?_, ?_⟩, trivial⟩
  · intro _ posItem hl
    cases hl
  · intro se hl
    have e : se = samplePledgeItem := (Option.some.inj hl).symm
    rw [e]
    decide

/-- C14 (witness): on `pledgeSnapshot`, a new pledge of candidate 8, an entrust under the new
hash 3, the exit of the detail under hash 1 with its amount 100, and the transfer of the
whole pledge of sender 5 away from candidate 5. -/
theorem pledge_conservation_witness :
    (∃ s', updateCandidatePledgeNew pledgeSnapshot [⟨8, 40, 8, 2⟩] 7 = some s' ∧
      s'.PledgeConserved) ∧
    (updateCandidatePledgeEntrust pledgeSnapshot [⟨5, 50, 6, 3⟩] 7).PledgeConserved ∧
    (updateCandidatePEntrustExit pledgeSnapshot [⟨5, 1, 5, 100⟩] 7).PledgeConserved ∧
    (updatePOSTransfer pledgeSnapshot [⟨5, 9, 5, TargetType.pos, 8, 0, 100, 0⟩] 7
      ).PledgeConserved :=
  ⟨(pledge_conservation pledgeSnapshot 7 [⟨8, 40, 8, 2⟩] [⟨5, 50, 6, 3⟩] [⟨5, 1, 5, 100⟩]
      [⟨5, 9, 5, TargetType.pos, 8, 0, 100, 0⟩] ((pledgeConserved_iff _).mpr (by decide))).1
      (Or.inl (by decide)),
   (pledge_conservation pledgeSnapshot 7 [⟨8, 40, 8, 2⟩] [⟨5, 50, 6, 3⟩] [⟨5, 1, 5, 100⟩]
      [⟨5, 9, 5, TargetType.pos, 8, 0, 100, 0⟩] ((pledgeConserved_iff _).mpr (by decide))).2.1
      pledgeSnapshot_entrust_fits,
   (pledge_conservation pledgeSnapshot 7 [⟨8, 40, 8, 2⟩] [⟨5, 50, 6, 3⟩] [⟨5, 1, 5, 100⟩]
      [⟨5, 9, 5, TargetType.pos, 8, 0, 100, 0⟩] ((pledgeConserved_iff _).mpr (by decide))).2.2.1
      pledgeSnapshot_exit_fits,
   (pledge_conservation pledgeSnapshot 7 [⟨8, 40, 8, 2⟩] [⟨5, 50, 6, 3⟩] [⟨5, 1, 5, 100⟩]
      [⟨5, 9, 5, TargetType.pos, 8, 0, 100, 0⟩] ((pledgeConserved_iff _).mpr (by decide))).2.2.2
      pledgeSnapshot_transfer_fits⟩


theorem refundRentFee_map_frame (s s' : Snapshot) (n : Nat) (p : Proposal)
    (h : (refundRentFee s.ProposalRefund n p).map
      (fun refund => { s with ProposalRefund := refund }) = some s') :
    s'.Proposals = s.Proposals ∧ s'.ProposalObjs = s.ProposalObjs ∧ s'.config = s.config ∧
    s'.ProposalNext = s.ProposalNext := by
  cases hr : refundRentFee s.ProposalRefund n p with
  | none => rw [hr] at h; cases h
  | some r =>
    rw [hr] at h
    simp only [Option.map_some', Option.some.injEq] at h
    rw [← h]
    exact ⟨rfl, rfl, rfl, rfl⟩

theorem rentSideChain_frame (s s' : Snapshot) (n : Nat) (p : Proposal) (record : SCRecord)
    (h : rentSideChain s n p record = some s') :
    s'.Proposals = s.Proposals ∧ s'.ProposalObjs = s.ProposalObjs ∧ s'.config = s.config ∧
    s'.ProposalNext = s.ProposalNext := by
  unfold rentSideChain at h
  split_ifs at h
  simp only [Option.some.injEq] at h
  rw [← h]
  exact ⟨rfl, rfl, rfl, rfl⟩

theorem applyPassed_frame (candidateNeedPD : Bool) (n : Nat) (s s' : Snapshot) (p : Proposal)
    (h : applyPassed candidateNeedPD n s p = some s') :
    s'.Proposals = s.Proposals ∧ s'.ProposalObjs = s.ProposalObjs ∧ s'.config = s.config ∧
    s'.ProposalNext = s.ProposalNext := by
  unfold applyPassed at h
  split_ifs at h
  all_goals first
    | (simp only [Option.some.injEq] at h; rw [← h]; exact ⟨rfl, rfl, rfl, rfl⟩)
    | (cases hl : s.SCRecordMap.lookup p.SCHash with
        | none =>
          rw [hl] at h
          first
            | (simp only [Option.some.injEq] at h; rw [← h]; exact ⟨rfl, rfl, rfl, rfl⟩)
            | exact refundRentFee_map_frame s s' _ p h
        | some record =>
          rw [hl] at h
          first
            | (simp only [Option.some.injEq] at h; rw [← h]; exact ⟨rfl, rfl, rfl, rfl⟩)
            | exact rentSideChain_frame s s' n p record h)

theorem applyFailed_frame (n : Nat) (s s' : Snapshot) (p : Proposal)
    (h : applyFailed n s p = some s') :
    s'.Proposals = s.Proposals ∧ s'.ProposalObjs = s.ProposalObjs ∧ s'.config = s.config ∧
    s'.ProposalNext = s.ProposalNext := by
  unfold applyFailed at h
  split_ifs at h
  · exact refundRentFee_map_frame s s' _ p h
  · simp only [Option.some.injEq] at h; rw [← h]; exact ⟨rfl, rfl, rfl, rfl⟩

/-- The loop body of `calculateProposalResult` writes no object and deletes its key exactly
when the proposal stored under it is due. -/
theorem proposalResultStep_keys (candidateNeedPD : Bool) (n : Nat) (s s' : Snapshot)
    (hashKey : Hash) (h : proposalResultStep candidateNeedPD n s hashKey = some s') :
    s'.ProposalObjs = s.ProposalObjs ∧ s'.config = s.config ∧
    s'.ProposalNext = s.ProposalNext ∧
    s'.Proposals = if dueAt s n hashKey then s.Proposals.erase hashKey else s.Proposals := by
  unfold proposalResultStep at h
  unfold dueAt
  cases hl : s.Proposals.lookup hashKey with
  | none =>
    rw [hl] at h
    simp only [Option.some.injEq] at h
    rw [← h]
    exact ⟨rfl, rfl, rfl, by simp⟩
  | some cell =>
    rw [hl] at h
    simp only at h
    by_cases hd : proposalDue s (s.ProposalObjs cell) n = true
    · simp only [hd, if_true] at h ⊢
      split_ifs at h with hp
      · cases ha : applyPassed candidateNeedPD n
            { s with ProposalRefund := refundDeposit s.ProposalRefund (uint64 n) (s.ProposalObjs cell) }
            (s.ProposalObjs cell) with
        | none => rw [ha] at h; cases h
        | some s2 =>
          rw [ha] at h
          simp only [Option.map_some', Option.some.injEq] at h
          obtain ⟨f1, f2, f3, f4⟩ := applyPassed_frame _ _ _ _ _ ha
          rw [← h]
          exact ⟨f2, f3, f4, by simp only [f1]⟩
      · cases ha : applyFailed n
            { s with ProposalRefund := refundDeposit s.ProposalRefund (uint64 n) (s.ProposalObjs cell) }
            (s.ProposalObjs cell) with
        | none => rw [ha] at h; cases h
        | some s2 =>
          rw [ha] at h
          simp only [Option.map_some', Option.some.injEq] at h
          obtain ⟨f1, f2, f3, f4⟩ := applyFailed_frame _ _ _ _ ha
          rw [← h]
          exact ⟨f2, f3, f4, by simp only [f1]⟩
    · simp only [hd, Bool.false_eq_true, if_false, Option.some.injEq] at h ⊢
      rw [← h]
      exact ⟨rfl, rfl, rfl, rfl⟩

theorem dueAt_congr (s1 s : Snapshot) (n : Nat) (k : Hash)
    (h1 : s1.Proposals.lookup k = s.Proposals.lookup k)
    (h2 : ∀ cell, s.Proposals.lookup k = some cell →
      (s1.ProposalObjs cell).ReceivedNumber = (s.ProposalObjs cell).ReceivedNumber ∧
      (s1.ProposalObjs cell).ValidationLoopCnt = (s.ProposalObjs cell).ValidationLoopCnt)
    (h3 : s1.config = s.config) : dueAt s1 n k = dueAt s n k := by
  unfold dueAt
  rw [h1]
  cases hl : s.Proposals.lookup k with
  | none => rfl
  | some cell =>
    simp only
    unfold proposalDue
    rw [(h2 cell hl).1, (h2 cell hl).2, h3]

theorem foldlM_proposalResultStep_keys (candidateNeedPD : Bool) (n : Nat) (order : List Hash)
    (s s' : Snapshot) (h : order.foldlM (proposalResultStep candidateNeedPD n) s = some s') :
    s'.ProposalObjs = s.ProposalObjs ∧ s'.config = s.config ∧
    s'.ProposalNext = s.ProposalNext ∧
    ∀ k, s'.Proposals.lookup k
      = if k ∈ order ∧ dueAt s n k = true then none else s.Proposals.lookup k := by
  induction order generalizing s with
  | nil =>
    simp only [List.foldlM_nil, Option.pure_def, Option.some.injEq] at h
    rw [← h]
    exact ⟨rfl, rfl, rfl, fun k => by simp⟩
  | cons x rest ih =>
    rw [List.foldlM_cons] at h
    cases hs : proposalResultStep candidateNeedPD n s x with
    | none => rw [hs] at h; cases h
    | some s1 =>
      rw [hs] at h
      simp only [Option.bind_eq_bind, Option.some_bind] at h
      obtain ⟨g1, g2, g4, g3⟩ := proposalResultStep_keys candidateNeedPD n s s1 x hs
      obtain ⟨f1, f2, f4, f3⟩ := ih s1 h
      refine ⟨f1.trans g1, f2.trans g2, f4.trans g4, ?_⟩
      intro k
      rw [f3 k]
      by_cases hx : dueAt s n x = true
      · rw [if_pos hx] at g3
        by_cases hk : k = x
        · subst hk
          simp [g3, lookup_erase_eq, hx]
        · have hd : dueAt s1 n k = dueAt s n k :=
            dueAt_congr s1 s n k (by rw [g3, lookup_erase_eq, if_neg hk])
              (fun cell _ => by rw [g1]; exact ⟨rfl, rfl⟩) g2
          simp [hd, g3, lookup_erase_eq, hk]
      · rw [if_neg hx] at g3
        have hd : dueAt s1 n k = dueAt s n k :=
          dueAt_congr s1 s n k (by rw [g3])
            (fun cell _ => by rw [g1]; exact ⟨rfl, rfl⟩) g2
        rw [hd, g3]
        by_cases hk : k = x
        · subst hk
          simp [hx]
        · simp [hk]


theorem dueAt_ProposalRefund (s : Snapshot) (refund : GoMap Nat (GoMap Address Int)) (n : Nat)
    (k : Hash) : dueAt { s with ProposalRefund := refund } n k = dueAt s n k := rfl

/-- `calculateProposalResult` writes no object and removes exactly the keys whose stored
proposal is due at the header. -/
theorem calculateProposalResult_keys (candidateNeedPD : Bool) (s s' : Snapshot) (n : Nat)
    (h : calculateProposalResult candidateNeedPD s n = some s') :
    s'.ProposalObjs = s.ProposalObjs ∧ s'.config = s.config ∧
    s'.ProposalNext = s.ProposalNext ∧
    ∀ k, s'.Proposals.lookup k = if dueAt s n k = true then none else s.Proposals.lookup k := by
  unfold calculateProposalResult calculateProposalResultIn at h
  obtain ⟨f1, f2, f3, f4⟩ := foldlM_proposalResultStep_keys candidateNeedPD n _ _ s' h
  refine ⟨f1, f2, f3, ?_⟩
  intro k
  rw [f4 k]
  rw [dueAt_ProposalRefund]
  by_cases hk : dueAt s n k = true
  · have hmem : k ∈ s.Proposals.keys := by
      rw [← AList.mem_keys, ← AList.lookup_isSome]
      unfold dueAt at hk
      cases hl : s.Proposals.lookup k with
      | none => rw [hl] at hk; cases hk
      | some c => rfl
    simp only [hmem, hk, and_self, if_true]
  · simp [hk]

theorem declareStep_ProposalNext (h : Nat) (s : Snapshot) (d : Declare) :
    (declareStep h s d).ProposalNext = s.ProposalNext := by
  unfold declareStep
  cases s.Proposals.lookup d.ProposalHash with
  | none => rfl
  | some cell =>
    simp only
    split_ifs <;> rfl

theorem updateSnapshotByDeclares_ProposalNext (h : Nat) (declares : List Declare)
    (s : Snapshot) : (updateSnapshotByDeclares s declares h).ProposalNext = s.ProposalNext := by
  unfold updateSnapshotByDeclares
  induction declares generalizing s with
  | nil => rfl
  | cons d ds ih => rw [List.foldl_cons, ih, declareStep_ProposalNext]

theorem foldl_storeProposal (n cell : Nat) (ps : List Proposal) (s : Snapshot) :
    (ps.foldl (storeProposal n cell) s).config = s.config ∧
    (ps.foldl (storeProposal n cell) s).ProposalNext = s.ProposalNext ∧
    (∀ k, (∀ p ∈ ps, p.Hash ≠ k) →
      (ps.foldl (storeProposal n cell) s).Proposals.lookup k = s.Proposals.lookup k) ∧
    (∀ k, (∃ p ∈ ps, p.Hash = k) →
      (ps.foldl (storeProposal n cell) s).Proposals.lookup k = some cell) ∧
    (∀ c, c ≠ cell → (ps.foldl (storeProposal n cell) s).ProposalObjs c = s.ProposalObjs c) := by
  induction ps generalizing s with
  | nil =>
    refine ⟨rfl, rfl, fun _ _ => rfl, ?_, fun _ _ => rfl⟩
    rintro k ⟨p, hp, _⟩
    cases hp
  | cons x rest ih =>
    rw [List.foldl_cons]
    obtain ⟨i1, i2, i3, i4, i5⟩ := ih (storeProposal n cell s x)
    refine ⟨i1, i2, ?_, ?_, ?_⟩
    · intro k hk
      rw [i3 k (fun p hp => hk p (List.mem_cons_of_mem _ hp))]
      unfold storeProposal
      simp only [lookup_insert_eq]
      rw [if_neg (fun e => hk x (List.mem_cons_self _ _) e.symm)]
    · rintro k ⟨p, hp, hpk⟩
      by_cases hr : ∃ q ∈ rest, q.Hash = k
      · exact i4 k hr
      · rw [i3 k (fun q hq e => hr ⟨q, hq, e⟩)]
        rcases List.mem_cons.mp hp with hpx | hpr
        · subst hpx
          unfold storeProposal
          simp only [lookup_insert_eq, hpk, if_true]
        · exact absurd ⟨p, hpr, hpk⟩ hr
    · intro c hc
      rw [i5 c hc]
      unfold storeProposal
      simp only [Function.update_noteq hc]

/-- After `updateSnapshotByProposals` on a non-empty list, every hash of the list points to
one and the same object, and that object holds the last proposal of the list. -/
theorem updateSnapshotByProposals_shared (s : Snapshot) (front : List Proposal) (p : Proposal)
    (n : Nat) :
    (∀ q ∈ front ++ [p],
      (updateSnapshotByProposals s (front ++ [p]) n).Proposals.lookup q.Hash
        = some s.ProposalNext) ∧
    (updateSnapshotByProposals s (front ++ [p]) n).ProposalObjs s.ProposalNext
      = { p with ReceivedNumber := n } := by
  unfold updateSnapshotByProposals
  constructor
  · intro q hq
    exact (foldl_storeProposal n s.ProposalNext (front ++ [p]) _).2.2.2.1 q.Hash ⟨q, hq, rfl⟩
  · rw [List.foldl_append]
    simp only [List.foldl_cons, List.foldl_nil]
    unfold storeProposal
    simp only [Function.update_same]

/-- A header keeps an open proposal open when it does not carry its hash again and is not
its deadline header. -/
theorem applyGovernance_keeps_open (candidateNeedPD : Bool) (s s' : Snapshot)
    (ps : List Proposal) (ds : List Declare) (n : Nat) (k : Hash) (cell received loopCnt : Nat)
    (hop : OpenProposal s k cell received loopCnt)
    (hfresh : ∀ p ∈ ps, p.Hash ≠ k)
    (hnot : (uint64 received + loopCnt * s.config.MaxSignerCount + 1) % 2 ^ 64 ≠ uint64 n)
    (hr : applyGovernance candidateNeedPD s ps ds n = some s') :
    OpenProposal s' k cell received loopCnt ∧ s'.config = s.config := by
  obtain ⟨o1, o2, o3, o4⟩ := hop
  unfold applyGovernance at hr
  obtain ⟨c1, c2, c3, c4⟩ := calculateProposalResult_keys candidateNeedPD _ s' n hr
  obtain ⟨⟨d1, _, d3⟩, added, d4, _, _⟩ :=
    updateSnapshotByDeclares_object n ds (updateSnapshotByProposals s ps n) cell
  have d5 := updateSnapshotByDeclares_ProposalNext n ds (updateSnapshotByProposals s ps n)
  obtain ⟨p1, p2, p3, _, p5⟩ := foldl_storeProposal n s.ProposalNext ps
    { s with ProposalNext := s.ProposalNext + 1 }
  have hne : cell ≠ s.ProposalNext := Nat.ne_of_lt o2
  have q1 : (updateSnapshotByProposals s ps n).Proposals.lookup k = some cell := by
    unfold updateSnapshotByProposals
    rw [p3 k hfresh]
    exact o1
  have q2 : (updateSnapshotByProposals s ps n).ProposalObjs cell = s.ProposalObjs cell := by
    unfold updateSnapshotByProposals
    exact p5 cell hne
  have q3 : (updateSnapshotByProposals s ps n).config = s.config := p1
  have q4 : (updateSnapshotByProposals s ps n).ProposalNext = s.ProposalNext + 1 := p2
  have hdue : dueAt (updateSnapshotByDeclares (updateSnapshotByProposals s ps n) ds n) n k
      = false := by
    unfold dueAt
    rw [d1, q1]
    simp only
    unfold proposalDue
    rw [d4, d3, q3, q2]
    simp only [o3, o4]
    exact decide_eq_false hnot
  refine ⟨⟨?_, ?_, ?_, ?_⟩, ?_⟩
  · rw [c4 k, hdue, d1, q1]
    simp
  · rw [c3, d5, q4]
    omega
  · rw [c1, d4, q2]
    exact o3
  · rw [c1, d4, q2]
    exact o4
  · rw [c2, d3, q3]

/-- The deadline header removes the key of an open proposal. -/
theorem applyGovernance_resolves (candidateNeedPD : Bool) (s s' : Snapshot)
    (ps : List Proposal) (ds : List Declare) (n : Nat) (k : Hash) (cell received loopCnt : Nat)
    (hop : OpenProposal s k cell received loopCnt)
    (hfresh : ∀ p ∈ ps, p.Hash ≠ k)
    (hdl : (uint64 received + loopCnt * s.config.MaxSignerCount + 1) % 2 ^ 64 = uint64 n)
    (hr : applyGovernance candidateNeedPD s ps ds n = some s') :
    s'.Proposals.lookup k = none := by
  obtain ⟨o1, o2, o3, o4⟩ := hop
  unfold applyGovernance at hr
  obtain ⟨_, _, _, c4⟩ := calculateProposalResult_keys candidateNeedPD _ s' n hr
  obtain ⟨⟨d1, _, d3⟩, added, d4, _, _⟩ :=
    updateSnapshotByDeclares_object n ds (updateSnapshotByProposals s ps n) cell
  obtain ⟨p1, _, p3, _, p5⟩ := foldl_storeProposal n s.ProposalNext ps
    { s with ProposalNext := s.ProposalNext + 1 }
  have hne : cell ≠ s.ProposalNext := Nat.ne_of_lt o2
  have q1 : (updateSnapshotByProposals s ps n).Proposals.lookup k = some cell := by
    unfold updateSnapshotByProposals
    rw [p3 k hfresh]
    exact o1
  have q2 : (updateSnapshotByProposals s ps n).ProposalObjs cell = s.ProposalObjs cell := by
    unfold updateSnapshotByProposals
    exact p5 cell hne
  have q3 : (updateSnapshotByProposals s ps n).config = s.config := p1
  have hdue : dueAt (updateSnapshotByDeclares (updateSnapshotByProposals s ps n) ds n) n k
      = true := by
    unfold dueAt
    rw [d1, q1]
    simp only
    unfold proposalDue
    rw [d4, d3, q3, q2]
    simp only [o3, o4]
    exact decide_eq_true hdl
  rw [c4 k, hdue]
  simp

/-- A key that is absent stays absent while no header carries its hash. -/
theorem applyGovernance_stays_closed (candidateNeedPD : Bool) (s s' : Snapshot)
    (ps : List Proposal) (ds : List Declare) (n : Nat) (k : Hash)
    (hc : s.Proposals.lookup k = none) (hfresh : ∀ p ∈ ps, p.Hash ≠ k)
    (hr : applyGovernance candidateNeedPD s ps ds n = some s') :
    s'.Proposals.lookup k = none := by
  unfold applyGovernance at hr
  obtain ⟨_, _, _, c4⟩ := calculateProposalResult_keys candidateNeedPD _ s' n hr
  obtain ⟨⟨d1, _, _⟩, _⟩ :=
    updateSnapshotByDeclares_object n ds (updateSnapshotByProposals s ps n) 0
  obtain ⟨_, _, p3, _, _⟩ := foldl_storeProposal n s.ProposalNext ps
    { s with ProposalNext := s.ProposalNext + 1 }
  have q1 : (updateSnapshotByProposals s ps n).Proposals.lookup k = none := by
    unfold updateSnapshotByProposals
    rw [p3 k hfresh]
    exact hc
  rw [c4 k, d1, q1]
  simp

/-- Every proposal of a header is opened with the validation loop count of the last
proposal of that header. -/
theorem applyGovernance_opens (candidateNeedPD : Bool) (s s' : Snapshot)
    (front : List Proposal) (p : Proposal) (ds : List Declare) (n : Nat)
    (hnot : (uint64 n + p.ValidationLoopCnt * s.config.MaxSignerCount + 1) % 2 ^ 64 ≠ uint64 n)
    (hr : applyGovernance candidateNeedPD s (front ++ [p]) ds n = some s') :
    ∀ q ∈ front ++ [p], OpenProposal s' q.Hash s.ProposalNext n p.ValidationLoopCnt := by
  intro q hq
  unfold applyGovernance at hr
  obtain ⟨c1, c2, c3, c4⟩ := calculateProposalResult_keys candidateNeedPD _ s' n hr
  obtain ⟨⟨d1, _, d3⟩, added, d4, _, _⟩ :=
    updateSnapshotByDeclares_object n ds (updateSnapshotByProposals s (front ++ [p]) n)
      s.ProposalNext
  have d5 := updateSnapshotByDeclares_ProposalNext n ds
    (updateSnapshotByProposals s (front ++ [p]) n)
  obtain ⟨h1, h2⟩ := updateSnapshotByProposals_shared s front p n
  obtain ⟨p1, p2, _, _, _⟩ := foldl_storeProposal n s.ProposalNext (front ++ [p])
    { s with ProposalNext := s.ProposalNext + 1 }
  have q3 : (updateSnapshotByProposals s (front ++ [p]) n).config = s.config := p1
  have q4 : (updateSnapshotByProposals s (front ++ [p]) n).ProposalNext = s.ProposalNext + 1 :=
    p2
  have hdue : dueAt (updateSnapshotByDeclares (updateSnapshotByProposals s (front ++ [p]) n)
      ds n) n q.Hash = false := by
    unfold dueAt
    rw [d1, h1 q hq]
    simp only
    unfold proposalDue
    rw [d4, d3, q3, h2]
    simp only
    exact decide_eq_false hnot
  refine ⟨?_, ?_, ?_, ?_⟩
  · rw [c4 q.Hash, hdue, d1, h1 q hq]
    simp
  · rw [c3, d5, q4]
    omega
  · rw [c1, d4, h2]
  · rw [c1, d4, h2]


/-! ## Payout cadence of the three reward streams -/

theorem payout_shape (block interval period number : Nat) (hp1 : 1 ≤ period)
    (hp2 : period ≤ 86400) (hb : block = interval / period) (hi : interval ≤ 9000) :
    (if period = 0 then (none : Option Bool)
     else
      if isGEInitStorageManagerNumber number then
        if utgLockRewardInterval * (secondsPerDay / period) = 0 then none
        else some (decide (number % (utgLockRewardInterval * (secondsPerDay / period)) = block))
      else
        if secondsPerDay / period = 0 then none
        else some (decide (block = number % (secondsPerDay / period) ∧ block ≠ number)))
      = some (payoutFormula interval number period) := by
  have hday : 1 ≤ secondsPerDay / period := by
    apply (Nat.le_div_iff_mul_le (by omega)).mpr
    have : secondsPerDay = 86400 := by decide
    omega
  have hblock : block ≤ 9000 := by
    rw [hb]
    exact le_trans (Nat.div_le_self _ _) hi
  rw [if_neg (by omega)]
  unfold payoutFormula isGEInitStorageManagerNumber
  rw [← hb]
  by_cases hge : initStorageManagerNumber ≤ number
  · have hlt : ¬ number < initStorageManagerNumber := by omega
    have hne : number ≠ block := by
      have h5 : 5173314 ≤ number := hge
      omega
    have h30 : utgLockRewardInterval * (secondsPerDay / period) ≠ 0 := by
      have h30 : utgLockRewardInterval = 30 := rfl
      rw [h30]
      omega
    simp only [hge, decide_True, if_true, if_neg h30, if_neg hlt, hne, ne_eq, not_false_eq_true,
      and_true]
  · have hlt : number < initStorageManagerNumber := by omega
    have hd : secondsPerDay / period ≠ 0 := by omega
    simp only [hge, decide_False, Bool.false_eq_true, if_false, if_neg hd, if_pos hlt]
    congr 1
    apply decide_eq_decide.mpr
    constructor
    · rintro ⟨a, b⟩; exact ⟨a.symm, fun e => b e.symm⟩
    · rintro ⟨a, b⟩; exact ⟨a.symm, fun e => b e.symm⟩

/-- C21: for every period between 1 and 86400 and every height, `isPaySignerRewards`,
`isPayFlowRewards` and `isPayBandWidthRewards` return, and their value is
`h mod E = off / p` and `h ≠ off / p` with the offsets 0, 9000 and 5400 seconds, where `E` is
`86400 / p` below `initStorageManagerNumber` and `30 * (86400 / p)` from there on; the branch
after the upgrade, which does not test `h ≠ off / p`, satisfies it because the offset block
lies below `initStorageManagerNumber`. -/
theorem isPayRewards_formula (p h : Nat) (hp1 : 1 ≤ p) (hp2 : p ≤ 86400) :
    isPaySignerRewards h p = some (payoutFormula 0 h p) ∧
    isPayFlowRewards h p = some (payoutFormula 9000 h p) ∧
    isPayBandWidthRewards h p = some (payoutFormula 5400 h p) := by
  refine ⟨?_, ?_, ?_⟩
  · exact payout_shape (paySignerRewardInterval / p) 0 p h hp1 hp2 rfl (by omega)
  · exact payout_shape (payFlowRewardInterval / p) 9000 p h hp1 hp2 rfl (by omega)
  · exact payout_shape (payBandwidthRewardInterval / p) 5400 p h hp1 hp2 rfl (by omega)

/-- C21 (witness): period 10 at height 5184900 = 20 * 259200 + 900, after the upgrade. -/
theorem isPayRewards_formula_witness :
    isPaySignerRewards 5184900 10 = some (payoutFormula 0 5184900 10) ∧
    isPayFlowRewards 5184900 10 = some (payoutFormula 9000 5184900 10) ∧
    isPayBandWidthRewards 5184900 10 = some (payoutFormula 5400 5184900 10) :=
  isPayRewards_formula 10 5184900 (by decide) (by decide)

/-! ## Side-chain reward table -/

theorem calculateCurrentBlockReward_above_six (c p : Nat) (hp : 6 < p) :
    calculateCurrentBlockReward c p = calculateCurrentBlockReward c 6 := by
  unfold calculateCurrentBlockReward
  have h6 : ¬ scMaxCountPerPeriod < 6 := by decide
  have hp' : scMaxCountPerPeriod < p := hp
  rw [if_pos hp', if_neg h6]
  rfl

theorem calculateCurrentBlockReward_small :
    ∀ p < 7, ∀ c < 7, (c < 1 ∨ p < c ∨ p = 0) → calculateCurrentBlockReward c p = 0 := by
  decide

theorem SCCurrentBlockReward_keys :
    ∀ p < 7, ((SCCurrentBlockReward.lookup p).map
      (fun row => row.keys.all (fun k => decide (k ≤ 6)))).getD true = true := by
  decide

theorem calculateCurrentBlockReward_far (c p : Nat) (hp : p ≤ 6) (hc : 6 < c) :
    calculateCurrentBlockReward c p = 0 := by
  unfold calculateCurrentBlockReward
  have hq : ¬ scMaxCountPerPeriod < p := by
    have : scMaxCountPerPeriod = 6 := rfl
    omega
  rw [if_neg hq]
  have hk := SCCurrentBlockReward_keys p (by omega)
  simp only
  cases hl : SCCurrentBlockReward.lookup p with
  | none => rfl
  | some row =>
    rw [hl] at hk
    simp only [Option.map_some', Option.getD_some, List.all_eq_true, decide_eq_true_eq] at hk
    have hnone : row.lookup c = none := by
      rw [AList.lookup_eq_none]
      intro hmem
      have := hk c (AList.mem_keys.mp hmem)
      omega
    simp only [hnone]

/-- C23: for every period length from 1 to 6 the scores of the positions 1 to p add up to
100; a period length above 6 is read as 6; the score is 0 for a position outside
1..min(p, 6) and for the period length 0. -/
theorem calculateCurrentBlockReward_complete :
    (∀ p, 1 ≤ p → p ≤ 6 →
      ((List.range' 1 p).map (fun c => calculateCurrentBlockReward c p)).sum = 100) ∧
    (∀ c p, 6 < p → calculateCurrentBlockReward c p = calculateCurrentBlockReward c 6) ∧
    (∀ c p, (c < 1 ∨ min p 6 < c ∨ p = 0) → calculateCurrentBlockReward c p = 0) := by
  refine ⟨?_, calculateCurrentBlockReward_above_six, ?_⟩
  · intro p h1 h2
    interval_cases p <;> decide
  · intro c p hcp
    by_cases hp6 : 6 < p
    · rw [calculateCurrentBlockReward_above_six c p hp6]
      rw [Nat.min_eq_right (by omega)] at hcp
      by_cases hc : 6 < c
      · exact calculateCurrentBlockReward_far c 6 (by omega) hc
      · exact calculateCurrentBlockReward_small 6 (by omega) c (by omega) (by omega)
    · rw [Nat.min_eq_left (by omega)] at hcp
      by_cases hc : 6 < c
      · exact calculateCurrentBlockReward_far c p (by omega) hc
      · exact calculateCurrentBlockReward_small p (by omega) c (by omega) hcp

/-- C23 (witness): a period of three blocks scores 15 + 30 + 55 = 100, a period count of 9
is read as 6, and position 4 of a period of three blocks scores nothing. -/
theorem calculateCurrentBlockReward_complete_witness :
    ((List.range' 1 3).map (fun c => calculateCurrentBlockReward c 3)).sum = 100
    ∧ calculateCurrentBlockReward 2 9 = calculateCurrentBlockReward 2 6
    ∧ calculateCurrentBlockReward 4 3 = 0 :=
  ⟨calculateCurrentBlockReward_complete.1 3 (by decide) (by decide),
    calculateCurrentBlockReward_complete.2.1 2 9 (by decide),
    calculateCurrentBlockReward_complete.2.2 4 3 (Or.inr (Or.inl (by decide)))⟩

/-! ## Multi-signature check -/

theorem lookup_foldl_insert_true (l : List Address) (m : GoMap Address Bool) (x : Address) :
    ((l.foldl (fun m assist => m.insert assist true) m).lookup x).isSome
      = (decide (x ∈ l) || (m.lookup x).isSome) := by
  induction l generalizing m with
  | nil => simp
  | cons y ys ih =>
    rw [List.foldl_cons, ih, lookup_insert_eq]
    by_cases h : x = y
    · subst h; simp
    · simp [h]

theorem multiSignStep_invariant (assistAddress : GoMap Address Bool) (signers : List Address)
    (acc : Nat × GoMap Address Bool) (seen : Finset Address)
    (h1 : acc.1 = (seen.filter (fun s => (assistAddress.lookup s).isSome = true)).card)
    (h2 : ∀ x, (acc.2.lookup x).isSome = true ↔
      (x ∈ seen ∧ (assistAddress.lookup x).isSome = true)) :
    (signers.foldl (multiSignStep assistAddress) acc).1
      = ((seen ∪ signers.toFinset).filter
          (fun s => (assistAddress.lookup s).isSome = true)).card := by
  induction signers generalizing acc seen with
  | nil => simpa using h1
  | cons s rest ih =>
    rw [List.foldl_cons]
    have hset : seen ∪ (s :: rest).toFinset = insert s seen ∪ rest.toFinset := by
      ext x; simp only [List.toFinset_cons, Finset.mem_union, Finset.mem_insert]; tauto
    rw [hset]
    apply ih
    · unfold multiSignStep
      by_cases c1 : (acc.2.lookup s).isSome = true
      · rw [if_pos c1]
        have hs := (h2 s).1 c1
        rw [Finset.insert_eq_of_mem hs.1]; exact h1
      · rw [if_neg c1]
        by_cases c2 : (assistAddress.lookup s).isSome = true
        · rw [if_pos c2]
          have hns : s ∉ seen := fun hs => c1 ((h2 s).2 ⟨hs, c2⟩)
          rw [Finset.filter_insert, if_pos c2, Finset.card_insert_of_not_mem]
          · simp only; rw [h1]
          · intro hmem; exact hns (Finset.mem_filter.1 hmem).1
        · rw [if_neg c2, Finset.filter_insert, if_neg c2]; exact h1
    · intro x
      unfold multiSignStep
      by_cases c1 : (acc.2.lookup s).isSome = true
      · rw [if_pos c1]
        have hs := (h2 s).1 c1
        rw [Finset.insert_eq_of_mem hs.1]; exact h2 x
      · rw [if_neg c1]
        by_cases c2 : (assistAddress.lookup s).isSome = true
        · rw [if_pos c2]
          simp only [lookup_insert_eq, Finset.mem_insert]
          by_cases hx : x = s
          · subst hx; simp [c2]
          · simp only [hx, if_false, false_or]; exact h2 x
        · rw [if_neg c2]
          simp only [Finset.mem_insert]
          constructor
          · intro h; exact ⟨Or.inr ((h2 x).1 h).1, ((h2 x).1 h).2⟩
          · rintro ⟨hx | hx, hp⟩
            · subst hx; exact absurd hp c2
            · exact (h2 x).2 ⟨hx, hp⟩

theorem multiSign_okNumber (multiSigners signers : List Address) :
    (signers.foldl
        (multiSignStep (multiSigners.foldl (fun m assist => m.insert assist true) ∅))
        (0, ∅)).1
      = (signers.toFinset.filter (fun s => s ∈ multiSigners)).card := by
  rw [multiSignStep_invariant _ signers (0, ∅) ∅ (by simp) (by simp)]
  congr 1
  ext x
  simp only [Finset.empty_union, Finset.mem_filter, List.mem_toFinset,
    lookup_foldl_insert_true, AList.lookup_empty, Option.isSome_none, Bool.or_false,
    decide_eq_true_eq]

/-- C28: `verifyMultiSignatureAddress` returns true exactly when the account is not empty,
its nonce is 1, its code hash is neither the zero hash nor the hash of empty code, its code
decodes to a `(Threshold, MultiSigners)` pair, and the number of distinct members of the
signer list that belong to `MultiSigners` is at least `Threshold`. The count is the size
of a set: a repeated signer counts once and a signer outside `MultiSigners` not at all. -/
theorem verifyMultiSignatureAddress_iff (a : Engine) (state : StateDB) (address : Address)
    (signers : List Address) :
    verifyMultiSignatureAddress a state address signers = true ↔
      (state.Empty address = false ∧ state.Nonce address = 1 ∧ state.CodeHash address ≠ 0 ∧
        state.CodeHash address ≠ a.emptyCodeHash ∧
        ∃ parameter, a.rlpDecodeMultiSignatureData (state.Code address) = some parameter ∧
          parameter.Threshold
            ≤ (signers.toFinset.filter (fun s => s ∈ parameter.MultiSigners)).card) := by
  unfold verifyMultiSignatureAddress
  by_cases he : state.Empty address = true
  · simp [he]
  · have he2 : state.Empty address = false := by simpa using he
    simp only [he2, Bool.false_eq_true, if_false, true_and]
    by_cases hc : state.Nonce address ≠ 1 ∨ state.CodeHash address = 0
        ∨ state.CodeHash address = a.emptyCodeHash
    · rw [if_pos hc]
      constructor
      · intro h; exact absurd h (by simp)
      · rintro ⟨h1, h2, h3, _⟩
        rcases hc with hc | hc | hc
        · exact absurd h1 hc
        · exact absurd hc h2
        · exact absurd hc h3
    · rw [if_neg hc]
      have hc1 : state.Nonce address = 1 := by
        by_contra h; exact hc (Or.inl h)
      have hc2 : state.CodeHash address ≠ 0 := fun h => hc (Or.inr (Or.inl h))
      have hc3 : state.CodeHash address ≠ a.emptyCodeHash := fun h => hc (Or.inr (Or.inr h))
      cases hd : a.rlpDecodeMultiSignatureData (state.Code address) with
      | none => simp
      | some parameter =>
        simp only [multiSign_okNumber, decide_eq_true_eq]
        constructor
        · intro h; exact ⟨hc1, hc2, hc3, parameter, rfl, h⟩
        · rintro ⟨_, _, _, p, hp, h⟩
          cases hp; exact h


/-! ## Revenue bindings: the decoders against their replay -/

theorem processLockConfig_other_sender (who : Nat) (a : Engine)
    (cur : List LockParameterRecord) (txDataInfo : List String) (txSender : Address)
    (snap : Snapshot) (hPeriod : a.config.Period ≠ 0)
    (h : snap.managerAddress sscEnumSystem ≠ txSender) :
    processLockConfig who a cur txDataInfo txSender snap = some cur := by
  unfold processLockConfig
  repeat' split
  all_goals rfl

/-- C27: every system-configuration decoder asks that the sender of the transaction be the
manager address the working snapshot records for its topic: `sscEnumExchRate` for
ExchRate, `sscEnumWdthPnsh` for WdthPnsh, `sscEnumSystem` for Deposit, CndLock, FlwLock,
RwdLock, OffLine and QOS. For any other sender `processExchRate` and `processOffLine`
return 0, the other decoders return (without stopping, the block period being non-zero)
the record list they were given, and `processBandwidthPunish` returns the receipts and the
working snapshot as they were. -/
theorem config_decoders_require_manager (a : Engine) (txDataInfo : List String)
    (txSender : Address) (tx : Transaction) (receipts : List Receipt) (snap : Snapshot)
    (hPeriod : a.config.Period ≠ 0) :
    (snap.managerAddress sscEnumExchRate ≠ txSender →
      processExchRate a txDataInfo txSender snap = 0)
    ∧ (snap.managerAddress sscEnumWdthPnsh ≠ txSender →
      ∀ cur, processBandwidthPunish a cur txDataInfo txSender tx receipts snap
        = (cur, receipts, snap))
    ∧ (snap.managerAddress sscEnumSystem ≠ txSender →
      (∀ cur, processCandidateDeposit a cur txDataInfo txSender snap = cur)
      ∧ (∀ cur, processCndLockConfig a cur txDataInfo txSender snap = some cur)
      ∧ (∀ cur, processFlwLockConfig a cur txDataInfo txSender snap = some cur)
      ∧ (∀ cur, processRwdLockConfig a cur txDataInfo txSender snap = some cur)
      ∧ processOffLine a txDataInfo txSender snap = 0
      ∧ (∀ cur, processISPQos a cur txDataInfo txSender snap = cur)) := by
  refine ⟨?_, ?_, ?_⟩
  · intro h
    unfold processExchRate
    repeat' split
    all_goals rfl
  · intro h cur
    unfold processBandwidthPunish
    split
    · rfl
    · rfl
  · intro h
    refine ⟨?_, ?_, ?_, ?_, ?_, ?_⟩
    · intro cur
      unfold processCandidateDeposit
      repeat' split
      all_goals rfl
    · intro cur; exact processLockConfig_other_sender _ a cur txDataInfo txSender snap hPeriod h
    · intro cur; exact processLockConfig_other_sender _ a cur txDataInfo txSender snap hPeriod h
    · intro cur; exact processLockConfig_other_sender _ a cur txDataInfo txSender snap hPeriod h
    · unfold processOffLine
      repeat' split
      all_goals rfl
    · intro cur
      unfold processISPQos
      repeat' split
      all_goals rfl

/-- C27 (witness): in `managerSnapshot` address 7 manages the three topics. Well-formed
payloads sent by address 9 leave every decoder without effect; the same payloads sent by
address 7 are decoded. -/
theorem config_decoders_require_manager_witness :
    sampleEngine.config.Period ≠ 0
    ∧ processExchRate sampleEngine ["SSC", "1", "ExchRate", "100"] 9 managerSnapshot = 0
    ∧ processExchRate sampleEngine ["SSC", "1", "ExchRate", "100"] 7 managerSnapshot = 100
    ∧ processBandwidthPunish sampleEngine [] ["SSC", "1", "WdthPnsh", "32", "1f"] 9
        (sampleTx 1 "SSC:1:WdthPnsh:32:1f") [] managerSnapshot = ([], [], managerSnapshot)
    ∧ (processBandwidthPunish sampleEngine [] ["SSC", "1", "WdthPnsh", "32", "1f"] 7
        (sampleTx 1 "SSC:1:WdthPnsh:32:1f") [] managerSnapshot).1 = [⟨0x32, 0x1f⟩]
    ∧ processCndLockConfig sampleEngine [] ["SSC", "1", "CndLock", "a", "b", "c"] 9
        managerSnapshot = some []
    ∧ processCndLockConfig sampleEngine [] ["SSC", "1", "CndLock", "a", "b", "c"] 7
        managerSnapshot = some [⟨10, 11, 12, sscEnumCndLock⟩] :=
  ⟨by decide,
    (config_decoders_require_manager sampleEngine ["SSC", "1", "ExchRate", "100"] 9
      (sampleTx 1 "") [] managerSnapshot (by decide)).1 (by decide),
    by decide,
    (config_decoders_require_manager sampleEngine ["SSC", "1", "WdthPnsh", "32", "1f"] 9
      (sampleTx 1 "SSC:1:WdthPnsh:32:1f") [] managerSnapshot (by decide)).2.1 (by decide) [],
    by decide,
    (config_decoders_require_manager sampleEngine ["SSC", "1", "CndLock", "a", "b", "c"] 9
      (sampleTx 1 "") [] managerSnapshot (by decide)).2.2 (by decide) |>.2.1 [],
    by decide⟩

/-! ## The dispatch of `processCustomTx` -/

theorem decodeIntent_foreign (a : Engine) (number : Nat) (st : TxState) (tx : Transaction)
    (txSender : Address) (h : ForeignPayload tx.Data) :
    decodeIntent a number st tx txSender = some (st, true) := by
  unfold decodeIntent
  unfold ForeignPayload at h
  by_cases h0 : len ufoPrefix ≤ len tx.Data
  · rw [if_pos h0]
    by_cases h1 : ufoMinSplitLen ≤ (stringsSplit tx.Data ':').length
    · rw [if_pos h1]
      rcases h with h | h | h
      · exact absurd h1 (by omega)
      · simp only [List.mem_cons, List.mem_singleton, not_or, List.mem_nil_iff, or_false] at h
        rw [if_neg h.1, if_neg h.2.1, if_neg h.2.2]
      · rw [if_neg h]
        split_ifs <;> rfl
    · rw [if_neg h1]
  · rw [if_neg h0]

theorem processTx_foreign (a : Engine) (number : Nat) (st : TxState) (tx : Transaction)
    (h : ForeignPayload tx.Data) :
    processTx a number st tx = some (refreshOnly number st tx) := by
  unfold processTx refreshOnly
  cases hs : tx.Sender with
  | none => rfl
  | some txSender =>
    show (match decodeIntent a number st tx txSender with
      | none => none
      | some (st1, false) => some st1
      | some (st1, true) => some (refreshPredecessor number st1 tx txSender)) = _
    rw [decodeIntent_foreign a number st tx txSender h]

theorem refreshPredecessor_frame (number : Nat) (st : TxState) (tx : Transaction)
    (txSender : Address) :
    (refreshPredecessor number st tx txSender).state = st.state
    ∧ (refreshPredecessor number st tx txSender).snap = st.snap
    ∧ (refreshPredecessor number st tx txSender).snapCache = st.snapCache
    ∧ (refreshPredecessor number st tx txSender).receipts = st.receipts
    ∧ (refreshPredecessor number st tx txSender).refundHash = st.refundHash
    ∧ { (refreshPredecessor number st tx txSender).headerExtra with
        ModifyPredecessorVotes := st.headerExtra.ModifyPredecessorVotes } = st.headerExtra := by
  unfold refreshPredecessor
  split
  · exact ⟨rfl, rfl, rfl, rfl, rfl, rfl⟩
  · exact ⟨rfl, rfl, rfl, rfl, rfl, rfl⟩

/-- C24: a transaction whose payload, split on `:`, has fewer than 3 fields, or does not
start with one of the tags `ufo`, `UTG`, `SSC`, or does not carry the version `1` in its
second field, passes through the body of the loop of `processCustomTx` without stopping
it and leaves behind what the refresh of the predecessor votes alone leaves: the bundle is
unchanged outside `ModifyPredecessorVotes`, and the state database (hence every balance),
both snapshots, the receipts and the refund table are unchanged. The loop goes on with the
remaining transactions from that state, and `processCustomTx` ends as the remaining
transactions decide; where it returns, it returns no error. -/
theorem processCustomTx_ignores_foreign (a : Engine) (number : Nat) (st : TxState)
    (tx : Transaction) (h : ForeignPayload tx.Data) :
    processTx a number st tx = some (refreshOnly number st tx)
    ∧ (refreshOnly number st tx).state = st.state
    ∧ (refreshOnly number st tx).snap = st.snap
    ∧ (refreshOnly number st tx).snapCache = st.snapCache
    ∧ (refreshOnly number st tx).receipts = st.receipts
    ∧ (refreshOnly number st tx).refundHash = st.refundHash
    ∧ { (refreshOnly number st tx).headerExtra with
        ModifyPredecessorVotes := st.headerExtra.ModifyPredecessorVotes } = st.headerExtra
    ∧ (∀ rest, processTxs a number st (tx :: rest)
        = processTxs a number (refreshOnly number st tx) rest)
    ∧ (∀ headerExtra snap state receipts rest, 1 ≤ number →
        processCustomTx a headerExtra number (.ok snap) state (tx :: rest) receipts
          = finishCustomTx (processTxs a number
              (refreshOnly number
                ⟨headerExtra, snap, snap.copy a.minerRewardPerThousand, state, receipts, ∅⟩ tx)
              rest))
    ∧ (∀ loop headerExtra refundGas err,
        finishCustomTx loop = .returned headerExtra refundGas err → err = none) := by
  have hframe : (refreshOnly number st tx).state = st.state
      ∧ (refreshOnly number st tx).snap = st.snap
      ∧ (refreshOnly number st tx).snapCache = st.snapCache
      ∧ (refreshOnly number st tx).receipts = st.receipts
      ∧ (refreshOnly number st tx).refundHash = st.refundHash
      ∧ { (refreshOnly number st tx).headerExtra with
          ModifyPredecessorVotes := st.headerExtra.ModifyPredecessorVotes } = st.headerExtra := by
    unfold refreshOnly
    cases tx.Sender with
    | none => exact ⟨rfl, rfl, rfl, rfl, rfl, rfl⟩
    | some txSender => exact refreshPredecessor_frame number st tx txSender
  have hloop : ∀ (s : TxState) rest, processTxs a number s (tx :: rest)
      = processTxs a number (refreshOnly number s tx) rest := by
    intro s rest
    unfold processTxs
    rw [List.foldlM_cons, processTx_foreign a number s tx h]
    rfl
  refine ⟨processTx_foreign a number st tx h, hframe.1, hframe.2.1, hframe.2.2.1,
    hframe.2.2.2.1, hframe.2.2.2.2.1, hframe.2.2.2.2.2, hloop st, ?_, ?_⟩
  · intro headerExtra snap state receipts rest h1
    unfold processCustomTx
    rw [if_pos h1]
    simp only
    rw [hloop]
  · intro loop headerExtra refundGas err hfin
    unfold finishCustomTx at hfin
    cases loop with
    | none => simp at hfin
    | some s =>
      simp only at hfin
      cases hfin
      rfl

/-- C24 (witness): at height 10 a transaction of voter 7 carrying the payload `hello`
(one field) and a value leaves one refreshed vote in `ModifyPredecessorVotes` and nothing
else, and the vote transaction that follows it in the block is decoded. -/
theorem processCustomTx_ignores_foreign_witness :
    ForeignPayload "hello"
    ∧ processTx sampleEngine 10
        ⟨emptyExtra, { emptySnapshot with Voters := AList.insert 7 1 ∅ }, emptySnapshot,
          uniformState 5, [], ∅⟩ { sampleTx 1 "hello" with Value := 3 }
      = some (refreshOnly 10
          ⟨emptyExtra, { emptySnapshot with Voters := AList.insert 7 1 ∅ }, emptySnapshot,
            uniformState 5, [], ∅⟩ { sampleTx 1 "hello" with Value := 3 })
    ∧ (processCustomTx sampleEngine emptyExtra 10
        (.ok { emptySnapshot with Voters := AList.insert 7 1 ∅ }) (uniformState 5)
        [{ sampleTx 1 "hello" with Value := 3 }, sampleTx 2 "ufo:1:event:vote"] []).bundle
      = some { emptyExtra with
          CurrentBlockVotes := [⟨7, 8, 5⟩], ModifyPredecessorVotes := [⟨7, 0, 5⟩] } :=
  ⟨by unfold ForeignPayload; decide,
    (processCustomTx_ignores_foreign sampleEngine 10
      ⟨emptyExtra, { emptySnapshot with Voters := AList.insert 7 1 ∅ }, emptySnapshot,
        uniformState 5, [], ∅⟩ { sampleTx 1 "hello" with Value := 3 }
      (by unfold ForeignPayload; decide)).1,
    by decide⟩

theorem sscIntent_exchRate (a : Engine) (number : Nat) (st : TxState) (tx : Transaction)
    (txSender : Address) (txDataInfo : List String)
    (hc : fieldAt txDataInfo posCategory = sscCategoryExchRate)
    (hs : st.snapCache.managerAddress sscEnumExchRate ≠ txSender) :
    (sscIntent a number st tx txSender txDataInfo).map (fun s => s.headerExtra.ConfigExchRate)
      = some 0 := by
  unfold sscIntent
  rw [if_pos hc]
  simp only [Option.map_some']
  congr 1
  unfold processExchRate
  repeat' split
  all_goals rfl

/-- C25 (failing input): at height 10, with address 7 recorded as the manager of the
topics, the block made of the transaction `SSC:1:ExchRate:100` of address 7 followed by
the transaction `SSC:1:ExchRate:5` of address 9 (not the manager) returns a bundle whose
`ConfigExchRate` is 0: the change decoded from the first transaction is gone. With the
payload of the second transaction emptied the bundle holds `ConfigExchRate = 100`. The
same happens to `ConfigOffLine`, here through a second payload that does not parse. -/
theorem later_drop_erases_config_change :
    (processCustomTx sampleEngine emptyExtra 10 (.ok managerSnapshot) (uniformState 0)
        [sampleTx 1 "SSC:1:ExchRate:100",
          { sampleTx 2 "SSC:1:ExchRate:5" with Sender := some 9 }] []).bundle
      = some emptyExtra
    ∧ (processCustomTx sampleEngine emptyExtra 10 (.ok managerSnapshot) (uniformState 0)
        [sampleTx 1 "SSC:1:ExchRate:100", { sampleTx 2 "" with Sender := some 9 }] []).bundle
      = some { emptyExtra with ConfigExchRate := 100 }
    ∧ (processCustomTx sampleEngine emptyExtra 10 (.ok managerSnapshot) (uniformState 0)
        [sampleTx 1 "SSC:1:OffLine:30", sampleTx 2 "SSC:1:OffLine:x"] []).bundle
      = some emptyExtra
    ∧ (processCustomTx sampleEngine emptyExtra 10 (.ok managerSnapshot) (uniformState 0)
        [sampleTx 1 "SSC:1:OffLine:30", sampleTx 2 ""] []).bundle
      = some { emptyExtra with ConfigOffLine := 30 }
    ∧ (processCustomTx sampleEngine emptyExtra 10 (.ok managerSnapshot) (uniformState 0)
        [sampleTx 1 "SSC:1:QOS:1:2", { sampleTx 2 "SSC:1:QOS:3:4" with Sender := some 9 }]
        []).bundle
      = some { emptyExtra with ConfigISPQOS := [⟨1, 2⟩] } := by
  refine ⟨?_, ?_, ?_, ?_, ?_⟩ <;> decide

theorem processEventConfirm_cases (a : Engine) (cur : List Confirmation)
    (txDataInfo : List String) (number : Nat) (tx : Transaction) (confirmer : Address)
    (refundHash : RefundHash) :
    processEventConfirm a cur txDataInfo number tx confirmer refundHash = (cur, refundHash)
    ∨ ∃ b extra confirmedHeaderExtra,
        posEventConfirmNumber < txDataInfo.length
        ∧ a.bigUnmarshalText (fieldAt txDataInfo posEventConfirmNumber) = some b
        ∧ uint64Sub number (bigUint64 b) ≤ a.config.MaxSignerCount
        ∧ a.GetHeaderByNumber (bigUint64 b) = some extra
        ∧ a.extraVanity + a.extraSeal ≤ extra.length
        ∧ a.decodeHeaderExtra b ((extra.take (extra.length - a.extraSeal)).drop a.extraVanity)
            = .ok confirmedHeaderExtra
        ∧ confirmer ∈ confirmedHeaderExtra.SignerQueue
        ∧ processEventConfirm a cur txDataInfo number tx confirmer refundHash
            = (cur ++ [⟨confirmer, b⟩], refundHash.insert tx.Hash ⟨confirmer, tx.GasPrice⟩) := by
  unfold processEventConfirm
  split
  · rename_i hlen
    split
    · left; rfl
    · rename_i b hb
      split
      · left; rfl
      · rename_i hdist
        split
        · left; rfl
        · rename_i extra hx
          split
          · left; rfl
          · rename_i hex
            split
            · left; rfl
            · rename_i he hdec
              split
              · rename_i hmem
                right
                refine ⟨b, extra, he, hlen, hb, ?_, hx, ?_, hdec, ?_, rfl⟩
                · have := not_or.1 hdist
                  omega
                · omega
                · simpa using hmem
              · left; rfl
  · left; rfl

/-- C26 (failing input): at height 10, with 21 signers, header 5 stored and address 7 in
its signer queue, the confirm payload whose number field is 18446744073709551621
(2^64 + 5) makes `processEventConfirm` append the confirmation
(7, 18446744073709551621): a block number above the current height, at which no header
exists. The tests of the function read the low 64 bits of the number, 5; the record keeps
the number itself. The replay files the record under block 5. The number fields 5 and 11
behave as the claim says (appended, refused). -/
theorem confirmation_above_current_height :
    (processEventConfirm confirmEngine []
        ["ufo", "1", "event", "confirm", "18446744073709551621"] 10
        (sampleTx 1 "ufo:1:event:confirm:18446744073709551621") 7 ∅).1
      = [⟨7, 18446744073709551621⟩]
    ∧ (processEventConfirm confirmEngine []
        ["ufo", "1", "event", "confirm", "18446744073709551621"] 10
        (sampleTx 1 "ufo:1:event:confirm:18446744073709551621") 7 ∅).2.lookup 1
      = some ⟨7, 1⟩
    ∧ (10 : Int) < 18446744073709551621
    ∧ confirmEngine.GetHeaderByNumber 18446744073709551621 = none
    ∧ (processCustomTx confirmEngine emptyExtra 10 (.ok confirmSnapshot) (uniformState 0)
        [sampleTx 1 "ufo:1:event:confirm:18446744073709551621"] []).bundle
      = some { emptyExtra with CurrentBlockConfirmations := [⟨7, 18446744073709551621⟩] }
    ∧ (updateSnapshotByConfirmations confirmSnapshot
        [⟨7, 18446744073709551621⟩]).Confirmations.lookup 5 = some [7]
    ∧ (processEventConfirm confirmEngine [] ["ufo", "1", "event", "confirm", "5"] 10
        (sampleTx 1 "ufo:1:event:confirm:5") 7 ∅).1 = [⟨7, 5⟩]
    ∧ (processEventConfirm confirmEngine [] ["ufo", "1", "event", "confirm", "11"] 10
        (sampleTx 1 "ufo:1:event:confirm:11") 7 ∅).1 = [] := by
  refine ⟨?_, ?_, ?_, ?_, ?_, ?_, ?_, ?_⟩ <;> decide

theorem processTx_vote_without_recipient (a : Engine) (number : Nat) (st : TxState)
    (tx : Transaction) (txSender : Address) (hto : tx.To = none)
    (hs : tx.Sender = some txSender) (hd : tx.Data = "ufo:1:event:vote")
    (hb : st.snap.MinVB < st.state.Balance txSender) :
    processTx a number st tx = none := by
  unfold processTx
  rw [hs]
  simp only
  have hsplit : stringsSplit "ufo:1:event:vote" ':' = ["ufo", "1", "event", "vote"] := by
    decide
  have : decodeIntent a number st tx txSender = none := by
    unfold decodeIntent
    rw [hd, hsplit]
    rw [if_pos (by decide), if_pos (by decide), if_pos (by decide), if_pos (by decide)]
    unfold ufoIntent
    rw [if_pos (by decide)]
    unfold eventIntent
    rw [if_pos (by decide), if_pos (by decide)]
    unfold voteAdmitted processEventVote
    rw [hto]
    cases a.candidateNeedPD with
    | true => rfl
    | false =>
      simp only [Bool.false_eq_true, if_false, decide_eq_true hb]
      rfl
  rw [this]

/-- C30 (failing input): at height 10 a contract-creation transaction (no recipient) of
sender 7, whose balance 5 is above the minimum voter balance 0, with the payload
`ufo:1:event:vote` stops `processCustomTx`: `processEventVote` dereferences `*tx.To()`.
So do the payloads `ufo:1:sc:setcb:01` (with a value of 5 * 10^18) and
`ufo:1:sc:delcb:01` of a candidate. The same transactions with a recipient are decoded. -/
theorem intent_without_recipient_stops_block :
    processCustomTx sampleEngine emptyExtra 10 (.ok confirmSnapshot) (uniformState 5)
        [{ sampleTx 1 "ufo:1:event:vote" with To := none }] [] = .panicked
    ∧ processCustomTx sampleEngine emptyExtra 10 (.ok confirmSnapshot) (uniformState 5)
        [{ sampleTx 1 "ufo:1:sc:setcb:01" with To := none, Value := 5000000000000000000 }] []
      = .panicked
    ∧ processCustomTx sampleEngine emptyExtra 10 (.ok confirmSnapshot) (uniformState 5)
        [{ sampleTx 1 "ufo:1:sc:delcb:01" with To := none }] [] = .panicked
    ∧ (processCustomTx sampleEngine emptyExtra 10 (.ok confirmSnapshot) (uniformState 5)
        [sampleTx 1 "ufo:1:event:vote"] []).bundle
      = some { emptyExtra with CurrentBlockVotes := [⟨7, 8, 5⟩] }
    ∧ (processCustomTx sampleEngine emptyExtra 10 (.ok confirmSnapshot) (uniformState 5)
        [sampleTx 1 "ufo:1:sc:delcb:01"] []).bundle
      = some { emptyExtra with SideChainSetCoinbases := [⟨1, 7, 8, false⟩] } := by
  refine ⟨?_, ?_, ?_, ?_, ?_⟩ <;> decide


/-! ## Side-chain confirmation -/

theorem mem_confirmers (min : Nat) (l : List SCConfirmation) (key : String) (c : Address) :
    c ∈ confirmers min l key ↔
      ∃ x ∈ l, min * 2 ≤ x.LoopInfo.length ∧ stringsJoin x.LoopInfo ":" = key
        ∧ x.Coinbase = c := by
  unfold confirmers
  simp only [List.mem_toFinset, List.mem_map, List.mem_filter, Bool.and_eq_true,
    decide_eq_true_eq]
  constructor
  · rintro ⟨x, ⟨hx, h1, h2⟩, h3⟩; exact ⟨x, hx, h1, h2, h3⟩
  · rintro ⟨x, hx, h1, h2, h3⟩; exact ⟨x, ⟨hx, h1, h2⟩, h3⟩

theorem confirmers_append_singleton (min : Nat) (p : List SCConfirmation)
    (x : SCConfirmation) (key : String) :
    confirmers min (p ++ [x]) key =
      if min * 2 ≤ x.LoopInfo.length ∧ stringsJoin x.LoopInfo ":" = key then
        insert x.Coinbase (confirmers min p key)
      else confirmers min p key := by
  ext c
  by_cases h : min * 2 ≤ x.LoopInfo.length ∧ stringsJoin x.LoopInfo ":" = key
  · rw [if_pos h]
    simp only [mem_confirmers, Finset.mem_insert, List.mem_append, List.mem_singleton]
    constructor
    · rintro ⟨y, hy | hy, h1, h2, h3⟩
      · exact Or.inr ⟨y, hy, h1, h2, h3⟩
      · subst hy; exact Or.inl h3.symm
    · rintro (hc | ⟨y, hy, h1, h2, h3⟩)
      · exact ⟨x, Or.inr rfl, h.1, h.2, hc.symm⟩
      · exact ⟨y, Or.inl hy, h1, h2, h3⟩
  · rw [if_neg h]
    simp only [mem_confirmers, List.mem_append, List.mem_singleton]
    constructor
    · rintro ⟨y, hy | hy, h1, h2, h3⟩
      · exact ⟨y, hy, h1, h2, h3⟩
      · subst hy; exact absurd ⟨h1, h2⟩ h
    · rintro ⟨y, hy, h1, h2, h3⟩
      exact ⟨y, Or.inl hy, h1, h2, h3⟩

theorem confirmers_mono (min : Nat) (p q : List SCConfirmation) (key : String) :
    confirmers min p key ⊆ confirmers min (p ++ q) key := by
  intro c hc
  rw [mem_confirmers] at hc ⊢
  obtain ⟨x, hx, h⟩ := hc
  exact ⟨x, List.mem_append_left q hx, h⟩

theorem scanConfirm_new (unmarshalText : String → Option Int) (min : Nat)
    (acc : Nat × GoMap String (GoMap Address Bool)) (x : SCConfirmation)
    (hq : min * 2 ≤ x.LoopInfo.length) (h2 : 2 ≤ x.LoopInfo.length)
    (hc : ¬ (((acc.2.lookup (stringsJoin x.LoopInfo ":")).getD ∅).lookup
      x.Coinbase).isSome = true) :
    scanConfirm unmarshalText min acc x =
      some ((if min ≤ (((acc.2.lookup (stringsJoin x.LoopInfo ":")).getD ∅).insert
            x.Coinbase true).entries.length then
          match unmarshalText (x.LoopInfo.getD (x.LoopInfo.length - 2) "") with
          | some t => if acc.1 < bigUint64 t then bigUint64 t else acc.1
          | none => acc.1
        else acc.1),
        acc.2.insert (stringsJoin x.LoopInfo ":")
          (((acc.2.lookup (stringsJoin x.LoopInfo ":")).getD ∅).insert x.Coinbase true)) := by
  unfold scanConfirm
  rw [if_pos hq, if_neg hc]
  by_cases hsz : min ≤ (((acc.2.lookup (stringsJoin x.LoopInfo ":")).getD ∅).insert
      x.Coinbase true).entries.length
  · rw [if_pos hsz, if_pos hsz, if_neg (by omega)]
    cases unmarshalText (x.LoopInfo.getD (x.LoopInfo.length - 2) "") with
    | none => rfl
    | some t =>
      simp only
      split_ifs <;> rfl
  · rw [if_neg hsz, if_neg hsz]

theorem scanConfirm_step (unmarshalText : String → Option Int) (min : Nat) (h1 : 1 ≤ min)
    (keyL : String) (n lcn : Nat) (hn : lcn < n) (hn64 : n < 2 ^ 64)
    (p : List SCConfirmation) (acc : Nat × GoMap String (GoMap Address Bool))
    (x : SCConfirmation) (hinv : ScanInvariant min keyL n lcn p acc)
    (hsame : min * 2 ≤ x.LoopInfo.length → stringsJoin x.LoopInfo ":" = keyL →
      unmarshalText (x.LoopInfo.getD (x.LoopInfo.length - 2) "") = some (n : Int))
    (hother : stringsJoin x.LoopInfo ":" ≠ keyL →
      (confirmers min (p ++ [x]) (stringsJoin x.LoopInfo ":")).card < min) :
    ∃ acc', scanConfirm unmarshalText min acc x = some acc'
      ∧ ScanInvariant min keyL n lcn (p ++ [x]) acc' := by
  obtain ⟨ha, hb, hv⟩ := hinv
  by_cases hq : min * 2 ≤ x.LoopInfo.length
  · by_cases hc : (((acc.2.lookup (stringsJoin x.LoopInfo ":")).getD ∅).lookup
        x.Coinbase).isSome = true
    · refine ⟨acc, ?_, ?_⟩
      · unfold scanConfirm
        rw [if_pos hq, if_pos hc]
      · have hmem := (ha _ _).1 hc
        have hsame_set : ∀ k, confirmers min (p ++ [x]) k = confirmers min p k := by
          intro k
          rw [confirmers_append_singleton]
          by_cases hk : min * 2 ≤ x.LoopInfo.length ∧ stringsJoin x.LoopInfo ":" = k
          · rw [if_pos hk, ← hk.2, Finset.insert_eq_of_mem hmem]
          · rw [if_neg hk]
        refine ⟨?_, ?_, ?_⟩
        · intro k c; rw [hsame_set]; exact ha k c
        · intro k; rw [hsame_set]; exact hb k
        · rw [hsame_set]; exact hv
    · have hnot : x.Coinbase ∉ confirmers min p (stringsJoin x.LoopInfo ":") :=
        fun h => hc ((ha _ _).2 h)
      have hset : confirmers min (p ++ [x]) (stringsJoin x.LoopInfo ":")
          = insert x.Coinbase (confirmers min p (stringsJoin x.LoopInfo ":")) := by
        rw [confirmers_append_singleton, if_pos ⟨hq, rfl⟩]
      have hset_other : ∀ k, k ≠ stringsJoin x.LoopInfo ":" →
          confirmers min (p ++ [x]) k = confirmers min p k := by
        intro k hk
        rw [confirmers_append_singleton, if_neg (fun h => hk h.2.symm)]
      have hlen : (((acc.2.lookup (stringsJoin x.LoopInfo ":")).getD ∅).insert
          x.Coinbase true).entries.length
          = (confirmers min (p ++ [x]) (stringsJoin x.LoopInfo ":")).card := by
        rw [AList.insert_entries_of_neg (by
          rw [← AList.lookup_isSome]; exact hc)]
        rw [hset, Finset.card_insert_of_not_mem hnot, List.length_cons, hb]
      refine ⟨_, scanConfirm_new unmarshalText min acc x hq (by omega) hc, ?_, ?_, ?_⟩
      · intro k c
        simp only [lookup_insert_eq]
        by_cases hk : k = stringsJoin x.LoopInfo ":"
        · subst hk
          simp only [if_true, Option.getD_some, lookup_insert_eq, hset, Finset.mem_insert]
          by_cases hcc : c = x.Coinbase
          · subst hcc; simp
          · simp only [hcc, if_false, false_or]; exact ha _ c
        · simp only [hk, if_false]
          rw [hset_other k hk]; exact ha k c
      · intro k
        simp only [lookup_insert_eq]
        by_cases hk : k = stringsJoin x.LoopInfo ":"
        · subst hk
          simp only [if_true, Option.getD_some]
          exact hlen
        · simp only [hk, if_false]
          rw [hset_other k hk]; exact hb k
      · show (if min ≤ (((acc.2.lookup (stringsJoin x.LoopInfo ":")).getD ∅).insert
              x.Coinbase true).entries.length then
            match unmarshalText (x.LoopInfo.getD (x.LoopInfo.length - 2) "") with
            | some t => if acc.1 < bigUint64 t then bigUint64 t else acc.1
            | none => acc.1
          else acc.1) = _
        rw [hlen]
        by_cases hkL : stringsJoin x.LoopInfo ":" = keyL
        · rw [hsame hq hkL]
          have hbig : bigUint64 (n : Int) = n := by
            unfold bigUint64
            rw [Int.natAbs_ofNat]
            exact Nat.mod_eq_of_lt hn64
          simp only [hbig]
          rw [← hkL]
          by_cases hsz : min ≤ (confirmers min (p ++ [x]) (stringsJoin x.LoopInfo ":")).card
          · rw [if_pos hsz, if_pos hsz, hv]
            split_ifs <;> omega
          · rw [if_neg hsz, if_neg hsz, hv, ← hkL, if_neg]
            rw [hset, Finset.card_insert_of_not_mem hnot] at hsz
            omega
        · have hlt := hother hkL
          rw [if_neg (by omega), hv, hset_other keyL (fun h => hkL h.symm)]
  · refine ⟨acc, ?_, ?_⟩
    · unfold scanConfirm
      rw [if_neg hq]
    · have hsame_set : ∀ k, confirmers min (p ++ [x]) k = confirmers min p k := by
        intro k
        rw [confirmers_append_singleton, if_neg (fun h => hq h.1)]
      refine ⟨?_, ?_, ?_⟩
      · intro k c; rw [hsame_set]; exact ha k c
      · intro k; rw [hsame_set]; exact hb k
      · rw [hsame_set]; exact hv

theorem foldlM_scanConfirm (unmarshalText : String → Option Int) (min : Nat) (h1 : 1 ≤ min)
    (keyL : String) (n lcn : Nat) (hn : lcn < n) (hn64 : n < 2 ^ 64)
    (rest p : List SCConfirmation) (acc : Nat × GoMap String (GoMap Address Bool))
    (hinv : ScanInvariant min keyL n lcn p acc)
    (hsame : ∀ x ∈ rest, min * 2 ≤ x.LoopInfo.length → stringsJoin x.LoopInfo ":" = keyL →
      unmarshalText (x.LoopInfo.getD (x.LoopInfo.length - 2) "") = some (n : Int))
    (hother : ∀ x ∈ rest, stringsJoin x.LoopInfo ":" ≠ keyL →
      (confirmers min (p ++ rest) (stringsJoin x.LoopInfo ":")).card < min) :
    ∃ acc', rest.foldlM (scanConfirm unmarshalText min) acc = some acc'
      ∧ ScanInvariant min keyL n lcn (p ++ rest) acc' := by
  induction rest generalizing p acc with
  | nil => exact ⟨acc, rfl, by simpa using hinv⟩
  | cons x rest ih =>
    have hstep := scanConfirm_step unmarshalText min h1 keyL n lcn hn hn64 p acc x hinv
      (hsame x (List.mem_cons_self _ _))
      (fun hk => lt_of_le_of_lt
        (Finset.card_le_card (by
          have := confirmers_mono min (p ++ [x]) rest (stringsJoin x.LoopInfo ":")
          simpa using this))
        (hother x (List.mem_cons_self _ _) hk))
    obtain ⟨acc1, hs1, hinv1⟩ := hstep
    obtain ⟨acc2, hs2, hinv2⟩ := ih (p ++ [x]) acc1 hinv1
      (fun y hy => hsame y (List.mem_cons_of_mem _ hy))
      (fun y hy hk => by
        have := hother y (List.mem_cons_of_mem _ hy) hk
        simpa using this)
    refine ⟨acc2, ?_, by simpa using hinv2⟩
    rw [List.foldlM_cons, hs1]
    exact hs2

theorem foldlM_scanConfirm_some (unmarshalText : String → Option Int) (min : Nat)
    (h1 : 1 ≤ min) (l : List SCConfirmation)
    (acc : Nat × GoMap String (GoMap Address Bool)) :
    ∃ acc', l.foldlM (scanConfirm unmarshalText min) acc = some acc' := by
  induction l generalizing acc with
  | nil => exact ⟨acc, rfl⟩
  | cons x rest ih =>
    have : ∃ acc1, scanConfirm unmarshalText min acc x = some acc1 := by
      unfold scanConfirm
      by_cases hq : min * 2 ≤ x.LoopInfo.length
      · rw [if_pos hq]
        split
        · exact ⟨_, rfl⟩
        · split
          · rw [if_neg (by omega)]
            split
            · split
              · exact ⟨_, rfl⟩
              · exact ⟨_, rfl⟩
            · exact ⟨_, rfl⟩
          · exact ⟨_, rfl⟩
      · rw [if_neg hq]; exact ⟨_, rfl⟩
    obtain ⟨acc1, hs1⟩ := this
    obtain ⟨acc2, hs2⟩ := ih acc1
    exact ⟨acc2, by rw [List.foldlM_cons, hs1]; exact hs2⟩

theorem lookup_foldl_erase_keys {V : Type} (l : List Nat) (m : GoMap Nat V) (i : Nat) :
    (l.foldl (fun m i => m.erase i) m).lookup i = if i ∈ l then none else m.lookup i := by
  induction l generalizing m with
  | nil => simp
  | cons a l ih =>
    rw [List.foldl_cons, ih, lookup_erase_eq]
    by_cases h1 : i ∈ l
    · simp [h1]
    · by_cases h2 : i = a
      · subst h2; simp [h1]
      · simp [h1, h2]

/-- A side-chain confirmation whose number field does not parse leaves the body of the loop
through `continue`: the refresh of the predecessor votes, which the same transaction
receives with its payload emptied, is skipped. -/
theorem malformed_sc_confirm_skips_refresh :
    (processCustomTx sampleEngine emptyExtra 10
        (.ok { emptySnapshot with Voters := AList.insert 7 1 ∅ }) (uniformState 5)
        [{ sampleTx 1 "ufo:1:sc:confirm:01:x:1:a#b:" with Value := 3 }] []).bundle
      = some emptyExtra
    ∧ (processCustomTx sampleEngine emptyExtra 10
        (.ok { emptySnapshot with Voters := AList.insert 7 1 ∅ }) (uniformState 5)
        [{ sampleTx 1 "" with Value := 3 }] []).bundle
      = some { emptyExtra with ModifyPredecessorVotes := [⟨7, 0, 5⟩] } := by
  constructor <;> decide

/-! ## The payout streams never collide at period 10 -/

theorem payStream_interval_injective (a b : PayStream)
    (h : a.interval / 10 = b.interval / 10) : a = b := by
  revert h
  cases a <;> cases b <;> decide

theorem some_bool_cases (b : Bool) :
    (some b = some true) ∨ (some b = some false) := by
  cases b <;> simp

theorem payStream_returns_ten (st : PayStream) (h : Nat) :
    st.isDue h 10 = some true ∨ st.isDue h 10 = some false := by
  have hday : secondsPerDay / 10 = 8640 := by decide
  have h30 : utgLockRewardInterval * 8640 = 259200 := by decide
  cases st
  all_goals
    simp only [PayStream.isDue, isPaySignerRewards, isPayFlowRewards, isPayBandWidthRewards,
      isPayPosPledgeExit, isPayPosExit, isPaySTPEntrustExit, isPaySTPEntrust, isPaySpReWard,
      isPaySpEntrustReWard, isPaySpExit, isPaySpEntrustExit, isPayStorageStream, hday, h30]
    repeat' split
    all_goals first
      | exact some_bool_cases _
      | omega

theorem payStream_due_ten (st : PayStream) (h : Nat) (hd : st.isDue h 10 = some true) :
    (if h < initStorageManagerNumber then h % 8640 else h % 259200) = st.interval / 10 := by
  have hday : secondsPerDay / 10 = 8640 := by decide
  have h30 : utgLockRewardInterval * 8640 = 259200 := by decide
  have hinit : initStorageManagerNumber = 5173314 := rfl
  by_cases hlt : h < initStorageManagerNumber
  · have hge : ¬ initStorageManagerNumber ≤ h := by omega
    rw [if_pos hlt]
    cases st
    all_goals
      simp only [PayStream.isDue, isPaySignerRewards, isPayFlowRewards, isPayBandWidthRewards,
        isPayPosPledgeExit, isPayPosExit, isPaySTPEntrustExit, isPaySTPEntrust, isPaySpReWard,
        isPaySpEntrustReWard, isPaySpExit, isPaySpEntrustExit, isPayStorageStream,
        isGEInitStorageManagerNumber, hday, h30, hlt, hge, if_true, if_false, decide_False,
        Bool.false_eq_true] at hd
    all_goals
      try split_ifs at hd
      all_goals first
        | (simp only [Option.some.injEq, decide_eq_true_eq] at hd
           first
             | exact hd
             | exact hd.1.symm)
        | cases hd
  · have hge : initStorageManagerNumber ≤ h := by omega
    rw [if_neg hlt]
    cases st
    all_goals
      simp only [PayStream.isDue, isPaySignerRewards, isPayFlowRewards, isPayBandWidthRewards,
        isPayPosPledgeExit, isPayPosExit, isPaySTPEntrustExit, isPaySTPEntrust, isPaySpReWard,
        isPaySpEntrustReWard, isPaySpExit, isPaySpEntrustExit, isPayStorageStream,
        isGEInitStorageManagerNumber, hday, h30, hlt, hge, if_true, if_false, decide_True] at hd
    all_goals
      try split_ifs at hd
      all_goals
        simp only [Option.some.injEq, decide_eq_true_eq] at hd
        exact hd

/-- C36: with period 10, at every height each of the eleven payout predicates returns, and
at most one of them is true: two streams that are both due are the same stream. Hence the
chain of tests in `calPayProfit` pays a due stream whose lock table is there, whichever
streams come before it in the chain. -/
theorem payout_streams_exclusive (h : Nat) (a b : PayStream) (present : PayStream → Bool)
    (ha : a.isDue h 10 = some true) :
    (∀ st : PayStream, st.isDue h 10 = some true ∨ st.isDue h 10 = some false) ∧
    (b.isDue h 10 = some true → a = b) ∧
    (h ≠ 0 → (!a.guarded || present a) = true →
      calPayProfitStream present h 10 = some (some a)) := by
  have hex : ∀ st : PayStream, st.isDue h 10 = some true → a = st := by
    intro st hst
    apply payStream_interval_injective
    rw [← payStream_due_ten a h ha, ← payStream_due_ten st h hst]
  refine ⟨fun st => payStream_returns_ten st h, hex b, ?_⟩
  intro h0 hp
  have hstep : ∀ st : PayStream, st ≠ a → st.isDue h 10 = some false := by
    intro st hne
    rcases payStream_returns_ten st h with h1 | h1
    · exact absurd (hex st h1).symm hne
    · exact h1
  unfold calPayProfitStream
  rw [if_neg h0]
  have hchain : ∀ l : List PayStream, a ∈ l →
      payChain present h 10 l = some (some a) := by
    intro l
    induction l with
    | nil => intro hm; simp at hm
    | cons st rest ih =>
      intro hm
      by_cases hst : st = a
      · subst hst
        simp only [payChain, ha, hp, if_true]
      · have hr : a ∈ rest := by
          rcases List.mem_cons.mp hm with e | e
          · exact absurd e.symm hst
          · exact e
        simp only [payChain, hstep st hst]
        exact ih hr
  apply hchain
  cases a <;> decide

theorem payout_streams_exclusive_witness :
    PayStream.isDue .FlowLock 5184900 10 = some true ∧
    (∀ st : PayStream, st.isDue 5184900 10 = some true ∨ st.isDue 5184900 10 = some false) ∧
    (PayStream.isDue .SpLock 5184900 10 = some true → PayStream.FlowLock = PayStream.SpLock) ∧
    (5184900 ≠ 0 → (!PayStream.guarded .FlowLock || true) = true →
      calPayProfitStream (fun _ => true) 5184900 10 = some (some .FlowLock)) :=
  ⟨by decide, payout_streams_exclusive 5184900 .FlowLock .SpLock (fun _ => true) (by decide)⟩

/-! ## Scheduled pledge payouts -/

theorem lookup_grantPledgeStep (pledges : GoMap Address PledgeItem) (item : GrantProfitRecord)
    (a : Address) :
    (grantPledgeStep pledges item).lookup a =
      if a = item.MinerAddress then
        match pledges.lookup item.MinerAddress with
        | some pledge =>
          if pledge.Amount ≤ pledge.Playment + item.Amount then none
          else some { pledge with Playment := pledge.Playment + item.Amount }
        | none => none
      else pledges.lookup a := by
  unfold grantPledgeStep
  cases hl : pledges.lookup item.MinerAddress with
  | none =>
    by_cases ha : a = item.MinerAddress
    · rw [if_pos ha, ha, hl]
    · rw [if_neg ha]
  | some pledge =>
    by_cases hle : pledge.Amount ≤ pledge.Playment + item.Amount
    · simp only [if_pos hle, lookup_erase_eq]
    · simp only [if_neg hle, lookup_insert_eq]

/-- A payout table keeps what the fold of `updateGrantProfit` keeps: a relation between the
pledge stored before and the pledge stored afterwards. -/
theorem grantPledgeStep_keeps (pledges : GoMap Address PledgeItem) (item : GrantProfitRecord)
    (a : Address) (p1 : PledgeItem) (h : (grantPledgeStep pledges item).lookup a = some p1) :
    ∃ p, pledges.lookup a = some p ∧ p1.Amount = p.Amount ∧
      (p1.Playment = p.Playment ∨ p1.Playment = p.Playment + item.Amount) ∧
      (p.Playment < p.Amount → p1.Playment < p1.Amount) := by
  rw [lookup_grantPledgeStep] at h
  by_cases ha : a = item.MinerAddress
  · rw [if_pos ha] at h
    cases hl : pledges.lookup item.MinerAddress with
    | none => rw [hl] at h; cases h
    | some pledge =>
      rw [hl] at h
      simp only at h
      by_cases hle : pledge.Amount ≤ pledge.Playment + item.Amount
      · rw [if_pos hle] at h; cases h
      · rw [if_neg hle] at h
        have e := (Option.some.inj h).symm
        subst e
        refine ⟨pledge, ha ▸ hl, rfl, Or.inr rfl, fun _ => ?_⟩
        show pledge.Playment + item.Amount < pledge.Amount
        omega
  · rw [if_neg ha] at h
    exact ⟨p1, h, rfl, Or.inl rfl, fun hp => hp⟩

theorem grantProfitStep_keeps (snap : Snapshot) (item : GrantProfitRecord) :
    (∀ a p1, (grantProfitStep snap item).CandidatePledge.lookup a = some p1 →
      ∃ p, snap.CandidatePledge.lookup a = some p ∧ p1.Amount = p.Amount ∧
        (p1.Playment = p.Playment ∨ p1.Playment = p.Playment + item.Amount) ∧
        (p.Playment < p.Amount → p1.Playment < p1.Amount)) ∧
    (∀ a p1, (grantProfitStep snap item).FlowPledge.lookup a = some p1 →
      ∃ p, snap.FlowPledge.lookup a = some p ∧ p1.Amount = p.Amount ∧
        (p1.Playment = p.Playment ∨ p1.Playment = p.Playment + item.Amount) ∧
        (p.Playment < p.Amount → p1.Playment < p1.Amount)) := by
  unfold grantProfitStep
  split_ifs
  · exact ⟨fun a p1 h => grantPledgeStep_keeps _ item a p1 h,
      fun a p1 h => ⟨p1, h, rfl, Or.inl rfl, fun hp => hp⟩⟩
  · exact ⟨fun a p1 h => ⟨p1, h, rfl, Or.inl rfl, fun hp => hp⟩,
      fun a p1 h => grantPledgeStep_keeps _ item a p1 h⟩
  · exact ⟨fun a p1 h => ⟨p1, h, rfl, Or.inl rfl, fun hp => hp⟩,
      fun a p1 h => ⟨p1, h, rfl, Or.inl rfl, fun hp => hp⟩⟩
  · exact ⟨fun a p1 h => ⟨p1, h, rfl, Or.inl rfl, fun hp => hp⟩,
      fun a p1 h => ⟨p1, h, rfl, Or.inl rfl, fun hp => hp⟩⟩

theorem updateGrantProfit_keeps (grantProfit : List GrantProfitRecord) (snap : Snapshot) :
    (∀ a p1, (updateGrantProfit snap grantProfit).CandidatePledge.lookup a = some p1 →
      ∃ p, snap.CandidatePledge.lookup a = some p ∧ p1.Amount = p.Amount ∧
        ((∀ item ∈ grantProfit, 0 ≤ item.Amount) → p.Playment ≤ p1.Playment) ∧
        (p.Playment < p.Amount → p1.Playment < p1.Amount)) ∧
    (∀ a p1, (updateGrantProfit snap grantProfit).FlowPledge.lookup a = some p1 →
      ∃ p, snap.FlowPledge.lookup a = some p ∧ p1.Amount = p.Amount ∧
        ((∀ item ∈ grantProfit, 0 ≤ item.Amount) → p.Playment ≤ p1.Playment) ∧
        (p.Playment < p.Amount → p1.Playment < p1.Amount)) := by
  induction grantProfit generalizing snap with
  | nil =>
    exact ⟨fun a p1 h => ⟨p1, h, rfl, fun _ => le_refl _, fun hp => hp⟩,
      fun a p1 h => ⟨p1, h, rfl, fun _ => le_refl _, fun hp => hp⟩⟩
  | cons item rest ih =>
    have hstep := grantProfitStep_keeps snap item
    have hrest := ih (grantProfitStep snap item)
    constructor
    · intro a p1 h
      obtain ⟨p2, h2, e2, m2, i2⟩ := hrest.1 a p1 h
      obtain ⟨p, h3, e3, m3, i3⟩ := hstep.1 a p2 h2
      refine ⟨p, h3, e2.trans e3, fun hnn => ?_, fun hp => i2 (i3 hp)⟩
      have h0 : 0 ≤ item.Amount := hnn item (List.mem_cons_self _ _)
      have h1 : p2.Playment ≤ p1.Playment :=
        m2 (fun it hit => hnn it (List.mem_cons_of_mem _ hit))
      rcases m3 with e | e <;> omega
    · intro a p1 h
      obtain ⟨p2, h2, e2, m2, i2⟩ := hrest.2 a p1 h
      obtain ⟨p, h3, e3, m3, i3⟩ := hstep.2 a p2 h2
      refine ⟨p, h3, e2.trans e3, fun hnn => ?_, fun hp => i2 (i3 hp)⟩
      have h0 : 0 ≤ item.Amount := hnn item (List.mem_cons_self _ _)
      have h1 : p2.Playment ≤ p1.Playment :=
        m2 (fun it hit => hnn it (List.mem_cons_of_mem _ hit))
      rcases m3 with e | e <;> omega

/-- C34: a payout record with `BlockNumber` 0 whose miner holds a candidate pledge
(`Which = sscEnumCndLock`) or a flow pledge (`Which = sscEnumFlwLock`) adds its amount to
the `Playment` of that pledge, and the pledge is deleted exactly when the new `Playment` is
at least `Amount`. Over a whole record list, a pledge still stored afterwards was stored
before with the same `Amount`; with non-negative amounts its `Playment` has not decreased,
and if every stored pledge had `Playment < Amount` before, so has every pledge stored
afterwards. -/
theorem updateGrantProfit_playment (snap : Snapshot) (grantProfit : List GrantProfitRecord) :
    (∀ (s : Snapshot) (item : GrantProfitRecord) (pledge : PledgeItem),
      item.BlockNumber = 0 →
      (item.Which = sscEnumCndLock →
        s.CandidatePledge.lookup item.MinerAddress = some pledge →
        (updateGrantProfit s [item]).CandidatePledge.lookup item.MinerAddress =
          if pledge.Amount ≤ pledge.Playment + item.Amount then none
          else some { pledge with Playment := pledge.Playment + item.Amount }) ∧
      (item.Which = sscEnumFlwLock →
        s.FlowPledge.lookup item.MinerAddress = some pledge →
        (updateGrantProfit s [item]).FlowPledge.lookup item.MinerAddress =
          if pledge.Amount ≤ pledge.Playment + item.Amount then none
          else some { pledge with Playment := pledge.Playment + item.Amount })) ∧
    ((∀ item ∈ grantProfit, 0 ≤ item.Amount) →
      (∀ a p1, (updateGrantProfit snap grantProfit).CandidatePledge.lookup a = some p1 →
        ∃ p, snap.CandidatePledge.lookup a = some p ∧ p1.Amount = p.Amount ∧
          p.Playment ≤ p1.Playment) ∧
      (∀ a p1, (updateGrantProfit snap grantProfit).FlowPledge.lookup a = some p1 →
        ∃ p, snap.FlowPledge.lookup a = some p ∧ p1.Amount = p.Amount ∧
          p.Playment ≤ p1.Playment)) ∧
    ((∀ a p, snap.CandidatePledge.lookup a = some p ∨ snap.FlowPledge.lookup a = some p →
        p.Playment < p.Amount) →
      ∀ a p, (updateGrantProfit snap grantProfit).CandidatePledge.lookup a = some p ∨
          (updateGrantProfit snap grantProfit).FlowPledge.lookup a = some p →
        p.Playment < p.Amount) := by
  refine ⟨?_, ?_, ?_⟩
  · intro s item pledge hb
    constructor
    · intro hw hl
      simp only [updateGrantProfit, List.foldl, grantProfitStep, hb, hw, if_true,
        lookup_grantPledgeStep, hl]
    · intro hw hl
      have hne : ¬ sscEnumFlwLock = sscEnumCndLock := by decide
      simp only [updateGrantProfit, List.foldl, grantProfitStep, hb, if_true, hw, if_neg hne,
        lookup_grantPledgeStep, hl]
  · intro hnn
    have hk := updateGrantProfit_keeps grantProfit snap
    constructor
    · intro a p1 h
      obtain ⟨p, h1, e, m, _⟩ := hk.1 a p1 h
      exact ⟨p, h1, e, m hnn⟩
    · intro a p1 h
      obtain ⟨p, h1, e, m, _⟩ := hk.2 a p1 h
      exact ⟨p, h1, e, m hnn⟩
  · intro hinv a p1 h
    have hk := updateGrantProfit_keeps grantProfit snap
    rcases h with h | h
    · obtain ⟨p, h1, _, _, i⟩ := hk.1 a p1 h
      exact i (hinv a p (Or.inl h1))
    · obtain ⟨p, h1, _, _, i⟩ := hk.2 a p1 h
      exact i (hinv a p (Or.inr h1))

theorem updateGrantProfit_playment_witness :
    (updateGrantProfit payoutSnapshot [⟨sscEnumCndLock, 9, 0, 20, 0, 0, 0⟩]).CandidatePledge.lookup 9
        = some { NewPledgeItem 100 with Playment := 50 } ∧
    (updateGrantProfit payoutSnapshot [⟨sscEnumFlwLock, 9, 0, 10, 0, 0, 0⟩]).FlowPledge.lookup 9
        = none ∧
    (∀ a p, (updateGrantProfit payoutSnapshot
          [⟨sscEnumCndLock, 9, 0, 20, 0, 0, 0⟩, ⟨sscEnumFlwLock, 9, 0, 10, 0, 0, 0⟩]).CandidatePledge.lookup a
            = some p ∨
        (updateGrantProfit payoutSnapshot
          [⟨sscEnumCndLock, 9, 0, 20, 0, 0, 0⟩, ⟨sscEnumFlwLock, 9, 0, 10, 0, 0, 0⟩]).FlowPledge.lookup a
            = some p →
      p.Playment < p.Amount) := by
  have h := updateGrantProfit_playment payoutSnapshot
    [⟨sscEnumCndLock, 9, 0, 20, 0, 0, 0⟩, ⟨sscEnumFlwLock, 9, 0, 10, 0, 0, 0⟩]
  refine ⟨?_, ?_, h.2.2 ?_⟩
  · exact ((h.1 payoutSnapshot ⟨sscEnumCndLock, 9, 0, 20, 0, 0, 0⟩
      { NewPledgeItem 100 with Playment := 30 } rfl).1 rfl rfl).trans rfl
  · exact ((h.1 payoutSnapshot ⟨sscEnumFlwLock, 9, 0, 10, 0, 0, 0⟩
      { NewPledgeItem 50 with Playment := 40 } rfl).2 rfl rfl).trans rfl
  · intro a p hp
    have e1 : payoutSnapshot.CandidatePledge
        = AList.insert 9 { NewPledgeItem 100 with Playment := 30 } ∅ := rfl
    have e2 : payoutSnapshot.FlowPledge
        = AList.insert 9 { NewPledgeItem 50 with Playment := 40 } ∅ := rfl
    rw [e1, e2, lookup_insert_eq, lookup_insert_eq] at hp
    by_cases ha : a = 9
    · simp only [ha, if_true, Option.some.injEq] at hp
      rcases hp with e | e <;> (rw [← e]; decide)
    · simp only [ha, if_false] at hp
      rcases hp with e | e <;> cases e

/-! ## Expiry of votes -/

theorem uint64Sub_of_le (a b : Nat) (hb : b ≤ a) (ha : a < 2 ^ 64) :
    uint64Sub (uint64 a) (uint64 b) = a - b := by
  unfold uint64Sub uint64
  have h1 : a % 2 ^ 64 = a := Nat.mod_eq_of_lt ha
  have h2 : b % 2 ^ 64 = b := Nat.mod_eq_of_lt (by omega)
  rw [h1, h2, h2]
  omega

theorem collectExpiredVotes_eq (s : Snapshot) (order : List Address) (h : Nat)
    (hh : h < 2 ^ 64) (hvn : ∀ a n, s.Voters.lookup a = some n → n ≤ h) :
    collectExpiredVotes s order h =
      order.filterMap (fun a => if voteExpired s h a then s.Votes.lookup a else none) := by
  unfold collectExpiredVotes
  simp only
  apply List.filterMap_congr
  intro a _
  unfold voteExpired
  cases h1 : s.Voters.lookup a with
  | none => simp
  | some n =>
    cases h2 : s.Votes.lookup a with
    | none => simp
    | some v =>
      have hn := hvn a n h1
      have hu : uint64 h = h := Nat.mod_eq_of_lt hh
      have hm : maxUncheckBalanceVoteCount = 10000 := rfl
      have hs := uint64Sub_of_le h n hn hh
      rw [hu] at hs
      simp only [isExpiredVote, hu, hs, hm]
      by_cases hp : h < PosNewEffectNumber
      · have hp2 : ¬ PosNewEffectNumber ≤ h := by omega
        simp only [if_pos hp, if_neg hp2]
      · have hp2 : PosNewEffectNumber ≤ h := by omega
        simp only [if_neg hp, if_pos hp2]

theorem foldl_expireStep_lookup (h : Nat) (evs : List Vote) (s : Snapshot) (a : Address) :
    (evs.foldl (expireStep h) s).Votes.lookup a
        = (if a ∈ evs.map (fun v => v.Voter) then none else s.Votes.lookup a) ∧
    (evs.foldl (expireStep h) s).Voters.lookup a
        = (if a ∈ evs.map (fun v => v.Voter) then none else s.Voters.lookup a) := by
  induction evs generalizing s with
  | nil => simp
  | cons ev evs ih =>
    rw [List.foldl_cons]
    obtain ⟨i1, i2⟩ := ih (expireStep h s ev)
    rw [i1, i2]
    simp only [expireStep, lookup_erase_eq, List.map_cons, List.mem_cons]
    by_cases h1 : a ∈ evs.map (fun v => v.Voter)
    · simp [h1]
    · by_cases h2 : a = ev.Voter
      · simp [h2]
      · simp [h1, h2]

theorem length_erase_of_lookup {V : Type} (m : GoMap Address V) (a : Address)
    (ha : (m.lookup a).isSome = true) :
    (m.erase a).entries.length + 1 = m.entries.length := by
  have hk : a ∈ m.keys := by
    rw [← AList.mem_keys, ← AList.lookup_isSome]
    exact ha
  have e1 : (m.erase a).entries.length = (m.erase a).keys.length := by
    simp [AList.keys, List.keys]
  have e2 : m.entries.length = m.keys.length := by
    simp [AList.keys, List.keys]
  rw [e1, e2, AList.keys_erase, List.length_erase_of_mem hk]
  have : 0 < m.keys.length := List.length_pos_of_mem hk
  omega

theorem foldl_expireStep_length (h : Nat) (evs : List Vote) (s : Snapshot)
    (hnd : (evs.map (fun v => v.Voter)).Nodup)
    (hin : ∀ ev ∈ evs, (s.Voters.lookup ev.Voter).isSome = true) :
    (evs.foldl (expireStep h) s).Voters.entries.length + evs.length
      = s.Voters.entries.length := by
  induction evs generalizing s with
  | nil => simp
  | cons ev evs ih =>
    rw [List.foldl_cons]
    rw [List.map_cons, List.nodup_cons] at hnd
    have h1 := length_erase_of_lookup s.Voters ev.Voter (hin ev (List.mem_cons_self _ _))
    have h2 := ih (expireStep h s ev) hnd.2 (by
      intro ev1 hev1
      have hne : ev1.Voter ≠ ev.Voter := by
        intro e
        apply hnd.1
        rw [← e]
        exact List.mem_map_of_mem (fun v => v.Voter) hev1
      simp only [expireStep, lookup_erase_eq, if_neg hne]
      exact hin ev1 (List.mem_cons_of_mem _ hev1))
    have h3 : (expireStep h s ev).Voters = s.Voters.erase ev.Voter := rfl
    rw [h3] at h2
    rw [List.length_cons]
    omega

theorem voteExpired_recorded (s : Snapshot) (h : Nat) (a : Address)
    (hp : voteExpired s h a = true) :
    (∃ n, s.Voters.lookup a = some n) ∧ (∃ v, s.Votes.lookup a = some v) := by
  unfold voteExpired at hp
  cases h1 : s.Voters.lookup a with
  | none => simp [h1] at hp
  | some n =>
    cases h2 : s.Votes.lookup a with
    | none => simp [h1, h2] at hp
    | some v => exact ⟨⟨n, rfl⟩, ⟨v, rfl⟩⟩

theorem length_filterMap_of_isSome {α β : Type} (f : α → Option β) (p : α → Bool)
    (hfp : ∀ a, (f a).isSome = p a) (l : List α) :
    (l.filterMap f).length = (l.filter p).length := by
  induction l with
  | nil => rfl
  | cons a l ih =>
    have h := hfp a
    cases hf : f a with
    | none =>
      rw [hf] at h
      rw [List.filterMap_cons_none hf, List.filter_cons_of_neg (by simp [← h]), ih]
    | some b =>
      rw [hf] at h
      rw [List.filterMap_cons_some hf, List.filter_cons_of_pos (by simp [← h]),
        List.length_cons, List.length_cons, ih]

theorem mem_collectExpiredVotes (s : Snapshot) (order : List Address) (h : Nat)
    (hh : h < 2 ^ 64) (hvn : ∀ a n, s.Voters.lookup a = some n → n ≤ h) (v : Vote) :
    v ∈ collectExpiredVotes s order h ↔
      ∃ a, a ∈ order ∧ voteExpired s h a = true ∧ s.Votes.lookup a = some v := by
  rw [collectExpiredVotes_eq s order h hh hvn, List.mem_filterMap]
  constructor
  · rintro ⟨a, ha, hf⟩
    by_cases hp : voteExpired s h a = true
    · rw [if_pos hp] at hf
      exact ⟨a, ha, hp, hf⟩
    · rw [if_neg hp] at hf
      cases hf
  · rintro ⟨a, ha, hp, hf⟩
    exact ⟨a, ha, by rw [if_pos hp]; exact hf⟩

theorem lookup_foldl_erase_if {K V : Type} [DecidableEq K] (p : K → V → Bool) (k : K)
    (l : List (Sigma (fun _ : K => V))) (acc : GoMap K V) :
    (l.foldl (fun acc e => if p e.1 e.2 then acc.erase e.1 else acc) acc).lookup k
      = if l.any (fun e => decide (e.1 = k) && p e.1 e.2) then none else acc.lookup k := by
  induction l generalizing acc with
  | nil => simp
  | cons e l ih =>
    rw [List.foldl_cons, ih, List.any_cons]
    by_cases h1 : l.any (fun e => decide (e.1 = k) && p e.1 e.2) = true
    · simp [h1]
    · simp only [h1, Bool.or_false, Bool.false_eq_true, if_false]
      by_cases h2 : p e.1 e.2 = true
      · rw [if_pos h2, lookup_erase_eq]
        by_cases h3 : k = e.1
        · subst h3; simp [h2]
        · have h4 : ¬ e.1 = k := fun x => h3 x.symm
          simp [h3, h4]
      · rw [if_neg h2]
        simp only [Bool.not_eq_true] at h2
        simp [h2]

theorem lookup_deleteWhere {K V : Type} [DecidableEq K] (p : K → V → Bool) (m : GoMap K V)
    (k : K) :
    (deleteWhere p m).lookup k =
      match m.lookup k with
      | some v => if p k v then none else some v
      | none => none := by
  unfold deleteWhere
  rw [lookup_foldl_erase_if]
  cases hl : m.lookup k with
  | none =>
    simp only
    split_ifs <;> rfl
  | some v =>
    simp only
    have hmem : (⟨k, v⟩ : Sigma (fun _ : K => V)) ∈ m.entries := AList.mem_lookup_iff.mp hl
    by_cases hp : p k v = true
    · rw [if_pos hp, if_pos]
      rw [List.any_eq_true]
      exact ⟨⟨k, v⟩, hmem, by simp [hp]⟩
    · rw [if_neg hp, if_neg]
      rw [List.any_eq_true]
      rintro ⟨⟨k1, v1⟩, hm1, h1⟩
      simp only [Bool.and_eq_true, decide_eq_true_eq] at h1
      obtain ⟨e1, hp1⟩ := h1
      subst e1
      have : m.lookup k1 = some v1 := AList.mem_lookup_iff.mpr hm1
      rw [hl] at this
      cases this
      exact hp hp1

theorem expireStep_tally (h : Nat) (s : Snapshot) (v : Vote) (c : Address) :
    (expireStep h s v).Tally.lookup c =
      if c = v.Candidate then
        match s.Tally.lookup c with
        | some t =>
          if (if PosNewEffectNumber ≤ uint64 h then decide (t - v.Stake < 0)
              else decide (t - v.Stake = 0)) = true then none
          else some (t - v.Stake)
        | none => none
      else s.Tally.lookup c := by
  unfold expireStep
  simp only
  by_cases hc : c = v.Candidate
  · subst hc
    rw [if_pos rfl]
    cases hl : s.Tally.lookup v.Candidate with
    | none => simp only [hl]
    | some t =>
      simp only
      by_cases hp : PosNewEffectNumber ≤ uint64 h
      · simp only [hp, if_true]
        by_cases h1 : t - v.Stake < 0
        · simp [h1, lookup_erase_eq]
        · simp [h1, lookup_insert_eq]
      · simp only [hp, if_false]
        by_cases h1 : t - v.Stake = 0
        · simp [h1, lookup_erase_eq]
        · simp [h1, lookup_insert_eq]
  · rw [if_neg hc]
    cases hl : s.Tally.lookup v.Candidate with
    | none => rfl
    | some t =>
      simp only
      split_ifs <;> simp [lookup_erase_eq, lookup_insert_eq, hc]

theorem stakeTo_nonneg (l : List Vote) (hl : ∀ v ∈ l, 0 ≤ v.Stake) (c : Address) :
    0 ≤ ((l.filter (fun v => decide (v.Candidate = c))).map (fun v => v.Stake)).sum := by
  apply List.sum_nonneg
  intro x hx
  obtain ⟨v, hv, e⟩ := List.mem_map.mp hx
  rw [← e]
  exact hl v (List.mem_of_mem_filter hv)

theorem foldl_expireStep_tally (h : Nat) (hh : h < 2 ^ 64) (c : Address) (l : List Vote)
    (hl : ∀ v ∈ l, 0 ≤ v.Stake) (s : Snapshot) :
    (∀ t1, (l.foldl (expireStep h) s).Tally.lookup c = some t1 →
      ∃ t, s.Tally.lookup c = some t ∧
        t1 = t - ((l.filter (fun v => decide (v.Candidate = c))).map (fun v => v.Stake)).sum) ∧
    ((l.foldl (expireStep h) s).Tally.lookup c = none →
      ∀ t, s.Tally.lookup c = some t →
        tallyKept h
          (t - ((l.filter (fun v => decide (v.Candidate = c))).map (fun v => v.Stake)).sum)
          = false) := by
  have hu : uint64 h = h := Nat.mod_eq_of_lt hh
  induction l generalizing s with
  | nil =>
    constructor
    · intro t1 h1
      exact ⟨t1, h1, by simp⟩
    · intro h1 t ht
      rw [List.foldl_nil] at h1
      rw [h1] at ht
      cases ht
  | cons v l ih =>
    have ih1 := ih (fun x hx => hl x (List.mem_cons_of_mem _ hx)) (expireStep h s v)
    have hnn := stakeTo_nonneg l (fun x hx => hl x (List.mem_cons_of_mem _ hx)) c
    have hstep := expireStep_tally h s v c
    rw [hu] at hstep
    rw [List.foldl_cons]
    by_cases hc : c = v.Candidate
    · have hsum : (((v :: l).filter (fun v => decide (v.Candidate = c))).map
          (fun v => v.Stake)).sum
          = v.Stake + ((l.filter (fun v => decide (v.Candidate = c))).map
              (fun v => v.Stake)).sum := by
        rw [List.filter_cons_of_pos (by simp [hc]), List.map_cons, List.sum_cons]
      rw [hsum]
      rw [if_pos hc] at hstep
      constructor
      · intro t1 h1
        obtain ⟨t0, ht0, e⟩ := ih1.1 t1 h1
        rw [hstep] at ht0
        cases hs : s.Tally.lookup c with
        | none => rw [hs] at ht0; cases ht0
        | some t =>
          rw [hs] at ht0
          simp only at ht0
          split_ifs at ht0
          all_goals
            have e := Option.some.inj ht0
            exact ⟨t, rfl, by omega⟩
      · intro h1 t ht
        rw [ht] at hstep
        simp only at hstep
        cases hs1 : (expireStep h s v).Tally.lookup c with
        | some t0 =>
          have := ih1.2 h1 t0 hs1
          rw [hs1] at hstep
          split_ifs at hstep
          all_goals
            cases hstep
            rw [sub_add_eq_sub_sub]
            exact this
        | none =>
          rw [hs1] at hstep
          unfold tallyKept
          by_cases hp : PosNewEffectNumber ≤ h
          · rw [if_pos hp] at hstep
            rw [if_neg (by omega)]
            by_cases hd : t - v.Stake < 0
            · simp only [decide_eq_false_iff_not, not_le]
              omega
            · simp [hd] at hstep
          · rw [if_neg hp] at hstep
            rw [if_pos (by omega)]
            by_cases hd : t - v.Stake = 0
            · simp only [decide_eq_false_iff_not, not_lt]
              omega
            · simp [hd] at hstep
    · have hsum : (((v :: l).filter (fun v => decide (v.Candidate = c))).map
          (fun v => v.Stake)).sum
          = ((l.filter (fun v => decide (v.Candidate = c))).map (fun v => v.Stake)).sum := by
        rw [List.filter_cons_of_neg (by simp; exact fun e => hc e.symm)]
      rw [hsum]
      rw [if_neg hc] at hstep
      rw [hstep] at ih1
      exact ih1

theorem sum_filter_expired (q : Address → Bool) (c : Address)
    (es : List (Sigma (fun _ : Address => Vote))) :
    ((es.filter (fun e => q e.1 && decide (e.2.Candidate = c))).map (fun e => e.2.Stake)).sum
      = ((((es.filter (fun e => q e.1)).map (fun e => e.2)).filter
          (fun v => decide (v.Candidate = c))).map (fun v => v.Stake)).sum := by
  induction es with
  | nil => rfl
  | cons e es ih =>
    by_cases h1 : q e.1 = true
    · by_cases h2 : e.2.Candidate = c
      · simp only [List.filter_cons, h1, h2, Bool.and_self, decide_True, if_true, List.map_cons,
          List.sum_cons, ih]
      · simp only [List.filter_cons, h1, h2, Bool.and_false, decide_False, Bool.true_and,
          Bool.false_eq_true, if_false, if_true, List.map_cons, ih]
    · simp only [Bool.not_eq_true] at h1
      simp only [List.filter_cons, h1, Bool.false_and, Bool.false_eq_true, if_false, ih]

theorem collectExpiredVotes_stake (order : List Address) (s : Snapshot) (h : Nat)
    (hperm : order.Perm s.Voters.keys) (hK : VotesKeyed s) (hh : h < 2 ^ 64)
    (hvn : ∀ a n, s.Voters.lookup a = some n → n ≤ h) (c : Address) :
    (((collectExpiredVotes s order h).filter (fun v => decide (v.Candidate = c))).map
        (fun v => v.Stake)).sum = expiredStake s h c := by
  unfold expiredStake
  rw [sum_filter_expired (voteExpired s h) c s.Votes.entries]
  apply List.Perm.sum_eq
  apply List.Perm.map
  apply List.Perm.filter
  have hnd1 : (collectExpiredVotes s order h).Nodup :=
    List.Nodup.of_map _
      (collectExpiredVotes_nodup s order h hK (hperm.nodup_iff.mpr s.Voters.keys_nodup))
  have hkeys : (s.Votes.entries.map (fun e => e.1)).Nodup := s.Votes.nodupKeys
  have hnd2 : ((s.Votes.entries.filter (fun e => voteExpired s h e.1)).map
      (fun e => e.2)).Nodup := by
    apply List.Nodup.of_map (fun v : Vote => v.Voter)
    rw [List.map_map]
    have e : (s.Votes.entries.filter (fun e => voteExpired s h e.1)).map
        ((fun v : Vote => v.Voter) ∘ (fun e => e.2))
        = (s.Votes.entries.filter (fun e => voteExpired s h e.1)).map (fun e => e.1) := by
      apply List.map_congr_left
      intro e he
      obtain ⟨a, v⟩ := e
      exact hK a v (AList.mem_lookup_iff.mpr (List.mem_of_mem_filter he))
    rw [e]
    exact (List.filter_sublist _).map _ |>.nodup hkeys
  rw [List.perm_ext_iff_of_nodup hnd1 hnd2]
  intro v
  rw [mem_collectExpiredVotes s order h hh hvn v, List.mem_map]
  constructor
  · rintro ⟨a, _, hp, hv⟩
    exact ⟨⟨a, v⟩, List.mem_filter.mpr ⟨AList.mem_lookup_iff.mp hv, hp⟩, rfl⟩
  · rintro ⟨⟨a, v1⟩, he, e⟩
    simp only at e
    subst e
    obtain ⟨hm, hp⟩ := List.mem_filter.mp he
    have hp1 : voteExpired s h a = true := hp
    obtain ⟨⟨n, hn⟩, _⟩ := voteExpired_recorded s h a hp1
    refine ⟨a, ?_, hp1, AList.mem_lookup_iff.mpr hm⟩
    rw [hperm.mem_iff, ← AList.mem_keys, ← AList.lookup_isSome, hn]
    rfl

theorem tallyKept_not (h : Nat) (hh : h < 2 ^ 64) (t : Int) :
    (if PosNewEffectNumber ≤ uint64 h then decide (t < 0) else decide (t ≤ 0))
      = !tallyKept h t := by
  have hu : uint64 h = h := Nat.mod_eq_of_lt hh
  rw [hu]
  unfold tallyKept
  by_cases hp : PosNewEffectNumber ≤ h
  · rw [if_pos hp, if_neg (by omega)]
    by_cases h1 : t < 0
    · have h2 : ¬ 0 ≤ t := by omega
      simp [h1, h2]
    · have h2 : 0 ≤ t := by omega
      simp [h1, h2]
  · rw [if_neg hp, if_pos (by omega)]
    by_cases h1 : t ≤ 0
    · have h2 : ¬ 0 < t := by omega
      simp [h1, h2]
    · have h2 : 0 < t := by omega
      simp [h1, h2]

/-- C33: `updateSnapshotForExpired` treats the vote of a voter as expired iff it has not
been refreshed for more than `Epoch` blocks, or, only when there are more than 10000
voters, its stake is below the threshold (`MinVB` before `PosNewEffectNumber`, 0 from it
on). If the number of voters left after the deletion is at least `MaxSignerCount`, the
expired votes and their `Voters` entries are deleted, nothing else is, that many voters
are left, and (stakes being non-negative) the tally of every candidate is lowered by the
stakes of its expired votes, `expiredStake`; otherwise `Votes` and `Voters` are left exactly
as they were and no tally is lowered. In both cases the last loop then removes the tallies
that are not positive (negative from `PosNewEffectNumber` on). -/
theorem updateSnapshotForExpired_votes (order : List Address) (s : Snapshot) (h : Nat)
    (hperm : order.Perm s.Voters.keys) (hK : VotesKeyed s) (hh : h < 2 ^ 64)
    (hvn : ∀ a n, s.Voters.lookup a = some n → n ≤ h)
    (hlen : s.Voters.entries.length < 2 ^ 64) :
    (∀ v, v ∈ collectExpiredVotes s order h ↔
      ∃ a, s.Votes.lookup a = some v ∧ voteExpired s h a = true) ∧
    (if s.config.MaxSignerCount
        ≤ s.Voters.entries.length - (s.Voters.keys.filter (voteExpired s h)).length then
      (∀ a, (updateSnapshotForExpiredIn order s h).Votes.lookup a
          = if voteExpired s h a then none else s.Votes.lookup a) ∧
      (∀ a, (updateSnapshotForExpiredIn order s h).Voters.lookup a
          = if voteExpired s h a then none else s.Voters.lookup a) ∧
      (updateSnapshotForExpiredIn order s h).Voters.entries.length
        = s.Voters.entries.length - (s.Voters.keys.filter (voteExpired s h)).length ∧
      ((∀ a v, s.Votes.lookup a = some v → 0 ≤ v.Stake) →
        ∀ c, (updateSnapshotForExpiredIn order s h).Tally.lookup c =
          match s.Tally.lookup c with
          | some t =>
            if tallyKept h (t - expiredStake s h c) then some (t - expiredStake s h c)
            else none
          | none => none)
    else
      (updateSnapshotForExpiredIn order s h).Votes = s.Votes ∧
      (updateSnapshotForExpiredIn order s h).Voters = s.Voters ∧
      ∀ c, (updateSnapshotForExpiredIn order s h).Tally.lookup c =
        match s.Tally.lookup c with
        | some t => if tallyKept h t then some t else none
        | none => none) := by
  have hord : ∀ a, voteExpired s h a = true → a ∈ order := by
    intro a hp
    obtain ⟨⟨n, hn⟩, _⟩ := voteExpired_recorded s h a hp
    rw [hperm.mem_iff, ← AList.mem_keys, ← AList.lookup_isSome, hn]
    rfl
  have hmem : ∀ a, a ∈ (collectExpiredVotes s order h).map (fun v => v.Voter)
      ↔ voteExpired s h a = true := by
    intro a
    rw [List.mem_map]
    constructor
    · rintro ⟨v, hv, e⟩
      obtain ⟨b, _, hp, hb⟩ := (mem_collectExpiredVotes s order h hh hvn v).mp hv
      have : v.Voter = b := hK b v hb
      rw [← e, this]
      exact hp
    · intro hp
      obtain ⟨_, ⟨v, hv⟩⟩ := voteExpired_recorded s h a hp
      exact ⟨v, (mem_collectExpiredVotes s order h hh hvn v).mpr ⟨a, hord a hp, hp, hv⟩,
        hK a v hv⟩
  have hcount : (collectExpiredVotes s order h).length
      = (s.Voters.keys.filter (voteExpired s h)).length := by
    rw [collectExpiredVotes_eq s order h hh hvn,
      length_filterMap_of_isSome _ (voteExpired s h) _ order, (hperm.filter _).length_eq]
    intro a
    by_cases hp : voteExpired s h a = true
    · obtain ⟨_, ⟨v, hv⟩⟩ := voteExpired_recorded s h a hp
      rw [if_pos hp, hv, hp]
      rfl
    · rw [if_neg hp]
      simp only [Bool.not_eq_true] at hp
      rw [hp]
      rfl
  have hle : (s.Voters.keys.filter (voteExpired s h)).length ≤ s.Voters.entries.length := by
    have e2 : s.Voters.entries.length = s.Voters.keys.length := by
      simp [AList.keys, List.keys]
    rw [e2]
    exact List.length_filter_le _ _
  have hconv : uint64OfInt ((s.Voters.entries.length : Int)
        - ((collectExpiredVotes s order h).length : Int))
      = s.Voters.entries.length - (s.Voters.keys.filter (voteExpired s h)).length := by
    rw [hcount]
    unfold uint64OfInt
    have e : ((s.Voters.entries.length : Int)
        - ((s.Voters.keys.filter (voteExpired s h)).length : Int))
        = ((s.Voters.entries.length - (s.Voters.keys.filter (voteExpired s h)).length : Nat)
            : Int) := by
      omega
    rw [e]
    have hlt : s.Voters.entries.length - (s.Voters.keys.filter (voteExpired s h)).length
        < 2 ^ 64 := by omega
    have e3 : ((2 : Int) ^ 64) = ((2 ^ 64 : Nat) : Int) := by norm_num
    rw [e3, ← Int.natCast_mod, Int.toNat_ofNat, Nat.mod_eq_of_lt hlt]
  constructor
  · intro v
    rw [mem_collectExpiredVotes s order h hh hvn v]
    constructor
    · rintro ⟨a, _, hp, hv⟩
      exact ⟨a, hv, hp⟩
    · rintro ⟨a, hv, hp⟩
      exact ⟨a, hord a hp, hp, hv⟩
  · have hV : (updateSnapshotForExpiredIn order s h).Votes
        = (if s.config.MaxSignerCount
              ≤ s.Voters.entries.length - (s.Voters.keys.filter (voteExpired s h)).length then
            (collectExpiredVotes s order h).foldl (expireStep h) s
          else s).Votes := by
      rw [← hconv]
      rfl
    have hR : (updateSnapshotForExpiredIn order s h).Voters
        = (if s.config.MaxSignerCount
              ≤ s.Voters.entries.length - (s.Voters.keys.filter (voteExpired s h)).length then
            (collectExpiredVotes s order h).foldl (expireStep h) s
          else s).Voters := by
      rw [← hconv]
      rfl
    have hpred : (fun (_ : Address) (tally : Int) =>
          if PosNewEffectNumber ≤ uint64 h then decide (tally < 0) else decide (tally ≤ 0))
        = fun _ tally => !tallyKept h tally := by
      funext _ t
      exact tallyKept_not h hh t
    have hTl : (updateSnapshotForExpiredIn order s h).Tally
        = deleteWhere (fun _ tally => !tallyKept h tally)
          (if s.config.MaxSignerCount
              ≤ s.Voters.entries.length - (s.Voters.keys.filter (voteExpired s h)).length then
            (collectExpiredVotes s order h).foldl (expireStep h) s
          else s).Tally := by
      rw [← hconv, ← hpred]
      rfl
    rw [hV, hR, hTl]
    split_ifs with hc
    · refine ⟨?_, ?_, ?_, ?_⟩
      · intro a
        rw [(foldl_expireStep_lookup h _ s a).1]
        by_cases hp : voteExpired s h a = true
        · rw [if_pos ((hmem a).mpr hp), if_pos hp]
        · rw [if_neg (fun x => hp ((hmem a).mp x)), if_neg hp]
      · intro a
        rw [(foldl_expireStep_lookup h _ s a).2]
        by_cases hp : voteExpired s h a = true
        · rw [if_pos ((hmem a).mpr hp), if_pos hp]
        · rw [if_neg (fun x => hp ((hmem a).mp x)), if_neg hp]
      · have hl := foldl_expireStep_length h (collectExpiredVotes s order h) s
          (collectExpiredVotes_nodup s order h hK (hperm.nodup_iff.mpr s.Voters.keys_nodup))
          (by
            intro ev hev
            have hp : voteExpired s h ev.Voter = true :=
              (hmem ev.Voter).mp (List.mem_map_of_mem (fun v => v.Voter) hev)
            obtain ⟨⟨n, hn⟩, _⟩ := voteExpired_recorded s h ev.Voter hp
            rw [hn]
            rfl)
        rw [hcount] at hl
        omega
      · intro hst c
        rw [lookup_deleteWhere]
        obtain ⟨ha, hb⟩ := foldl_expireStep_tally h hh c (collectExpiredVotes s order h)
          (by
            intro v hv
            obtain ⟨a, _, _, hva⟩ := (mem_collectExpiredVotes s order h hh hvn v).mp hv
            exact hst a v hva)
          s
        rw [collectExpiredVotes_stake order s h hperm hK hh hvn c] at ha hb
        cases hs1 : ((collectExpiredVotes s order h).foldl (expireStep h) s).Tally.lookup c with
        | some t1 =>
          obtain ⟨t, ht, e⟩ := ha t1 hs1
          rw [ht]
          simp only
          rw [← e]
          cases tallyKept h t1 <;> rfl
        | none =>
          cases hs : s.Tally.lookup c with
          | none => rfl
          | some t =>
            simp only
            rw [hb hs1 t hs]
            rfl
    · refine ⟨rfl, rfl, ?_⟩
      intro c
      rw [lookup_deleteWhere]
      cases s.Tally.lookup c with
      | none => rfl
      | some t =>
        simp only
        cases tallyKept h t <;> rfl

theorem votersBound_of_entries (s : Snapshot) (h : Nat)
    (hb : ∀ e ∈ s.Voters.entries, e.2 ≤ h) : ∀ a n, s.Voters.lookup a = some n → n ≤ h := by
  intro a n hl
  exact hb ⟨a, n⟩ (AList.mem_lookup_iff.mp hl)

theorem stakesBound_of_entries (s : Snapshot)
    (hb : ∀ e ∈ s.Votes.entries, 0 ≤ e.2.Stake) :
    ∀ a v, s.Votes.lookup a = some v → 0 ≤ v.Stake := by
  intro a v hl
  exact hb ⟨a, v⟩ (AList.mem_lookup_iff.mp hl)

/-- C33 (witness): in `expirySnapshot` voter 1, who backs candidate 1 with a stake of 100,
last voted at height 0; at height 600 its vote is deleted, two voters are left, and the tally
of candidate 1 falls from 150 to 50. -/
theorem updateSnapshotForExpired_votes_witness :
    ([1, 2, 3].Perm expirySnapshot.Voters.keys ∧ VotesKeyed expirySnapshot ∧ 600 < 2 ^ 64 ∧
      (∀ a n, expirySnapshot.Voters.lookup a = some n → n ≤ 600) ∧
      expirySnapshot.Voters.entries.length < 2 ^ 64 ∧
      (∀ a v, expirySnapshot.Votes.lookup a = some v → 0 ≤ v.Stake)) ∧
    (updateSnapshotForExpiredIn [1, 2, 3] expirySnapshot 600).Votes.lookup 1 = none ∧
    (updateSnapshotForExpiredIn [1, 2, 3] expirySnapshot 600).Votes.lookup 2
      = some ⟨2, 1, 50⟩ ∧
    (updateSnapshotForExpiredIn [1, 2, 3] expirySnapshot 600).Voters.entries.length = 2 ∧
    expirySnapshot.Tally.lookup 1 = some 150 ∧
    (updateSnapshotForExpiredIn [1, 2, 3] expirySnapshot 600).Tally.lookup 1 = some 50 := by
  have hperm : [1, 2, 3].Perm expirySnapshot.Voters.keys := List.Perm.refl _
  have hK : VotesKeyed expirySnapshot := (votesKeyed_iff_entries _).mpr (by decide)
  have hvn : ∀ a n, expirySnapshot.Voters.lookup a = some n → n ≤ 600 :=
    votersBound_of_entries _ _ (by decide)
  have hlen : expirySnapshot.Voters.entries.length < 2 ^ 64 := by decide
  have hst : ∀ a v, expirySnapshot.Votes.lookup a = some v → 0 ≤ v.Stake :=
    stakesBound_of_entries _ (by decide)
  have h := (updateSnapshotForExpired_votes [1, 2, 3] expirySnapshot 600 hperm hK (by decide)
    hvn hlen).2
  rw [if_pos (by decide)] at h
  exact ⟨⟨hperm, hK, by decide, hvn, hlen, hst⟩, (h.1 1).trans rfl, (h.1 2).trans rfl,
    h.2.2.1.trans rfl, rfl, (h.2.2.2 hst 1).trans (by decide)⟩

/-! ## Automatic exit of a candidate in continuous debt -/

theorem foldl_autoExitDetailStep (miner manager : Address)
    (ds : List (Sigma (fun _ : Hash => PledgeDetail)))
    (acc : Int × List CandidatePEntrustExitRecord) :
    ds.foldl (autoExitDetailStep miner manager) acc =
      (acc.1 + ((ds.filter (fun d => decide (d.2.Address = manager))).map
          (fun d => d.2.Amount)).sum,
        acc.2 ++ (ds.filter (fun d => !decide (d.2.Address = manager))).map
          (fun d => ⟨miner, d.1, d.2.Address, d.2.Amount⟩)) := by
  induction ds generalizing acc with
  | nil => simp
  | cons d ds ih =>
    rw [List.foldl_cons, ih]
    unfold autoExitDetailStep
    by_cases hd : d.2.Address = manager
    · simp [hd, add_assoc]
    · simp [hd]

theorem foldlM_autoExitMinerStep (snap : Snapshot) (number blockPreDay : Nat)
    (detailOrder : List (Sigma (fun _ : Hash => PledgeDetail))
      → List (Sigma (fun _ : Hash => PledgeDetail)))
    (hbpd : snap.getBlockPreDay = some blockPreDay)
    (es : List (Sigma (fun _ : Address => PosPledgeItem)))
    (acc : List Address × Int × List CandidatePEntrustExitRecord) :
    es.foldlM (autoExitMinerStep snap number detailOrder) acc =
      some (acc.1 ++ (es.filter (autoExitTest number blockPreDay)).map (fun e => e.1),
        acc.2.1 + ((es.filter (autoExitTest number blockPreDay)).map
          (autoExitBurn detailOrder)).sum,
        acc.2.2 ++ (es.filter (autoExitTest number blockPreDay)).flatMap
          (autoExitRecords detailOrder)) := by
  induction es generalizing acc with
  | nil => simp
  | cons e es ih =>
    rw [List.foldlM_cons]
    by_cases ht : autoExitTest number blockPreDay e = true
    · have h1 : autoExitMinerStep snap number detailOrder acc e
          = some (acc.1 ++ [e.1],
              acc.2.1 + autoExitBurn detailOrder e,
              acc.2.2 ++ autoExitRecords detailOrder e) := by
        unfold autoExitTest at ht
        simp only [Bool.and_eq_true, decide_eq_true_eq] at ht
        unfold autoExitMinerStep
        rw [if_pos ht.1, hbpd]
        simp only
        rw [if_pos ht.2, foldl_autoExitDetailStep]
        rfl
      rw [h1]
      simp only [Option.bind_eq_bind, Option.some_bind]
      rw [ih, List.filter_cons_of_pos ht]
      simp only [List.map_cons, List.sum_cons, List.flatMap_cons, List.append_assoc,
        List.singleton_append, add_assoc]
    · have h1 : autoExitMinerStep snap number detailOrder acc e = some acc := by
        unfold autoExitTest at ht
        simp only [Bool.and_eq_true, decide_eq_true_eq, not_and] at ht
        unfold autoExitMinerStep
        by_cases h0 : 0 < e.2.LastPunish
        · rw [if_pos h0, hbpd]
          simp only
          rw [if_neg (ht h0)]
        · rw [if_neg h0]
      rw [h1]
      simp only [Option.bind_eq_bind, Option.some_bind]
      rw [ih, List.filter_cons_of_neg ht]

theorem uint64Sub_of_le_of_lt (a b : Nat) (hb : b ≤ a) (ha : a < 2 ^ 64) :
    uint64Sub a b = a - b := by
  unfold uint64Sub
  have h2 : b % 2 ^ 64 = b := Nat.mod_eq_of_lt (by omega)
  rw [h2]
  omega

theorem isCheckPOSAutoExit_returns (number period : Nat) (h1 : 1 ≤ period)
    (h2 : period ≤ 86400) :
    isCheckPOSAutoExit number period = some true ∨
      isCheckPOSAutoExit number period = some false := by
  unfold isCheckPOSAutoExit
  have hday : secondsPerDay / period ≠ 0 := by
    have : 1 ≤ secondsPerDay / period := by
      apply (Nat.le_div_iff_mul_le (by omega)).mpr
      have : secondsPerDay = 86400 := by decide
      omega
    omega
  by_cases hlt : number < PosNewEffectNumber
  · rw [if_pos hlt]
    right; rfl
  · rw [if_neg hlt, if_neg (by omega)]
    simp only
    rw [if_neg hday]
    exact some_bool_cases _

theorem autoExitBurn_eq (detailOrder : List (Sigma (fun _ : Hash => PledgeDetail))
      → List (Sigma (fun _ : Hash => PledgeDetail)))
    (hdo : ∀ l, (detailOrder l).Perm l) (e : Sigma (fun _ : Address => PosPledgeItem)) :
    autoExitBurn detailOrder e = ownedSum e.2.Detail e.2.Manager := by
  unfold autoExitBurn ownedSum
  have hf : (fun d : Sigma (fun _ : Hash => PledgeDetail) => decide (d.2.Address = e.2.Manager))
      = (fun d => decide (e.2.Manager = d.2.Address)) := by
    funext d
    by_cases h : d.2.Address = e.2.Manager
    · simp [h]
    · have h2 : ¬ e.2.Manager = d.2.Address := fun x => h x.symm
      simp [h, h2]
  rw [hf]
  exact (((hdo e.2.Detail.entries).filter _).map _).sum_eq

theorem sum_filter_add_sum_filter_not {α : Type} (p : α → Bool) (f : α → Int) (l : List α) :
    ((l.filter p).map f).sum + ((l.filter (fun a => !p a)).map f).sum = (l.map f).sum := by
  induction l with
  | nil => rfl
  | cons a l ih =>
    by_cases h : p a = true
    · simp only [List.filter_cons, h, if_true, Bool.not_true, Bool.false_eq_true, if_false,
        List.map_cons, List.sum_cons]
      omega
    · simp only [Bool.not_eq_true] at h
      simp only [List.filter_cons, h, Bool.false_eq_true, if_false, Bool.not_false, if_true,
        List.map_cons, List.sum_cons]
      omega

theorem autoExitRecords_sum (detailOrder : List (Sigma (fun _ : Hash => PledgeDetail))
      → List (Sigma (fun _ : Hash => PledgeDetail)))
    (hdo : ∀ l, (detailOrder l).Perm l) (e : Sigma (fun _ : Address => PosPledgeItem)) :
    ((autoExitRecords detailOrder e).map (fun r => r.Amount)).sum
      + ownedSum e.2.Detail e.2.Manager = detailSum e.2.Detail := by
  rw [← autoExitBurn_eq detailOrder hdo e]
  unfold autoExitRecords autoExitBurn detailSum
  rw [List.map_map]
  have h := sum_filter_add_sum_filter_not
    (fun d : Sigma (fun _ : Hash => PledgeDetail) => decide (d.2.Address = e.2.Manager))
    (fun d => d.2.Amount) (detailOrder e.2.Detail.entries)
  have hp : ((detailOrder e.2.Detail.entries).map (fun d => d.2.Amount)).sum
      = (e.2.Detail.entries.map (fun d => d.2.Amount)).sum :=
    ((hdo e.2.Detail.entries).map _).sum_eq
  rw [hp] at h
  rw [← h, add_comm]
  rfl

theorem filter_target_autoExitRecords
    (detailOrder : List (Sigma (fun _ : Hash => PledgeDetail))
      → List (Sigma (fun _ : Hash => PledgeDetail)))
    (e : Sigma (fun _ : Address => PosPledgeItem)) (a : Address) :
    (autoExitRecords detailOrder e).filter (fun r => decide (r.Target = a))
      = if e.1 = a then autoExitRecords detailOrder e else [] := by
  unfold autoExitRecords
  by_cases h : e.1 = a
  · rw [if_pos h, List.filter_eq_self]
    intro r hr
    obtain ⟨d, _, rfl⟩ := List.mem_map.mp hr
    simp [h]
  · rw [if_neg h, List.filter_eq_nil_iff]
    intro r hr
    obtain ⟨d, _, rfl⟩ := List.mem_map.mp hr
    simp [h]

theorem filter_target_flatMap
    (detailOrder : List (Sigma (fun _ : Hash => PledgeDetail))
      → List (Sigma (fun _ : Hash => PledgeDetail)))
    (es : List (Sigma (fun _ : Address => PosPledgeItem)))
    (hnd : (es.map (fun e => e.1)).Nodup) (e0 : Sigma (fun _ : Address => PosPledgeItem))
    (he0 : e0 ∈ es) :
    (es.flatMap (autoExitRecords detailOrder)).filter (fun r => decide (r.Target = e0.1))
      = autoExitRecords detailOrder e0 := by
  induction es with
  | nil => cases he0
  | cons e es ih =>
    rw [List.map_cons, List.nodup_cons] at hnd
    rw [List.flatMap_cons, List.filter_append, filter_target_autoExitRecords]
    have hrest : ∀ e1 ∈ es, e1.1 ≠ e.1 := by
      intro e1 h1 heq
      apply hnd.1
      rw [← heq]
      exact List.mem_map_of_mem (fun e => e.1) h1
    rcases List.mem_cons.mp he0 with h | h
    · subst h
      rw [if_pos rfl]
      have : (es.flatMap (autoExitRecords detailOrder)).filter
          (fun r => decide (r.Target = e0.1)) = [] := by
        rw [List.filter_eq_nil_iff]
        intro r hr
        obtain ⟨e1, h1, hr1⟩ := List.mem_flatMap.mp hr
        unfold autoExitRecords at hr1
        obtain ⟨d, _, rfl⟩ := List.mem_map.mp hr1
        simp [hrest e1 h1]
      rw [this, List.append_nil]
    · rw [if_neg (fun x => hrest e0 h x.symm), List.nil_append]
      exact ih hnd.2 h

theorem autoExitRecords_nodup (detailOrder : List (Sigma (fun _ : Hash => PledgeDetail))
      → List (Sigma (fun _ : Hash => PledgeDetail)))
    (hdo : ∀ l, (detailOrder l).Perm l) (e : Sigma (fun _ : Address => PosPledgeItem)) :
    (autoExitRecords detailOrder e).Nodup := by
  unfold autoExitRecords
  have hnd : (detailOrder e.2.Detail.entries).Nodup :=
    (hdo _).nodup_iff.mpr e.2.Detail.nodupKeys.nodup
  apply List.Nodup.map_on _ (hnd.filter _)
  intro x hx y hy hxy
  have hx1 : x ∈ e.2.Detail.entries := (hdo _).mem_iff.mp (List.mem_of_mem_filter hx)
  have hy1 : y ∈ e.2.Detail.entries := (hdo _).mem_iff.mp (List.mem_of_mem_filter hy)
  have hk : x.1 = y.1 := by
    have := congrArg CandidatePEntrustExitRecord.Hash hxy
    exact this
  obtain ⟨xk, xv⟩ := x
  obtain ⟨yk, yv⟩ := y
  simp only at hk
  subst hk
  have h1 := AList.mem_lookup_iff.mpr hx1
  have h2 := AList.mem_lookup_iff.mpr hy1
  rw [h1] at h2
  rw [Option.some.inj h2]

theorem mem_autoExitRecords (detailOrder : List (Sigma (fun _ : Hash => PledgeDetail))
      → List (Sigma (fun _ : Hash => PledgeDetail)))
    (hdo : ∀ l, (detailOrder l).Perm l) (e : Sigma (fun _ : Address => PosPledgeItem))
    (r : CandidatePEntrustExitRecord) :
    r ∈ autoExitRecords detailOrder e ↔
      r.Target = e.1 ∧ ∃ detail, e.2.Detail.lookup r.Hash = some detail ∧
        detail.Address ≠ e.2.Manager ∧ r.Address = detail.Address ∧
        r.Amount = detail.Amount := by
  unfold autoExitRecords
  rw [List.mem_map]
  constructor
  · rintro ⟨d, hd, rfl⟩
    rw [List.mem_filter] at hd
    have hd1 : d ∈ e.2.Detail.entries := (hdo _).mem_iff.mp hd.1
    obtain ⟨dk, dv⟩ := d
    refine ⟨rfl, dv, AList.mem_lookup_iff.mpr hd1, ?_, rfl, rfl⟩
    simpa using hd.2
  · rintro ⟨ht, detail, hl, hne, ha, hm⟩
    refine ⟨⟨r.Hash, detail⟩, ?_, ?_⟩
    · rw [List.mem_filter]
      exact ⟨(hdo _).mem_iff.mpr (AList.mem_lookup_iff.mp hl), by simpa using hne⟩
    · cases r
      simp only at ht ha hm
      simp only [ht, ha, hm]

/-- C35: on a snapshot with a period between 1 and 86400 whose candidates were last punished
at or below the height, `checkCandidateAutoExit` returns; the candidates it appends to the
auto-exit list are, each once, those with `LastPunish > 0` and
`height - LastPunish >= maxPosContinueDayFail * blocks-per-day` at a check height
(`isCheckPOSAutoExit`), and none at another height; the exit records it appends are, each
once, one for each detail of such a candidate that the manager does not own, with the hash,
address and amount of the detail; the amount credited to the burn address is the sum of the
details the managers of these candidates own (no credit is made for a sum that is not
positive); and for each such candidate the amounts returned plus the amount burned are the
sum of its details. -/
theorem checkCandidateAutoExit_spec
    (minerOrder : List (Sigma (fun _ : Address => PosPledgeItem))
      → List (Sigma (fun _ : Address => PosPledgeItem)))
    (detailOrder : List (Sigma (fun _ : Hash => PledgeDetail))
      → List (Sigma (fun _ : Hash => PledgeDetail)))
    (snap : Snapshot) (m : GoMap Address PosPledgeItem) (number : Nat)
    (candidateAutoExit : List Address) (candidatePEntrustExit : List CandidatePEntrustExitRecord)
    (hm : snap.PosPledge = some m)
    (hmo : ∀ l, (minerOrder l).Perm l) (hdo : ∀ l, (detailOrder l).Perm l)
    (hP1 : 1 ≤ snap.Period) (hP2 : snap.Period ≤ 86400)
    (hc1 : 1 ≤ snap.config.Period)
    (hn : number < 2 ^ 64)
    (hl : ∀ a item, m.lookup a = some item → item.LastPunish ≤ number) :
    ∃ exits records credit,
      checkCandidateAutoExit minerOrder detailOrder snap number candidateAutoExit
          candidatePEntrustExit
        = some (candidateAutoExit ++ exits, candidatePEntrustExit ++ records, credit) ∧
      exits.Nodup ∧
      (∀ a, a ∈ exits ↔ ∃ item, m.lookup a = some item ∧ autoExitDue snap number item = true) ∧
      records.Nodup ∧
      (∀ r, r ∈ records ↔ ∃ item detail, m.lookup r.Target = some item ∧
        autoExitDue snap number item = true ∧ item.Detail.lookup r.Hash = some detail ∧
        detail.Address ≠ item.Manager ∧ r.Address = detail.Address ∧
        r.Amount = detail.Amount) ∧
      (credit =
        if 0 < ((m.entries.filter (fun e => autoExitDue snap number e.2)).map
            (fun e => ownedSum e.2.Detail e.2.Manager)).sum then
          some ((m.entries.filter (fun e => autoExitDue snap number e.2)).map
            (fun e => ownedSum e.2.Detail e.2.Manager)).sum
        else none) ∧
      (∀ a item, m.lookup a = some item → autoExitDue snap number item = true →
        returnedSum records a + ownedSum item.Detail item.Manager = detailSum item.Detail) := by
  rcases isCheckPOSAutoExit_returns number snap.Period hP1 hP2 with hchk | hchk
  · -- a check height
    have hbpd : snap.getBlockPreDay = some (secondsPerDay / snap.config.Period) := by
      unfold Snapshot.getBlockPreDay
      rw [if_neg (by omega)]
    have hperm := hmo m.entries
    have htest : ∀ e ∈ minerOrder m.entries,
        autoExitTest number (secondsPerDay / snap.config.Period) e
          = autoExitDue snap number e.2 := by
      intro e he
      have he1 : e ∈ m.entries := hperm.mem_iff.mp he
      obtain ⟨ek, ev⟩ := e
      have hle := hl ek ev (AList.mem_lookup_iff.mpr he1)
      unfold autoExitTest autoExitDue
      have hday : secondsPerDay / snap.config.Period ≤ 86400 := by
        have : secondsPerDay = 86400 := by decide
        rw [this]
        exact Nat.div_le_self _ _
      have hu : uint64 (maxPosContinueDayFail * (secondsPerDay / snap.config.Period))
          = maxPosContinueDayFail * (secondsPerDay / snap.config.Period) := by
        unfold uint64
        apply Nat.mod_eq_of_lt
        have : maxPosContinueDayFail = 30 := rfl
        rw [this]
        omega
      rw [hu, uint64Sub_of_le_of_lt number ev.LastPunish hle hn, hchk]
      simp
    have hfilter : (minerOrder m.entries).filter
          (autoExitTest number (secondsPerDay / snap.config.Period))
        = (minerOrder m.entries).filter (fun e => autoExitDue snap number e.2) :=
      List.filter_congr htest
    have hkeys : ((minerOrder m.entries).map (fun e => e.1)).Nodup :=
      (hperm.map _).nodup_iff.mpr m.nodupKeys
    have hres : checkCandidateAutoExit minerOrder detailOrder snap number candidateAutoExit
          candidatePEntrustExit
        = some (candidateAutoExit ++
            ((minerOrder m.entries).filter (fun e => autoExitDue snap number e.2)).map
              (fun e => e.1),
          candidatePEntrustExit ++
            ((minerOrder m.entries).filter (fun e => autoExitDue snap number e.2)).flatMap
              (autoExitRecords detailOrder),
          if 0 < (0 : Int) + (((minerOrder m.entries).filter
              (fun e => autoExitDue snap number e.2)).map (autoExitBurn detailOrder)).sum then
            some ((0 : Int) + (((minerOrder m.entries).filter
              (fun e => autoExitDue snap number e.2)).map (autoExitBurn detailOrder)).sum)
          else none) := by
      unfold checkCandidateAutoExit
      rw [hchk]
      simp only [if_true, hm]
      rw [foldlM_autoExitMinerStep snap number _ detailOrder hbpd, hfilter]
      rfl
    have hburn : (0 : Int) + (((minerOrder m.entries).filter
          (fun e => autoExitDue snap number e.2)).map (autoExitBurn detailOrder)).sum
        = ((m.entries.filter (fun e => autoExitDue snap number e.2)).map
            (fun e => ownedSum e.2.Detail e.2.Manager)).sum := by
      rw [zero_add]
      have hf : autoExitBurn detailOrder = (fun e => ownedSum e.2.Detail e.2.Manager) := by
        funext e
        exact autoExitBurn_eq detailOrder hdo e
      rw [hf]
      exact ((hperm.filter _).map _).sum_eq
    rw [hburn] at hres
    refine ⟨_, _, _, hres, ?_, ?_, ?_, ?_, rfl, ?_⟩
    · exact hkeys.sublist ((List.filter_sublist _).map _)
    · intro a
      rw [List.mem_map]
      constructor
      · rintro ⟨e, he, rfl⟩
        rw [List.mem_filter] at he
        obtain ⟨ek, ev⟩ := e
        exact ⟨ev, AList.mem_lookup_iff.mpr (hperm.mem_iff.mp he.1), he.2⟩
      · rintro ⟨item, hlook, hdue⟩
        exact ⟨⟨a, item⟩, List.mem_filter.mpr
          ⟨hperm.mem_iff.mpr (AList.mem_lookup_iff.mp hlook), hdue⟩, rfl⟩
    · rw [List.nodup_flatMap]
      constructor
      · intro e _
        exact autoExitRecords_nodup detailOrder hdo e
      · have hpw : ((minerOrder m.entries).filter
            (fun e => autoExitDue snap number e.2)).Pairwise (fun a b => a.1 ≠ b.1) := by
          have h1 : (minerOrder m.entries).Pairwise (fun a b => a.1 ≠ b.1) :=
            List.pairwise_map.mp hkeys
          exact h1.sublist (List.filter_sublist _)
        apply hpw.imp
        intro e1 e2 hne r h1 h2
        have t1 := ((mem_autoExitRecords detailOrder hdo e1 r).mp h1).1
        have t2 := ((mem_autoExitRecords detailOrder hdo e2 r).mp h2).1
        exact hne (t1.symm.trans t2)
    · intro r
      rw [List.mem_flatMap]
      constructor
      · rintro ⟨e, he, hr⟩
        rw [List.mem_filter] at he
        obtain ⟨ht, detail, h1, h2, h3, h4⟩ := (mem_autoExitRecords detailOrder hdo e r).mp hr
        obtain ⟨ek, ev⟩ := e
        simp only at ht
        refine ⟨ev, detail, ?_, he.2, h1, h2, h3, h4⟩
        rw [ht]
        exact AList.mem_lookup_iff.mpr (hperm.mem_iff.mp he.1)
      · rintro ⟨item, detail, hlook, hdue, h1, h2, h3, h4⟩
        refine ⟨⟨r.Target, item⟩, List.mem_filter.mpr
          ⟨hperm.mem_iff.mpr (AList.mem_lookup_iff.mp hlook), hdue⟩, ?_⟩
        exact (mem_autoExitRecords detailOrder hdo ⟨r.Target, item⟩ r).mpr
          ⟨rfl, detail, h1, h2, h3, h4⟩
    · intro a item hlook hdue
      have hmem : (⟨a, item⟩ : Sigma (fun _ : Address => PosPledgeItem))
          ∈ (minerOrder m.entries).filter (fun e => autoExitDue snap number e.2) :=
        List.mem_filter.mpr ⟨hperm.mem_iff.mpr (AList.mem_lookup_iff.mp hlook), hdue⟩
      have hnd2 : (((minerOrder m.entries).filter
          (fun e => autoExitDue snap number e.2)).map (fun e => e.1)).Nodup :=
        hkeys.sublist ((List.filter_sublist _).map _)
      unfold returnedSum
      rw [filter_target_flatMap detailOrder _ hnd2 ⟨a, item⟩ hmem]
      exact autoExitRecords_sum detailOrder hdo ⟨a, item⟩
  · -- not a check height: nothing is appended
    have hdue : ∀ item, autoExitDue snap number item = false := by
      intro item
      unfold autoExitDue
      rw [hchk]
      simp
    refine ⟨[], [], none, ?_, List.nodup_nil, ?_, List.nodup_nil, ?_, ?_, ?_⟩
    · unfold checkCandidateAutoExit
      rw [hchk]
      simp
    · intro a
      simp [hdue]
    · intro r
      simp [hdue]
    · simp [hdue]
    · intro a item _ h
      rw [hdue item] at h
      cases h

theorem lastPunishBound_of_entries (m : GoMap Address PosPledgeItem) (h : Nat)
    (hb : ∀ e ∈ m.entries, e.2.LastPunish ≤ h) :
    ∀ a item, m.lookup a = some item → item.LastPunish ≤ h := by
  intro a item hl
  exact hb ⟨a, item⟩ (AList.mem_lookup_iff.mp hl)

theorem checkCandidateAutoExit_spec_witness :
    (autoExitSnapshot.PosPledge = some autoExitPledge ∧ 1 ≤ autoExitSnapshot.Period ∧
      autoExitSnapshot.Period ≤ 86400 ∧ 1 ≤ autoExitSnapshot.config.Period ∧
      2566800 < 2 ^ 64 ∧
      (∀ a item, autoExitPledge.lookup a = some item → item.LastPunish ≤ 2566800)) ∧
    ∃ exits records credit,
      checkCandidateAutoExit id id autoExitSnapshot 2566800 [] []
        = some ([] ++ exits, [] ++ records, credit) ∧
      10 ∈ exits ∧
      returnedSum records 10 + ownedSum autoExitItem.Detail autoExitItem.Manager
        = detailSum autoExitItem.Detail := by
  have hl : ∀ a item, autoExitPledge.lookup a = some item → item.LastPunish ≤ 2566800 :=
    lastPunishBound_of_entries _ _ (by decide)
  obtain ⟨exits, records, credit, h1, _, h3, _, _, _, h7⟩ :=
    checkCandidateAutoExit_spec id id autoExitSnapshot autoExitPledge 2566800 [] [] rfl
      (fun l => List.Perm.refl l) (fun l => List.Perm.refl l) (by decide) (by decide)
      (by decide) (by decide) hl
  exact ⟨⟨rfl, by decide, by decide, by decide, by decide, hl⟩, exits, records, credit, h1,
    (h3 10).mpr ⟨autoExitItem, rfl, by decide⟩, h7 10 autoExitItem rfl (by decide)⟩

/-- The run of `checkCandidateAutoExit` at the check height 2566800 on the snapshot of the
witness: candidate 10 exits, the detail of address 20 is returned and the 100 of the
manager are burned. -/
theorem checkCandidateAutoExit_example :
    checkCandidateAutoExit id id autoExitSnapshot 2566800 [] []
      = some ([10], [⟨10, 2, 20, 40⟩], some 100) := by
  decide

/-! ## Proposal decoding -/

theorem uint64OfInt_of_range (x : Int) (h0 : 0 ≤ x) (h1 : x < 2 ^ 63) :
    ((uint64OfInt x : Nat) : Int) = x := by
  unfold uint64OfInt
  have h2 : x % 2 ^ 64 = x := Int.emod_eq_of_lt h0 (by omega)
  rw [h2]
  exact Int.toNat_of_nonneg h0

theorem proposalCase_limits (env : ProposalEnv)
    (hint : ∀ s x, env.atoi s = some x → -2 ^ 63 ≤ x ∧ x < 2 ^ 63)
    (p p1 : Proposal) (key : ProposalKey) (v : String) (hp : ProposalWithinLimits p)
    (h : proposalCase env p v key = some p1) : ProposalWithinLimits p1 := by
  unfold ProposalWithinLimits at hp ⊢
  have c1 : minValidationLoopCnt = 4 := rfl
  have c2 : maxValidationLoopCnt = 12342 := rfl
  have c3 : minSCRentLength = 259200 := rfl
  have c4 : maxSCRentLength = 3110400 := rfl
  rw [c1, c2, c3, c4] at hp ⊢
  cases key
  all_goals
    simp only [proposalCase] at h
    first
      | (have e := (Option.some.inj h).symm
         subst e
         exact hp)
      | (cases ha : env.atoi v with
         | none => rw [ha] at h; cases h
         | some x =>
           rw [ha] at h
           have hr := hint v x ha
           simp only at h
           first
             | (have e := (Option.some.inj h).symm
                subst e
                exact hp)
             | (split_ifs at h with hc
                have e := (Option.some.inj h).symm
                subst e
                simp only
                first
                  | exact hp
                  | (simp only [c1, c2, c3, c4, Nat.cast_ofNat] at hc
                     have hx := uint64OfInt_of_range x (by omega) hr.2
                     omega)))

theorem buildProposal_limits (env : ProposalEnv)
    (hint : ∀ s x, env.atoi s = some x → -2 ^ 63 ≤ x ∧ x < 2 ^ 63)
    (pairs : List (String × String)) (p p1 : Proposal) (hp : ProposalWithinLimits p)
    (h : buildProposal env p pairs = some p1) : ProposalWithinLimits p1 := by
  induction pairs generalizing p with
  | nil =>
    simp only [buildProposal, Option.some.injEq] at h
    rw [← h]
    exact hp
  | cons kv rest ih =>
    obtain ⟨k, v⟩ := kv
    simp only [buildProposal] at h
    cases hf : proposalField env p k v with
    | none => rw [hf] at h; cases h
    | some p2 =>
      rw [hf] at h
      exact ih p2 (proposalCase_limits env hint p p2 _ v hp hf) h

theorem proposalField_refused (env : ProposalEnv) (p : Proposal) (k v : String)
    (hr : RefusedValue env k v) : proposalField env p k v = none := by
  unfold proposalField
  have c1 : minValidationLoopCnt = 4 := rfl
  have c2 : maxValidationLoopCnt = 12342 := rfl
  have c3 : minSCRentLength = 259200 := rfl
  have c4 : maxSCRentLength = 3110400 := rfl
  rcases hr with ⟨hk, hv⟩ | ⟨hk, hv⟩ | ⟨hk, hv⟩
  · have e : proposalKeyOf k = .vlcnt := by rw [hk]; decide
    rw [e]
    simp only [proposalCase]
    cases ha : env.atoi v with
    | none => rfl
    | some x =>
      have := hv x ha
      simp only [c1, c2, Nat.cast_ofNat]
      rw [if_pos (by omega)]
  · have e : proposalKeyOf k = .scrl := by rw [hk]; decide
    rw [e]
    simp only [proposalCase]
    cases ha : env.atoi v with
    | none => rfl
    | some x =>
      have := hv x ha
      simp only [c3, c4, Nat.cast_ofNat]
      rw [if_pos (by omega)]
  · have e : proposalKeyOf k = .scrr := by rw [hk]; decide
    rw [e]
    simp only [proposalCase]
    cases ha : env.atoi v with
    | none => rfl
    | some x =>
      have := hv x ha
      simp only
      rw [if_pos this]

theorem buildProposal_refused (env : ProposalEnv) (pairs : List (String × String))
    (p : Proposal) (k v : String) (hm : (k, v) ∈ pairs) (hr : RefusedValue env k v) :
    buildProposal env p pairs = none := by
  induction pairs generalizing p with
  | nil => cases hm
  | cons kv rest ih =>
    obtain ⟨k1, v1⟩ := kv
    simp only [buildProposal]
    rcases List.mem_cons.mp hm with e | e
    · have e1 : k1 = k := (congrArg Prod.fst e).symm
      have e2 : v1 = v := (congrArg Prod.snd e).symm
      rw [e1, e2, proposalField_refused env p k v hr]
    · cases hf : proposalField env p k1 v1 with
      | none => rfl
      | some p2 => exact ih p2 e

/-- C37: whatever key/value pairs the payload carries, `processEventProposal` either leaves
the list of proposals and the balances as they are, or appends one proposal with
`4 <= ValidationLoopCnt <= 12342`, `259200 <= SCRentLength <= 3110400` and
`SCRentRate >= 1`, for which the rent branch of `calculateProposalResult` returns (its
division by `SCRentLength` is not a division by zero); and a payload that carries an
unparsable or out-of-range value for one of the keys `vlcnt`, `scrl`, `scrr` leaves the
list and the balances as they are. -/
theorem processEventProposal_limits (env : ProposalEnv)
    (hint : ∀ s x, env.atoi s = some x → -2 ^ 63 ≤ x ∧ x < 2 ^ 63)
    (currentBlockProposals : List Proposal) (txDataInfo : List String) (state : StateDB)
    (tx : Transaction) (proposer : Address) (snap : Snapshot) :
    (processEventProposal env currentBlockProposals txDataInfo state tx proposer snap
        = (currentBlockProposals, state) ∨
      ∃ p, (processEventProposal env currentBlockProposals txDataInfo state tx proposer snap).1
          = currentBlockProposals ++ [p] ∧
        ProposalWithinLimits p ∧
        ∀ s headerNumber record, (rentSideChain s headerNumber p record).isSome = true) ∧
    (∀ k v, (k, v) ∈ keyValuePairs (txDataInfo.drop (posEventProposal + 1)) →
      RefusedValue env k v →
      processEventProposal env currentBlockProposals txDataInfo state tx proposer snap
        = (currentBlockProposals, state)) := by
  have hdef : ProposalWithinLimits (defaultProposal env tx proposer) := by
    refine ⟨?_, ?_, ?_, ?_, ?_⟩
    · show minValidationLoopCnt ≤ defaultValidationLoopCnt
      decide
    · show defaultValidationLoopCnt ≤ maxValidationLoopCnt
      decide
    · show minSCRentLength ≤ defaultSCRentLength
      decide
    · show defaultSCRentLength ≤ maxSCRentLength
      decide
    · show 1 ≤ 1
      decide
  constructor
  · unfold processEventProposal
    split_ifs with h1
    · left; rfl
    · cases hb : buildProposal env (defaultProposal env tx proposer)
          (keyValuePairs (txDataInfo.drop (posEventProposal + 1))) with
      | none => left; rfl
      | some p =>
        have hp := buildProposal_limits env hint _ _ p hdef hb
        have hrent : ∀ (s : Snapshot) (headerNumber : Nat) (record : SCRecord),
            (rentSideChain s headerNumber p record).isSome = true := by
          intro s headerNumber record
          unfold rentSideChain
          have hlen : p.SCRentLength ≠ 0 := by
            have h3 := hp.2.2.1
            have c3 : minSCRentLength = 259200 := rfl
            rw [c3] at h3
            omega
          rw [if_neg hlen]
          rfl
        simp only
        split_ifs
        all_goals first
          | (left; rfl)
          | (right; exact ⟨p, rfl, hp, hrent⟩)
  · intro k v hm hr
    unfold processEventProposal
    split_ifs with h1
    · rfl
    · rw [buildProposal_refused env _ _ k v hm hr]

theorem sampleAtoi_range (s : String) (x : Int) (h : sampleAtoi s = some x) :
    -2 ^ 63 ≤ x ∧ x < 2 ^ 63 := by
  unfold sampleAtoi at h
  split at h
  all_goals
    cases hp : parseDigits 10 _ with
    | none => rw [hp] at h; cases h
    | some n =>
      rw [hp] at h
      simp only [Option.some_bind] at h
      split_ifs at h with hc
      have e := (Option.some.inj h).symm
      subst e
      omega

theorem processEventProposal_limits_witness :
    (∀ s x, sampleProposalEnv.atoi s = some x → -2 ^ 63 ≤ x ∧ x < 2 ^ 63) ∧
    processEventProposal sampleProposalEnv []
        ["ufo", "1", "event", "proposal", "proposal_type", "8", "scrl", "0"]
        (uniformState 1000) (sampleTx 1 "") 7 emptySnapshot
      = ([], uniformState 1000) :=
  ⟨sampleAtoi_range,
    (processEventProposal_limits sampleProposalEnv sampleAtoi_range []
      ["ufo", "1", "event", "proposal", "proposal_type", "8", "scrl", "0"]
      (uniformState 1000) (sampleTx 1 "") 7 emptySnapshot).2 "scrl" "0" (by decide)
      (Or.inr (Or.inl ⟨rfl, fun x hx => by
        have e : sampleProposalEnv.atoi "0" = some 0 := by decide
        rw [e] at hx
        have := Option.some.inj hx
        omega⟩))⟩

/-- A proposal of type 4 with a validation loop count of 4 is appended with the limits of
the defaults elsewhere, and the deposit of 100 leaves the balance of the proposer. -/
theorem processEventProposal_example :
    (processEventProposal sampleProposalEnv []
        ["ufo", "1", "event", "proposal", "proposal_type", "4", "vlcnt", "4"]
        (uniformState 1000) (sampleTx 1 "") 7 emptySnapshot).1
      = [{ defaultProposal sampleProposalEnv (sampleTx 1 "") 7 with
            ProposalType := 4, ValidationLoopCnt := 4 }] ∧
    (processEventProposal sampleProposalEnv []
        ["ufo", "1", "event", "proposal", "proposal_type", "4", "vlcnt", "4"]
        (uniformState 1000) (sampleTx 1 "") 7 emptySnapshot).2.Balance 7 = 900 := by
  constructor <;> decide

/-! ## Exit of an entrusted pledge -/

/-- C31 (failing input): at height 5000000 address 20 exits its detail 5 under candidate 11
and the decoder appends the record; in the same block the manager of candidate 10, which
is outside `Tally`, exits its detail 1, and the loop that fills `exitPledge` reads
`Detail[5]` of candidate 10, which does not exist: the program stops. Without the earlier
record the same transaction is decoded. -/
theorem processCandidatePEntrustExit_foreign_record_stops :
    (processCandidatePEntrustExit sampleEngine id [] (stringsSplit "UTG:1:CandETExit:b:5" ':')
        20 (sampleTx 1 "UTG:1:CandETExit:b:5") [] entrustExitSnapshot 5000000).map
      (fun r => r.1) = some [⟨11, 5, 20, 40⟩] ∧
    processCandidatePEntrustExit sampleEngine id [⟨11, 5, 20, 40⟩]
        (stringsSplit "UTG:1:CandETExit:a:1" ':') 10 (sampleTx 2 "UTG:1:CandETExit:a:1") []
        entrustExitSnapshot 5000000 = none ∧
    (processCandidatePEntrustExit sampleEngine id []
        (stringsSplit "UTG:1:CandETExit:a:1" ':') 10 (sampleTx 2 "UTG:1:CandETExit:a:1") []
        entrustExitSnapshot 5000000).map (fun r => r.1) = some [⟨10, 1, 10, 100⟩] := by
  refine ⟨by decide, by decide, by decide⟩

/-! ## Flow report of the manager -/

/-- C32 (failing input): a flow report whose value field decodes to a slice of a capacity
below 8 bytes stops `processFlowReport2` at the expression `buffer[:8]`. -/
theorem processFlowReport2_short_value_stops (hex2Bytes : String → ByteSlice)
    (flowReport : List MinerFlowReportRecord) (txDataInfo : List String)
    (hlen : posEventFlowValue < txDataInfo.length)
    (hcap : (hex2Bytes (fieldAt txDataInfo posEventFlowValue)).cap < 8) :
    processFlowReport2 hex2Bytes flowReport txDataInfo = none := by
  unfold processFlowReport2
  rw [if_neg (by omega)]
  have hs : (hex2Bytes (fieldAt txDataInfo posEventFlowValue)).slice 0 8 = none := by
    unfold ByteSlice.slice
    rw [if_neg (by omega)]
  rw [hs]

theorem processFlowReport2_short_value_stops_witness :
    (posEventFlowValue < (stringsSplit "ufo:1:sc:flwrptm:" ':').length ∧
      (sampleHex2Bytes (fieldAt (stringsSplit "ufo:1:sc:flwrptm:" ':') posEventFlowValue)).cap
        < 8) ∧
    processFlowReport2 sampleHex2Bytes [] (stringsSplit "ufo:1:sc:flwrptm:" ':') = none :=
  ⟨⟨by decide, by decide⟩,
    processFlowReport2_short_value_stops sampleHex2Bytes [] _ (by decide) (by decide)⟩

theorem flowReportItemAt_of_le (buffer : ByteSlice) (post : Nat)
    (hwf : buffer.len ≤ buffer.cap) (hp : post + 40 ≤ buffer.len) :
    flowReportItemAt buffer post = some (reportItemOfBytes buffer.array post) := by
  unfold flowReportItemAt ByteSlice.slice reportItemOfBytes
  rw [if_pos (by omega), if_pos (by omega), if_pos (by omega), if_pos (by omega)]
  have e1 : post + 20 - post = 20 := by omega
  have e2 : post + 20 + 8 - (post + 20) = 8 := by omega
  have e3 : post + 20 + 16 - (post + 20 + 8) = 8 := by omega
  have e4 : post + 20 + 20 - (post + 20 + 16) = 4 := by omega
  have e5 : post + 20 + 8 = post + 28 := by omega
  have e6 : post + 20 + 16 = post + 36 := by omega
  simp only [e1, e2, e3, e4, e5, e6]

theorem flowReportLoop_eq (buffer : ByteSlice) (hwf : buffer.len ≤ buffer.cap)
    (fuel post : Nat) (content : List MinerFlowReportItem)
    (hfuel : (buffer.len - post) / 40 ≤ fuel) :
    flowReportLoop buffer fuel post content =
      some (content ++ (List.range ((buffer.len - post) / 40)).map
        (fun i => reportItemOfBytes buffer.array (post + 40 * i))) := by
  induction fuel generalizing post content with
  | zero =>
    have h0 : (buffer.len - post) / 40 = 0 := by omega
    rw [h0]
    simp [flowReportLoop]
  | succ fuel ih =>
    unfold flowReportLoop
    by_cases hp : post + 40 ≤ buffer.len
    · rw [if_pos hp, flowReportItemAt_of_le buffer post hwf hp]
      simp only
      have hk : (buffer.len - post) / 40 = (buffer.len - (post + 40)) / 40 + 1 := by omega
      rw [ih (post + 40) _ (by omega), hk, List.range_succ_eq_map, List.map_cons, List.map_map]
      simp only [List.append_assoc, List.singleton_append, Nat.mul_zero, Nat.add_zero]
      congr 3
      apply List.map_congr_left
      intro i _
      simp only [Function.comp, Nat.succ_eq_add_one]
      congr 1
      omega
    · rw [if_neg hp]
      have h0 : (buffer.len - post) / 40 = 0 := by omega
      rw [h0]
      simp

/-- For a value of `n >= 8` bytes, `processFlowReport2` appends exactly one report whose
`ReportTime` is the first 8 bytes (big-endian, as a `uint64`) and whose content has `(n - 8) / 40` items,
the `i`-th read from the 40 bytes at `8 + 40 * i`. -/
theorem processFlowReport2_decodes (hex2Bytes : String → ByteSlice)
    (flowReport : List MinerFlowReportRecord) (txDataInfo : List String) (n : Nat)
    (hlen : posEventFlowValue < txDataInfo.length)
    (hn : (hex2Bytes (fieldAt txDataInfo posEventFlowValue)).len = n)
    (hwf : n ≤ (hex2Bytes (fieldAt txDataInfo posEventFlowValue)).cap) (h8 : 8 ≤ n) :
    processFlowReport2 hex2Bytes flowReport txDataInfo =
      some (flowReport ++
        [{ ChainHash := 0
           ReportTime :=
            uint64 (bigEndian
              ((hex2Bytes (fieldAt txDataInfo posEventFlowValue)).array.take 8))
           ReportContent :=
            (List.range ((n - 8) / 40)).map (fun i =>
              reportItemOfBytes (hex2Bytes (fieldAt txDataInfo posEventFlowValue)).array
                (8 + 40 * i)) }]) := by
  unfold processFlowReport2
  rw [if_neg (by omega)]
  have hs : (hex2Bytes (fieldAt txDataInfo posEventFlowValue)).slice 0 8
      = some ((hex2Bytes (fieldAt txDataInfo posEventFlowValue)).array.take 8) := by
    unfold ByteSlice.slice
    rw [if_pos (by omega)]
    rfl
  rw [hs]
  simp only
  rw [flowReportLoop_eq _ (by omega) _ 8 [] (by omega), hn]
  rfl

/-! ## Transfer of an entrusted pledge -/

/-- C38 (failing inputs): in a snapshot that conserves pledges, address 20 holds the detail
5 of 40 under candidate 11. (1) In one block it exits that detail and transfers its pledge
from candidate 11 to candidate 10: the decoder accepts both, the transfer carrying the 40
the exit returns, and after the two folds candidate 11 has `TotalAmount = 20` while its
details sum to 60. (2) It transfers its pledge from candidate 11 to candidate 11: the
decoder accepts, and after the fold candidate 11 has `TotalAmount = 100` while its details
sum to 60. -/
theorem pledge_transfer_breaks_conservation :
    transferSnapshot.PledgeConserved ∧
    (processCandidatePEntrustExit sampleEngine id [] (stringsSplit "UTG:1:CandETExit:b:5" ':')
        20 (sampleTx 1 "UTG:1:CandETExit:b:5") [] transferSnapshot 5200000).map
      (fun r => r.1) = some [⟨11, 5, 20, 40⟩] ∧
    (processCandidateWtfd sampleEngine sampleTransferEnv id []
        (stringsSplit "UTG:1:PoSwtfd:b:PoS:a" ':') 20 (sampleTx 2 "UTG:1:PoSwtfd:b:PoS:a") []
        transferSnapshot 5200000).map (fun r => r.1)
      = some [⟨20, 2, 11, TargetType.pos, 10, 0, 40, 0⟩] ∧
    ((updatePOSTransfer (updateCandidatePEntrustExit transferSnapshot [⟨11, 5, 20, 40⟩] 5200000)
        [⟨20, 2, 11, TargetType.pos, 10, 0, 40, 0⟩] 5200000).posPledgeOf 11).map
      (fun item => (item.TotalAmount, detailSum item.Detail)) = some (20, 60) ∧
    ¬ (updatePOSTransfer (updateCandidatePEntrustExit transferSnapshot [⟨11, 5, 20, 40⟩] 5200000)
        [⟨20, 2, 11, TargetType.pos, 10, 0, 40, 0⟩] 5200000).PledgeConserved ∧
    (processCandidateWtfd sampleEngine sampleTransferEnv id []
        (stringsSplit "UTG:1:PoSwtfd:b:PoS:b" ':') 20 (sampleTx 3 "UTG:1:PoSwtfd:b:PoS:b") []
        transferSnapshot 5200000).map (fun r => r.1)
      = some [⟨20, 3, 11, TargetType.pos, 11, 0, 40, 0⟩] ∧
    ((updatePOSTransfer transferSnapshot [⟨20, 3, 11, TargetType.pos, 11, 0, 40, 0⟩]
        5200000).posPledgeOf 11).map
      (fun item => (item.TotalAmount, detailSum item.Detail)) = some (100, 60) ∧
    ¬ (updatePOSTransfer transferSnapshot [⟨20, 3, 11, TargetType.pos, 11, 0, 40, 0⟩]
        5200000).PledgeConserved := by
  refine ⟨(pledgeConserved_iff _).mpr (by decide), by decide, by decide, by decide, ?_,
    by decide, by decide, ?_⟩
  · exact fun h => absurd ((pledgeConserved_iff _).mp h) (by decide)
  · exact fun h => absurd ((pledgeConserved_iff _).mp h) (by decide)

theorem foldl_transAmountStep_none (snapNumber : Nat) (txSender : Address)
    (pledgeMinBLock : Int) (l : List (Sigma (fun _ : Hash => PledgeDetail))) :
    l.foldl (transAmountStep snapNumber txSender pledgeMinBLock) none = none := by
  induction l with
  | nil => rfl
  | cons e l ih => exact ih

theorem foldl_transAmountStep_some (snapNumber : Nat) (txSender : Address)
    (pledgeMinBLock : Int) (l : List (Sigma (fun _ : Hash => PledgeDetail)))
    (t0 t : Int)
    (h : l.foldl (transAmountStep snapNumber txSender pledgeMinBLock) (some t0) = some t) :
    t = t0 + ((l.filter (fun e => decide (txSender = e.2.Address))).map
      (fun e => e.2.Amount)).sum := by
  induction l generalizing t0 with
  | nil =>
    simp only [List.foldl_nil, Option.some.injEq] at h
    simp [h]
  | cons e l ih =>
    rw [List.foldl_cons] at h
    have hs : transAmountStep snapNumber txSender pledgeMinBLock (some t0) e
        = if e.2.Address = txSender then
            if (snapNumber : Int) - (e.2.Height : Int) < pledgeMinBLock then none
            else some (t0 + e.2.Amount)
          else some t0 := rfl
    rw [hs] at h
    by_cases ha : e.2.Address = txSender
    · rw [if_pos ha] at h
      by_cases hy : (snapNumber : Int) - (e.2.Height : Int) < pledgeMinBLock
      · rw [if_pos hy, foldl_transAmountStep_none] at h
        cases h
      · rw [if_neg hy] at h
        rw [ih _ h, List.filter_cons_of_pos (by simp [ha]), List.map_cons, List.sum_cons]
        omega
    · rw [if_neg ha] at h
      rw [ih _ h, List.filter_cons_of_neg (by
        simp only [decide_eq_true_eq]
        exact fun x => ha x.symm)]

theorem emod_bounds (x u : Int) (hx : 0 ≤ x) (hu : 0 < u) : 0 ≤ x % u ∧ x % u ≤ x := by
  have h0 := Int.emod_nonneg x (ne_of_gt hu)
  have h1 := Int.emod_add_ediv' x u
  have h2 : 0 ≤ x / u * u := Int.mul_nonneg (Int.ediv_nonneg hx (le_of_lt hu)) (le_of_lt hu)
  constructor
  · exact h0
  · omega

theorem snTransferAmounts_sum (env : TransferEnv) (snap : Snapshot)
    (currentPOSTransfer : List POSTransferRecord) (target : Address)
    (pledgeAmount p l : Int) (hpos : 0 < pledgeAmount) (hu : 0 < env.utgOneValue)
    (h : snTransferAmounts env snap currentPOSTransfer target pledgeAmount = .amounts p l) :
    p + l = pledgeAmount ∧ 0 ≤ p ∧ 0 ≤ l := by
  unfold snTransferAmounts at h
  simp only at h
  generalize ((currentPOSTransfer.filter
      (fun item => decide (item.Target = target)
        && decide (item.TargetType = TargetType.sn))).map
      (fun item => item.PledgeAmount)).sum = S at h
  cases h1 : env.storageEntrustAmount snap target with
  | none => rw [h1] at h; cases h
  | some et =>
    rw [h1] at h
    simp only at h
    cases h2 : env.storagePledge snap target with
    | none =>
      rw [h2] at h
      simp only [TransferOutcome.amounts.injEq] at h
      omega
    | some sp =>
      obtain ⟨inactive, spaceDeposit⟩ := sp
      rw [h2] at h
      simp only at h
      by_cases c1 : (!inactive) = true
      · rw [if_pos c1] at h; cases h
      · rw [if_neg c1] at h
        by_cases c2 : spaceDeposit ≤ S + et
        · rw [if_pos c2] at h; cases h
        · rw [if_neg c2, if_neg (ne_of_gt hu)] at h
          by_cases c3 : spaceDeposit < S + et + pledgeAmount
          · simp only [if_pos c3] at h
            have hb := emod_bounds (pledgeAmount - (S + et + pledgeAmount - spaceDeposit))
              env.utgOneValue (by omega) hu
            generalize (pledgeAmount - (S + et + pledgeAmount - spaceDeposit))
              % env.utgOneValue = M at h hb
            split_ifs at h
            all_goals
              simp only [TransferOutcome.amounts.injEq] at h
              omega
          · simp only [if_neg c3] at h
            have hb := emod_bounds (pledgeAmount - 0) env.utgOneValue (by omega) hu
            generalize (pledgeAmount - 0) % env.utgOneValue = M at h hb
            split_ifs at h
            all_goals
              simp only [TransferOutcome.amounts.injEq] at h
              omega

theorem transferTarget_sum (a : Engine) (env : TransferEnv) (snap : Snapshot)
    (currentPOSTransfer : List POSTransferRecord) (txDataInfo : List String)
    (txSender : Address) (transAmount : Int) (ty : TargetType) (target : Address)
    (targetHash : Hash) (p l : Int) (hpos : 0 < transAmount) (hu : 0 < env.utgOneValue)
    (h : transferTarget a env snap currentPOSTransfer txDataInfo txSender transAmount ty
      = some (target, targetHash, .amounts p l)) :
    p + l = transAmount ∧ 0 ≤ p ∧ 0 ≤ l := by
  cases ty
  all_goals simp only [transferTarget] at h
  · cases h1 : a.addressUnmarshalText1 (fieldAt txDataInfo 5) with
    | none => rw [h1] at h; simp at h
    | some t =>
      rw [h1] at h
      simp only at h
      split_ifs at h
      all_goals simp only [Option.some.injEq, Prod.mk.injEq, TransferOutcome.amounts.injEq,
        and_false, reduceCtorEq] at h
      omega
  · cases h1 : env.hashUnmarshalText1 (fieldAt txDataInfo 5) with
    | none => rw [h1] at h; simp at h
    | some th =>
      rw [h1] at h
      simp only at h
      cases h2 : env.poolActive snap th with
      | none => rw [h2] at h; simp at h
      | some b =>
        rw [h2] at h
        cases b
        · simp at h
        · simp only at h
          split_ifs at h
          all_goals simp only [Option.some.injEq, Prod.mk.injEq, TransferOutcome.amounts.injEq,
            and_false, reduceCtorEq] at h
          omega
  · split_ifs at h
    · simp at h
    · cases h1 : a.addressUnmarshalText1 (fieldAt txDataInfo 5) with
      | none => rw [h1] at h; simp at h
      | some t =>
        rw [h1] at h
        simp only at h
        split_ifs at h
        · simp at h
        · simp only [Option.some.injEq, Prod.mk.injEq] at h
          exact snTransferAmounts_sum env snap currentPOSTransfer t transAmount p l hpos hu
            h.2.2
  · simp at h

/-- Every record `processCandidateWtfd` appends carries the sender, and its
`PledgeAmount + LockAmount` is the sum of the details of the sender under the original
candidate, both parts being non-negative. -/
theorem processCandidateWtfd_amounts (a : Engine) (env : TransferEnv)
    (detailOrder : List (Sigma (fun _ : Hash => PledgeDetail))
      → List (Sigma (fun _ : Hash => PledgeDetail)))
    (currentPOSTransfer : List POSTransferRecord) (txDataInfo : List String)
    (txSender : Address) (tx : Transaction) (receipts : List Receipt) (snap : Snapshot)
    (number : Nat) (out : List POSTransferRecord) (receipts1 : List Receipt)
    (hdo : ∀ l, (detailOrder l).Perm l) (hu : 0 < env.utgOneValue)
    (h : processCandidateWtfd a env detailOrder currentPOSTransfer txDataInfo txSender tx
      receipts snap number = some (out, receipts1)) :
    out = currentPOSTransfer ∨
    ∃ r se, out = currentPOSTransfer ++ [r] ∧ r.Address = txSender ∧
      snap.posPledgeOf r.Original = some se ∧
      r.PledgeAmount + r.LockAmount = ownedSum se.Detail txSender ∧
      0 ≤ r.PledgeAmount ∧ 0 ≤ r.LockAmount := by
  unfold processCandidateWtfd at h
  split_ifs at h with c1 c2
  · left; exact (congrArg Prod.fst (Option.some.inj h)).symm
  · left; exact (congrArg Prod.fst (Option.some.inj h)).symm
  · cases h1 : a.addressUnmarshalText1 (fieldAt txDataInfo 3) with
    | none =>
      rw [h1] at h
      left; exact (congrArg Prod.fst (Option.some.inj h)).symm
    | some original =>
      rw [h1] at h
      simp only at h
      cases h2 : snap.posPledgeOf original with
      | none =>
        rw [h2] at h
        left; exact (congrArg Prod.fst (Option.some.inj h)).symm
      | some se =>
        rw [h2] at h
        simp only at h
        split_ifs at h with c3
        · left; exact (congrArg Prod.fst (Option.some.inj h)).symm
        · cases h3 : snap.SystemConfig.Deposit.lookup sscEnumPosBeyondCommitPeriod with
          | none => rw [h3] at h; simp at h
          | some beyond =>
            cases h4 : snap.isInPosCommitPeriod original number with
            | none => rw [h3, h4] at h; simp at h
            | some inCommit =>
              rw [h3, h4] at h
              simp only at h
              cases h5 : (if inCommit = true then
                  snap.SystemConfig.Deposit.lookup sscEnumPosWithinCommitPeriod
                else some beyond) with
              | none => rw [h5] at h; simp at h
              | some days =>
                rw [h5] at h
                simp only at h
                cases h6 : (detailOrder se.Detail.entries).foldl
                    (transAmountStep snap.Number txSender
                      (env.getEntrustPledgeMinBLock days)) (some 0) with
                | none =>
                  rw [h6] at h
                  left; exact (congrArg Prod.fst (Option.some.inj h)).symm
                | some transAmount =>
                  rw [h6] at h
                  simp only at h
                  have hsum := foldl_transAmountStep_some _ _ _ _ 0 transAmount h6
                  rw [zero_add] at hsum
                  have hown : transAmount = ownedSum se.Detail txSender := by
                    rw [hsum]
                    unfold ownedSum
                    exact (((hdo se.Detail.entries).filter _).map _).sum_eq
                  split_ifs at h with c4
                  · left; exact (congrArg Prod.fst (Option.some.inj h)).symm
                  · have hpos : 0 < transAmount := by omega
                    cases h7 : transferTarget a env snap currentPOSTransfer txDataInfo txSender
                        transAmount (env.targetTypeOf (fieldAt txDataInfo 4)) with
                    | none => rw [h7] at h; simp at h
                    | some res =>
                      obtain ⟨target, targetHash, outcome⟩ := res
                      rw [h7] at h
                      cases outcome with
                      | stopped => simp at h
                      | refused =>
                        left; exact (congrArg Prod.fst (Option.some.inj h)).symm
                      | amounts p l =>
                        simp only [Option.some.injEq, Prod.mk.injEq] at h
                        obtain ⟨e1, _⟩ := h
                        have hs := transferTarget_sum a env snap currentPOSTransfer txDataInfo
                          txSender transAmount _ target targetHash p l hpos hu h7
                        right
                        refine ⟨_, se, e1.symm, rfl, h2, ?_, hs.2.1, hs.2.2⟩
                        show p + l = ownedSum se.Detail txSender
                        rw [← hown]
                        exact hs.1

/-! ## The tally check and the vote folds -/

/-- C39 (failing input): voter 4 backs candidate 1 with a stake of 0 and the tally of
candidate 1 is 0, so the tally invariant holds and `verifyTallyCnt` returns nil. A header
at height 9 below `PosNewEffectNumber` makes `updateSnapshotForExpired` remove the zero
tally while the vote stays, and `verifyTallyCnt` still returns nil. On that snapshot
`updateSnapshotByVotes`, for a new vote of voter 4, and `updateSnapshotByMPVotes`, for a
refresh of its stake, read the missing `Tally[1]` and stop the program. -/
theorem vote_folds_missing_tally_entry :
    TallyInvariant zeroStakeVoteSnapshot ∧
    verifyTallyCnt zeroStakeVoteSnapshot = none ∧
    verifyTallyCnt (updateSnapshotForExpired zeroStakeVoteSnapshot 9) = none ∧
    (updateSnapshotForExpired zeroStakeVoteSnapshot 9).Votes.lookup 4 = some ⟨4, 1, 0⟩ ∧
    (updateSnapshotForExpired zeroStakeVoteSnapshot 9).Tally.lookup 1 = none ∧
    (updateSnapshotByVotes false (updateSnapshotForExpired zeroStakeVoteSnapshot 9)
      [⟨4, 2, 7⟩] 10).isNone = true ∧
    (updateSnapshotByMPVotes (updateSnapshotForExpired zeroStakeVoteSnapshot 9)
      [⟨4, 0, 7⟩] 10).isNone = true := by
  refine ⟨(tallyInvariant_iff_entries _).mpr (by decide), by decide, by decide, by decide,
    by decide, by decide, by decide⟩

/-! ## The last confirmed number of a side chain -/

theorem scanConfirm_growth (unmarshalText : String → Option Int) (min : Nat) (h1 : 1 ≤ min)
    (lcn : Nat) (p : List SCConfirmation) (acc : Nat × GoMap String (GoMap Address Bool))
    (x : SCConfirmation) (hinv : ScanGrowth min lcn p acc) :
    ∃ acc', scanConfirm unmarshalText min acc x = some acc'
      ∧ ScanGrowth min lcn (p ++ [x]) acc' := by
  obtain ⟨ha, hb, hle, hv⟩ := hinv
  have hvmono : lcn < acc.1 → ∃ key, min ≤ (confirmers min (p ++ [x]) key).card := by
    intro h
    obtain ⟨key, hk⟩ := hv h
    exact ⟨key, le_trans hk (Finset.card_le_card (confirmers_mono min p [x] key))⟩
  by_cases hq : min * 2 ≤ x.LoopInfo.length
  · by_cases hc : (((acc.2.lookup (stringsJoin x.LoopInfo ":")).getD ∅).lookup
        x.Coinbase).isSome = true
    · refine ⟨acc, ?_, ?_⟩
      · unfold scanConfirm
        rw [if_pos hq, if_pos hc]
      · have hmem := (ha _ _).1 hc
        have hsame_set : ∀ k, confirmers min (p ++ [x]) k = confirmers min p k := by
          intro k
          rw [confirmers_append_singleton]
          by_cases hk : min * 2 ≤ x.LoopInfo.length ∧ stringsJoin x.LoopInfo ":" = k
          · rw [if_pos hk, ← hk.2, Finset.insert_eq_of_mem hmem]
          · rw [if_neg hk]
        refine ⟨?_, ?_, hle, hvmono⟩
        · intro k c; rw [hsame_set]; exact ha k c
        · intro k; rw [hsame_set]; exact hb k
    · have hnot : x.Coinbase ∉ confirmers min p (stringsJoin x.LoopInfo ":") :=
        fun h => hc ((ha _ _).2 h)
      have hset : confirmers min (p ++ [x]) (stringsJoin x.LoopInfo ":")
          = insert x.Coinbase (confirmers min p (stringsJoin x.LoopInfo ":")) := by
        rw [confirmers_append_singleton, if_pos ⟨hq, rfl⟩]
      have hset_other : ∀ k, k ≠ stringsJoin x.LoopInfo ":" →
          confirmers min (p ++ [x]) k = confirmers min p k := by
        intro k hk
        rw [confirmers_append_singleton, if_neg (fun h => hk h.2.symm)]
      have hlen : (((acc.2.lookup (stringsJoin x.LoopInfo ":")).getD ∅).insert
          x.Coinbase true).entries.length
          = (confirmers min (p ++ [x]) (stringsJoin x.LoopInfo ":")).card := by
        rw [AList.insert_entries_of_neg (by
          rw [← AList.lookup_isSome]; exact hc)]
        rw [hset, Finset.card_insert_of_not_mem hnot, List.length_cons, hb]
      refine ⟨_, scanConfirm_new unmarshalText min acc x hq (by omega) hc, ?_, ?_, ?_, ?_⟩
      · intro k c
        simp only [lookup_insert_eq]
        by_cases hk : k = stringsJoin x.LoopInfo ":"
        · subst hk
          simp only [if_true, Option.getD_some, lookup_insert_eq, hset, Finset.mem_insert]
          by_cases hcc : c = x.Coinbase
          · subst hcc; simp
          · simp only [hcc, if_false, false_or]; exact ha _ c
        · simp only [hk, if_false]
          rw [hset_other k hk]; exact ha k c
      · intro k
        simp only [lookup_insert_eq]
        by_cases hk : k = stringsJoin x.LoopInfo ":"
        · subst hk
          simp only [if_true, Option.getD_some]
          exact hlen
        · simp only [hk, if_false]
          rw [hset_other k hk]; exact hb k
      · show lcn ≤ (if min ≤ (((acc.2.lookup (stringsJoin x.LoopInfo ":")).getD ∅).insert
              x.Coinbase true).entries.length then
            match unmarshalText (x.LoopInfo.getD (x.LoopInfo.length - 2) "") with
            | some t => if acc.1 < bigUint64 t then bigUint64 t else acc.1
            | none => acc.1
          else acc.1)
        split_ifs
        · split
          · split_ifs <;> omega
          · exact hle
        · exact hle
      · show lcn < (if min ≤ (((acc.2.lookup (stringsJoin x.LoopInfo ":")).getD ∅).insert
              x.Coinbase true).entries.length then
            match unmarshalText (x.LoopInfo.getD (x.LoopInfo.length - 2) "") with
            | some t => if acc.1 < bigUint64 t then bigUint64 t else acc.1
            | none => acc.1
          else acc.1) → _
        rw [hlen]
        by_cases hsz : min ≤ (confirmers min (p ++ [x]) (stringsJoin x.LoopInfo ":")).card
        · intro _
          exact ⟨_, hsz⟩
        · rw [if_neg hsz]
          exact hvmono
  · refine ⟨acc, ?_, ?_⟩
    · unfold scanConfirm
      rw [if_neg hq]
    · have hsame_set : ∀ k, confirmers min (p ++ [x]) k = confirmers min p k := by
        intro k
        rw [confirmers_append_singleton, if_neg (fun h => hq h.1)]
      refine ⟨?_, ?_, hle, hvmono⟩
      · intro k c; rw [hsame_set]; exact ha k c
      · intro k; rw [hsame_set]; exact hb k

theorem foldlM_scanConfirm_growth (unmarshalText : String → Option Int) (min : Nat)
    (h1 : 1 ≤ min) (lcn : Nat) (rest p : List SCConfirmation)
    (acc : Nat × GoMap String (GoMap Address Bool)) (hinv : ScanGrowth min lcn p acc) :
    ∃ acc', rest.foldlM (scanConfirm unmarshalText min) acc = some acc'
      ∧ ScanGrowth min lcn (p ++ rest) acc' := by
  induction rest generalizing p acc with
  | nil => exact ⟨acc, rfl, by simpa using hinv⟩
  | cons x rest ih =>
    obtain ⟨acc1, hs1, hinv1⟩ := scanConfirm_growth unmarshalText min h1 lcn p acc x hinv
    obtain ⟨acc2, hs2, hinv2⟩ := ih (p ++ [x]) acc1 hinv1
    refine ⟨acc2, ?_, by simpa using hinv2⟩
    rw [List.foldlM_cons, hs1]
    exact hs2

theorem find_getD_le (l : List Nat) (q : Nat → Bool) (n : Nat) (hl : ∀ i ∈ l, i ≤ n) :
    (l.find? q).getD n ≤ n := by
  cases hf : l.find? q with
  | none => exact le_refl _
  | some i => exact hl i (List.mem_of_find?_eq_some hf)

theorem uint64Upto_of_lt (lo hi : Nat) (h : hi < 2 ^ 64 - 1) :
    uint64Upto lo hi = some (List.range' lo (hi + 1 - lo)) := by
  unfold uint64Upto
  rw [if_pos h]

theorem uint64Upto_eq_some (lo hi : Nat) (l : List Nat) (h : uint64Upto lo hi = some l) :
    hi < 2 ^ 64 - 1 ∧ l = List.range' lo (hi + 1 - lo) := by
  unfold uint64Upto at h
  by_cases hh : hi < 2 ^ 64 - 1
  · rw [if_pos hh] at h
    exact ⟨hh, (Option.some.inj h).symm⟩
  · rw [if_neg hh] at h
    cases h

theorem scannedConfirmations_of_lt (record : SCRecord)
    (h : record.MaxHeaderNumber < 2 ^ 64 - 1) :
    scannedConfirmations record
      = some ((List.range' (uint64 (record.LastConfirmedNumber + 1))
          (record.MaxHeaderNumber + 1 - uint64 (record.LastConfirmedNumber + 1))).flatMap
          (fun i => (record.Record.lookup i).getD [])) := by
  unfold scannedConfirmations
  rw [uint64Upto_of_lt _ _ h]
  rfl

theorem scannedConfirmations_eq_some (record : SCRecord) (scanned : List SCConfirmation)
    (h : scannedConfirmations record = some scanned) :
    record.MaxHeaderNumber < 2 ^ 64 - 1 ∧
    scanned = (List.range' (uint64 (record.LastConfirmedNumber + 1))
          (record.MaxHeaderNumber + 1 - uint64 (record.LastConfirmedNumber + 1))).flatMap
          (fun i => (record.Record.lookup i).getD []) := by
  have hlt : record.MaxHeaderNumber < 2 ^ 64 - 1 := by
    by_contra hn
    unfold scannedConfirmations uint64Upto at h
    rw [if_neg hn] at h
    cases h
  rw [scannedConfirmations_of_lt record hlt] at h
  exact ⟨hlt, (Option.some.inj h).symm⟩

theorem scannedConfirmations_of_le (record : SCRecord)
    (h : 2 ^ 64 - 1 ≤ record.MaxHeaderNumber) : scannedConfirmations record = none := by
  unfold scannedConfirmations uint64Upto
  rw [if_neg (by omega)]
  rfl

theorem mem_scannedConfirmations (record : SCRecord) (scanned : List SCConfirmation)
    (hs : scannedConfirmations record = some scanned) (x : SCConfirmation) (hx : x ∈ scanned) :
    ∃ i, x ∈ (record.Record.lookup i).getD [] ∧
      (record.LastConfirmedNumber < 2 ^ 64 - 1 → record.LastConfirmedNumber < i) := by
  obtain ⟨_, e⟩ := scannedConfirmations_eq_some record scanned hs
  rw [e, List.mem_flatMap] at hx
  obtain ⟨i, hi, hxi⟩ := hx
  refine ⟨i, hxi, ?_⟩
  intro hl
  rw [List.mem_range'_1] at hi
  have hu : uint64 (record.LastConfirmedNumber + 1) = record.LastConfirmedNumber + 1 :=
    Nat.mod_eq_of_lt (by omega)
  rw [hu] at hi
  omega

theorem mem_scannedConfirmations_entries (record : SCRecord) (scanned : List SCConfirmation)
    (hs : scannedConfirmations record = some scanned) (x : SCConfirmation) (hx : x ∈ scanned) :
    ∃ e ∈ record.Record.entries, x ∈ e.2 := by
  obtain ⟨i, hxi, _⟩ := mem_scannedConfirmations record scanned hs x hx
  cases hl : record.Record.lookup i with
  | none => rw [hl] at hxi; cases hxi
  | some l =>
    rw [hl] at hxi
    exact ⟨⟨i, l⟩, AList.mem_lookup_iff.mp hl, hxi⟩

theorem scanConfirm_number (unmarshalText : String → Option Int) (min : Nat)
    (acc acc' : Nat × GoMap String (GoMap Address Bool)) (x : SCConfirmation)
    (h : scanConfirm unmarshalText min acc x = some acc') :
    acc'.1 = acc.1 ∨
      acc'.1 = ((unmarshalText (x.LoopInfo.getD (x.LoopInfo.length - 2) "")).map
        bigUint64).getD 0 := by
  unfold scanConfirm at h
  split_ifs at h
  all_goals first
    | (have e := Option.some.inj h
       rw [← e]
       exact Or.inl rfl)
    | skip
  all_goals
    cases hu : unmarshalText (x.LoopInfo.getD (x.LoopInfo.length - 2) "") with
    | none =>
      rw [hu] at h
      have e := Option.some.inj h
      rw [← e]
      exact Or.inl rfl
    | some t =>
      rw [hu] at h
      simp only at h
      split_ifs at h
      all_goals
        have e := Option.some.inj h
        rw [← e]
        first | exact Or.inl rfl | exact Or.inr rfl

theorem foldlM_scanConfirm_number (unmarshalText : String → Option Int) (min : Nat)
    (l : List SCConfirmation) (acc acc' : Nat × GoMap String (GoMap Address Bool))
    (h : l.foldlM (scanConfirm unmarshalText min) acc = some acc') :
    acc'.1 = acc.1 ∨ ∃ x ∈ l,
      acc'.1 = ((unmarshalText (x.LoopInfo.getD (x.LoopInfo.length - 2) "")).map
        bigUint64).getD 0 := by
  induction l generalizing acc with
  | nil =>
    rw [List.foldlM_nil] at h
    exact Or.inl (by rw [← Option.some.inj h])
  | cons x l ih =>
    rw [List.foldlM_cons] at h
    cases hs : scanConfirm unmarshalText min acc x with
    | none => rw [hs] at h; cases h
    | some acc1 =>
      rw [hs] at h
      rcases ih acc1 h with h1 | ⟨y, hy, h1⟩
      · rcases scanConfirm_number unmarshalText min acc acc1 x hs with h2 | h2
        · exact Or.inl (h1.trans h2)
        · exact Or.inr ⟨x, List.mem_cons_self _ _, h1.trans h2⟩
      · exact Or.inr ⟨y, List.mem_cons_of_mem _ hy, h1⟩

theorem adjustForPeriod_le (record : SCRecord) (confirmedNumber : Nat)
    (confirmedCoinbase : GoMap Nat Address) :
    (adjustForPeriod record confirmedNumber confirmedCoinbase).1 ≤ confirmedNumber := by
  unfold adjustForPeriod
  by_cases h : 1 < record.CountPerPeriod ∧ record.LastConfirmedNumber < confirmedNumber
  · rw [if_pos h]
    cases hl : confirmedCoinbase.lookup confirmedNumber with
    | none => exact le_refl _
    | some last =>
      simp only
      apply find_getD_le
      intro i hi
      by_cases h2 : confirmedNumber < record.CountPerPeriod
      · rw [if_pos h2] at hi
        cases hi
      · rw [if_neg h2] at hi
        obtain ⟨k, _, hk⟩ := List.mem_map.mp hi
        omega
  · rw [if_neg h]

theorem calculateSCConfirmedNumber_none (unmarshalText : String → Option Int)
    (hexToAddress : String → Address) (order : List String → List String)
    (record : SCRecord) (min : Nat) (h : 2 ^ 64 - 1 ≤ record.MaxHeaderNumber) :
    calculateSCConfirmedNumber unmarshalText hexToAddress order record min = none := by
  unfold calculateSCConfirmedNumber
  rw [scannedConfirmations_of_le record h]

theorem calculateSCConfirmedNumber_growth (unmarshalText : String → Option Int)
    (hexToAddress : String → Address) (order : List String → List String)
    (record : SCRecord) (min : Nat) (h1 : 1 ≤ min) (scanned : List SCConfirmation)
    (hs : scannedConfirmations record = some scanned) :
    ∃ r, calculateSCConfirmedNumber unmarshalText hexToAddress order record min = some r ∧
      (record.LastConfirmedNumber < r.1 →
        ∃ key, min ≤ (confirmers min scanned key).card) ∧
      (record.LastConfirmedNumber < r.1 →
        ∃ x ∈ scanned, r.1 ≤ ((unmarshalText
          (x.LoopInfo.getD (x.LoopInfo.length - 2) "")).map bigUint64).getD 0) := by
  have hinit : ScanGrowth min record.LastConfirmedNumber [] (record.LastConfirmedNumber, ∅) := by
    refine ⟨?_, ?_, le_refl _, fun h => absurd h (lt_irrefl _)⟩
    · intro k c
      simp [mem_confirmers]
    · intro k
      simp [confirmers]
  obtain ⟨acc, hfold, hinv⟩ := foldlM_scanConfirm_growth unmarshalText min h1
    record.LastConfirmedNumber scanned [] _ hinit
  simp only [List.nil_append] at hinv
  have hle := adjustForPeriod_le record acc.1
    (confirmedCoinbaseOf unmarshalText hexToAddress order min acc.2)
  refine ⟨adjustForPeriod record acc.1
    (confirmedCoinbaseOf unmarshalText hexToAddress order min acc.2), ?_, ?_, ?_⟩
  · unfold calculateSCConfirmedNumber
    rw [hs]
    simp only
    rw [hfold]
    rfl
  · intro hlt
    exact hinv.2.2.2 (lt_of_lt_of_le hlt hle)
  · intro hlt
    rcases foldlM_scanConfirm_number unmarshalText min scanned _ acc hfold with h2 | ⟨x, hx, h2⟩
    · simp only at h2
      omega
    · exact ⟨x, hx, by rw [← h2]; exact hle⟩

theorem bigUint64_lt (v : Int) : bigUint64 v < 2 ^ 64 := by
  unfold bigUint64
  exact Nat.mod_lt _ (by norm_num)

theorem parsedHeight_lt (o : Option Int) : ((o.map bigUint64).getD 0) < 2 ^ 64 := by
  cases o with
  | none => exact Nat.pos_pow_of_pos 64 (by decide)
  | some v => exact bigUint64_lt v

theorem confirmedHeights_eq_some (record : SCRecord) (cn : Nat) (heights : List Nat)
    (h : confirmedHeights record cn = some heights) :
    if record.LastConfirmedNumber < cn then
      cn < 2 ^ 64 - 1 ∧
        heights = List.range' (record.LastConfirmedNumber + 1) (cn - record.LastConfirmedNumber)
    else heights = [] := by
  unfold confirmedHeights at h
  by_cases hlt : record.LastConfirmedNumber < cn
  · rw [if_pos hlt] at h ⊢
    obtain ⟨h1, h2⟩ := uint64Upto_eq_some _ _ _ h
    have hu : uint64 (record.LastConfirmedNumber + 1) = record.LastConfirmedNumber + 1 :=
      Nat.mod_eq_of_lt (by omega)
    rw [hu] at h2
    refine ⟨h1, ?_⟩
    rw [h2]
    congr 1
    omega
  · rw [if_neg hlt] at h ⊢
    exact (Option.some.inj h).symm

theorem confirmedHeights_of_lt (record : SCRecord) (cn : Nat)
    (h : record.LastConfirmedNumber < cn → cn < 2 ^ 64 - 1) :
    ∃ heights, confirmedHeights record cn = some heights := by
  unfold confirmedHeights
  by_cases hlt : record.LastConfirmedNumber < cn
  · rw [if_pos hlt, uint64Upto_of_lt _ _ (h hlt)]
    exact ⟨_, rfl⟩
  · rw [if_neg hlt]
    exact ⟨_, rfl⟩

theorem confirmSideChain_eq_some (unmarshalText : String → Option Int)
    (hexToAddress : String → Address) (order : List String → List String)
    (headerNumber : Int) (s s' : Snapshot) (scHash : Hash) (record : SCRecord)
    (hrecord : s.SCRecordMap.lookup scHash = some record)
    (h : confirmSideChain unmarshalText hexToAddress order headerNumber s scHash = some s') :
    ∃ cn cb heights,
      calculateSCConfirmedNumber unmarshalText hexToAddress order record
        (uint64 (2 * s.config.MaxSignerCount) / 3) = some (cn, cb) ∧
      confirmedHeights record cn = some heights ∧
      s'.config = s.config ∧
      s'.SCRecordMap =
        (if record.LastConfirmedNumber < cn then
          s.SCRecordMap.insert scHash
            { record with
              Record := heights.foldl (fun m i => m.erase i) record.Record
              LastConfirmedNumber := cn }
        else s.SCRecordMap) := by
  unfold confirmSideChain at h
  rw [hrecord] at h
  simp only at h
  cases hc : calculateSCConfirmedNumber unmarshalText hexToAddress order record
      (uint64 (2 * s.config.MaxSignerCount) / 3) with
  | none => rw [hc] at h; cases h
  | some r =>
    obtain ⟨cn, cb⟩ := r
    rw [hc] at h
    simp only at h
    cases hh : confirmedHeights record cn with
    | none => rw [hh] at h; cases h
    | some heights =>
      rw [hh] at h
      simp only at h
      have e := Option.some.inj h
      refine ⟨cn, cb, heights, ?_, ?_, ?_, ?_⟩
      · rfl
      · exact hh
      · rw [← e]
      · rw [← e]

theorem confirmSideChain_frame (unmarshalText : String → Option Int)
    (hexToAddress : String → Address) (order : List String → List String)
    (headerNumber : Int) (s s' : Snapshot) (scHash : Hash)
    (h : confirmSideChain unmarshalText hexToAddress order headerNumber s scHash = some s') :
    s'.config = s.config
      ∧ ∀ other, other ≠ scHash → s'.SCRecordMap.lookup other = s.SCRecordMap.lookup other := by
  cases hl : s.SCRecordMap.lookup scHash with
  | none =>
    unfold confirmSideChain at h
    rw [hl] at h
    have e := Option.some.inj h
    rw [← e]
    exact ⟨rfl, fun _ _ => rfl⟩
  | some record =>
    obtain ⟨cn, cb, heights, _, _, hc, hm⟩ := confirmSideChain_eq_some unmarshalText
      hexToAddress order headerNumber s s' scHash record hl h
    refine ⟨hc, ?_⟩
    intro other hne
    rw [hm]
    split_ifs
    · rw [lookup_insert_eq, if_neg hne]
    · rfl

theorem foldlM_confirmSideChain_frame (unmarshalText : String → Option Int)
    (hexToAddress : String → Address) (order : List String → List String)
    (headerNumber : Int) (scHash : Hash) (keys : List Hash) (hk : scHash ∉ keys)
    (s s' : Snapshot)
    (h : keys.foldlM (confirmSideChain unmarshalText hexToAddress order headerNumber) s
      = some s') :
    s'.config = s.config
      ∧ s'.SCRecordMap.lookup scHash = s.SCRecordMap.lookup scHash := by
  induction keys generalizing s with
  | nil =>
    rw [List.foldlM_nil] at h
    have e := Option.some.inj h
    rw [← e]
    exact ⟨rfl, rfl⟩
  | cons k rest ih =>
    rw [List.foldlM_cons] at h
    cases hs : confirmSideChain unmarshalText hexToAddress order headerNumber s k with
    | none => rw [hs] at h; cases h
    | some s1 =>
      rw [hs] at h
      obtain ⟨hc1, hl1⟩ := confirmSideChain_frame unmarshalText hexToAddress order
        headerNumber s s1 k hs
      obtain ⟨hc2, hl2⟩ := ih (fun hm => hk (List.mem_cons_of_mem _ hm)) s1 h
      refine ⟨hc2.trans hc1, ?_⟩
      rw [hl2, hl1 scHash (fun e => hk (by rw [e]; exact List.mem_cons_self _ _))]

theorem foldlM_confirmSideChain_config (unmarshalText : String → Option Int)
    (hexToAddress : String → Address) (order : List String → List String)
    (headerNumber : Int) (keys : List Hash) (s s' : Snapshot)
    (h : keys.foldlM (confirmSideChain unmarshalText hexToAddress order headerNumber) s
      = some s') :
    s'.config = s.config := by
  induction keys generalizing s with
  | nil =>
    rw [List.foldlM_nil] at h
    rw [← Option.some.inj h]
  | cons k rest ih =>
    rw [List.foldlM_cons] at h
    cases hs : confirmSideChain unmarshalText hexToAddress order headerNumber s k with
    | none => rw [hs] at h; cases h
    | some s1 =>
      rw [hs] at h
      exact (ih s1 h).trans
        (confirmSideChain_frame unmarshalText hexToAddress order headerNumber s s1 k hs).1

theorem confirmSideChain_lcn (unmarshalText : String → Option Int)
    (hexToAddress : String → Address) (order : List String → List String)
    (headerNumber : Int) (s s' : Snapshot) (scHash : Hash) (record : SCRecord)
    (h1 : 1 ≤ uint64 (2 * s.config.MaxSignerCount) / 3)
    (hrecord : s.SCRecordMap.lookup scHash = some record)
    (h : confirmSideChain unmarshalText hexToAddress order headerNumber s scHash = some s') :
    ∃ record' scanned,
      scannedConfirmations record = some scanned
      ∧ s'.SCRecordMap.lookup scHash = some record'
      ∧ record.LastConfirmedNumber ≤ record'.LastConfirmedNumber
      ∧ (record.LastConfirmedNumber < record'.LastConfirmedNumber →
          record.LastConfirmedNumber < 2 ^ 64 - 1 ∧
          ∃ key, uint64 (2 * s.config.MaxSignerCount) / 3
            ≤ (confirmers (uint64 (2 * s.config.MaxSignerCount) / 3) scanned key).card) := by
  obtain ⟨cn, cb, heights, hcalc, hh, _, hm⟩ := confirmSideChain_eq_some unmarshalText
    hexToAddress order headerNumber s s' scHash record hrecord h
  cases hs : scannedConfirmations record with
  | none =>
    unfold calculateSCConfirmedNumber at hcalc
    rw [hs] at hcalc
    cases hcalc
  | some scanned =>
    obtain ⟨r, hr, hgrow, _⟩ := calculateSCConfirmedNumber_growth unmarshalText hexToAddress
      order record (uint64 (2 * s.config.MaxSignerCount) / 3) h1 scanned hs
    rw [hcalc] at hr
    have e := Option.some.inj hr
    have hbound := confirmedHeights_eq_some record cn heights hh
    by_cases hlt : record.LastConfirmedNumber < cn
    · rw [if_pos hlt] at hm hbound
      refine ⟨{ record with
          Record := heights.foldl (fun m i => m.erase i) record.Record
          LastConfirmedNumber := cn }, scanned, rfl, ?_, ?_, ?_⟩
      · rw [hm, lookup_insert_eq, if_pos rfl]
      · exact le_of_lt hlt
      · intro _
        refine ⟨by omega, hgrow ?_⟩
        rw [← e]
        exact hlt
    · rw [if_neg hlt] at hm
      refine ⟨record, scanned, rfl, ?_, le_refl _, fun hh => absurd hh (lt_irrefl _)⟩
      rw [hm]
      exact hrecord

theorem confirmSideChain_returns (unmarshalText : String → Option Int)
    (hexToAddress : String → Address) (order : List String → List String)
    (headerNumber : Int) (s : Snapshot) (scHash : Hash)
    (h1 : 1 ≤ uint64 (2 * s.config.MaxSignerCount) / 3)
    (hb : ∀ record, s.SCRecordMap.lookup scHash = some record →
      SCRecordBounded unmarshalText record) :
    ∃ s', confirmSideChain unmarshalText hexToAddress order headerNumber s scHash = some s' := by
  unfold confirmSideChain
  cases hl : s.SCRecordMap.lookup scHash with
  | none => exact ⟨s, rfl⟩
  | some record =>
    simp only
    obtain ⟨hmax, hparse⟩ := hb record hl
    have hs := scannedConfirmations_of_lt record hmax
    obtain ⟨r, hr, _, hnum⟩ := calculateSCConfirmedNumber_growth unmarshalText hexToAddress
      order record (uint64 (2 * s.config.MaxSignerCount) / 3) h1 _ hs
    obtain ⟨cn, cb⟩ := r
    rw [hr]
    simp only
    obtain ⟨heights, hh⟩ := confirmedHeights_of_lt record cn (by
      intro hlt
      obtain ⟨x, hx, hle⟩ := hnum hlt
      obtain ⟨e, he, hxe⟩ := mem_scannedConfirmations_entries record _ hs x hx
      have := hparse e he x hxe
      exact lt_of_le_of_lt hle this)
    rw [hh]
    exact ⟨_, rfl⟩

theorem foldlM_confirmSideChain_returns (unmarshalText : String → Option Int)
    (hexToAddress : String → Address) (order : List String → List String)
    (headerNumber : Int) (keys : List Hash) (hnd : keys.Nodup) (s : Snapshot)
    (h1 : 1 ≤ uint64 (2 * s.config.MaxSignerCount) / 3)
    (hb : ∀ k ∈ keys, ∀ record, s.SCRecordMap.lookup k = some record →
      SCRecordBounded unmarshalText record) :
    ∃ s', keys.foldlM (confirmSideChain unmarshalText hexToAddress order headerNumber) s
      = some s' := by
  induction keys generalizing s with
  | nil => exact ⟨s, rfl⟩
  | cons k rest ih =>
    rw [List.nodup_cons] at hnd
    obtain ⟨s1, hs1⟩ := confirmSideChain_returns unmarshalText hexToAddress order
      headerNumber s k h1 (hb k (List.mem_cons_self _ _))
    obtain ⟨hc1, hl1⟩ := confirmSideChain_frame unmarshalText hexToAddress order
      headerNumber s s1 k hs1
    obtain ⟨s2, hs2⟩ := ih hnd.2 s1 (by rw [hc1]; exact h1) (by
      intro k' hk' record hrec
      have hne : k' ≠ k := fun e => hnd.1 (by rw [← e]; exact hk')
      rw [hl1 k' hne] at hrec
      exact hb k' (List.mem_cons_of_mem _ hk') record hrec)
    refine ⟨s2, ?_⟩
    rw [List.foldlM_cons, hs1]
    exact hs2

theorem foldlM_confirmSideChain_lcn (unmarshalText : String → Option Int)
    (hexToAddress : String → Address) (order : List String → List String)
    (headerNumber : Int) (keys : List Hash) (hnd : keys.Nodup) (s s' : Snapshot)
    (h1 : 1 ≤ uint64 (2 * s.config.MaxSignerCount) / 3)
    (h : keys.foldlM (confirmSideChain unmarshalText hexToAddress order headerNumber) s
      = some s') :
    ∀ scHash record, s.SCRecordMap.lookup scHash = some record →
      ∃ record', s'.SCRecordMap.lookup scHash = some record'
        ∧ record.LastConfirmedNumber ≤ record'.LastConfirmedNumber
        ∧ (scHash ∈ keys → ∃ scanned, scannedConfirmations record = some scanned)
        ∧ (record.LastConfirmedNumber < record'.LastConfirmedNumber →
            record.LastConfirmedNumber < 2 ^ 64 - 1 ∧
            ∃ scanned, scannedConfirmations record = some scanned ∧
              ∃ key, uint64 (2 * s.config.MaxSignerCount) / 3
                ≤ (confirmers (uint64 (2 * s.config.MaxSignerCount) / 3) scanned key).card) := by
  induction keys generalizing s with
  | nil =>
    rw [List.foldlM_nil] at h
    have e := Option.some.inj h
    subst e
    exact fun scHash record hr =>
      ⟨record, hr, le_refl _, fun hm => absurd hm (List.not_mem_nil _),
        fun hh => absurd hh (lt_irrefl _)⟩
  | cons k rest ih =>
    rw [List.nodup_cons] at hnd
    rw [List.foldlM_cons] at h
    cases hs : confirmSideChain unmarshalText hexToAddress order headerNumber s k with
    | none => rw [hs] at h; cases h
    | some s1 =>
      rw [hs] at h
      obtain ⟨hc1, hl1⟩ := confirmSideChain_frame unmarshalText hexToAddress order
        headerNumber s s1 k hs
      have ih1 := ih hnd.2 s1 (by rw [hc1]; exact h1) h
      intro scHash record hrec
      by_cases hk : scHash = k
      · subst hk
        obtain ⟨record1, scanned, hsc, hl, hle, hgrow⟩ := confirmSideChain_lcn unmarshalText
          hexToAddress order headerNumber s s1 scHash record h1 hrec hs
        obtain ⟨_, hl3⟩ := foldlM_confirmSideChain_frame unmarshalText hexToAddress
          order headerNumber scHash rest hnd.1 s1 s' h
        refine ⟨record1, by rw [hl3]; exact hl, hle, fun _ => ⟨scanned, hsc⟩, ?_⟩
        intro hlt
        obtain ⟨hb, key, hkey⟩ := hgrow hlt
        exact ⟨hb, scanned, hsc, key, hkey⟩
      · have hrec1 : s1.SCRecordMap.lookup scHash = some record := by
          rw [hl1 scHash hk]; exact hrec
        obtain ⟨record', h1', h2', h3', h4'⟩ := ih1 scHash record hrec1
        rw [hc1] at h4'
        refine ⟨record', h1', h2', ?_, h4'⟩
        intro hm
        rcases List.mem_cons.mp hm with e | hm'
        · exact absurd e hk
        · exact h3' hm'

theorem foldlM_confirmSideChain_none (unmarshalText : String → Option Int)
    (hexToAddress : String → Address) (order : List String → List String)
    (headerNumber : Int) (scHash : Hash) (record : SCRecord)
    (hmax : 2 ^ 64 - 1 ≤ record.MaxHeaderNumber) (keys : List Hash) (hk : scHash ∈ keys)
    (s : Snapshot) (hrecord : s.SCRecordMap.lookup scHash = some record) :
    keys.foldlM (confirmSideChain unmarshalText hexToAddress order headerNumber) s = none := by
  induction keys generalizing s with
  | nil => cases hk
  | cons k rest ih =>
    rw [List.foldlM_cons]
    by_cases he : scHash = k
    · subst he
      have : confirmSideChain unmarshalText hexToAddress order headerNumber s scHash = none := by
        unfold confirmSideChain
        rw [hrecord]
        simp only
        rw [calculateSCConfirmedNumber_none unmarshalText hexToAddress order record _ hmax]
      rw [this]
      rfl
    · cases hs : confirmSideChain unmarshalText hexToAddress order headerNumber s k with
      | none => rfl
      | some s1 =>
        have hl := (confirmSideChain_frame unmarshalText hexToAddress order headerNumber s s1 k
          hs).2 scHash he
        have hmem : scHash ∈ rest := by
          rcases List.mem_cons.mp hk with e | h
          · exact absurd e he
          · exact h
        exact ih hmem s1 (by rw [hl]; exact hrecord)

theorem updateSCConfirmation_eq_some (unmarshalText : String → Option Int)
    (hexToAddress : String → Address) (order : List String → List String) (s s' : Snapshot)
    (headerNumber : Int)
    (h : updateSCConfirmation unmarshalText hexToAddress order s headerNumber = some s') :
    ∃ s1, (s.SCRecordMap.entries.map (fun e => e.1)).foldlM
        (confirmSideChain unmarshalText hexToAddress order headerNumber) s = some s1 ∧
      s' = expireSCReward s1 headerNumber := by
  unfold updateSCConfirmation at h
  cases hf : (s.SCRecordMap.entries.map (fun e => e.1)).foldlM
      (confirmSideChain unmarshalText hexToAddress order headerNumber) s with
  | none => rw [hf] at h; cases h
  | some s1 =>
    rw [hf] at h
    exact ⟨s1, rfl, (Option.some.inj h).symm⟩

/-- When `updateSCConfirmation` returns, the first loop of `calculateSCConfirmedNumber` has
ended for every side chain: no record has the largest `uint64` as `MaxHeaderNumber`. -/
theorem updateSCConfirmation_scanned (unmarshalText : String → Option Int)
    (hexToAddress : String → Address) (order : List String → List String) (s s' : Snapshot)
    (headerNumber : Int) (h1 : 1 ≤ uint64 (2 * s.config.MaxSignerCount) / 3)
    (h : updateSCConfirmation unmarshalText hexToAddress order s headerNumber = some s')
    (scHash : Hash) (record : SCRecord) (hrec : s.SCRecordMap.lookup scHash = some record) :
    record.MaxHeaderNumber < 2 ^ 64 - 1 := by
  obtain ⟨s1, hf, _⟩ := updateSCConfirmation_eq_some unmarshalText hexToAddress order s s'
    headerNumber h
  have hnodup : (s.SCRecordMap.entries.map (fun e => e.1)).Nodup := s.SCRecordMap.nodupKeys
  obtain ⟨_, _, _, hsc, _⟩ := foldlM_confirmSideChain_lcn unmarshalText hexToAddress order
    headerNumber _ hnodup s s1 h1 hf scHash record hrec
  have hmem : scHash ∈ s.SCRecordMap.entries.map (fun e => e.1) := by
    have : scHash ∈ s.SCRecordMap := by
      rw [← AList.lookup_isSome, hrec]; rfl
    exact AList.mem_keys.1 this
  obtain ⟨scanned, hs⟩ := hsc hmem
  exact (scannedConfirmations_eq_some record scanned hs).1

/-- A confirmation of height 9 for the side chain 77 is recorded when its coinbase is
registered, and is not when the coinbase is not registered, when the height is not above
the last confirmed number, or when the side chain has no record. -/
theorem recordSCConfirmation_example :
    (recordSCConfirmation registeredSnapshot ⟨77, 1, 9, ["a", "b"]⟩).recordedConfirmations 77 9
      = [⟨77, 1, 9, ["a", "b"]⟩] ∧
    (recordSCConfirmation registeredSnapshot ⟨77, 2, 9, ["a", "b"]⟩).recordedConfirmations 77 9
      = [] ∧
    (recordSCConfirmation registeredSnapshot ⟨77, 1, 0, ["a", "b"]⟩).recordedConfirmations 77 0
      = [] ∧
    (recordSCConfirmation registeredSnapshot ⟨78, 1, 9, ["a", "b"]⟩).recordedConfirmations 78 9
      = [] := by
  refine ⟨by decide, by decide, by decide, by decide⟩

/-! ## The confirmation loop at the largest height -/

theorem calculateSCConfirmedNumber_confirms (unmarshalText : String → Option Int)
    (hexToAddress : String → Address) (order : List String → List String)
    (record : SCRecord) (min : Nat) (h1 : 1 ≤ min) (L : List String) (n : Nat)
    (scanned : List SCConfirmation) (hs : scannedConfirmations record = some scanned)
    (hcount : record.CountPerPeriod = 1) (hlen : min * 2 ≤ L.length)
    (hparse : unmarshalText (L.getD (L.length - 2) "") = some (n : Int))
    (hn : record.LastConfirmedNumber < n) (hn64 : n < 2 ^ 64)
    (hcoin : min ≤ ((scanned.filter
      (fun x => decide (x.LoopInfo = L))).map (fun x => x.Coinbase)).toFinset.card)
    (hsame : ∀ x ∈ scanned, min * 2 ≤ x.LoopInfo.length →
      stringsJoin x.LoopInfo ":" = stringsJoin L ":" → x.LoopInfo = L)
    (hother : ∀ x ∈ scanned,
      stringsJoin x.LoopInfo ":" ≠ stringsJoin L ":" →
      (confirmers min scanned (stringsJoin x.LoopInfo ":")).card < min) :
    ∃ confirmedCoinbase,
      calculateSCConfirmedNumber unmarshalText hexToAddress order record min
        = some (n, confirmedCoinbase) := by
  have hinit : ScanInvariant min (stringsJoin L ":") n record.LastConfirmedNumber []
      (record.LastConfirmedNumber, ∅) := by
    refine ⟨?_, ?_, ?_⟩
    · intro k c
      simp [mem_confirmers]
    · intro k
      simp [confirmers]
    · simp only [confirmers, List.filter_nil, List.map_nil, List.toFinset_nil,
        Finset.card_empty]
      rw [if_neg (by omega)]
  obtain ⟨acc, hfold, hinv⟩ := foldlM_scanConfirm unmarshalText min h1 (stringsJoin L ":") n
    record.LastConfirmedNumber hn hn64 scanned [] _ hinit
    (fun x hx hq hk => by rw [hsame x hx hq hk]; exact hparse)
    (fun x hx hk => by simpa using hother x hx hk)
  have hsub : ((scanned.filter
      (fun x => decide (x.LoopInfo = L))).map (fun x => x.Coinbase)).toFinset
      ⊆ confirmers min scanned (stringsJoin L ":") := by
    intro c hc
    simp only [List.mem_toFinset, List.mem_map, List.mem_filter, decide_eq_true_eq] at hc
    obtain ⟨x, ⟨hx, hxL⟩, hxc⟩ := hc
    rw [mem_confirmers]
    exact ⟨x, hx, by rw [hxL]; exact hlen, by rw [hxL], hxc⟩
  have hcard : min ≤ (confirmers min scanned (stringsJoin L ":")).card :=
    le_trans hcoin (Finset.card_le_card hsub)
  have hv : acc.1 = n := by
    have := hinv.2.2
    simp only [List.nil_append] at this
    rw [this, if_pos hcard]
  refine ⟨confirmedCoinbaseOf unmarshalText hexToAddress order min acc.2, ?_⟩
  unfold calculateSCConfirmedNumber
  rw [hs]
  simp only
  rw [hfold]
  simp only [Option.map_some']
  unfold adjustForPeriod
  rw [if_neg (by rw [hcount]; omega), hv]

/-- With 21 signers, on a snapshot in which no counter of the loops reaches the largest
`uint64` (`SCRecordBounded` for every side chain): if in a side chain with one block per
period at least 14 distinct coinbases have recorded, among the confirmations waiting after
`LastConfirmedNumber`, the loop-info `L` of at least 28 entries whose second-to-last entry
reads as the height `n > LastConfirmedNumber`, and every other loop-info has fewer than 14
confirmers, then `updateSCConfirmation` returns, the side chain's `LastConfirmedNumber` is
`n`, and no record is left for a height between the old `LastConfirmedNumber` and `n`;
none at all up to `n` when no record lay at or below the old `LastConfirmedNumber`.
Loop-infos are told apart by their joined text, as the code does. -/
theorem updateSCConfirmation_confirms (unmarshalText : String → Option Int)
    (hexToAddress : String → Address) (order : List String → List String) (s : Snapshot)
    (headerNumber : Int) (scHash : Hash) (record : SCRecord) (L : List String) (n : Nat)
    (scanned : List SCConfirmation)
    (hsigners : s.config.MaxSignerCount = 21)
    (hb : ∀ k r, s.SCRecordMap.lookup k = some r → SCRecordBounded unmarshalText r)
    (hrecord : s.SCRecordMap.lookup scHash = some record)
    (hs : scannedConfirmations record = some scanned)
    (hcount : record.CountPerPeriod = 1) (hlen : 28 ≤ L.length)
    (hparse : unmarshalText (L.getD (L.length - 2) "") = some (n : Int))
    (hn : record.LastConfirmedNumber < n) (hn64 : n < 2 ^ 64 - 1)
    (hcoin : 14 ≤ ((scanned.filter
      (fun x => decide (x.LoopInfo = L))).map (fun x => x.Coinbase)).toFinset.card)
    (hsame : ∀ x ∈ scanned, 28 ≤ x.LoopInfo.length →
      stringsJoin x.LoopInfo ":" = stringsJoin L ":" → x.LoopInfo = L)
    (hother : ∀ x ∈ scanned,
      stringsJoin x.LoopInfo ":" ≠ stringsJoin L ":" →
      (confirmers 14 scanned (stringsJoin x.LoopInfo ":")).card < 14) :
    ∃ s' record',
      updateSCConfirmation unmarshalText hexToAddress order s headerNumber = some s'
      ∧ s'.SCRecordMap.lookup scHash = some record'
      ∧ record'.LastConfirmedNumber = n
      ∧ (∀ i, record.LastConfirmedNumber < i → i ≤ n → record'.Record.lookup i = none)
      ∧ ((∀ i, i ≤ record.LastConfirmedNumber → record.Record.lookup i = none) →
          ∀ i, i ≤ n → record'.Record.lookup i = none) := by
  have hmin : uint64 (2 * s.config.MaxSignerCount) / 3 = 14 := by rw [hsigners]; rfl
  have hkeys : scHash ∈ s.SCRecordMap.entries.map (fun e => e.1) := by
    have : scHash ∈ s.SCRecordMap := by
      rw [← AList.lookup_isSome, hrecord]; rfl
    exact AList.mem_keys.1 this
  have hnodup : (s.SCRecordMap.entries.map (fun e => e.1)).Nodup := s.SCRecordMap.nodupKeys
  obtain ⟨pre, post, hsplit⟩ := List.append_of_mem hkeys
  rw [hsplit] at hnodup
  have hndpre : pre.Nodup := (List.nodup_append.1 hnodup).1
  have hndpost : post.Nodup := (List.nodup_cons.1 (List.nodup_append.1 hnodup).2.1).2
  have hpre : scHash ∉ pre := by
    intro h
    have := (List.nodup_append.1 hnodup).2.2
    exact this h (List.mem_cons_self _ _)
  have hpost : scHash ∉ post := by
    have := (List.nodup_append.1 hnodup).2.1
    exact (List.nodup_cons.1 this).1
  have hdisj : ∀ k, k ∈ post → k ∉ pre := by
    intro k hk hk2
    exact (List.nodup_append.1 hnodup).2.2 hk2 (List.mem_cons_of_mem _ hk)
  obtain ⟨s1, hs1⟩ := foldlM_confirmSideChain_returns unmarshalText hexToAddress order
    headerNumber pre hndpre s (by rw [hmin]; decide) (fun k _ r hr => hb k r hr)
  obtain ⟨hc1, hl1⟩ := foldlM_confirmSideChain_frame unmarshalText hexToAddress order
    headerNumber scHash pre hpre s s1 hs1
  obtain ⟨cb, hcalc⟩ := calculateSCConfirmedNumber_confirms unmarshalText hexToAddress order
    record 14 (by decide) L n scanned hs hcount hlen hparse hn (by omega) hcoin hsame hother
  have hheights : confirmedHeights record n
      = some (List.range' (record.LastConfirmedNumber + 1) (n - record.LastConfirmedNumber)) := by
    unfold confirmedHeights
    rw [if_pos hn, uint64Upto_of_lt _ _ hn64]
    have hu : uint64 (record.LastConfirmedNumber + 1) = record.LastConfirmedNumber + 1 :=
      Nat.mod_eq_of_lt (by omega)
    rw [hu]
    congr 2
    omega
  have hstep : ∃ s2, confirmSideChain unmarshalText hexToAddress order headerNumber s1 scHash
      = some s2
      ∧ s2.SCRecordMap.lookup scHash = some
          { record with
            Record :=
              (List.range' (record.LastConfirmedNumber + 1)
                  (n - record.LastConfirmedNumber)).foldl (fun m i => m.erase i) record.Record
            LastConfirmedNumber := n } := by
    unfold confirmSideChain
    rw [hl1, hrecord]
    simp only
    rw [hc1, hmin, hcalc]
    simp only
    rw [hheights]
    simp only
    refine ⟨_, rfl, ?_⟩
    simp only
    rw [if_pos hn, lookup_insert_eq, if_pos rfl]
  obtain ⟨s2, hs2, hl2⟩ := hstep
  obtain ⟨hc2, hf2⟩ := confirmSideChain_frame unmarshalText hexToAddress order headerNumber
    s1 s2 scHash hs2
  obtain ⟨s3, hs3⟩ := foldlM_confirmSideChain_returns unmarshalText hexToAddress order
    headerNumber post hndpost s2 (by rw [hc2, hc1, hmin]; decide) (by
      intro k hk r hr
      have hne : k ≠ scHash := fun e => hpost (by rw [← e]; exact hk)
      rw [hf2 k hne] at hr
      have := (foldlM_confirmSideChain_frame unmarshalText hexToAddress order
        headerNumber k pre (hdisj k hk) s s1 hs1).2
      rw [this] at hr
      exact hb k r hr)
  obtain ⟨_, hl3⟩ := foldlM_confirmSideChain_frame unmarshalText hexToAddress order
    headerNumber scHash post hpost s2 s3 hs3
  have hrange : ∀ i, i ∈ List.range' (record.LastConfirmedNumber + 1)
      (n - record.LastConfirmedNumber) ↔ record.LastConfirmedNumber < i ∧ i ≤ n := by
    intro i
    rw [List.mem_range'_1]
    omega
  refine ⟨expireSCReward s3 headerNumber,
    { record with
      Record :=
        (List.range' (record.LastConfirmedNumber + 1)
            (n - record.LastConfirmedNumber)).foldl (fun m i => m.erase i) record.Record
      LastConfirmedNumber := n }, ?_, ?_, rfl, ?_, ?_⟩
  · unfold updateSCConfirmation
    rw [hsplit, List.foldlM_append, hs1]
    simp only [Option.bind_eq_bind, Option.some_bind, List.foldlM_cons]
    rw [hs2]
    simp only [Option.some_bind]
    rw [hs3]
    rfl
  · show s3.SCRecordMap.lookup scHash = _
    rw [hl3, hl2]
  · intro i h1 h2
    show ((List.range' (record.LastConfirmedNumber + 1)
      (n - record.LastConfirmedNumber)).foldl (fun m i => m.erase i) record.Record).lookup i
        = none
    rw [lookup_foldl_erase_keys, if_pos ((hrange i).2 ⟨h1, h2⟩)]
  · intro hinv i h2
    show ((List.range' (record.LastConfirmedNumber + 1)
      (n - record.LastConfirmedNumber)).foldl (fun m i => m.erase i) record.Record).lookup i
        = none
    rw [lookup_foldl_erase_keys]
    by_cases h1 : record.LastConfirmedNumber < i
    · rw [if_pos ((hrange i).2 ⟨h1, h2⟩)]
    · rw [if_neg (fun h => h1 ((hrange i).1 h).1)]
      exact hinv i (by omega)

theorem sideChainSnapshot_record :
    ∀ scHash record, sideChainSnapshot.SCRecordMap.lookup scHash = some record →
      scHash = 77 ∧ record = sampleSCRecord := by
  intro scHash record hl
  have e : sideChainSnapshot.SCRecordMap = AList.insert 77 sampleSCRecord ∅ := rfl
  rw [e, lookup_insert_eq] at hl
  by_cases hk : scHash = 77
  · rw [if_pos hk] at hl
    exact ⟨hk, (Option.some.inj hl).symm⟩
  · rw [if_neg hk] at hl
    cases hl

/-- In `sideChainSnapshot` the coinbases 1 to 15 have recorded, at height 5 of the side
chain 77, the loop-info `sampleLoopInfo` (28 entries, the second-to-last being `5`), and
coinbase 16 another one; after `updateSCConfirmation` the last confirmed number of the side
chain is 5 and no record is left up to height 5. -/
theorem updateSCConfirmation_confirms_example :
    ∃ s' record',
      updateSCConfirmation decimalText (fun t => (parseDigits 16 t).getD 0) id
        sideChainSnapshot 20 = some s'
      ∧ s'.SCRecordMap.lookup 77 = some record'
      ∧ record'.LastConfirmedNumber = 5
      ∧ (∀ i, sampleSCRecord.LastConfirmedNumber < i → i ≤ 5 → record'.Record.lookup i = none)
      ∧ ((∀ i, i ≤ sampleSCRecord.LastConfirmedNumber → sampleSCRecord.Record.lookup i = none) →
          ∀ i, i ≤ 5 → record'.Record.lookup i = none) :=
  updateSCConfirmation_confirms decimalText (fun t => (parseDigits 16 t).getD 0) id
    sideChainSnapshot 20 77 sampleSCRecord sampleLoopInfo 5 _ (by decide)
    (fun k r hr => by
      rw [(sideChainSnapshot_record k r hr).2]
      exact ⟨by decide, by decide⟩)
    rfl (scannedConfirmations_of_lt sampleSCRecord (by decide)) (by decide) (by decide)
    (by decide) (by decide) (by decide) (by decide) (by decide) (by decide)

/-- C22 (failing input): whatever confirmations are recorded, `updateSCConfirmation` does
not return for a snapshot in which a side chain has the largest `uint64` as
`MaxHeaderNumber`: the loop `for i := LastConfirmedNumber + 1; i <= MaxHeaderNumber; i++`
of `calculateSCConfirmedNumber` does not end. -/
theorem updateSCConfirmation_max_height (unmarshalText : String → Option Int)
    (hexToAddress : String → Address) (order : List String → List String) (s : Snapshot)
    (headerNumber : Int) (scHash : Hash) (record : SCRecord)
    (hrecord : s.SCRecordMap.lookup scHash = some record)
    (hmax : 2 ^ 64 - 1 ≤ record.MaxHeaderNumber) :
    updateSCConfirmation unmarshalText hexToAddress order s headerNumber = none := by
  have hkeys : scHash ∈ s.SCRecordMap.entries.map (fun e => e.1) := by
    have : scHash ∈ s.SCRecordMap := by
      rw [← AList.lookup_isSome, hrecord]; rfl
    exact AList.mem_keys.1 this
  unfold updateSCConfirmation
  rw [foldlM_confirmSideChain_none unmarshalText hexToAddress order headerNumber scHash record
    hmax _ hkeys s hrecord]
  rfl

/-- C22 (witness): in `maxHeightSnapshot` the coinbases 1 to 15 have recorded the loop-info
`sampleLoopInfo` at height 5 of the side chain 77, as in `sideChainSnapshot`, and the
registered coinbase 1 has recorded a confirmation for the height 2^64 - 1, which has become
`MaxHeaderNumber`: `updateSCConfirmation` does not return, and neither does the call of
`updateSnapshotBySCConfirm` that records this confirmation at the loop boundary 20. -/
theorem updateSCConfirmation_max_height_witness :
    (maxHeightSnapshot.SCRecordMap.lookup 77).map (fun r => r.MaxHeaderNumber)
      = some 18446744073709551615 ∧
    (((maxHeightSnapshot.recordedConfirmations 77 5).filter
      (fun x => decide (x.LoopInfo = sampleLoopInfo))).map (fun x => x.Coinbase)).toFinset.card
      = 15 ∧
    updateSCConfirmation decimalText (fun t => (parseDigits 16 t).getD 0) id
      maxHeightSnapshot 20 = none ∧
    (updateSnapshotBySCConfirm decimalText (fun t => (parseDigits 16 t).getD 0) id
      registeredSnapshot [⟨77, 1, 18446744073709551615, sampleLoopInfo⟩] 20).isNone = true := by
  have hm : (maxHeightSnapshot.SCRecordMap.lookup 77).map (fun r => r.MaxHeaderNumber)
      = some 18446744073709551615 := by decide
  refine ⟨hm, by decide, ?_, by decide⟩
  cases h : maxHeightSnapshot.SCRecordMap.lookup 77 with
  | none => rw [h] at hm; cases hm
  | some record =>
    rw [h] at hm
    have e : record.MaxHeaderNumber = 18446744073709551615 := Option.some.inj hm
    exact updateSCConfirmation_max_height decimalText (fun t => (parseDigits 16 t).getD 0) id
      maxHeightSnapshot 20 77 record h (by rw [e]; decide)

end Alien
